import Mathlib

/-!
# Golly viewport rendering (`wxrender.cpp`): shallow embedding

The rendering module of Golly is embedded function by function.  Conventions:

* C `int` values are `Int` (the rendering code never relies on wrap-around);
  byte-sized channels are `Nat`, and a store of an `int` into a channel is
  reduced modulo 256 (`toByte`).
* `a / b` and `a % b` of C are `Int.tdiv` and `Int.tmod`; `1 << n` is `shl1 n`.
* a counted loop `for (i = 0; i < n; i++)` is `forLoop n.toNat body`.
* a `wxAlphaPixelData::Iterator` is a pixel coordinate (`Iter`): `p++` moves
  one pixel to the right, `OffsetX`/`OffsetY` move by the given amount.  Every
  store is recorded in the bitmap's write log, so that a statement can say
  whether the stores of a call lie inside the bitmap.
* a `wxDC` is the list of drawing calls issued on it, newest first.
* the `#ifdef __WXMSW__ / __WXMAC__ / __WXGTK__` branches are selected by a
  `Platform` argument.
* the simulation engine, bitmap allocation and the rasterisation done by
  wxWidgets are external and are supplied through `Ext`.
-/

namespace Golly

/-! ## Basic data -/

/-- Build platform selecting the conditional-compilation branches. -/
inductive Platform where
  | msw
  | mac
  | gtk
  | other
deriving DecidableEq, Repr

/-- One pixel of a 32-bit bitmap. -/
structure Pixel where
  red : Nat
  green : Nat
  blue : Nat
  alpha : Nat
deriving DecidableEq, Repr

/-- A `wxColor` (only its RGB part is used by the renderer). -/
structure Color where
  red : Nat
  green : Nat
  blue : Nat
deriving DecidableEq, Repr

/-- The RGB part of a pixel. -/
def Pixel.rgb (p : Pixel) : Color := ⟨p.red, p.green, p.blue⟩

/-- A `wxRect`. -/
structure Rect where
  x : Int
  y : Int
  width : Int
  height : Int
deriving DecidableEq, Repr

/-- Pixel membership in a rectangle: `[x, x+width) x [y, y+height)`. -/
def Rect.Contains (r : Rect) (px py : Int) : Prop :=
  r.x ≤ px ∧ px < r.x + r.width ∧ r.y ≤ py ∧ py < r.y + r.height

instance (r : Rect) (px py : Int) : Decidable (r.Contains px py) := by
  unfold Rect.Contains; infer_instance

/-- Position of a `wxAlphaPixelData::Iterator`, as a pixel coordinate. -/
structure Iter where
  x : Int
  y : Int
deriving DecidableEq, Repr

/-- The iterator after `p++`. -/
def Iter.next (p : Iter) : Iter := ⟨p.x + 1, p.y⟩

/-- The iterator after `p.OffsetX(data, n)`. -/
def Iter.offsetX (p : Iter) (n : Int) : Iter := ⟨p.x + n, p.y⟩

/-- The iterator after `p.OffsetY(data, n)`. -/
def Iter.offsetY (p : Iter) (n : Int) : Iter := ⟨p.x, p.y + n⟩

/-- A `wxBitmap` of depth 32, seen through `wxAlphaPixelData`.  `ok` tells
whether raw pixel access succeeds (the `if (pxldata)` tests).  `pix` is indexed
by iterator position relative to the top left pixel; for a position inside
the bitmap it is that pixel.  The size of the bitmap is not part of the value,
so a store at a position past a row end or past the last row, which in the
source goes to another pixel or past the pixel data, is not told apart by
`pix`.  `written` is a ghost log of the positions stored to through iterators,
newest first; the statements use it to say where a call stores. -/
structure Bitmap where
  ok : Bool
  pix : Int → Int → Pixel
  written : List (Int × Int)

/-- Store through an iterator: `p.Red() = r; p.Green() = g; p.Blue() = b;`
followed, on wxGTK only, by `p.Alpha() = 255`.  The position is recorded in
`written`; that it lies inside the bitmap is not checked here but stated, where
it holds, by the theorems about the caller. -/
def Bitmap.putRGB (plat : Platform) (bm : Bitmap) (p : Iter) (r g b : Nat) : Bitmap :=
  { bm with
    pix := fun X Y =>
      if X = p.x ∧ Y = p.y then
        ⟨r, g, b, if plat = Platform.gtk then 255 else (bm.pix X Y).alpha⟩
      else bm.pix X Y
    written := (p.x, p.y) :: bm.written }

/-- Store of all four channels through an iterator. -/
def Bitmap.putRGBA (bm : Bitmap) (p : Iter) (r g b a : Nat) : Bitmap :=
  { bm with
    pix := fun X Y => if X = p.x ∧ Y = p.y then ⟨r, g, b, a⟩ else bm.pix X Y
    written := (p.x, p.y) :: bm.written }

/-- Conversion of a C `int` to an `unsigned char`. -/
def toByte (v : Int) : Nat := (v % 256).toNat

/-- The C expression `1 << n` for a non-negative shift count. -/
def shl1 (n : Int) : Int := 2 ^ n.toNat

/-- The loop `for (int i = 0; i < n; i++) s = body i s`. -/
def forLoop {σ : Type} : Nat → (Nat → σ → σ) → σ → σ
  | 0, _, s => s
  | n + 1, body, s => body n (forLoop n body s)

/-- Paste anchor (`paste_location` of `wxprefs.h`). -/
inductive PasteLocation where
  | TopLeft
  | TopRight
  | BottomRight
  | BottomLeft
  | Middle
deriving DecidableEq, Repr

/-- The part of `viewport` the renderer reads. -/
structure Viewport where
  width : Int
  height : Int
  mag : Int
  x : Int
  y : Int
deriving DecidableEq, Repr

/-- The part of `Layer` (wxlayer.h) the renderer uses.  `view` is the
`viewport*` as an index into `Globals.views`; an icon table is `NULL`
(`none`) or maps a state to an icon bitmap pointer, itself possibly `NULL`;
`algo` and `currsel` are handles of the universe and of the selection;
`tilewin` is the `PatternView*` as an index into `Globals.patternviews`. -/
structure Layer where
  cellr : Nat → Nat
  cellg : Nat → Nat
  cellb : Nat → Nat
  view : Nat
  icons7x7 : Option (Nat → Option Bitmap)
  icons15x15 : Option (Nat → Option Bitmap)
  algo : Nat
  currsel : Nat
  originx : Int
  originy : Int
  tilerect : Rect
  tilewin : Nat

/-- The part of `PatternView` (wxview.h) the renderer reads. -/
structure PatternView where
  pasterect : Rect
  waitingforclick : Bool
  nopattupdate : Bool
  gridvisible : Bool

/-- The device contexts `currdc` can point to. -/
inductive DCId where
  | viewdc
  | pattdc
  | layerdc
deriving DecidableEq, Repr

/-- A drawing call issued on a `wxDC`.  `blit` copies from a memory DC holding
`src`; `invert` is the `Blit` of the DC onto itself with `wxINVERT`; `drawLine`
records whether the bold pen was selected. -/
inductive DrawCmd where
  | fillRect (r : Rect) (c : Color)
  | drawBitmap (bm : Bitmap) (x y : Int) (useMask : Bool)
  | blit (x y w h : Int) (src : Bitmap)
  | drawRectangle (r : Rect)
  | drawText (x y : Int)
  | invert (x y w h : Int)
  | drawLine (x1 y1 x2 y2 : Int) (bold : Bool)

/-- A call of the engine into the `liferender` callbacks. -/
inductive RenderCall where
  | killrect (x y w h : Int)
  | pixblit (x y w h : Int) (pmdata : Nat → Nat) (pmscale : Int)

/-- The drawing steps `DrawView` itself performs. -/
inductive Step where
  | fillBackground
  | pattern
  | gridLines
  | selection
  | stackedLayers
  | pastePreview
  | tileBorders
deriving DecidableEq, Repr

/-- Calls recorded while layers are composited: `draw` is a call of
`algo->draw` from `DrawOneLayer` (the layer `currlayer` points to, its
universe, the viewport it is drawn through and its colour arrays);
`selection` is a call of `DrawSelection` (`active = true`) or of
`DrawInactiveSelection` (`active = false`) with the layer `currlayer` points
to and the rectangle. -/
inductive Event where
  | draw (layer : Nat) (algo : Nat) (view : Viewport) (cellr cellg cellb : Nat → Nat)
  | selection (layer : Nat) (active : Bool) (r : Rect)

/-- External collaborators: the engine's `draw` (the sequence of callbacks it
issues for a universe, a viewport and the colour arrays handed out by
`getcolors`), `new wxBitmap(w, h, 32)` (`none` when allocation fails), the
pixels wxWidgets leaves in a bitmap after the given drawing calls were issued
on a memory DC that has the bitmap selected, the engine's `isEmpty`,
`Selection::Visible` (the visible part of a selection in a viewport, if any),
`viewport::at(0, 0)`, `bigint::mod_smallint`, and the value of the
floating-point expression `int(2.55 * opacity)`. -/
structure Ext where
  algoDraw : Nat → Viewport → (Nat → Nat) → (Nat → Nat) → (Nat → Nat) → List RenderCall
  newBitmap : Int → Int → Option Bitmap
  raster : Bitmap → List DrawCmd → Bitmap
  textAscent : Int
  isEmpty : Nat → Bool
  selVisible : Nat → Viewport → Option Rect
  viewAt00 : Viewport → Int × Int
  modSmallint : Int → Int → Int
  opacityAlpha : Int → Int

/-- The global variables of `wxrender.cpp` together with the preferences
(wxprefs.h), layers (wxlayer.h) and pattern views (wxview.h) it accesses.
`GetLayer(i)` is `layers i`; `bigviewwd`, `bigviewht` are the client size of
`bigview`.  Ghost fields: `rebuilds` counts the regenerations done by
`CheckPasteImage`, `selallocs` the reallocations done by `CheckSelectionSize`,
`fatal` tells that `Fatal` (wxutils.h) was called, `steps`
lists the steps performed by `DrawView` and `events` the calls recorded while
layers are composited, both oldest first. -/
structure Globals where
  showgridlines : Bool
  showicons : Bool
  mingridmag : Int
  plocation : PasteLocation
  deadrgb : Color
  deadbrush : Color
  layers : Nat → Layer
  currlayer : Nat
  views : Nat → Viewport
  patternviews : Nat → PatternView
  viewptr : Nat
  currdc : DCId
  dc : DCId → List DrawCmd
  currwd : Int
  currht : Int
  pixmap : Bitmap
  pixmapwd : Int
  pixmapht : Int
  iconmaps : Option (Nat → Option Bitmap)
  pastebitmap : Option Bitmap
  pimagewd : Int
  pimageht : Int
  prectwd : Int
  prectht : Int
  pastemag : Int
  cvwd : Int
  cvht : Int
  pasteloc : PasteLocation
  pasteicons : Bool
  pastealgo : Nat
  pastebbox : Rect
  rebuilds : Nat
  selectrgb : Color
  selwd : Int
  selht : Int
  selbitmap : Option Bitmap
  graybitmap : Option Bitmap
  selallocs : Nat
  layerbitmap : Option Bitmap
  layerwd : Int
  layerht : Int
  numlayers : Int
  currindex : Int
  stacklayers : Bool
  tilelayers : Bool
  syncviews : Bool
  tileborder : Int
  opacity : Int
  boldspacing : Int
  showboldlines : Bool
  mathcoords : Bool
  bigviewwd : Int
  bigviewht : Int
  fatal : Bool
  steps : List Step
  events : List Event

/-- The layer `currlayer` points to. -/
def Globals.cur (g : Globals) : Layer := g.layers g.currlayer

/-- The viewport `currlayer->view` points to. -/
def Globals.curview (g : Globals) : Viewport := g.views g.cur.view

/-- The pattern view `viewptr` points to. -/
def Globals.pview (g : Globals) : PatternView := g.patternviews g.viewptr

/-- A call `dc.f(...)` on the DC `d`: the command is recorded on that DC. -/
def Globals.emitOn (g : Globals) (d : DCId) (c : DrawCmd) : Globals :=
  { g with dc := fun e => if e = d then c :: g.dc e else g.dc e }

/-- A call `currdc->f(...)`. -/
def Globals.emit (g : Globals) (c : DrawCmd) : Globals := g.emitOn g.currdc c

/-! ## DrawStretchedPixmap -/

/-- Loop state of the pixmap writers: the bitmap, the iterator `p` and the
offset of `byteptr` from the start of the cell data. -/
structure Cursor where
  bm : Bitmap
  p : Iter
  byteptr : Nat

/-- The `else` branch of the clipping test in `DrawStretchedPixmap`: expand one
state byte into `cellsize * cellsize` pixels, with the optional gap column and
gap row, and put `p` back to `topleft`. -/
def stretchCell (plat : Platform) (drawgap : Bool) (cellsize : Int)
    (r g b deadred deadgreen deadblue : Nat) (c : Cursor) : Cursor :=
  let topleft := c.p
  let c := forLoop cellsize.toNat (fun _ c =>
    let colstart := c.p
    let c := forLoop cellsize.toNat (fun _ c =>
      { c with bm := c.bm.putRGB plat c.p r g b, p := c.p.next }) c
    let c := if drawgap then
        { c with bm := c.bm.putRGB plat c.p deadred deadgreen deadblue }
      else c
    { c with p := colstart.offsetY 1 }) c
  let c := if drawgap then
      forLoop (cellsize + 1).toNat (fun _ c =>
        { c with bm := c.bm.putRGB plat c.p deadred deadgreen deadblue, p := c.p.next }) c
    else c
  { c with p := topleft }

/-- The `drawgap` flag computed at the top of `DrawStretchedPixmap`. -/
def stretchDrawgap (plat : Platform) (g : Globals) (pmscale : Int) : Bool :=
  (decide (pmscale > 2) && decide (pmscale < shl1 g.mingridmag)) ||
    (if plat = Platform.mac then decide (pmscale ≥ shl1 g.mingridmag)
     else decide (pmscale ≥ shl1 g.mingridmag) && !g.showgridlines)

/-- The pixel loops of `DrawStretchedPixmap`, run on the pixmap when raw access
to it succeeded. -/
def stretchLoops (plat : Platform) (g : Globals) (byteptr : Nat → Nat)
    (x y w h pmscale : Int) (bm : Bitmap) : Cursor :=
  let cellsize := if pmscale > 2 then pmscale - 1 else pmscale
  let drawgap := stretchDrawgap plat g pmscale
  let deadred := g.cur.cellr 0
  let deadgreen := g.cur.cellg 0
  let deadblue := g.cur.cellb 0
  forLoop h.toNat (fun row c =>
    let rowstart := c.p
    let c := forLoop w.toNat (fun col c =>
      let newx := x + (col : Int) * pmscale
      let newy := y + (row : Int) * pmscale
      let c :=
        if newx < 0 ∨ newy < 0 ∨ newx ≥ g.currwd ∨ newy ≥ g.currht then c
        else
          let state := byteptr c.byteptr
          stretchCell plat drawgap cellsize (g.cur.cellr state) (g.cur.cellg state)
            (g.cur.cellb state) deadred deadgreen deadblue c
      { c with p := c.p.offsetX pmscale, byteptr := c.byteptr + 1 }) c
    { c with p := rowstart.offsetY pmscale }) ⟨bm, ⟨0, 0⟩, 0⟩

/-- `DrawStretchedPixmap(byteptr, x, y, w, h, pmscale)`. -/
def DrawStretchedPixmap (plat : Platform) (g : Globals) (byteptr : Nat → Nat)
    (x y w h pmscale : Int) : Globals :=
  let g := if g.pixmap.ok then
      { g with pixmap := (stretchLoops plat g byteptr x y w h pmscale g.pixmap).bm }
    else g
  g.emit (DrawCmd.drawBitmap g.pixmap x y false)

/-! ## DrawIcons -/

/-- The entry `iconmaps[state]` (`DrawIcons` is only reached with a non-null
`iconmaps`). -/
def Globals.iconAt (g : Globals) (state : Nat) : Option Bitmap :=
  match g.iconmaps with
  | some table => table state
  | none => none

/-- Loop state of the icon copy: the pixmap cursor and the icon iterator. -/
structure IconCursor where
  c : Cursor
  iconpxl : Iter

/-- The icon branch of `DrawIcons` for one cell, after `icondata` was obtained:
copy `cellsize * cellsize` pixels of the icon, recolouring them, with the
optional gap column and gap row. -/
def iconCell (plat : Platform) (drawgap : Bool) (cellsize : Int) (icon : Bitmap)
    (r g b deadred deadgreen deadblue : Nat) (c : Cursor) : Cursor :=
  let s := forLoop cellsize.toNat (fun _ s =>
    let colstart := s.c.p
    let iconrow := s.iconpxl
    let s := forLoop cellsize.toNat (fun _ s =>
      let ip := icon.pix s.iconpxl.x s.iconpxl.y
      let bm :=
        if ip.red ≠ 0 ∨ ip.green ≠ 0 ∨ ip.blue ≠ 0 then s.c.bm.putRGB plat s.c.p r g b
        else s.c.bm.putRGB plat s.c.p deadred deadgreen deadblue
      { c := { s.c with bm := bm, p := s.c.p.next }, iconpxl := s.iconpxl.next }) s
    let c := if drawgap then
        { s.c with bm := s.c.bm.putRGB plat s.c.p deadred deadgreen deadblue }
      else s.c
    { c := { c with p := colstart.offsetY 1 }, iconpxl := iconrow.offsetY 1 })
    (IconCursor.mk c ⟨0, 0⟩)
  if drawgap then
    forLoop (cellsize + 1).toNat (fun _ c =>
      { c with bm := c.bm.putRGB plat c.p deadred deadgreen deadblue, p := c.p.next }) s.c
  else s.c

/-- The `else` branch of the clipping test in `DrawIcons`: draw the icon of a
live state that has one, a dead-coloured block otherwise, and put `p` back to
`topleft`. -/
def drawIconCell (plat : Platform) (g : Globals) (drawgap : Bool) (cellsize : Int)
    (state : Nat) (c : Cursor) : Cursor :=
  let deadred := g.cur.cellr 0
  let deadgreen := g.cur.cellg 0
  let deadblue := g.cur.cellb 0
  let topleft := c.p
  let c :=
    match (if state ≠ 0 then g.iconAt state else none) with
    | some icon =>
      if icon.ok then
        iconCell plat drawgap cellsize icon (g.cur.cellr state) (g.cur.cellg state)
          (g.cur.cellb state) deadred deadgreen deadblue c
      else c
    | none =>
      stretchCell plat drawgap cellsize deadred deadgreen deadblue
        deadred deadgreen deadblue c
  { c with p := topleft }

/-- The `drawgap` flag computed at the top of `DrawIcons`. -/
def iconDrawgap (g : Globals) (pmscale : Int) : Bool :=
  decide (pmscale < shl1 g.mingridmag) ||
    (decide (pmscale ≥ shl1 g.mingridmag) && !g.showgridlines)

/-- The pixel loops of `DrawIcons`, run on the pixmap when raw access to it
succeeded. -/
def iconLoops (plat : Platform) (g : Globals) (byteptr : Nat → Nat)
    (x y w h pmscale : Int) (bm : Bitmap) : Cursor :=
  let cellsize := pmscale - 1
  let drawgap := iconDrawgap g pmscale
  forLoop h.toNat (fun row c =>
    let rowstart := c.p
    let c := forLoop w.toNat (fun col c =>
      let newx := x + (col : Int) * pmscale
      let newy := y + (row : Int) * pmscale
      let c :=
        if newx < 0 ∨ newy < 0 ∨ newx ≥ g.currwd ∨ newy ≥ g.currht then c
        else drawIconCell plat g drawgap cellsize (byteptr c.byteptr) c
      { c with p := c.p.offsetX pmscale, byteptr := c.byteptr + 1 }) c
    { c with p := rowstart.offsetY pmscale }) ⟨bm, ⟨0, 0⟩, 0⟩

/-- `DrawIcons(byteptr, x, y, w, h, pmscale)`. -/
def DrawIcons (plat : Platform) (g : Globals) (byteptr : Nat → Nat)
    (x y w h pmscale : Int) : Globals :=
  let g := if g.pixmap.ok then
      { g with pixmap := (iconLoops plat g byteptr x y w h pmscale g.pixmap).bm }
    else g
  g.emit (DrawCmd.drawBitmap g.pixmap x y false)

/-! ## The render callbacks -/

/-- `wx_render::killrect(x, y, w, h)`. -/
def killrect (g : Globals) (x y w h : Int) : Globals :=
  if x ≥ g.currwd ∨ y ≥ g.currht then g
  else if x + w ≤ 0 ∨ y + h ≤ 0 then g
  else if w ≤ 0 ∨ h ≤ 0 then g
  else
    let clipx := if x < 0 then 0 else x
    let clipy := if y < 0 then 0 else y
    let clipr := x + w
    let clipb := y + h
    let clipr := if clipr > g.currwd then g.currwd else clipr
    let clipb := if clipb > g.currht then g.currht else clipb
    let clipwd := clipr - clipx
    let clipht := clipb - clipy
    g.emit (DrawCmd.fillRect ⟨clipx, clipy, clipwd, clipht⟩ g.deadbrush)

/-- A bitmap without raw pixel access, standing for a null or invalid pixmap. -/
def nullBitmap : Bitmap := ⟨false, fun _ _ => ⟨0, 0, 0, 0⟩, []⟩

/-- The pixel loops of the `pmscale == 1` branch of `pixblit`: `pmdata` holds
three bytes per pixel. -/
def copyLoops (plat : Platform) (pmdata : Nat → Nat) (w h : Int) (bm : Bitmap) : Cursor :=
  forLoop h.toNat (fun _ c =>
    let rowstart := c.p
    let c := forLoop w.toNat (fun _ c =>
      { bm := c.bm.putRGB plat c.p (pmdata c.byteptr) (pmdata (c.byteptr + 1))
          (pmdata (c.byteptr + 2)),
        p := c.p.next, byteptr := c.byteptr + 3 }) c
    { c with p := rowstart.offsetY 1 }) ⟨bm, ⟨0, 0⟩, 0⟩

/-- The pixmap reallocation of `pixblit` ("faster to create new pixmap only
when size changes"). -/
def ensurePixmap (ext : Ext) (g : Globals) (w h : Int) : Globals :=
  if g.pixmapwd ≠ w ∨ g.pixmapht ≠ h then
    { g with pixmap := (ext.newBitmap w h).getD nullBitmap, pixmapwd := w, pixmapht := h }
  else g

/-- `wx_render::pixblit(x, y, w, h, pmdata, pmscale)`. -/
def pixblit (plat : Platform) (ext : Ext) (g : Globals) (x y w h : Int)
    (pmdata : Nat → Nat) (pmscale : Int) : Globals :=
  if x ≥ g.currwd ∨ y ≥ g.currht then g
  else if x + w ≤ 0 ∨ y + h ≤ 0 then g
  else
    let g := ensurePixmap ext g w h
    if pmscale = 1 then
      let g := if g.pixmap.ok then
          { g with pixmap := (copyLoops plat pmdata w h g.pixmap).bm }
        else g
      g.emit (DrawCmd.drawBitmap g.pixmap x y false)
    else if g.showicons = true ∧ pmscale > 4 ∧ g.iconmaps.isSome = true then
      DrawIcons plat g pmdata x y (w.tdiv pmscale) (h.tdiv pmscale) pmscale
    else
      DrawStretchedPixmap plat g pmdata x y (w.tdiv pmscale) (h.tdiv pmscale) pmscale

/-- The engine's `draw(view, renderer)`: the callbacks are run in the order the
engine issues them. -/
def runDraw (plat : Platform) (ext : Ext) (g : Globals) (calls : List RenderCall) : Globals :=
  calls.foldl (fun g call =>
    match call with
    | RenderCall.killrect x y w h => killrect g x y w h
    | RenderCall.pixblit x y w h pmdata pmscale => pixblit plat ext g x y w h pmdata pmscale) g

/-! ## MaskDeadPixels and the paste image -/

/-- Store of the alpha channel through an iterator. -/
def Bitmap.putAlpha (bm : Bitmap) (p : Iter) (a : Nat) : Bitmap :=
  { bm with
    pix := fun X Y => if X = p.x ∧ Y = p.y then { bm.pix X Y with alpha := a } else bm.pix X Y
    written := (p.x, p.y) :: bm.written }

/-- The body of the inner loop of `MaskDeadPixels` for the pixel under `p`. -/
def maskPixel (plat : Platform) (dead : Color) (livealpha : Int) (bm : Bitmap) (p : Iter) :
    Bitmap :=
  let r := (bm.pix p.x p.y).red
  let g := (bm.pix p.x p.y).green
  let b := (bm.pix p.x p.y).blue
  if r = dead.red ∧ g = dead.green ∧ b = dead.blue then bm.putRGBA p 0 0 0 0
  else if plat = Platform.msw then
    bm.putRGBA p (toByte (((r : Int) * livealpha).tdiv 255))
      (toByte (((g : Int) * livealpha).tdiv 255))
      (toByte (((b : Int) * livealpha).tdiv 255)) (toByte livealpha)
  else bm.putAlpha p (toByte livealpha)

/-- `MaskDeadPixels(bitmap, wd, ht, livealpha)`, with `deadrgb` passed in. -/
def MaskDeadPixels (plat : Platform) (dead : Color) (bitmap : Bitmap)
    (wd ht livealpha : Int) : Bitmap :=
  if bitmap.ok then
    (forLoop ht.toNat (fun _ c =>
      let rowstart := c.p
      let c := forLoop wd.toNat (fun _ c =>
        { c with bm := maskPixel plat dead livealpha c.bm c.p, p := c.p.next }) c
      { c with p := rowstart.offsetY 1 }) (Cursor.mk bitmap ⟨0, 0⟩ 0)).bm
  else bitmap

/-- `PixelsToCells(pixels)`. -/
def PixelsToCells (g : Globals) (pixels : Int) : Int :=
  if g.pastemag ≥ 0 then
    let cellsize := shl1 g.pastemag
    (pixels + cellsize - 1).tdiv cellsize
  else pixels * 2 ^ (-g.pastemag).toNat

/-- The test at the top of `CheckPasteImage`: some cached key differs from the
current paste rect size, viewport size, paste location or icon setting. -/
def pasteKeysDiffer (g : Globals) : Prop :=
  g.prectwd ≠ g.pview.pasterect.width ∨
  g.prectht ≠ g.pview.pasterect.height ∨
  g.cvwd ≠ g.curview.width ∨
  g.cvht ≠ g.curview.height ∨
  g.pasteloc ≠ g.plocation ∨
  g.pasteicons ≠ g.showicons

instance (g : Globals) : Decidable (pasteKeysDiffer g) := by
  unfold pasteKeysDiffer; infer_instance

/-- The size calculation of `CheckPasteImage` for a paste rect larger than
2 x 2: the values of `pastewd`, `pasteht` and `cellbox` when the old bitmap is
deleted.  It is evaluated after the keys were updated. -/
def pasteImageLayout (g : Globals) : Int × Int × Rect :=
  let pastewd := g.prectwd
  let pasteht := g.prectht
  let cellbox := g.pastebbox
  if pastewd > g.curview.width ∨ pasteht > g.curview.height then
    if g.plocation = PasteLocation.Middle then
      let pastewd := if pastewd > 2 * g.curview.width then 2 * g.curview.width else pastewd
      let pasteht := if pasteht > 2 * g.curview.height then 2 * g.curview.height else pasteht
      let cellsize := shl1 g.pastemag
      let pastewd :=
        if g.pastemag > 0 ∧ (pastewd + 1).tmod cellsize > 0 then
          pastewd + (cellsize - (pastewd + 1).tmod cellsize)
        else pastewd
      let pasteht :=
        if g.pastemag > 0 ∧ (pasteht + 1).tmod cellsize ≠ 0 then
          pasteht + (cellsize - (pasteht + 1).tmod cellsize)
        else pasteht
      let pastewd :=
        if g.prectwd > pastewd then
          if g.pastemag > 0 then
            let celldiff := (g.prectwd - pastewd).tdiv cellsize
            if celldiff % 2 ≠ 0 then pastewd + cellsize else pastewd
          else
            if (g.prectwd - pastewd) % 2 ≠ 0 then pastewd + 1 else pastewd
        else pastewd
      let pasteht :=
        if g.prectht > pasteht then
          if g.pastemag > 0 then
            let celldiff := (g.prectht - pasteht).tdiv cellsize
            if celldiff % 2 ≠ 0 then pasteht + cellsize else pasteht
          else
            if (g.prectht - pasteht) % 2 ≠ 0 then pasteht + 1 else pasteht
        else pasteht
      (pastewd, pasteht, cellbox)
    else
      let pastewd := if pastewd > g.curview.width then g.curview.width else pastewd
      let pasteht := if pasteht > g.curview.height then g.curview.height else pasteht
      let cellsize := shl1 g.pastemag
      let gap : Int := if g.pastemag = 1 then 0 else 1
      let pastewd :=
        if g.pastemag > 0 ∧ (pastewd + gap).tmod cellsize > 0 then
          pastewd + (cellsize - (pastewd + gap).tmod cellsize)
        else pastewd
      let pasteht :=
        if g.pastemag > 0 ∧ (pasteht + gap).tmod cellsize ≠ 0 then
          pasteht + (cellsize - (pasteht + gap).tmod cellsize)
        else pasteht
      let cellbox := { cellbox with width := PixelsToCells g pastewd,
                                    height := PixelsToCells g pasteht }
      let cellbox :=
        match g.plocation with
        | PasteLocation.TopLeft =>
          { cellbox with x := g.pastebbox.x, y := g.pastebbox.y }
        | PasteLocation.TopRight =>
          { cellbox with x := g.pastebbox.x + g.pastebbox.width - cellbox.width,
                         y := g.pastebbox.y }
        | PasteLocation.BottomRight =>
          { cellbox with x := g.pastebbox.x + g.pastebbox.width - cellbox.width,
                         y := g.pastebbox.y + g.pastebbox.height - cellbox.height }
        | _ =>
          { cellbox with x := g.pastebbox.x,
                         y := g.pastebbox.y + g.pastebbox.height - cellbox.height }
      (pastewd, pasteht, cellbox)
  else (pastewd, pasteht, cellbox)

/-- The assignments `currlayer->cellr[0] = deadrgb->Red()` (and green, blue). -/
def Globals.setDeadCell (g : Globals) : Globals :=
  { g with layers := fun i =>
      if i = g.currlayer then
        { g.layers i with
          cellr := fun s => if s = 0 then g.deadrgb.red else (g.layers i).cellr s
          cellg := fun s => if s = 0 then g.deadrgb.green else (g.layers i).cellg s
          cellb := fun s => if s = 0 then g.deadrgb.blue else (g.layers i).cellb s }
      else g.layers i }

/-- The temporary viewport `tempview` of `CheckPasteImage`, positioned on the
middle of `cellbox`. -/
def pasteTempview (g : Globals) (cellbox : Rect) : Viewport :=
  let midx := if g.pastemag > 0 then cellbox.x + cellbox.width.tdiv 2
              else cellbox.x + (cellbox.width - 1).tdiv 2
  let midy := if g.pastemag > 0 then cellbox.y + cellbox.height.tdiv 2
              else cellbox.y + (cellbox.height - 1).tdiv 2
  ⟨g.pimagewd, g.pimageht, g.pastemag, midx, midy⟩

/-- The drawing part of the body of `if (pastebitmap)` in `CheckPasteImage`: the
paste pattern is drawn by the engine through a memory DC (`pattdc`) with grid
lines temporarily off. -/
def drawPastePattern (plat : Platform) (ext : Ext) (g : Globals) (cellbox : Rect) : Globals :=
  let tempview := pasteTempview g cellbox
  let g := g.setDeadCell
  let saveshow := g.showgridlines
  let g := { g with showgridlines := false }
  let g := { g with dc := fun d => if d = DCId.pattdc then [] else g.dc d }
  let g := { g with currdc := DCId.pattdc, currwd := tempview.width, currht := tempview.height }
  let g := runDraw plat ext g
    (ext.algoDraw g.pastealgo tempview g.cur.cellr g.cur.cellg g.cur.cellb)
  { g with showgridlines := saveshow }

/-- The body of `if (pastebitmap)` in `CheckPasteImage`: draw the paste pattern
into the new bitmap `bm`, then "make dead pixels 100% transparent and live
pixels 100% opaque". -/
def renderPasteBitmap (plat : Platform) (ext : Ext) (g : Globals) (cellbox : Rect)
    (bm : Bitmap) : Globals :=
  let g := drawPastePattern plat ext g cellbox
  let masked := MaskDeadPixels plat g.deadrgb (ext.raster bm (g.dc DCId.pattdc))
    g.pimagewd g.pimageht 255
  { g with pastebitmap := some masked }

/-- The key assignments at the top of the regeneration branch of
`CheckPasteImage` (with the ghost counter incremented). -/
def updatePasteKeys (g : Globals) : Globals :=
  { g with
    prectwd := g.pview.pasterect.width
    prectht := g.pview.pasterect.height
    pastemag := g.curview.mag
    cvwd := g.curview.width
    cvht := g.curview.height
    pasteloc := g.plocation
    pasteicons := g.showicons
    rebuilds := g.rebuilds + 1 }

/-- The part of `CheckPasteImage` from "delete old bitmap even if size hasn't
changed" on: record the image size and allocate the new bitmap. -/
def allocPasteBitmap (ext : Ext) (g : Globals) : Globals :=
  let layout := pasteImageLayout g
  let g := { g with pimagewd := layout.1, pimageht := layout.2.1 }
  { g with pastebitmap := ext.newBitmap g.pimagewd g.pimageht }

/-- `CheckPasteImage()`. -/
def CheckPasteImage (plat : Platform) (ext : Ext) (g : Globals) : Globals :=
  if pasteKeysDiffer g then
    let g := updatePasteKeys g
    if g.prectwd ≤ 2 ∨ g.prectht ≤ 2 then
      let g := { g with pastebitmap := none }
      if g.pimagewd ≠ 1 ∨ g.pimageht ≠ 1 then { g with pimagewd := 1, pimageht := 1 } else g
    else
      let cellbox := (pasteImageLayout g).2.2
      let g := allocPasteBitmap ext g
      match g.pastebitmap with
      | some bm => renderPasteBitmap plat ext g cellbox bm
      | none => g
  else g

/-- The paste rect shifted by `DrawPasteImage` according to `plocation` when
the image is smaller than the rect. -/
def pasteImageRect (g : Globals) : Rect :=
  let r := g.pview.pasterect
  if r.width > g.pimagewd ∨ r.height > g.pimageht then
    match g.plocation with
    | PasteLocation.TopLeft => r
    | PasteLocation.TopRight => { r with x := r.x + (r.width - g.pimagewd) }
    | PasteLocation.BottomRight =>
      { r with x := r.x + (r.width - g.pimagewd), y := r.y + (r.height - g.pimageht) }
    | PasteLocation.BottomLeft => { r with y := r.y + (r.height - g.pimageht) }
    | PasteLocation.Middle =>
      { r with x := r.x + (r.width - g.pimagewd).tdiv 2,
               y := r.y + (r.height - g.pimageht).tdiv 2 }
  else r

/-- The call that puts the paste bitmap on the DC at `(x, y)`: `DrawBitmap`
with mask on wxGTK, `Blit` of `pimagewd x pimageht` pixels elsewhere. -/
def pasteImageCmd (plat : Platform) (g : Globals) (bm : Bitmap) (x y : Int) : DrawCmd :=
  if plat = Platform.gtk then DrawCmd.drawBitmap bm x y true
  else DrawCmd.blit x y g.pimagewd g.pimageht bm

/-- The second half of `DrawPasteImage`: the border rectangle, clamped against
overflow, and the paste mode label (pen, brush and font selection are not
recorded). -/
def drawPasteBorder (ext : Ext) (g : Globals) (dc : DCId) : Globals :=
  let r := g.pview.pasterect
  let r := if r.x < 0 then { r with x := -1, width := r.width - (-1 - r.x) } else r
  let r := if r.y < 0 then { r with y := -1, height := r.height - (-1 - r.y) } else r
  let r := if r.width > g.curview.width then { r with width := g.curview.width + 2 } else r
  let r := if r.height > g.curview.height then { r with height := g.curview.height + 2 } else r
  let g := g.emitOn dc (DrawCmd.drawRectangle r)
  if r.y > 0 then g.emitOn dc (DrawCmd.drawText (r.x + 2) (r.y - 4 - ext.textAscent)) else g

/-- `DrawPasteImage(dc)`. -/
def DrawPasteImage (plat : Platform) (ext : Ext) (g : Globals) (dc : DCId) : Globals :=
  let g :=
    match g.pastebitmap with
    | some bm =>
      let r := pasteImageRect g
      g.emitOn dc (pasteImageCmd plat g bm r.x r.y)
    | none => g
  drawPasteBorder ext g dc

/-! ## Parts of DrawView -/

/-- The icon selection of `DrawView` ("only show icons at scales 1:8 and
1:16"). -/
def DrawViewIcons (g : Globals) : Globals :=
  if g.showicons = true ∧ g.curview.mag > 2 then
    if g.curview.mag = 3 then { g with iconmaps := g.cur.icons7x7 }
    else { g with iconmaps := g.cur.icons15x15 }
  else g

/-- The paste step of `DrawView`: the block guarded by
`viewptr->waitingforclick && viewptr->pasterect.width > 0`. -/
def DrawViewPaste (plat : Platform) (ext : Ext) (g : Globals) (dc : DCId) : Globals :=
  if g.pview.waitingforclick = true ∧ g.pview.pasterect.width > 0 then
    if g.pastemag ≠ g.curview.mag ∧
        g.prectwd = g.pview.pasterect.width ∧ g.prectwd > 1 ∧
        g.prectht = g.pview.pasterect.height ∧ g.prectht > 1 then g
    else DrawPasteImage plat ext (CheckPasteImage plat ext g) dc
  else g

/-! ## Selection tint bitmaps -/

/-- The stock colour `wxLIGHT_GREY` of wxWidgets. -/
def wxLIGHT_GREY : Color := ⟨192, 192, 192⟩

/-- The pixel loops of `SetSelectionPixels`, run when raw access to the bitmap
succeeded: every pixel of the `selwd x selht` area gets the four bytes. -/
def selectionLoops (r g b alpha : Nat) (selwd selht : Int) (bm : Bitmap) : Cursor :=
  forLoop selht.toNat (fun _ c =>
    let rowstart := c.p
    let c := forLoop selwd.toNat (fun _ c =>
      { c with bm := c.bm.putRGBA c.p r g b alpha, p := c.p.next }) c
    { c with p := rowstart.offsetY 1 }) ⟨bm, ⟨0, 0⟩, 0⟩

/-- `SetSelectionPixels(bitmap, color)`, with `selwd` and `selht` passed in:
alpha is 128, and the RGB values are premultiplied on Windows. -/
def SetSelectionPixels (plat : Platform) (selwd selht : Int) (bitmap : Bitmap)
    (color : Color) : Bitmap :=
  if bitmap.ok then
    let alpha : Int := 128
    let r : Int := if plat = Platform.msw then ((color.red : Int) * alpha).tdiv 255
      else color.red
    let g : Int := if plat = Platform.msw then ((color.green : Int) * alpha).tdiv 255
      else color.green
    let b : Int := if plat = Platform.msw then ((color.blue : Int) * alpha).tdiv 255
      else color.blue
    (selectionLoops (toByte r) (toByte g) (toByte b) (toByte alpha) selwd selht bitmap).bm
  else bitmap

/-- `CheckSelectionSize(viewwd, viewht)` (with the ghost counter incremented
when the bitmaps are replaced). -/
def CheckSelectionSize (plat : Platform) (ext : Ext) (g : Globals) (viewwd viewht : Int) :
    Globals :=
  if viewwd ≠ g.selwd ∨ viewht ≠ g.selht then
    let g := { g with selwd := viewwd, selht := viewht, selallocs := g.selallocs + 1 }
    let g := { g with selbitmap := ext.newBitmap g.selwd g.selht }
    let g := { g with graybitmap := ext.newBitmap g.selwd g.selht }
    let g :=
      match g.selbitmap with
      | some bm =>
        let tinted := SetSelectionPixels plat g.selwd g.selht bm g.selectrgb
        { g with selbitmap := some tinted }
      | none => g
    match g.graybitmap with
    | some bm =>
      let tinted := SetSelectionPixels plat g.selwd g.selht bm wxLIGHT_GREY
      { g with graybitmap := some tinted }
    | none => g
  else g

/-- The bitmap `bm.GetSubBitmap(r)`: the pixels of `bm` seen from the top left
corner of `r`. -/
def Bitmap.sub (bm : Bitmap) (r : Rect) : Bitmap :=
  { bm with pix := fun X Y => bm.pix (X + r.x) (Y + r.y) }

/-- `DrawSelection(dc, rect)` (the call is also recorded in `events`). -/
def DrawSelection (plat : Platform) (g : Globals) (dc : DCId) (rect : Rect) : Globals :=
  let g := { g with events := g.events ++ [Event.selection g.currlayer true rect] }
  match g.selbitmap with
  | some bm =>
    if plat = Platform.gtk then
      if g.selectrgb.red = 255 ∧ g.selectrgb.green = 255 ∧ g.selectrgb.blue = 255 then
        g.emitOn dc (DrawCmd.invert rect.x rect.y rect.width rect.height)
      else g.emitOn dc (DrawCmd.drawBitmap (bm.sub rect) rect.x rect.y true)
    else g.emitOn dc (DrawCmd.blit rect.x rect.y rect.width rect.height bm)
  | none => g.emitOn dc (DrawCmd.invert rect.x rect.y rect.width rect.height)

/-- `DrawInactiveSelection(dc, rect)` (the call is also recorded in `events`). -/
def DrawInactiveSelection (plat : Platform) (g : Globals) (dc : DCId) (rect : Rect) :
    Globals :=
  let g := { g with events := g.events ++ [Event.selection g.currlayer false rect] }
  match g.graybitmap with
  | some bm =>
    if plat = Platform.gtk then
      if g.selectrgb.red = 255 ∧ g.selectrgb.green = 255 ∧ g.selectrgb.blue = 255 then
        g.emitOn dc (DrawCmd.invert rect.x rect.y rect.width rect.height)
      else g.emitOn dc (DrawCmd.drawBitmap (bm.sub rect) rect.x rect.y true)
    else g.emitOn dc (DrawCmd.blit rect.x rect.y rect.width rect.height bm)
  | none => g.emitOn dc (DrawCmd.invert rect.x rect.y rect.width rect.height)

/-! ## DrawGridLines -/

/-- One of the four `while (true)` loops of `DrawGridLines`, entered with the
values of `v` (or `h`) and `i`: `bump` tells whether `i` is incremented,
`bold` whether the lines with `i % boldspacing == 0` (rather than `!= 0`) are
drawn, `lo` and `hi` bound the positions drawn, `line` is the `DrawLine` call
for a position.  The first argument bounds the number of iterations; the
result is `none` when it is used up before the `break`. -/
def gridLineLoop (cellsize limit boldspacing : Int) (bump bold : Bool) (lo hi : Int)
    (line : Int → DrawCmd) (dc : DCId) : Nat → Int → Int → Globals → Option Globals
  | 0, _, _, _ => none
  | fuel + 1, v, i, g =>
    let v := v + cellsize
    if v ≥ limit then some g
    else
      let i := if bump then i + 1 else i
      let hit : Bool :=
        if bold then decide (i.tmod boldspacing = 0) else decide (i.tmod boldspacing ≠ 0)
      let g := if hit = true ∧ v ≥ lo ∧ v < hi then g.emitOn dc (line v) else g
      gridLineLoop cellsize limit boldspacing bump bold lo hi line dc fuel v i g

/-- A number of iterations after which a loop of `DrawGridLines` with the
given limit has reached its `break` (the cell size is at least 1). -/
def gridFuel (limit : Int) : Nat := (limit + 1).toNat + 1

/-- `DrawGridLines(dc, r)`: all plain lines first, then the bold lines. -/
def DrawGridLines (ext : Ext) (g : Globals) (dc : DCId) (r : Rect) : Globals :=
  let cellsize := shl1 g.curview.mag
  let lefttop := ext.viewAt00 g.curview
  let leftbold : Int :=
    if g.showboldlines then
      let leftbold := ext.modSmallint lefttop.1 g.boldspacing
      if g.cur.originx ≠ 0 then leftbold - ext.modSmallint g.cur.originx g.boldspacing
      else leftbold
    else 0
  let topbold : Int :=
    if g.showboldlines then
      let topbold := ext.modSmallint lefttop.2 g.boldspacing
      let topbold :=
        if g.cur.originy ≠ 0 then topbold - ext.modSmallint g.cur.originy g.boldspacing
        else topbold
      if g.mathcoords then topbold - 1 else topbold
    else 0
  let hline := fun (bold : Bool) (v : Int) => DrawCmd.drawLine r.x v (r.x + r.width - 1 + 1) v bold
  let vline := fun (bold : Bool) (h : Int) => DrawCmd.drawLine h r.y h (r.y + r.height - 1 + 1) bold
  let g := (gridLineLoop cellsize r.height g.boldspacing g.showboldlines false r.y
    (r.y + r.height) (hline false) dc (gridFuel r.height) (-1)
    (if g.showboldlines then topbold else 1) g).getD g
  let g := (gridLineLoop cellsize r.width g.boldspacing g.showboldlines false r.x
    (r.x + r.width) (vline false) dc (gridFuel r.width) (-1)
    (if g.showboldlines then leftbold else 1) g).getD g
  if g.showboldlines then
    let g := (gridLineLoop cellsize r.height g.boldspacing true true r.y
      (r.y + r.height) (hline true) dc (gridFuel r.height) (-1) topbold g).getD g
    (gridLineLoop cellsize r.width g.boldspacing true true r.x
      (r.x + r.width) (vline true) dc (gridFuel r.width) (-1) leftbold g).getD g
  else g

/-! ## Stacked layers -/

/-- The assignment `GetLayer(i)->view = v`. -/
def Globals.setView (g : Globals) (i : Nat) (v : Nat) : Globals :=
  { g with layers := fun j => if j = i then { g.layers j with view := v } else g.layers j }

/-- `DrawOneLayer(dc)`: the layer is drawn by the engine through a memory DC
(`layerdc`) holding `layerbitmap`, the result is masked with the opacity
setting and drawn on `dc` (the engine call is also recorded in `events`). -/
def DrawOneLayer (plat : Platform) (ext : Ext) (g : Globals) (dc : DCId) : Globals :=
  let bm := g.layerbitmap.getD nullBitmap
  let g := { g with dc := fun d => if d = DCId.layerdc then [] else g.dc d }
  let g := { g with currdc := DCId.layerdc }
  let g := { g with events := g.events ++
    [Event.draw g.currlayer g.cur.algo g.curview g.cur.cellr g.cur.cellg g.cur.cellb] }
  let g := runDraw plat ext g
    (ext.algoDraw g.cur.algo g.curview g.cur.cellr g.cur.cellg g.cur.cellb)
  let masked := MaskDeadPixels plat g.deadrgb (ext.raster bm (g.dc DCId.layerdc))
    g.layerwd g.layerht (ext.opacityAlpha g.opacity)
  let g := { g with layerbitmap := some masked }
  g.emitOn dc (DrawCmd.drawBitmap masked 0 0 true)

/-- The body of the `for` loop of `DrawStackedLayers` for the index `i`. -/
def stackLayer (plat : Platform) (ext : Ext) (dc : DCId) (i : Nat) (g : Globals) : Globals :=
  let savelayer := g.currlayer
  let g := { g with currlayer := i }
  let g := g.setDeadCell
  let saveview := g.cur.view
  let g := g.setView g.currlayer (g.layers savelayer).view
  let g := if ext.isEmpty g.cur.algo then g else DrawOneLayer plat ext g dc
  let g :=
    match ext.selVisible g.cur.currsel g.curview with
    | some r =>
      let g := CheckSelectionSize plat ext g g.layerwd g.layerht
      if (i : Int) = g.currindex then DrawSelection plat g dc r
      else DrawInactiveSelection plat g dc r
    | none => g
  let g := g.setView g.currlayer saveview
  { g with currlayer := savelayer }

/-- The part of `DrawStackedLayers` after the layer bitmap was checked: grid
lines are switched off while the layers 1 .. numlayers-1 are drawn. -/
def stackLoop (plat : Platform) (ext : Ext) (g : Globals) (dc : DCId) : Globals :=
  let saveshow := g.showgridlines
  let g := { g with showgridlines := false }
  let g := forLoop (g.numlayers - 1).toNat (fun k g => stackLayer plat ext dc (k + 1) g) g
  { g with showgridlines := saveshow }

/-- `DrawStackedLayers(dc)`. -/
def DrawStackedLayers (plat : Platform) (ext : Ext) (g : Globals) (dc : DCId) : Globals :=
  if g.layerwd ≠ g.curview.width ∨ g.layerht ≠ g.curview.height then
    let g := { g with layerwd := g.curview.width, layerht := g.curview.height }
    let g := { g with layerbitmap := ext.newBitmap g.layerwd g.layerht }
    if g.layerbitmap.isNone then { g with fatal := true }
    else stackLoop plat ext g dc
  else stackLoop plat ext g dc

/-! ## Tile borders -/

/-- The colours `dkgray`, `ltgray` and `brightgreen`. -/
def dkgray : Color := ⟨96, 96, 96⟩

def ltgray : Color := ⟨224, 224, 224⟩

def brightgreen : Color := ⟨0, 255, 0⟩

/-- The rectangle after `Inflate(d)` for `d >= 0`. -/
def Rect.Inflate (r : Rect) (d : Int) : Rect :=
  ⟨r.x - d, r.y - d, r.width + 2 * d, r.height + 2 * d⟩

/-- `DrawTileFrame(dc, trect, brush, wd)`; `trect` is the caller's copy of the
tile rectangle. -/
def DrawTileFrame (g : Globals) (dc : DCId) (trect : Rect) (brush : Color) (wd : Int) :
    Globals :=
  let trect := trect.Inflate wd
  let r := trect
  let r := { r with height := wd }
  let g := g.emitOn dc (DrawCmd.fillRect r brush)
  let r := { r with y := r.y + (trect.height - wd) }
  let g := g.emitOn dc (DrawCmd.fillRect r brush)
  let r := trect
  let r := { r with width := wd }
  let g := g.emitOn dc (DrawCmd.fillRect r brush)
  let r := { r with x := r.x + (trect.width - wd) }
  g.emitOn dc (DrawCmd.fillRect r brush)

/-- `DrawTileBorders(dc)`. -/
def DrawTileBorders (g : Globals) (dc : DCId) : Globals :=
  if g.tileborder ≤ 0 then g
  else if g.bigviewwd < 1 ∨ g.bigviewht < 1 then g
  else
    let gray : Int := ((g.deadrgb.red + g.deadrgb.green + g.deadrgb.blue : Nat) : Int) / 3
    let brush := if gray > 127 then dkgray else ltgray
    let g := forLoop g.numlayers.toNat (fun i g =>
      DrawTileFrame g dc (g.layers i).tilerect brush g.tileborder) g
    DrawTileFrame g dc (g.layers g.currindex.toNat).tilerect brightgreen g.tileborder

/-! ## DrawView -/

/-- Record a step of `DrawView`. -/
def Globals.log (g : Globals) (s : Step) : Globals := { g with steps := g.steps ++ [s] }

/-- The call `GetLayer(i)->view->setpositionmag(x, y, mag)` on the viewport
with index `v`. -/
def Globals.setPositionMag (g : Globals) (v : Nat) (x y mag : Int) : Globals :=
  { g with views := fun j =>
      if j = v then { g.views j with x := x, y := y, mag := mag } else g.views j }

/-- The local variables `savelayer`, `saveview0` and `colorindex` of
`DrawView` (`none` is `NULL`). -/
structure ViewLocals where
  savelayer : Option Nat
  saveview0 : Option Nat
  colorindex : Int

/-- The mode selection of `DrawView` for `tileindex >= 0` or untiled layers:
the `if ... else if ... else` that prepares `currlayer`, `viewptr` and the
local variables. -/
def DrawViewMode (g : Globals) (tileindex : Int) : Globals × ViewLocals :=
  if g.numlayers > 1 ∧ g.tilelayers = true then
    let g :=
      if g.syncviews = true ∧ tileindex ≠ g.currindex then
        g.setPositionMag (g.layers tileindex.toNat).view g.curview.x g.curview.y g.curview.mag
      else g
    let savelayer := g.currlayer
    let g := { g with currlayer := tileindex.toNat }
    let g := { g with viewptr := g.cur.tilewin }
    (g, ⟨some savelayer, none, tileindex⟩)
  else if g.numlayers > 1 ∧ g.stacklayers = true then
    let savelayer := g.currlayer
    if g.currindex ≠ 0 then
      let g := { g with currlayer := 0 }
      let saveview0 := g.cur.view
      let g := g.setView g.currlayer (g.layers savelayer).view
      (g, ⟨some savelayer, some saveview0, 0⟩)
    else (g, ⟨some savelayer, none, 0⟩)
  else (g, ⟨none, none, g.currindex⟩)

/-- The part of `DrawView` from "set rgb values for dead cells" to the call of
`algo->draw`. -/
def DrawViewPattern (plat : Platform) (ext : Ext) (g : Globals) (dc : DCId) : Globals :=
  let g := g.setDeadCell
  let g := DrawViewIcons g
  let g := { g with currdc := dc, currwd := g.curview.width, currht := g.curview.height }
  runDraw plat ext (g.log Step.pattern)
    (ext.algoDraw g.cur.algo g.curview g.cur.cellr g.cur.cellg g.cur.cellb)

/-- The grid-line and selection steps of `DrawView`. -/
def DrawViewOverlays (plat : Platform) (ext : Ext) (g : Globals) (dc : DCId)
    (colorindex : Int) : Globals :=
  let g :=
    if g.pview.gridvisible then
      DrawGridLines ext (g.log Step.gridLines) dc ⟨0, 0, g.curview.width, g.curview.height⟩
    else g
  match ext.selVisible g.cur.currsel g.curview with
  | some r =>
    let g := CheckSelectionSize plat ext (g.log Step.selection) g.curview.width g.curview.height
    if colorindex = g.currindex then DrawSelection plat g dc r
    else DrawInactiveSelection plat g dc r
  | none => g

/-- The stacked-layers step of `DrawView`. -/
def DrawViewStacked (plat : Platform) (ext : Ext) (g : Globals) (dc : DCId)
    (loc : ViewLocals) : Globals :=
  if g.numlayers > 1 ∧ g.stacklayers = true then
    let g := { g with currlayer := loc.savelayer.getD g.currlayer }
    let g :=
      match loc.saveview0 with
      | some v => g.setView 0 v
      | none => g
    DrawStackedLayers plat ext (g.log Step.stackedLayers) dc
  else g

/-- The paste step of `DrawView`, with the step recorded when the paste image
is checked and drawn. -/
def DrawViewPasteStep (plat : Platform) (ext : Ext) (g : Globals) (dc : DCId) : Globals :=
  if g.pview.waitingforclick = true ∧ g.pview.pasterect.width > 0 then
    if g.pastemag ≠ g.curview.mag ∧
        g.prectwd = g.pview.pasterect.width ∧ g.prectwd > 1 ∧
        g.prectht = g.pview.pasterect.height ∧ g.prectht > 1 then g
    else DrawPasteImage plat ext (CheckPasteImage plat ext (g.log Step.pastePreview)) dc
  else g

/-- The last statement of `DrawView`: "restore globals changed above". -/
def DrawViewRestore (g : Globals) (loc : ViewLocals) : Globals :=
  if g.numlayers > 1 ∧ g.tilelayers = true then
    let g := { g with currlayer := loc.savelayer.getD g.currlayer }
    { g with viewptr := g.cur.tilewin }
  else g

/-- `DrawView(dc, tileindex)`. -/
def DrawView (plat : Platform) (ext : Ext) (g : Globals) (dc : DCId) (tileindex : Int) :
    Globals :=
  if g.pview.nopattupdate then
    let r : Rect := ⟨0, 0, g.curview.width, g.curview.height⟩
    let g := (g.log Step.fillBackground).emitOn dc (DrawCmd.fillRect r g.deadbrush)
    if g.pview.gridvisible then DrawGridLines ext (g.log Step.gridLines) dc r else g
  else if g.numlayers > 1 ∧ g.tilelayers = true ∧ tileindex < 0 then
    DrawTileBorders (g.log Step.tileBorders) dc
  else
    let m := DrawViewMode g tileindex
    let g := DrawViewPattern plat ext m.1 dc
    let g := DrawViewOverlays plat ext g dc m.2.colorindex
    let g := DrawViewStacked plat ext g dc m.2
    let g := DrawViewPasteStep plat ext g dc
    DrawViewRestore g m.2

/-! ## getcolors -/

/-- `wx_render::getcolors(r, g, b)`: the three pointers handed to the engine
are the colour arrays of the layer `currlayer` points to; no global is
assigned. -/
def getcolors (g : Globals) : (Nat → Nat) × (Nat → Nat) × (Nat → Nat) :=
  (g.cur.cellr, g.cur.cellg, g.cur.cellb)

/-! ## Concrete data used to instantiate the theorems -/

/-- Two rectangles share a pixel. -/
def Rect.Meets (a b : Rect) : Prop := ∃ px py, a.Contains px py ∧ b.Contains px py

/-- A bitmap with raw access whose pixels are all opaque black. -/
def blackBitmap : Bitmap := ⟨true, fun _ _ => ⟨0, 0, 0, 255⟩, []⟩

/-- A two-state layer: state 0 black, every other state white. -/
def sampleLayer : Layer where
  cellr := fun s => if s = 0 then 0 else 255
  cellg := fun s => if s = 0 then 0 else 255
  cellb := fun s => if s = 0 then 0 else 255
  view := 0
  icons7x7 := none
  icons15x15 := none
  algo := 0
  currsel := 0
  originx := 0
  originy := 0
  tilerect := ⟨0, 0, 100, 100⟩
  tilewin := 0

/-- Globals for a 100 x 100 viewport at scale 1:1 with no paste pending. -/
def sampleGlobals : Globals where
  showgridlines := false
  showicons := false
  mingridmag := 2
  plocation := PasteLocation.TopLeft
  deadrgb := ⟨0, 0, 0⟩
  deadbrush := ⟨0, 0, 0⟩
  layers := fun _ => sampleLayer
  currlayer := 0
  views := fun _ => ⟨100, 100, 0, 0, 0⟩
  patternviews := fun _ => ⟨⟨0, 0, 0, 0⟩, false, false, false⟩
  viewptr := 0
  currdc := DCId.viewdc
  dc := fun _ => []
  currwd := 100
  currht := 100
  pixmap := blackBitmap
  pixmapwd := -1
  pixmapht := -1
  iconmaps := none
  pastebitmap := none
  pimagewd := -1
  pimageht := -1
  prectwd := -1
  prectht := -1
  pastemag := 0
  cvwd := 0
  cvht := 0
  pasteloc := PasteLocation.TopLeft
  pasteicons := false
  pastealgo := 0
  pastebbox := ⟨0, 0, 0, 0⟩
  rebuilds := 0
  selectrgb := ⟨75, 175, 0⟩
  selwd := 100
  selht := 100
  selbitmap := none
  graybitmap := none
  selallocs := 0
  layerbitmap := none
  layerwd := -1
  layerht := -1
  numlayers := 1
  currindex := 0
  stacklayers := false
  tilelayers := false
  syncviews := false
  tileborder := 3
  opacity := 80
  boldspacing := 10
  showboldlines := true
  mathcoords := false
  bigviewwd := 100
  bigviewht := 100
  fatal := false
  steps := []
  events := []

/-- An engine that draws nothing, with allocation always succeeding and a
rasteriser that leaves the bitmap as it is; every universe holds a pattern, no
selection is visible, pixel (0, 0) shows the cell the viewport is positioned
on, and the opacity is scaled to a byte in exact arithmetic. -/
def sampleExt : Ext where
  algoDraw := fun _ _ _ _ _ => []
  newBitmap := fun _ _ => some blackBitmap
  raster := fun bm _ => bm
  textAscent := 10
  isEmpty := fun _ => false
  selVisible := fun _ _ => none
  viewAt00 := fun v => (v.x, v.y)
  modSmallint := fun a n => a % n
  opacityAlpha := fun o => (255 * o) / 100

/-! ## Definitions used in the statements and proofs of the loop lemmas -/

/-- The pixel left by `putRGB`. -/
def paint (plat : Platform) (r g b : Nat) (old : Pixel) : Pixel :=
  ⟨r, g, b, if plat = Platform.gtk then 255 else old.alpha⟩

/-- Description of a cursor: position, data offset, raw-access flag, pixels. -/
def Cursor.Is (c : Cursor) (p : Iter) (bp : Nat) (ok : Bool) (pix : Int → Int → Pixel) : Prop :=
  c.p = p ∧ c.byteptr = bp ∧ c.bm.ok = ok ∧ ∀ X Y, c.bm.pix X Y = pix X Y

/-- Pixels after the first `n` rows of a cell were expanded. -/
def rowsPix (plat : Platform) (drawgap : Bool) (cs : Nat) (r g b dr dg db : Nat)
    (X0 Y0 : Int) (n : Nat) (old : Int → Int → Pixel) : Int → Int → Pixel :=
  fun X Y =>
    if Y0 ≤ Y ∧ Y < Y0 + n ∧ X0 ≤ X ∧ X < X0 + cs then paint plat r g b (old X Y)
    else if drawgap = true ∧ X = X0 + cs ∧ Y0 ≤ Y ∧ Y < Y0 + n then paint plat dr dg db (old X Y)
    else old X Y

/-- Pixels after `stretchCell` ran with `p` at `(X0, Y0)`. -/
def cellPix (plat : Platform) (drawgap : Bool) (cs : Int) (r g b dr dg db : Nat)
    (X0 Y0 : Int) (old : Int → Int → Pixel) : Int → Int → Pixel :=
  fun X Y =>
    if Y0 ≤ Y ∧ Y < Y0 + cs ∧ X0 ≤ X ∧ X < X0 + cs then paint plat r g b (old X Y)
    else if drawgap = true ∧ ((X = X0 + cs ∧ Y0 ≤ Y ∧ Y < Y0 + cs) ∨
        (Y = Y0 + cs ∧ X0 ≤ X ∧ X ≤ X0 + cs)) then paint plat dr dg db (old X Y)
    else old X Y

/-- The cell loops shared by `DrawStretchedPixmap` and `DrawIcons`, with the
per-cell drawing code as a parameter. -/
def gridLoops (currwd currht x y w h pmscale : Int) (F : Cursor → Cursor) (bm : Bitmap) :
    Cursor :=
  forLoop h.toNat (fun row c =>
    let rowstart := c.p
    let c := forLoop w.toNat (fun col c =>
      let newx := x + (col : Int) * pmscale
      let newy := y + (row : Int) * pmscale
      let c := if newx < 0 ∨ newy < 0 ∨ newx ≥ currwd ∨ newy ≥ currht then c else F c
      { c with p := c.p.offsetX pmscale, byteptr := c.byteptr + 1 }) c
    { c with p := rowstart.offsetY pmscale }) ⟨bm, ⟨0, 0⟩, 0⟩

/-- What the cell loops need from the per-cell code: it keeps the cursor, only
writes at or after its own origin, and establishes a property `Good` of the
pixels of its `cs x cs` block. -/
structure CellOK (F : Cursor → Cursor) (cs : Int)
    (Good : Nat → Int → Int → (Int → Int → Pixel) → Prop) : Prop where
  keep_p : ∀ c, (F c).p = c.p
  keep_byteptr : ∀ c, (F c).byteptr = c.byteptr
  keep_ok : ∀ c, (F c).bm.ok = c.bm.ok
  frame : ∀ c X Y, (X < c.p.x ∨ Y < c.p.y) → (F c).bm.pix X Y = c.bm.pix X Y
  good : ∀ c, Good c.byteptr c.p.x c.p.y (F c).bm.pix
  stable : ∀ bp X0 Y0 pix pix',
    (∀ X Y, X0 ≤ X → X < X0 + cs → Y0 ≤ Y → Y < Y0 + cs → pix' X Y = pix X Y) →
    Good bp X0 Y0 pix → Good bp X0 Y0 pix'

/-- The clipping test of the cell loops fails: the cell is inside the viewport. -/
def InView (currwd currht x y pmscale : Int) (col row : Nat) : Prop :=
  ¬ (x + (col : Int) * pmscale < 0 ∨ y + (row : Int) * pmscale < 0 ∨
      x + (col : Int) * pmscale ≥ currwd ∨ y + (row : Int) * pmscale ≥ currht)

/-- The block property established by `stretchCell` for the cell whose state
byte is at offset `bp`: every pixel of the `cs x cs` block at `(X0, Y0)` has the
colour of that state. -/
def StretchGood (g : Globals) (byteptr : Nat → Nat) (cs : Int) (bp : Nat) (X0 Y0 : Int)
    (pix : Int → Int → Pixel) : Prop :=
  ∀ i j : Int, 0 ≤ i → i < cs → 0 ≤ j → j < cs →
    (pix (X0 + j) (Y0 + i)).rgb =
      ⟨g.cur.cellr (byteptr bp), g.cur.cellg (byteptr bp), g.cur.cellb (byteptr bp)⟩

/-- The pixel stored by the icon copy for the icon pixel `ip`. -/
def iconPaint (plat : Platform) (ip : Pixel) (r g b dr dg db : Nat) (old : Pixel) : Pixel :=
  if ip.red ≠ 0 ∨ ip.green ≠ 0 ∨ ip.blue ≠ 0 then paint plat r g b old
  else paint plat dr dg db old

/-- Description of an icon cursor. -/
def IconCursor.Is (s : IconCursor) (p : Iter) (ip : Iter) (bp : Nat) (ok : Bool)
    (pix : Int → Int → Pixel) : Prop :=
  s.iconpxl = ip ∧ s.c.Is p bp ok pix

/-- Pixels after the first `n` rows of an icon were copied. -/
def iconRowsPix (plat : Platform) (drawgap : Bool) (cs : Nat) (icon : Bitmap)
    (r g b dr dg db : Nat) (X0 Y0 : Int) (n : Nat) (old : Int → Int → Pixel) :
    Int → Int → Pixel :=
  fun X Y =>
    if Y0 ≤ Y ∧ Y < Y0 + n ∧ X0 ≤ X ∧ X < X0 + cs then
      iconPaint plat (icon.pix (X - X0) (Y - Y0)) r g b dr dg db (old X Y)
    else if drawgap = true ∧ X = X0 + cs ∧ Y0 ≤ Y ∧ Y < Y0 + n then paint plat dr dg db (old X Y)
    else old X Y

/-- Pixels after `iconCell` ran with `p` at `(X0, Y0)`. -/
def iconCellPix (plat : Platform) (drawgap : Bool) (cs : Int) (icon : Bitmap)
    (r g b dr dg db : Nat) (X0 Y0 : Int) (old : Int → Int → Pixel) : Int → Int → Pixel :=
  fun X Y =>
    if Y0 ≤ Y ∧ Y < Y0 + cs ∧ X0 ≤ X ∧ X < X0 + cs then
      iconPaint plat (icon.pix (X - X0) (Y - Y0)) r g b dr dg db (old X Y)
    else if drawgap = true ∧ ((X = X0 + cs ∧ Y0 ≤ Y ∧ Y < Y0 + cs) ∨
        (Y = Y0 + cs ∧ X0 ≤ X ∧ X ≤ X0 + cs)) then paint plat dr dg db (old X Y)
    else old X Y

/-- The block property established by `drawIconCell` for the cell whose state
byte is at offset `bp`. -/
def IconGood (g : Globals) (byteptr : Nat → Nat) (cs : Int) (bp : Nat) (X0 Y0 : Int)
    (pix : Int → Int → Pixel) : Prop :=
  (∀ icon : Bitmap, byteptr bp ≠ 0 → g.iconAt (byteptr bp) = some icon → icon.ok = true →
    ∀ i j : Int, 0 ≤ i → i < cs → 0 ≤ j → j < cs →
      (pix (X0 + j) (Y0 + i)).rgb =
        if (icon.pix j i).red ≠ 0 ∨ (icon.pix j i).green ≠ 0 ∨ (icon.pix j i).blue ≠ 0 then
          ⟨g.cur.cellr (byteptr bp), g.cur.cellg (byteptr bp), g.cur.cellb (byteptr bp)⟩
        else ⟨g.cur.cellr 0, g.cur.cellg 0, g.cur.cellb 0⟩) ∧
  ((byteptr bp = 0 ∨ g.iconAt (byteptr bp) = none) →
    ∀ i j : Int, 0 ≤ i → i < cs → 0 ≤ j → j < cs →
      (pix (X0 + j) (Y0 + i)).rgb = ⟨g.cur.cellr 0, g.cur.cellg 0, g.cur.cellb 0⟩)

/-- An icon bitmap whose pixels are all white. -/
def whiteIcon : Bitmap := ⟨true, fun _ _ => ⟨255, 255, 255, 255⟩, []⟩

/-- Globals at scale 1:8 with icons shown and a white icon for state 1 only. -/
def iconGlobals : Globals :=
  { sampleGlobals with
    showicons := true
    views := fun _ => ⟨100, 100, 3, 0, 0⟩
    iconmaps := some (fun s => if s = 1 then some whiteIcon else none) }

/-- The pixel left by the loop body of `MaskDeadPixels`. -/
def maskValue (plat : Platform) (dead : Color) (livealpha : Int) (px : Pixel) : Pixel :=
  if px.red = dead.red ∧ px.green = dead.green ∧ px.blue = dead.blue then ⟨0, 0, 0, 0⟩
  else if plat = Platform.msw then
    ⟨toByte (((px.red : Int) * livealpha).tdiv 255),
     toByte (((px.green : Int) * livealpha).tdiv 255),
     toByte (((px.blue : Int) * livealpha).tdiv 255), toByte livealpha⟩
  else { px with alpha := toByte livealpha }

/-- The callbacks and pixmap writers change nothing but the pixmap, its cached
size and the drawing calls recorded on the DCs. -/
def RenderFrame (g g' : Globals) : Prop :=
  g' = { g with pixmap := g'.pixmap, pixmapwd := g'.pixmapwd, pixmapht := g'.pixmapht,
                dc := g'.dc }

/-- A bitmap with raw access whose pixels all have the opaque colour
(48, 48, 48). -/
def grayBitmap : Bitmap := ⟨true, fun _ _ => ⟨48, 48, 48, 255⟩, []⟩

/-- Globals while a 1 x 1 paste rect is pending whose cached keys all match the
current values but whose cached magnification (2) is not the current one (0). -/
def magOnlyGlobals : Globals :=
  { sampleGlobals with
    patternviews := fun _ => ⟨⟨10, 10, 1, 1⟩, true, false, false⟩
    prectwd := 1
    prectht := 1
    cvwd := 100
    cvht := 100
    pastemag := 2
    pimagewd := 1
    pimageht := 1 }

/-- Globals while a 200 x 200 paste rect is pending over a 50 x 50 viewport at
scale 1:4 with the Middle anchor, right after `CreatePasteImage`. -/
def parityGlobals : Globals :=
  { sampleGlobals with
    plocation := PasteLocation.Middle
    views := fun _ => ⟨50, 50, 2, 0, 0⟩
    patternviews := fun _ => ⟨⟨0, 0, 200, 200⟩, true, false, false⟩ }

/-- Globals at scale 1:8 with icons switched on for a layer that has no icons. -/
def noIconGlobals : Globals :=
  { sampleGlobals with
    showicons := true
    views := fun _ => ⟨100, 100, 3, 0, 0⟩ }

/-- The pixel written by the `pmscale == 1` loop for the RGB triplet starting at
offset `k` of `pmdata`. -/
def paintTriplet (plat : Platform) (pmdata : Nat → Nat) (k : Nat) (old : Pixel) : Pixel :=
  paint plat (pmdata k) (pmdata (k + 1)) (pmdata (k + 2)) old

/-- Globals with a 100 x 100 preview bitmap cached for a 200 x 200 paste rect,
Middle anchor. -/
def pasteGlobals : Globals :=
  { parityGlobals with
    pastebitmap := some blackBitmap
    pimagewd := 100
    pimageht := 100 }

/-- The bitmap `bm'` arises from `bm` by iterator writes that all fall in the
region `S`: the ghost log grew by coordinates in `S` and the pixels outside `S`
are unchanged. -/
def Wrote (bm bm' : Bitmap) (S : Int → Int → Prop) : Prop :=
  (∃ news : List (Int × Int), bm'.written = news ++ bm.written ∧ ∀ xy ∈ news, S xy.1 xy.2) ∧
  ∀ X Y, ¬ S X Y → bm'.pix X Y = bm.pix X Y

/-- The pixels `stretchCell` (and the icon copy) may write with `p` at
`(X0, Y0)`: the `cs x cs` block and, with `drawgap`, the gap column and row. -/
def CellRegion (drawgap : Bool) (cs X0 Y0 : Int) (X Y : Int) : Prop :=
  (Y0 ≤ Y ∧ Y < Y0 + cs ∧ X0 ≤ X ∧ X < X0 + cs) ∨
  (drawgap = true ∧ ((X = X0 + cs ∧ Y0 ≤ Y ∧ Y < Y0 + cs) ∨
    (Y = Y0 + cs ∧ X0 ≤ X ∧ X ≤ X0 + cs)))

/-- The union of the regions `Reg (col * pmscale) (row * pmscale)` over the
cells of a `w x h` array that pass the clipping test. -/
def GridRegion (currwd currht x y w h pmscale : Int) (Reg : Int → Int → Int → Int → Prop)
    (X Y : Int) : Prop :=
  ∃ col row : Nat, col < w.toNat ∧ row < h.toNat ∧ InView currwd currht x y pmscale col row ∧
    Reg ((col : Int) * pmscale) ((row : Int) * pmscale) X Y

/-- The gap property established by `stretchCell` when `drawgap` is set: the
gap column and the gap row of the cell at `(X0, Y0)` have the dead colour. -/
def GapGood (g : Globals) (cs : Int) (X0 Y0 : Int) (pix : Int → Int → Pixel) : Prop :=
  (∀ i : Int, 0 ≤ i → i < cs →
    (pix (X0 + cs) (Y0 + i)).rgb = ⟨g.cur.cellr 0, g.cur.cellg 0, g.cur.cellb 0⟩) ∧
  (∀ j : Int, 0 ≤ j → j ≤ cs →
    (pix (X0 + j) (Y0 + cs)).rgb = ⟨g.cur.cellr 0, g.cur.cellg 0, g.cur.cellb 0⟩)

/-- The `pmscale x pmscale` slot of the cell `(col, row)` in the pixmap. -/
def InSlot (pmscale col row : Int) (X Y : Int) : Prop :=
  col * pmscale ≤ X ∧ X < col * pmscale + pmscale ∧
  row * pmscale ≤ Y ∧ Y < row * pmscale + pmscale

instance (pmscale col row X Y : Int) : Decidable (InSlot pmscale col row X Y) := by
  unfold InSlot; infer_instance

/-- Globals like `sampleGlobals` with grid lines allowed from scale 1:2. -/
def gapGlobals : Globals := { sampleGlobals with mingridmag := 1 }

/-- Globals like `sampleGlobals` with grid lines switched on. -/
def gridGlobals : Globals := { sampleGlobals with showgridlines := true }

/-- Globals while a 200 x 200 paste rect is pending over a 100 x 100 viewport at
scale 1:4 with the Middle anchor, right after `CreatePasteImage`. -/
def previewGlobals : Globals :=
  { sampleGlobals with
    plocation := PasteLocation.Middle
    views := fun _ => ⟨100, 100, 2, 0, 0⟩
    patternviews := fun _ => ⟨⟨0, 0, 200, 200⟩, true, false, false⟩ }

/-- Globals while a 2 x 5 paste rect is pending at (10, 20). -/
def thinPasteGlobals : Globals :=
  { sampleGlobals with
    patternviews := fun _ => ⟨⟨10, 20, 2, 5⟩, true, false, false⟩ }

/-- The rectangle `DrawPasteImage` hands to `DrawRectangle`: the paste rect
clamped against overflow. -/
def pasteBorderRect (g : Globals) : Rect :=
  let r := g.pview.pasterect
  let r := if r.x < 0 then { r with x := -1, width := r.width - (-1 - r.x) } else r
  let r := if r.y < 0 then { r with y := -1, height := r.height - (-1 - r.y) } else r
  let r := if r.width > g.curview.width then { r with width := g.curview.width + 2 } else r
  if r.height > g.curview.height then { r with height := g.curview.height + 2 } else r

/-! ## Definitions used in the statements about selections, tiles and layers -/

/-- The drawing helpers change nothing but the pixmap and its cached size, the
DC logs and `currdc`, the selection tint cache, the layer bitmap and the event
log. -/
def DrawFrame (g g' : Globals) : Prop :=
  g' = { g with pixmap := g'.pixmap, pixmapwd := g'.pixmapwd, pixmapht := g'.pixmapht,
                dc := g'.dc, currdc := g'.currdc, selwd := g'.selwd, selht := g'.selht,
                selbitmap := g'.selbitmap, graybitmap := g'.graybitmap,
                selallocs := g'.selallocs, layerbitmap := g'.layerbitmap,
                events := g'.events }

/-- The four `FillRect` calls of one tile frame, newest first: right, left,
bottom and top edge of the tile rectangle inflated by `wd`. -/
def tileFrameCmds (trect : Rect) (brush : Color) (wd : Int) : List DrawCmd :=
  [DrawCmd.fillRect ⟨trect.x - wd + (trect.width + 2 * wd - wd), trect.y - wd, wd,
      trect.height + 2 * wd⟩ brush,
   DrawCmd.fillRect ⟨trect.x - wd, trect.y - wd, wd, trect.height + 2 * wd⟩ brush,
   DrawCmd.fillRect ⟨trect.x - wd, trect.y - wd + (trect.height + 2 * wd - wd),
      trect.width + 2 * wd, wd⟩ brush,
   DrawCmd.fillRect ⟨trect.x - wd, trect.y - wd, trect.width + 2 * wd, wd⟩ brush]

/-- The frames of the tiles of the layers `0 .. n-1`, newest first. -/
def tileFrames (g : Globals) (brush : Color) : Nat → List DrawCmd
  | 0 => []
  | n + 1 => tileFrameCmds (g.layers n).tilerect brush g.tileborder ++ tileFrames g brush n

/-- The pixel lies on the frame of the tile: in one of the four edge
rectangles of the tile rectangle inflated by `wd`. -/
def InFrame (trect : Rect) (wd : Int) (X Y : Int) : Prop :=
  Rect.Contains ⟨trect.x - wd + (trect.width + 2 * wd - wd), trect.y - wd, wd,
      trect.height + 2 * wd⟩ X Y ∨
  Rect.Contains ⟨trect.x - wd, trect.y - wd, wd, trect.height + 2 * wd⟩ X Y ∨
  Rect.Contains ⟨trect.x - wd, trect.y - wd + (trect.height + 2 * wd - wd),
      trect.width + 2 * wd, wd⟩ X Y ∨
  Rect.Contains ⟨trect.x - wd, trect.y - wd, trect.width + 2 * wd, wd⟩ X Y

instance (trect : Rect) (wd X Y : Int) : Decidable (InFrame trect wd X Y) := by
  unfold InFrame; infer_instance

/-- The colour of the newest `FillRect` of a DC log (newest first) that covers
the pixel. -/
def fillColor : List DrawCmd → Int → Int → Option Color
  | [], _, _ => none
  | DrawCmd.fillRect r c :: rest, X, Y =>
    if r.Contains X Y then some c else fillColor rest X Y
  | _ :: rest, X, Y => fillColor rest X Y

/-- Globals for three tiled layers with tiles side by side, the second one
current. -/
def tileGlobals : Globals :=
  { sampleGlobals with
    numlayers := 3
    currindex := 1
    tilelayers := true
    layers := fun i => { sampleLayer with tilerect := ⟨(i : Int) * 40 + 3, 3, 34, 94⟩ } }

/-- The steps recorded so far and the layer-mode settings are the same in both
states. -/
def SameFlags (g g' : Globals) : Prop :=
  g'.steps = g.steps ∧ g'.numlayers = g.numlayers ∧ g'.stacklayers = g.stacklayers ∧
  g'.tilelayers = g.tilelayers

/-- Compositing the stacked layers changes nothing but what the drawing
helpers change and the layers, `currlayer`, `showgridlines`, the cached layer
bitmap size and the `fatal` mark. -/
def StackFrame (g g' : Globals) : Prop :=
  g' = { g with pixmap := g'.pixmap, pixmapwd := g'.pixmapwd, pixmapht := g'.pixmapht,
                dc := g'.dc, currdc := g'.currdc, selwd := g'.selwd, selht := g'.selht,
                selbitmap := g'.selbitmap, graybitmap := g'.graybitmap,
                selallocs := g'.selallocs, layerbitmap := g'.layerbitmap,
                events := g'.events, layers := g'.layers, currlayer := g'.currlayer,
                showgridlines := g'.showgridlines, layerwd := g'.layerwd,
                layerht := g'.layerht, fatal := g'.fatal }

/-- Globals for two layers with both the tiled and the stacked setting on. -/
def bothModesGlobals : Globals :=
  { sampleGlobals with numlayers := 2, tilelayers := true, stacklayers := true }

/-- Globals for three stacked layers, the second one current, with grid lines
visible and a paste pending. -/
def stackedGlobals : Globals :=
  { sampleGlobals with
    numlayers := 3
    currindex := 1
    currlayer := 1
    stacklayers := true
    layers := fun i => { sampleLayer with algo := i, currsel := i, view := i }
    patternviews := fun _ => ⟨⟨10, 10, 20, 20⟩, true, false, true⟩ }

/-- Like `sampleExt`, with the universe of layer 1 empty and a selection
visible in layers 1 and 2. -/
def stackedExt : Ext :=
  { sampleExt with
    isEmpty := fun a => decide (a = 1)
    selVisible := fun s _ => if s = 0 then none else some ⟨5, 5, 10, 10⟩ }

/-- The first part of the loop body of `DrawStackedLayers` for the index `i`:
from the top of the body to the call of `DrawOneLayer`. -/
def stackLayerDraw (plat : Platform) (ext : Ext) (dc : DCId) (i : Nat) (g : Globals) :
    Globals :=
  let s := ({ g with currlayer := i } : Globals).setDeadCell
  let s := s.setView s.currlayer (s.layers g.currlayer).view
  if ext.isEmpty s.cur.algo then s else DrawOneLayer plat ext s dc

/-- The second part of the loop body of `DrawStackedLayers` for the index `i`:
"draw this layer's selection if necessary". -/
def stackLayerSelection (plat : Platform) (ext : Ext) (dc : DCId) (i : Nat) (g : Globals) :
    Globals :=
  match ext.selVisible g.cur.currsel g.curview with
  | some r =>
    let g := CheckSelectionSize plat ext g g.layerwd g.layerht
    if (i : Int) = g.currindex then DrawSelection plat g dc r
    else DrawInactiveSelection plat g dc r
  | none => g

/-- The layer `i` with entry 0 of its colour arrays set to the dead-cell
colour. -/
def deadLayer (g : Globals) (i : Nat) : Layer :=
  { g.layers i with
    cellr := fun s => if s = 0 then g.deadrgb.red else (g.layers i).cellr s
    cellg := fun s => if s = 0 then g.deadrgb.green else (g.layers i).cellg s
    cellb := fun s => if s = 0 then g.deadrgb.blue else (g.layers i).cellb s }

/-- The calls expected for the layer `i` when the layers are stacked in the
state `g`: the engine draws the layer's universe, unless it is empty, through
the current layer's viewport with the layer's colour arrays, and the layer's
selection, if visible in that viewport, is drawn with the active tint exactly
when `i` is `currindex`. -/
def layerEvents (ext : Ext) (g : Globals) (i : Nat) : List Event :=
  (if ext.isEmpty (g.layers i).algo then []
   else [Event.draw i (g.layers i).algo g.curview (deadLayer g i).cellr (deadLayer g i).cellg
     (deadLayer g i).cellb]) ++
  (match ext.selVisible (g.layers i).currsel g.curview with
   | some r => [Event.selection i (decide ((i : Int) = g.currindex)) r]
   | none => [])

/-- The calls expected for the layers `1 .. n`, in ascending order. -/
def stackEvents (ext : Ext) (g : Globals) : Nat → List Event
  | 0 => []
  | n + 1 => stackEvents ext g n ++ layerEvents ext g (n + 1)

/-- From `g` to `g'` the steps `l` were recorded and the layer-mode settings
were kept. -/
def StepsAdd (g g' : Globals) (l : List Step) : Prop :=
  g'.steps = g.steps ++ l ∧ g'.numlayers = g.numlayers ∧ g'.stacklayers = g.stacklayers ∧
  g'.tilelayers = g.tilelayers

/-! ## Definitions used in the statements about gaps, cells and allocation -/

/-- The gap condition in the words of the specification: the scale is below
`2^mingridmag` or grid lines are off. -/
def specDrawgap (g : Globals) (pmscale : Int) : Bool :=
  decide (pmscale < 2 ^ g.mingridmag.toNat) || !g.showgridlines

/-- An allocator of bitmaps that always fails. -/
def failExt : Ext := { stackedExt with newBitmap := fun _ _ => none }

/-- Globals while a 300 x 2 paste rect is pending over a 100 x 100 viewport at
scale 1:1 with the Middle anchor. -/
def flatPasteGlobals : Globals :=
  { sampleGlobals with
    plocation := PasteLocation.Middle
    patternviews := fun _ => ⟨⟨0, 0, 300, 2⟩, true, false, false⟩ }

/-- Globals while a 300 x 40 paste rect is pending over a 100 x 100 viewport
at scale 1:4 with the TopRight anchor, for a pattern whose bounding box is
75 x 10 cells at (7, 9). -/
def cornerPasteGlobals : Globals :=
  { sampleGlobals with
    plocation := PasteLocation.TopRight
    views := fun _ => ⟨100, 100, 2, 0, 0⟩
    patternviews := fun _ => ⟨⟨0, 0, 300, 40⟩, true, false, false⟩
    pastebbox := ⟨7, 9, 75, 10⟩ }

/-- Globals with the paste image cached at scale 1:4. -/
def mag2Globals : Globals := { sampleGlobals with pastemag := 2 }

/-- Globals like `sampleGlobals` at scale 1:4 with every second grid line
bold. -/
def boldGridGlobals : Globals :=
  { sampleGlobals with views := fun _ => ⟨100, 100, 2, 0, 0⟩, boldspacing := 2 }

/-- The value of `leftbold` in `DrawGridLines`. -/
def gridLeftbold (ext : Ext) (g : Globals) : Int :=
  if g.showboldlines then
    let leftbold := ext.modSmallint (ext.viewAt00 g.curview).1 g.boldspacing
    if g.cur.originx ≠ 0 then leftbold - ext.modSmallint g.cur.originx g.boldspacing
    else leftbold
  else 0

/-- The value of `topbold` in `DrawGridLines`. -/
def gridTopbold (ext : Ext) (g : Globals) : Int :=
  if g.showboldlines then
    let topbold := ext.modSmallint (ext.viewAt00 g.curview).2 g.boldspacing
    let topbold :=
      if g.cur.originy ≠ 0 then topbold - ext.modSmallint g.cur.originy g.boldspacing
      else topbold
    if g.mathcoords then topbold - 1 else topbold
  else 0

/-! ## Definitions used in the statements about what `DrawView` restores -/

/-- The three colour arrays of the layer `b` are those of the layer `a`, either
unchanged or with entry 0 set to the colour `dead`. -/
def ColorsKept (dead : Color) (a b : Layer) : Prop :=
  (b.cellr = a.cellr ∧ b.cellg = a.cellg ∧ b.cellb = a.cellb) ∨
  (b.cellr = (fun s => if s = 0 then dead.red else a.cellr s) ∧
    b.cellg = (fun s => if s = 0 then dead.green else a.cellg s) ∧
    b.cellb = (fun s => if s = 0 then dead.blue else a.cellb s))

/-- From `g` to `g'` the current-layer pointer, the grid-line flag, the
dead-cell colour, the layer-mode settings and the view pointer of every layer
are the same, and the colour arrays of every layer are kept up to entry 0. -/
def Kept (g g' : Globals) : Prop :=
  g'.currlayer = g.currlayer ∧ g'.showgridlines = g.showgridlines ∧
  g'.deadrgb = g.deadrgb ∧ g'.numlayers = g.numlayers ∧
  g'.stacklayers = g.stacklayers ∧ g'.tilelayers = g.tilelayers ∧
  ∀ j, (g'.layers j).view = (g.layers j).view ∧
    ColorsKept g.deadrgb (g.layers j) (g'.layers j)

/-- Globals like `sampleGlobals` with the dead-cell colour (48, 48, 48). -/
def grayDeadGlobals : Globals := { sampleGlobals with deadrgb := ⟨48, 48, 48⟩ }

/-! ## Definitions used in the statement about stores past a row end -/

/-- Offset, in pixels from the start of the pixel data, of the iterator
position `xy` in a bitmap whose rows are stored one after another, `rowlen`
pixels each. -/
def rawOffset (rowlen : Int) (xy : Int × Int) : Int := xy.2 * rowlen + xy.1

/-- The content of the pixel `(X, Y)` of a bitmap whose rows, `rowlen` pixels
each, are stored one after another: the value left by the newest store that
went to the storage of that pixel, whatever the iterator position it was made
at (its own content when nothing was stored there). -/
def Bitmap.rawPix (rowlen : Int) (bm : Bitmap) (X Y : Int) : Pixel :=
  match bm.written.find? (fun xy => decide (rawOffset rowlen xy = rawOffset rowlen (X, Y))) with
  | some xy => bm.pix xy.1 xy.2
  | none => bm.pix X Y

/-! ## Loop reasoning -/

theorem putRGB_pix (plat : Platform) (bm : Bitmap) (p : Iter) (r g b : Nat) (X Y : Int) :
    (bm.putRGB plat p r g b).pix X Y =
      if X = p.x ∧ Y = p.y then paint plat r g b (bm.pix X Y) else bm.pix X Y := rfl

theorem forLoop_inv {σ : Type} (P : Nat → σ → Prop) (body : Nat → σ → σ) (s : σ) (n : Nat)
    (h0 : P 0 s) (hs : ∀ i t, i < n → P i t → P (i + 1) (body i t)) :
    P n (forLoop n body s) := by
  induction n with
  | zero => exact h0
  | succ n ih =>
    exact hs n _ (Nat.lt_succ_self n) (ih (fun i t hi => hs i t (Nat.lt_succ_of_lt hi)))

/-- The inner `j` loop painting a row segment. -/
theorem paintSeg (plat : Platform) (r g b : Nat) (n : Nat) (c : Cursor) :
    (forLoop n (fun _ c =>
      { c with bm := c.bm.putRGB plat c.p r g b, p := c.p.next }) c).Is
      ⟨c.p.x + n, c.p.y⟩ c.byteptr c.bm.ok
      (fun X Y => if Y = c.p.y ∧ c.p.x ≤ X ∧ X < c.p.x + n then paint plat r g b (c.bm.pix X Y)
        else c.bm.pix X Y) := by
  apply forLoop_inv (fun i (t : Cursor) => t.Is ⟨c.p.x + i, c.p.y⟩ c.byteptr c.bm.ok
      (fun X Y => if Y = c.p.y ∧ c.p.x ≤ X ∧ X < c.p.x + i then paint plat r g b (c.bm.pix X Y)
        else c.bm.pix X Y))
  · refine ⟨by simp, rfl, rfl, ?_⟩
    intro X Y
    beta_reduce
    rw [if_neg]; push_cast; omega
  · rintro i t _ ⟨hp, hb, hok, hpix⟩
    refine ⟨?_, hb, hok, ?_⟩
    · show t.p.next = _
      rw [hp]; simp only [Iter.next]; push_cast; congr 1; ring
    · intro X Y
      show (t.bm.putRGB plat t.p r g b).pix X Y = _
      rw [putRGB_pix, hpix, hp]
      beta_reduce
      push_cast
      by_cases h1 : X = c.p.x + i ∧ Y = c.p.y
      · rw [if_pos h1, if_neg (by omega), if_pos (by omega)]
      · rw [if_neg h1]
        by_cases h2 : Y = c.p.y ∧ c.p.x ≤ X ∧ X < c.p.x + i
        · rw [if_pos h2, if_pos (by omega)]
        · rw [if_neg h2, if_neg (by omega)]

/-- The `i` loop of `stretchCell`. -/
theorem stretchRows (plat : Platform) (drawgap : Bool) (cs : Nat) (r g b dr dg db : Nat)
    (n : Nat) (c : Cursor) :
    (forLoop n (fun _ c =>
      let colstart := c.p
      let c := forLoop cs (fun _ c =>
        { c with bm := c.bm.putRGB plat c.p r g b, p := c.p.next }) c
      let c := if drawgap then
          { c with bm := c.bm.putRGB plat c.p dr dg db }
        else c
      { c with p := colstart.offsetY 1 }) c).Is
      ⟨c.p.x, c.p.y + n⟩ c.byteptr c.bm.ok
      (rowsPix plat drawgap cs r g b dr dg db c.p.x c.p.y n c.bm.pix) := by
  apply forLoop_inv (fun i (t : Cursor) => t.Is ⟨c.p.x, c.p.y + i⟩ c.byteptr c.bm.ok
      (rowsPix plat drawgap cs r g b dr dg db c.p.x c.p.y i c.bm.pix))
  · refine ⟨by simp, rfl, rfl, ?_⟩
    intro X Y
    simp only [rowsPix]
    rw [if_neg (by push_cast; omega), if_neg (by push_cast; omega)]
  · rintro i t _ ⟨hp, hb, hok, hpix⟩
    obtain ⟨hp1, hb1, hok1, hpix1⟩ := paintSeg plat r g b cs t
    beta_reduce at hpix1
    rw [hp] at hp1 hpix1
    dsimp only at hp1 hpix1
    cases drawgap
    · refine ⟨?_, hb1.trans hb, hok1.trans hok, ?_⟩
      · show t.p.offsetY 1 = _
        rw [hp]; simp only [Iter.offsetY]; push_cast; congr 1; ring
      · intro X Y
        show (forLoop cs _ t).bm.pix X Y = _
        rw [hpix1, hpix]
        simp only [rowsPix, Bool.false_eq_true, false_and, true_and, if_false]
        push_cast
        split_ifs <;> first | rfl | (exfalso; omega)
    · refine ⟨?_, hb1.trans hb, hok1.trans hok, ?_⟩
      · show t.p.offsetY 1 = _
        rw [hp]; simp only [Iter.offsetY]; push_cast; congr 1; ring
      · intro X Y
        show ((forLoop cs _ t).bm.putRGB plat (forLoop cs _ t).p dr dg db).pix X Y = _
        rw [putRGB_pix, hpix1, hpix, hp1]
        simp only [rowsPix, Bool.false_eq_true, false_and, true_and, if_false]
        push_cast
        split_ifs <;> first | rfl | (exfalso; omega)

theorem stretchCell_is (plat : Platform) (drawgap : Bool) (cellsize : Int) (hcs : 0 ≤ cellsize)
    (r g b dr dg db : Nat) (c : Cursor) :
    (stretchCell plat drawgap cellsize r g b dr dg db c).Is c.p c.byteptr c.bm.ok
      (cellPix plat drawgap cellsize r g b dr dg db c.p.x c.p.y c.bm.pix) := by
  obtain ⟨hp, hb, hok, hpix⟩ :=
    stretchRows plat drawgap cellsize.toNat r g b dr dg db cellsize.toNat c
  have hcast : ((cellsize.toNat : Nat) : Int) = cellsize := Int.toNat_of_nonneg hcs
  rw [hcast] at hp
  unfold stretchCell
  cases drawgap
  · refine ⟨rfl, hb, hok, ?_⟩
    intro X Y
    show (forLoop cellsize.toNat _ c).bm.pix X Y = _
    rw [hpix]
    simp only [rowsPix, cellPix, Bool.false_eq_true, false_and, if_false, hcast]
  · obtain ⟨hp2, hb2, hok2, hpix2⟩ := paintSeg plat dr dg db (cellsize + 1).toNat
      (forLoop cellsize.toNat (fun _ c =>
        let colstart := c.p
        let c := forLoop cellsize.toNat (fun _ c =>
          { c with bm := c.bm.putRGB plat c.p r g b, p := c.p.next }) c
        let c := if true then
            { c with bm := c.bm.putRGB plat c.p dr dg db }
          else c
        { c with p := colstart.offsetY 1 }) c)
    have hcast2 : (((cellsize + 1).toNat : Nat) : Int) = cellsize + 1 :=
      Int.toNat_of_nonneg (by omega)
    beta_reduce at hpix2
    rw [hp] at hpix2
    dsimp only at hpix2
    refine ⟨rfl, hb2.trans hb, hok2.trans hok, ?_⟩
    intro X Y
    show (forLoop (cellsize + 1).toNat _ (forLoop cellsize.toNat _ c)).bm.pix X Y = _
    rw [hpix2, hpix]
    simp only [rowsPix, cellPix, true_and, hcast, hcast2]
    split_ifs <;> first | rfl | (exfalso; omega)

theorem gridRow (currwd currht x y w pmscale : Int) (F : Cursor → Cursor) (cs : Int)
    (Good : Nat → Int → Int → (Int → Int → Pixel) → Prop) (hF : CellOK F cs Good)
    (hcs : 0 ≤ cs) (hle : cs ≤ pmscale) (R : Nat) (c0 : Cursor)
    (hp0 : c0.p = ⟨0, (R : Int) * pmscale⟩) (hb0 : c0.byteptr = R * w.toNat) (n : Nat) :
    let t := forLoop n (fun col c =>
      let newx := x + (col : Int) * pmscale
      let newy := y + (R : Int) * pmscale
      let c := if newx < 0 ∨ newy < 0 ∨ newx ≥ currwd ∨ newy ≥ currht then c else F c
      { c with p := c.p.offsetX pmscale, byteptr := c.byteptr + 1 }) c0
    t.p = ⟨(n : Int) * pmscale, (R : Int) * pmscale⟩ ∧ t.byteptr = R * w.toNat + n ∧
    t.bm.ok = c0.bm.ok ∧
    (∀ X Y, Y < (R : Int) * pmscale → t.bm.pix X Y = c0.bm.pix X Y) ∧
    (∀ k, k < n → InView currwd currht x y pmscale k R →
      Good (R * w.toNat + k) ((k : Int) * pmscale) ((R : Int) * pmscale) t.bm.pix) := by
  have hs : 0 ≤ pmscale := le_trans hcs hle
  apply forLoop_inv (fun n (t : Cursor) =>
    t.p = ⟨(n : Int) * pmscale, (R : Int) * pmscale⟩ ∧ t.byteptr = R * w.toNat + n ∧
    t.bm.ok = c0.bm.ok ∧
    (∀ X Y, Y < (R : Int) * pmscale → t.bm.pix X Y = c0.bm.pix X Y) ∧
    (∀ k, k < n → InView currwd currht x y pmscale k R →
      Good (R * w.toNat + k) ((k : Int) * pmscale) ((R : Int) * pmscale) t.bm.pix))
  · refine ⟨by rw [hp0]; simp, by rw [hb0]; simp, rfl, fun _ _ _ => rfl, ?_⟩
    intro k hk; omega
  · rintro i t _ ⟨hp, hb, hok, hfr, hgood⟩
    by_cases hclip : x + (i : Int) * pmscale < 0 ∨ y + (R : Int) * pmscale < 0 ∨
        x + (i : Int) * pmscale ≥ currwd ∨ y + (R : Int) * pmscale ≥ currht
    · simp only [if_pos hclip]
      refine ⟨?_, ?_, hok, hfr, ?_⟩
      · rw [hp]; simp only [Iter.offsetX]; push_cast; congr 1; ring
      · rw [hb]; ring
      · intro k hk hin
        rcases Nat.lt_succ_iff_lt_or_eq.mp hk with hk' | hk'
        · exact hgood k hk' hin
        · subst hk'; exact absurd hclip hin
    · simp only [if_neg hclip]
      refine ⟨?_, ?_, ?_, ?_, ?_⟩
      · rw [hF.keep_p, hp]; simp only [Iter.offsetX]; push_cast; congr 1; ring
      · rw [hF.keep_byteptr, hb]; ring
      · rw [hF.keep_ok, hok]
      · intro X Y hY
        show (F t).bm.pix X Y = _
        rw [hF.frame t X Y (Or.inr (by rw [hp]; exact hY)), hfr X Y hY]
      · intro k hk hin
        show Good _ _ _ (F t).bm.pix
        rcases Nat.lt_succ_iff_lt_or_eq.mp hk with hk' | hk'
        · refine hF.stable _ _ _ t.bm.pix _ ?_ (hgood k hk' hin)
          intro X Y _ hX _ _
          apply hF.frame
          left
          rw [hp]
          show X < (i : Int) * pmscale
          have h1 : ((k : Int) + 1) * pmscale ≤ (i : Int) * pmscale :=
            mul_le_mul_of_nonneg_right (by exact_mod_cast hk') hs
          have h2 : ((k : Int) + 1) * pmscale = (k : Int) * pmscale + pmscale := by ring
          omega
        · subst hk'
          have := hF.good t
          rw [hp, hb] at this
          exact this

theorem gridLoops_good (currwd currht x y w h pmscale : Int) (F : Cursor → Cursor) (cs : Int)
    (Good : Nat → Int → Int → (Int → Int → Pixel) → Prop) (hF : CellOK F cs Good)
    (hcs : 0 ≤ cs) (hle : cs ≤ pmscale) (bm : Bitmap) :
    (gridLoops currwd currht x y w h pmscale F bm).bm.ok = bm.ok ∧
    ∀ R k, R < h.toNat → k < w.toNat → InView currwd currht x y pmscale k R →
      Good (R * w.toNat + k) ((k : Int) * pmscale) ((R : Int) * pmscale)
        (gridLoops currwd currht x y w h pmscale F bm).bm.pix := by
  have hs : 0 ≤ pmscale := le_trans hcs hle
  have key := forLoop_inv (fun n (t : Cursor) =>
    t.p = ⟨0, (n : Int) * pmscale⟩ ∧ t.byteptr = n * w.toNat ∧ t.bm.ok = bm.ok ∧
    (∀ R k, R < n → k < w.toNat → InView currwd currht x y pmscale k R →
      Good (R * w.toNat + k) ((k : Int) * pmscale) ((R : Int) * pmscale) t.bm.pix))
    (fun row c =>
      let rowstart := c.p
      let c := forLoop w.toNat (fun col c =>
        let newx := x + (col : Int) * pmscale
        let newy := y + (row : Int) * pmscale
        let c := if newx < 0 ∨ newy < 0 ∨ newx ≥ currwd ∨ newy ≥ currht then c else F c
        { c with p := c.p.offsetX pmscale, byteptr := c.byteptr + 1 }) c
      { c with p := rowstart.offsetY pmscale }) ⟨bm, ⟨0, 0⟩, 0⟩ h.toNat
    (by
      refine ⟨by simp, by simp, rfl, ?_⟩
      intro R k hR; omega)
    (by
      rintro i t _ ⟨hp, hb, hok, hgood⟩
      obtain ⟨_, hb1, hok1, hfr1, hgood1⟩ :=
        gridRow currwd currht x y w pmscale F cs Good hF hcs hle i t hp hb w.toNat
      refine ⟨?_, ?_, hok1.trans hok, ?_⟩
      · show t.p.offsetY pmscale = _
        rw [hp]; simp only [Iter.offsetY]; push_cast; congr 1; ring
      · show (forLoop w.toNat _ t).byteptr = _
        rw [hb1]; ring
      · intro R k hR hk hin
        show Good _ _ _ (forLoop w.toNat _ t).bm.pix
        rcases Nat.lt_succ_iff_lt_or_eq.mp hR with hR' | hR'
        · refine hF.stable _ _ _ t.bm.pix _ ?_ (hgood R k hR' hk hin)
          intro X Y _ _ _ hY
          apply hfr1
          have h1 : ((R : Int) + 1) * pmscale ≤ (i : Int) * pmscale :=
            mul_le_mul_of_nonneg_right (by exact_mod_cast hR') hs
          have h2 : ((R : Int) + 1) * pmscale = (R : Int) * pmscale + pmscale := by ring
          omega
        · subst hR'
          exact hgood1 k hk hin)
  exact ⟨key.2.2.1, key.2.2.2⟩

/-! ## killrect -/

theorem rect_meets_viewport_iff (x y w h cw ch : Int) (hcw : 0 < cw) (hch : 0 < ch) :
    Rect.Meets ⟨x, y, w, h⟩ ⟨0, 0, cw, ch⟩ ↔
      0 < w ∧ 0 < h ∧ x < cw ∧ 0 < x + w ∧ y < ch ∧ 0 < y + h := by
  constructor
  · rintro ⟨px, py, h1, h2⟩
    simp only [Rect.Contains] at h1 h2
    omega
  · intro hh
    have hx : x ≤ max x 0 ∧ 0 ≤ max x 0 ∧ (max x 0 = x ∨ max x 0 = 0) := by
      rcases le_total x 0 with hx | hx <;> simp [hx]
    have hy : y ≤ max y 0 ∧ 0 ≤ max y 0 ∧ (max y 0 = y ∨ max y 0 = 0) := by
      rcases le_total y 0 with hy | hy <;> simp [hy]
    refine ⟨max x 0, max y 0, ?_, ?_⟩ <;> simp only [Rect.Contains] <;> omega

/-- C9: for a viewport of positive size, `killrect` fills nothing when the
rectangle has non-positive extent or does not meet the viewport; otherwise it
issues one `FillRect` with the dead-cell brush whose rectangle is exactly the
intersection of the given rectangle with the viewport, is non-empty and lies
inside the viewport. -/
theorem killrect_fills_intersection (g : Globals) (x y w h : Int)
    (hwd : 0 < g.currwd) (hht : 0 < g.currht) :
    ((w ≤ 0 ∨ h ≤ 0 ∨ ¬ Rect.Meets ⟨x, y, w, h⟩ ⟨0, 0, g.currwd, g.currht⟩) →
        killrect g x y w h = g) ∧
    (¬ (w ≤ 0 ∨ h ≤ 0 ∨ ¬ Rect.Meets ⟨x, y, w, h⟩ ⟨0, 0, g.currwd, g.currht⟩) →
      ∃ r : Rect, killrect g x y w h = g.emit (DrawCmd.fillRect r g.deadbrush) ∧
        (∀ px py, r.Contains px py ↔
          Rect.Contains ⟨x, y, w, h⟩ px py ∧ Rect.Contains ⟨0, 0, g.currwd, g.currht⟩ px py) ∧
        (∃ px py, r.Contains px py) ∧
        (∀ px py, r.Contains px py → Rect.Contains ⟨0, 0, g.currwd, g.currht⟩ px py)) := by
  rw [rect_meets_viewport_iff x y w h _ _ hwd hht]
  constructor
  · intro hno
    unfold killrect
    by_cases h1 : x ≥ g.currwd ∨ y ≥ g.currht
    · rw [if_pos h1]
    · rw [if_neg h1]
      by_cases h2 : x + w ≤ 0 ∨ y + h ≤ 0
      · rw [if_pos h2]
      · rw [if_neg h2]
        have h3 : w ≤ 0 ∨ h ≤ 0 := by omega
        rw [if_pos h3]
  · intro hyes
    have h1 : ¬ (x ≥ g.currwd ∨ y ≥ g.currht) := by omega
    have h2 : ¬ (x + w ≤ 0 ∨ y + h ≤ 0) := by omega
    have h3 : ¬ (w ≤ 0 ∨ h ≤ 0) := by omega
    refine ⟨⟨if x < 0 then 0 else x, if y < 0 then 0 else y,
      (if x + w > g.currwd then g.currwd else x + w) - (if x < 0 then 0 else x),
      (if y + h > g.currht then g.currht else y + h) - (if y < 0 then 0 else y)⟩,
      ?_, ?_, ?_, ?_⟩
    · unfold killrect
      rw [if_neg h1, if_neg h2, if_neg h3]
    · intro px py
      simp only [Rect.Contains]
      split_ifs <;> omega
    · refine ⟨if x < 0 then 0 else x, if y < 0 then 0 else y, ?_⟩
      simp only [Rect.Contains]
      split_ifs <;> omega
    · intro px py
      simp only [Rect.Contains]
      split_ifs <;> omega

/-- C9, instance: a rectangle sticking out of the left and bottom edges of a
100 x 100 viewport. -/
theorem killrect_fills_intersection_witness :
    (0 : Int) < sampleGlobals.currwd ∧ (0 : Int) < sampleGlobals.currht ∧
    ∃ r : Rect, killrect sampleGlobals (-5) 90 20 20 =
        sampleGlobals.emit (DrawCmd.fillRect r sampleGlobals.deadbrush) ∧
      (∀ px py, r.Contains px py ↔
        Rect.Contains ⟨-5, 90, 20, 20⟩ px py ∧
          Rect.Contains ⟨0, 0, sampleGlobals.currwd, sampleGlobals.currht⟩ px py) ∧
      (∃ px py, r.Contains px py) ∧
      (∀ px py, r.Contains px py →
        Rect.Contains ⟨0, 0, sampleGlobals.currwd, sampleGlobals.currht⟩ px py) :=
  ⟨by decide, by decide,
    (killrect_fills_intersection sampleGlobals (-5) 90 20 20 (by decide) (by decide)).2
      (fun h => h.elim (by decide) (fun h => h.elim (by decide)
        (fun hn => hn ⟨0, 90, by decide, by decide⟩)))⟩

/-! ## DrawStretchedPixmap: the cell loops -/

theorem stretchLoops_eq (plat : Platform) (g : Globals) (byteptr : Nat → Nat)
    (x y w h pmscale : Int) (bm : Bitmap) :
    stretchLoops plat g byteptr x y w h pmscale bm =
      gridLoops g.currwd g.currht x y w h pmscale
        (fun c => stretchCell plat (stretchDrawgap plat g pmscale)
          (if pmscale > 2 then pmscale - 1 else pmscale)
          (g.cur.cellr (byteptr c.byteptr)) (g.cur.cellg (byteptr c.byteptr))
          (g.cur.cellb (byteptr c.byteptr)) (g.cur.cellr 0) (g.cur.cellg 0) (g.cur.cellb 0) c)
        bm := rfl

theorem stretchCell_ok (plat : Platform) (g : Globals) (byteptr : Nat → Nat)
    (drawgap : Bool) (cs : Int) (hcs : 0 ≤ cs) :
    CellOK (fun c => stretchCell plat drawgap cs
          (g.cur.cellr (byteptr c.byteptr)) (g.cur.cellg (byteptr c.byteptr))
          (g.cur.cellb (byteptr c.byteptr)) (g.cur.cellr 0) (g.cur.cellg 0) (g.cur.cellb 0) c)
      cs (StretchGood g byteptr cs) where
  keep_p := fun c => (stretchCell_is plat drawgap cs hcs _ _ _ _ _ _ c).1
  keep_byteptr := fun c => (stretchCell_is plat drawgap cs hcs _ _ _ _ _ _ c).2.1
  keep_ok := fun c => (stretchCell_is plat drawgap cs hcs _ _ _ _ _ _ c).2.2.1
  frame := by
    intro c X Y hXY
    rw [(stretchCell_is plat drawgap cs hcs _ _ _ _ _ _ c).2.2.2 X Y]
    simp only [cellPix]
    split_ifs <;> first | rfl | (exfalso; omega)
  good := by
    intro c i j hi hi' hj hj'
    rw [(stretchCell_is plat drawgap cs hcs _ _ _ _ _ _ c).2.2.2]
    simp only [cellPix]
    rw [if_pos (by omega)]
    rfl
  stable := by
    intro bp X0 Y0 pix pix' hsame hgood i j hi hi' hj hj'
    rw [hsame _ _ (by omega) (by omega) (by omega) (by omega)]
    exact hgood i j hi hi' hj hj'

/-! ## DrawIcons: cell blocks -/

theorem iconPut_pix (plat : Platform) (ip : Pixel) (bm : Bitmap) (p : Iter)
    (r g b dr dg db : Nat) (X Y : Int) :
    (if ip.red ≠ 0 ∨ ip.green ≠ 0 ∨ ip.blue ≠ 0 then bm.putRGB plat p r g b
      else bm.putRGB plat p dr dg db).pix X Y =
      if X = p.x ∧ Y = p.y then iconPaint plat ip r g b dr dg db (bm.pix X Y)
      else bm.pix X Y := by
  unfold iconPaint
  split_ifs <;> simp_all [putRGB_pix]

theorem iconPut_ok (plat : Platform) (ip : Pixel) (bm : Bitmap) (p : Iter)
    (r g b dr dg db : Nat) :
    (if ip.red ≠ 0 ∨ ip.green ≠ 0 ∨ ip.blue ≠ 0 then bm.putRGB plat p r g b
      else bm.putRGB plat p dr dg db).ok = bm.ok := by
  split_ifs <;> rfl

theorem iconSeg (plat : Platform) (icon : Bitmap) (r g b dr dg db : Nat) (n : Nat)
    (s : IconCursor) :
    (forLoop n (fun _ s =>
      let ip := icon.pix s.iconpxl.x s.iconpxl.y
      let bm :=
        if ip.red ≠ 0 ∨ ip.green ≠ 0 ∨ ip.blue ≠ 0 then s.c.bm.putRGB plat s.c.p r g b
        else s.c.bm.putRGB plat s.c.p dr dg db
      ({ c := { s.c with bm := bm, p := s.c.p.next }, iconpxl := s.iconpxl.next } : IconCursor))
      s).Is
      ⟨s.c.p.x + n, s.c.p.y⟩ ⟨s.iconpxl.x + n, s.iconpxl.y⟩ s.c.byteptr s.c.bm.ok
      (fun X Y => if Y = s.c.p.y ∧ s.c.p.x ≤ X ∧ X < s.c.p.x + n then
          iconPaint plat (icon.pix (s.iconpxl.x + (X - s.c.p.x)) s.iconpxl.y) r g b dr dg db
            (s.c.bm.pix X Y)
        else s.c.bm.pix X Y) := by
  apply forLoop_inv (fun i (t : IconCursor) => t.Is
      ⟨s.c.p.x + i, s.c.p.y⟩ ⟨s.iconpxl.x + i, s.iconpxl.y⟩ s.c.byteptr s.c.bm.ok
      (fun X Y => if Y = s.c.p.y ∧ s.c.p.x ≤ X ∧ X < s.c.p.x + i then
          iconPaint plat (icon.pix (s.iconpxl.x + (X - s.c.p.x)) s.iconpxl.y) r g b dr dg db
            (s.c.bm.pix X Y)
        else s.c.bm.pix X Y))
  · refine ⟨by simp, by simp, rfl, rfl, ?_⟩
    intro X Y
    beta_reduce
    rw [if_neg]; push_cast; omega
  · rintro i t _ ⟨hi, hp, hb, hok, hpix⟩
    refine ⟨?_, ?_, hb, ?_, ?_⟩
    · show t.iconpxl.next = _
      rw [hi]; simp only [Iter.next]; push_cast; congr 1; ring
    · show t.c.p.next = _
      rw [hp]; simp only [Iter.next]; push_cast; congr 1; ring
    · show (if _ then t.c.bm.putRGB plat t.c.p r g b else t.c.bm.putRGB plat t.c.p dr dg db).ok = _
      rw [iconPut_ok, hok]
    · intro X Y
      show (if _ then t.c.bm.putRGB plat t.c.p r g b
        else t.c.bm.putRGB plat t.c.p dr dg db).pix X Y = _
      rw [iconPut_pix, hpix, hi, hp]
      beta_reduce
      dsimp only
      push_cast
      by_cases hpos : X = s.c.p.x + i ∧ Y = s.c.p.y
      · obtain ⟨hX, hY⟩ := hpos
        subst hX hY
        have e1 : s.iconpxl.x + (s.c.p.x + (i : Int) - s.c.p.x) = s.iconpxl.x + i := by ring
        rw [if_pos ⟨rfl, rfl⟩, if_neg (by omega), if_pos (by omega), e1]
      · rw [if_neg hpos]
        split_ifs <;> first | rfl | (exfalso; omega)

/-- The `i` loop of `iconCell`. -/
theorem iconRows (plat : Platform) (drawgap : Bool) (cs : Nat) (icon : Bitmap)
    (r g b dr dg db : Nat) (n : Nat) (c : Cursor) :
    (forLoop n (fun _ s =>
      let colstart := s.c.p
      let iconrow := s.iconpxl
      let s := forLoop cs (fun _ s =>
        let ip := icon.pix s.iconpxl.x s.iconpxl.y
        let bm :=
          if ip.red ≠ 0 ∨ ip.green ≠ 0 ∨ ip.blue ≠ 0 then s.c.bm.putRGB plat s.c.p r g b
          else s.c.bm.putRGB plat s.c.p dr dg db
        { c := { s.c with bm := bm, p := s.c.p.next }, iconpxl := s.iconpxl.next }) s
      let c := if drawgap then
          { s.c with bm := s.c.bm.putRGB plat s.c.p dr dg db }
        else s.c
      { c := { c with p := colstart.offsetY 1 }, iconpxl := iconrow.offsetY 1 })
      (IconCursor.mk c ⟨0, 0⟩)).Is
      ⟨c.p.x, c.p.y + n⟩ ⟨0, n⟩ c.byteptr c.bm.ok
      (iconRowsPix plat drawgap cs icon r g b dr dg db c.p.x c.p.y n c.bm.pix) := by
  apply forLoop_inv (fun i (t : IconCursor) => t.Is
      ⟨c.p.x, c.p.y + i⟩ ⟨0, i⟩ c.byteptr c.bm.ok
      (iconRowsPix plat drawgap cs icon r g b dr dg db c.p.x c.p.y i c.bm.pix))
  · refine ⟨by simp, by simp, rfl, rfl, ?_⟩
    intro X Y
    simp only [iconRowsPix]
    rw [if_neg (by push_cast; omega), if_neg (by push_cast; omega)]
  · rintro i t _ ⟨hi, hp, hb, hok, hpix⟩
    obtain ⟨hi1, hp1, hb1, hok1, hpix1⟩ := iconSeg plat icon r g b dr dg db cs t
    beta_reduce at hpix1
    rw [hp, hi] at hpix1
    rw [hp] at hp1
    rw [hi] at hi1
    dsimp only at hp1 hpix1 hi1
    cases drawgap
    · refine ⟨?_, ?_, hb1.trans hb, hok1.trans hok, ?_⟩
      · show t.iconpxl.offsetY 1 = _
        rw [hi]; simp only [Iter.offsetY]; push_cast; rfl
      · show t.c.p.offsetY 1 = _
        rw [hp]; simp only [Iter.offsetY]; push_cast; congr 1; ring
      · intro X Y
        show (forLoop cs _ t).c.bm.pix X Y = _
        rw [hpix1, hpix]
        simp only [iconRowsPix, Bool.false_eq_true, false_and, if_false]
        push_cast
        by_cases hrow : Y = c.p.y + i ∧ c.p.x ≤ X ∧ X < c.p.x + cs
        · have e1 : (0 : Int) + (X - c.p.x) = X - c.p.x := by ring
          have e2 : (i : Int) = Y - c.p.y := by omega
          rw [if_pos hrow, if_neg (by omega), if_pos (by omega), e1, e2]
        · rw [if_neg hrow]
          split_ifs <;> first | rfl | (exfalso; omega)
    · refine ⟨?_, ?_, hb1.trans hb, hok1.trans hok, ?_⟩
      · show t.iconpxl.offsetY 1 = _
        rw [hi]; simp only [Iter.offsetY]; push_cast; rfl
      · show t.c.p.offsetY 1 = _
        rw [hp]; simp only [Iter.offsetY]; push_cast; congr 1; ring
      · intro X Y
        show ((forLoop cs _ t).c.bm.putRGB plat (forLoop cs _ t).c.p dr dg db).pix X Y = _
        rw [putRGB_pix, hpix1, hpix, hp1]
        simp only [iconRowsPix, true_and]
        push_cast
        by_cases hrow : Y = c.p.y + i ∧ c.p.x ≤ X ∧ X < c.p.x + cs
        · have e1 : (0 : Int) + (X - c.p.x) = X - c.p.x := by ring
          have e2 : (i : Int) = Y - c.p.y := by omega
          rw [if_neg (by omega), if_pos hrow, if_neg (by omega), if_neg (by omega),
            if_pos (by omega), e1, e2]
        · rw [if_neg hrow]
          split_ifs <;> first | rfl | (exfalso; omega)

theorem iconCell_is (plat : Platform) (drawgap : Bool) (cellsize : Int) (hcs : 0 ≤ cellsize)
    (icon : Bitmap) (r g b dr dg db : Nat) (c : Cursor) :
    (iconCell plat drawgap cellsize icon r g b dr dg db c).byteptr = c.byteptr ∧
    (iconCell plat drawgap cellsize icon r g b dr dg db c).bm.ok = c.bm.ok ∧
    ∀ X Y, (iconCell plat drawgap cellsize icon r g b dr dg db c).bm.pix X Y =
      iconCellPix plat drawgap cellsize icon r g b dr dg db c.p.x c.p.y c.bm.pix X Y := by
  obtain ⟨_, hp, hb, hok, hpix⟩ :=
    iconRows plat drawgap cellsize.toNat icon r g b dr dg db cellsize.toNat c
  have hcast : ((cellsize.toNat : Nat) : Int) = cellsize := Int.toNat_of_nonneg hcs
  rw [hcast] at hp
  unfold iconCell
  cases drawgap
  · refine ⟨hb, hok, ?_⟩
    intro X Y
    show (forLoop cellsize.toNat _ (IconCursor.mk c ⟨0, 0⟩)).c.bm.pix X Y = _
    rw [hpix]
    simp only [iconRowsPix, iconCellPix, Bool.false_eq_true, false_and, if_false, hcast]
  · obtain ⟨hp2, hb2, hok2, hpix2⟩ := paintSeg plat dr dg db (cellsize + 1).toNat
      (forLoop cellsize.toNat (fun _ s =>
        let colstart := s.c.p
        let iconrow := s.iconpxl
        let s := forLoop cellsize.toNat (fun _ s =>
          let ip := icon.pix s.iconpxl.x s.iconpxl.y
          let bm :=
            if ip.red ≠ 0 ∨ ip.green ≠ 0 ∨ ip.blue ≠ 0 then s.c.bm.putRGB plat s.c.p r g b
            else s.c.bm.putRGB plat s.c.p dr dg db
          { c := { s.c with bm := bm, p := s.c.p.next }, iconpxl := s.iconpxl.next }) s
        let c := if true then
            { s.c with bm := s.c.bm.putRGB plat s.c.p dr dg db }
          else s.c
        { c := { c with p := colstart.offsetY 1 }, iconpxl := iconrow.offsetY 1 })
        (IconCursor.mk c ⟨0, 0⟩)).c
    have hcast2 : (((cellsize + 1).toNat : Nat) : Int) = cellsize + 1 :=
      Int.toNat_of_nonneg (by omega)
    beta_reduce at hpix2
    rw [hp] at hpix2
    dsimp only at hpix2
    refine ⟨hb2.trans hb, hok2.trans hok, ?_⟩
    intro X Y
    show (forLoop (cellsize + 1).toNat _
      (forLoop cellsize.toNat _ (IconCursor.mk c ⟨0, 0⟩)).c).bm.pix X Y = _
    rw [hpix2, hpix]
    simp only [iconRowsPix, iconCellPix, true_and, hcast, hcast2]
    split_ifs <;> first | rfl | (exfalso; omega)

theorem iconLoops_eq (plat : Platform) (g : Globals) (byteptr : Nat → Nat)
    (x y w h pmscale : Int) (bm : Bitmap) :
    iconLoops plat g byteptr x y w h pmscale bm =
      gridLoops g.currwd g.currht x y w h pmscale
        (fun c => drawIconCell plat g (iconDrawgap g pmscale) (pmscale - 1)
          (byteptr c.byteptr) c) bm := rfl

theorem drawIconCell_cases (plat : Platform) (g : Globals) (drawgap : Bool) (cs : Int)
    (state : Nat) (c : Cursor) :
    (∀ icon, state ≠ 0 → g.iconAt state = some icon → icon.ok = true →
      drawIconCell plat g drawgap cs state c =
        { iconCell plat drawgap cs icon (g.cur.cellr state) (g.cur.cellg state)
            (g.cur.cellb state) (g.cur.cellr 0) (g.cur.cellg 0) (g.cur.cellb 0) c
          with p := c.p }) ∧
    (∀ icon, state ≠ 0 → g.iconAt state = some icon → icon.ok = false →
      drawIconCell plat g drawgap cs state c = c) ∧
    ((state = 0 ∨ g.iconAt state = none) →
      drawIconCell plat g drawgap cs state c =
        { stretchCell plat drawgap cs (g.cur.cellr 0) (g.cur.cellg 0) (g.cur.cellb 0)
            (g.cur.cellr 0) (g.cur.cellg 0) (g.cur.cellb 0) c with p := c.p }) := by
  refine ⟨?_, ?_, ?_⟩
  · intro icon hs hic hok
    simp only [drawIconCell, if_pos hs, hic, hok, if_true]
  · intro icon hs hic hok
    simp only [drawIconCell, if_pos hs, hic, hok, Bool.false_eq_true, if_false]
  · rintro (hs | hic)
    · simp only [drawIconCell, hs, ne_eq, not_true_eq_false, if_false]
    · by_cases hs : state = 0
      · simp only [drawIconCell, hs, ne_eq, not_true_eq_false, if_false]
      · simp only [drawIconCell, ne_eq, hs, not_false_eq_true, if_true, hic]

theorem drawIconCell_ok (plat : Platform) (g : Globals) (byteptr : Nat → Nat)
    (drawgap : Bool) (cs : Int) (hcs : 0 ≤ cs) :
    CellOK (fun c => drawIconCell plat g drawgap cs (byteptr c.byteptr) c)
      cs (IconGood g byteptr cs) := by
  have hcase : ∀ c : Cursor,
      (∃ icon, byteptr c.byteptr ≠ 0 ∧ g.iconAt (byteptr c.byteptr) = some icon ∧
        icon.ok = true) ∨
      (∃ icon, byteptr c.byteptr ≠ 0 ∧ g.iconAt (byteptr c.byteptr) = some icon ∧
        icon.ok = false) ∨
      (byteptr c.byteptr = 0 ∨ g.iconAt (byteptr c.byteptr) = none) := by
    intro c
    by_cases hs : byteptr c.byteptr = 0
    · exact Or.inr (Or.inr (Or.inl hs))
    · cases hic : g.iconAt (byteptr c.byteptr) with
      | none => exact Or.inr (Or.inr (Or.inr rfl))
      | some icon =>
        cases hok : icon.ok with
        | true => exact Or.inl ⟨icon, hs, rfl, hok⟩
        | false => exact Or.inr (Or.inl ⟨icon, hs, rfl, hok⟩)
  refine ⟨?_, ?_, ?_, ?_, ?_, ?_⟩
  · intro c
    rcases hcase c with ⟨icon, hs, hic, hok⟩ | ⟨icon, hs, hic, hok⟩ | hd
    · rw [(drawIconCell_cases plat g drawgap cs _ c).1 icon hs hic hok]
    · rw [(drawIconCell_cases plat g drawgap cs _ c).2.1 icon hs hic hok]
    · rw [(drawIconCell_cases plat g drawgap cs _ c).2.2 hd]
  · intro c
    rcases hcase c with ⟨icon, hs, hic, hok⟩ | ⟨icon, hs, hic, hok⟩ | hd
    · rw [(drawIconCell_cases plat g drawgap cs _ c).1 icon hs hic hok]
      exact (iconCell_is plat drawgap cs hcs icon _ _ _ _ _ _ c).1
    · rw [(drawIconCell_cases plat g drawgap cs _ c).2.1 icon hs hic hok]
    · rw [(drawIconCell_cases plat g drawgap cs _ c).2.2 hd]
      exact (stretchCell_is plat drawgap cs hcs _ _ _ _ _ _ c).2.1
  · intro c
    rcases hcase c with ⟨icon, hs, hic, hok⟩ | ⟨icon, hs, hic, hok⟩ | hd
    · rw [(drawIconCell_cases plat g drawgap cs _ c).1 icon hs hic hok]
      exact (iconCell_is plat drawgap cs hcs icon _ _ _ _ _ _ c).2.1
    · rw [(drawIconCell_cases plat g drawgap cs _ c).2.1 icon hs hic hok]
    · rw [(drawIconCell_cases plat g drawgap cs _ c).2.2 hd]
      exact (stretchCell_is plat drawgap cs hcs _ _ _ _ _ _ c).2.2.1
  · intro c X Y hXY
    rcases hcase c with ⟨icon, hs, hic, hok⟩ | ⟨icon, hs, hic, hok⟩ | hd
    · rw [(drawIconCell_cases plat g drawgap cs _ c).1 icon hs hic hok]
      show (iconCell plat drawgap cs icon _ _ _ _ _ _ c).bm.pix X Y = _
      rw [(iconCell_is plat drawgap cs hcs icon _ _ _ _ _ _ c).2.2 X Y]
      simp only [iconCellPix]
      split_ifs <;> first | rfl | (exfalso; omega)
    · rw [(drawIconCell_cases plat g drawgap cs _ c).2.1 icon hs hic hok]
    · rw [(drawIconCell_cases plat g drawgap cs _ c).2.2 hd]
      show (stretchCell plat drawgap cs _ _ _ _ _ _ c).bm.pix X Y = _
      rw [(stretchCell_is plat drawgap cs hcs _ _ _ _ _ _ c).2.2.2 X Y]
      simp only [cellPix]
      split_ifs <;> first | rfl | (exfalso; omega)
  · intro c
    constructor
    · intro icon hs hic hok i j hi hi' hj hj'
      rw [(drawIconCell_cases plat g drawgap cs _ c).1 icon hs hic hok]
      show ((iconCell plat drawgap cs icon _ _ _ _ _ _ c).bm.pix _ _).rgb = _
      rw [(iconCell_is plat drawgap cs hcs icon _ _ _ _ _ _ c).2.2]
      simp only [iconCellPix]
      rw [if_pos (by omega)]
      have e1 : c.p.x + j - c.p.x = j := by ring
      have e2 : c.p.y + i - c.p.y = i := by ring
      rw [e1, e2]
      simp only [iconPaint]
      split_ifs <;> rfl
    · intro hd i j hi hi' hj hj'
      rw [(drawIconCell_cases plat g drawgap cs _ c).2.2 hd]
      show ((stretchCell plat drawgap cs _ _ _ _ _ _ c).bm.pix _ _).rgb = _
      rw [(stretchCell_is plat drawgap cs hcs _ _ _ _ _ _ c).2.2.2]
      simp only [cellPix]
      rw [if_pos (by omega)]
      rfl
  · intro bp X0 Y0 pix pix' hsame hgood
    constructor
    · intro icon hs hic hok i j hi hi' hj hj'
      rw [hsame _ _ (by omega) (by omega) (by omega) (by omega)]
      exact hgood.1 icon hs hic hok i j hi hi' hj hj'
    · intro hd i j hi hi' hj hj'
      rw [hsame _ _ (by omega) (by omega) (by omega) (by omega)]
      exact hgood.2 hd i j hi hi' hj hj'

/-- C2: for every scale `pmscale > 2` with `cs = pmscale - 1` and every cell
inside the viewport, after `DrawIcons` (on a pixmap whose raw pixel data is
accessible): if the cell's state is non-zero and has an icon (whose pixel data
is accessible), pixel `(j, i)` of the cell's `cs x cs` block is the state's live
RGB when icon pixel `(j, i)` is non-black and the dead-cell RGB when it is
black, so an all-non-black icon gives a block entirely in the live colour and
an all-black icon a block entirely in the dead colour; a cell that is dead or
has no icon gets a block entirely in the dead colour. -/
theorem DrawIcons_cell_blocks (plat : Platform) (g : Globals) (byteptr : Nat → Nat)
    (x y w h pmscale : Int) (hscale : 2 < pmscale) (hok : g.pixmap.ok = true)
    (col row : Int) (hcol : 0 ≤ col ∧ col < w) (hrow : 0 ≤ row ∧ row < h)
    (hin : 0 ≤ x + col * pmscale ∧ x + col * pmscale < g.currwd ∧
      0 ≤ y + row * pmscale ∧ y + row * pmscale < g.currht) :
    (∀ icon : Bitmap, byteptr (row * w + col).toNat ≠ 0 →
      g.iconAt (byteptr (row * w + col).toNat) = some icon → icon.ok = true →
      (∀ i j : Int, 0 ≤ i → i < pmscale - 1 → 0 ≤ j → j < pmscale - 1 →
        ((DrawIcons plat g byteptr x y w h pmscale).pixmap.pix
            (col * pmscale + j) (row * pmscale + i)).rgb =
          if (icon.pix j i).red ≠ 0 ∨ (icon.pix j i).green ≠ 0 ∨ (icon.pix j i).blue ≠ 0 then
            ⟨g.cur.cellr (byteptr (row * w + col).toNat),
             g.cur.cellg (byteptr (row * w + col).toNat),
             g.cur.cellb (byteptr (row * w + col).toNat)⟩
          else ⟨g.cur.cellr 0, g.cur.cellg 0, g.cur.cellb 0⟩) ∧
      ((∀ i j : Int, 0 ≤ i → i < pmscale - 1 → 0 ≤ j → j < pmscale - 1 →
          ((icon.pix j i).red ≠ 0 ∨ (icon.pix j i).green ≠ 0 ∨ (icon.pix j i).blue ≠ 0)) →
        ∀ i j : Int, 0 ≤ i → i < pmscale - 1 → 0 ≤ j → j < pmscale - 1 →
          ((DrawIcons plat g byteptr x y w h pmscale).pixmap.pix
              (col * pmscale + j) (row * pmscale + i)).rgb =
            ⟨g.cur.cellr (byteptr (row * w + col).toNat),
             g.cur.cellg (byteptr (row * w + col).toNat),
             g.cur.cellb (byteptr (row * w + col).toNat)⟩) ∧
      ((∀ i j : Int, 0 ≤ i → i < pmscale - 1 → 0 ≤ j → j < pmscale - 1 →
          ((icon.pix j i).red = 0 ∧ (icon.pix j i).green = 0 ∧ (icon.pix j i).blue = 0)) →
        ∀ i j : Int, 0 ≤ i → i < pmscale - 1 → 0 ≤ j → j < pmscale - 1 →
          ((DrawIcons plat g byteptr x y w h pmscale).pixmap.pix
              (col * pmscale + j) (row * pmscale + i)).rgb =
            ⟨g.cur.cellr 0, g.cur.cellg 0, g.cur.cellb 0⟩)) ∧
    ((byteptr (row * w + col).toNat = 0 ∨ g.iconAt (byteptr (row * w + col).toNat) = none) →
      ∀ i j : Int, 0 ≤ i → i < pmscale - 1 → 0 ≤ j → j < pmscale - 1 →
        ((DrawIcons plat g byteptr x y w h pmscale).pixmap.pix
            (col * pmscale + j) (row * pmscale + i)).rgb =
          ⟨g.cur.cellr 0, g.cur.cellg 0, g.cur.cellb 0⟩) := by
  have hpm : (DrawIcons plat g byteptr x y w h pmscale).pixmap =
      (iconLoops plat g byteptr x y w h pmscale g.pixmap).bm := by
    simp only [DrawIcons, hok, if_true, Globals.emit, Globals.emitOn]
  rw [hpm, iconLoops_eq]
  obtain ⟨cn, rfl⟩ := Int.eq_ofNat_of_zero_le hcol.1
  obtain ⟨rn, rfl⟩ := Int.eq_ofNat_of_zero_le hrow.1
  have hgood := (gridLoops_good g.currwd g.currht x y w h pmscale _ _ _
    (drawIconCell_ok plat g byteptr (iconDrawgap g pmscale) (pmscale - 1) (by omega))
    (by omega) (by omega) g.pixmap).2 rn cn (by omega) (by omega)
    (by simp only [InView]; omega)
  have hidx : ((rn : Int) * w + cn).toNat = rn * w.toNat + cn := by
    have hw : ((w.toNat : Nat) : Int) = w := Int.toNat_of_nonneg (by omega)
    have : (rn : Int) * w + cn = ((rn * w.toNat + cn : Nat) : Int) := by
      push_cast; rw [hw]
    rw [this, Int.toNat_natCast]
  rw [hidx]
  refine ⟨?_, hgood.2⟩
  intro icon hs hic hiok
  have hmain := hgood.1 icon hs hic hiok
  refine ⟨hmain, ?_, ?_⟩
  · intro hall i j hi hi' hj hj'
    rw [hmain i j hi hi' hj hj', if_pos (hall i j hi hi' hj hj')]
  · intro hall i j hi hi' hj hj'
    have hb := hall i j hi hi' hj hj'
    rw [hmain i j hi hi' hj hj', if_neg (by rw [hb.1, hb.2.1, hb.2.2]; simp)]

/-- C2, instance: a cell in state 1 with an all-white icon at scale 8. -/
theorem DrawIcons_cell_blocks_witness :
    (2 : Int) < 8 ∧ iconGlobals.pixmap.ok = true ∧
    ((DrawIcons Platform.other iconGlobals (fun _ => 1) 0 0 2 2 8).pixmap.pix
        (1 * 8 + 3) (1 * 8 + 5)).rgb =
      ⟨iconGlobals.cur.cellr ((fun _ => 1) ((1 : Int) * 2 + 1).toNat),
       iconGlobals.cur.cellg ((fun _ => 1) ((1 : Int) * 2 + 1).toNat),
       iconGlobals.cur.cellb ((fun _ => 1) ((1 : Int) * 2 + 1).toNat)⟩ :=
  ⟨by decide, rfl,
    ((DrawIcons_cell_blocks Platform.other iconGlobals (fun _ => 1) 0 0 2 2 8
      (by decide) rfl 1 1 (by decide) (by decide) (by decide)).1 whiteIcon
        (by decide) rfl rfl).2.1
      (fun _ _ _ _ _ _ => Or.inl (show (255 : Nat) ≠ 0 by decide)) 5 3 (by decide) (by decide) (by decide)
        (by decide)⟩

/-! ## MaskDeadPixels: closed form -/

theorem maskPixel_pix (plat : Platform) (dead : Color) (livealpha : Int) (bm : Bitmap)
    (p : Iter) (X Y : Int) :
    (maskPixel plat dead livealpha bm p).pix X Y =
      if X = p.x ∧ Y = p.y then maskValue plat dead livealpha (bm.pix X Y)
      else bm.pix X Y := by
  unfold maskPixel maskValue
  dsimp only
  by_cases hpos : X = p.x ∧ Y = p.y
  · obtain ⟨hX, hY⟩ := hpos
    subst hX hY
    by_cases hd : (bm.pix p.x p.y).red = dead.red ∧ (bm.pix p.x p.y).green = dead.green ∧
        (bm.pix p.x p.y).blue = dead.blue
    · simp only [if_pos hd, Bitmap.putRGBA, and_self, if_true]
    · by_cases hm : plat = Platform.msw
      · simp only [if_neg hd, if_pos hm, Bitmap.putRGBA, and_self, if_true]
      · simp only [if_neg hd, if_neg hm, Bitmap.putAlpha, and_self, if_true]
  · rw [if_neg hpos]
    by_cases hd : (bm.pix p.x p.y).red = dead.red ∧ (bm.pix p.x p.y).green = dead.green ∧
        (bm.pix p.x p.y).blue = dead.blue
    · simp only [if_pos hd, Bitmap.putRGBA, if_neg hpos]
    · by_cases hm : plat = Platform.msw
      · simp only [if_neg hd, if_pos hm, Bitmap.putRGBA, if_neg hpos]
      · simp only [if_neg hd, if_neg hm, Bitmap.putAlpha, if_neg hpos]

theorem maskPixel_ok (plat : Platform) (dead : Color) (livealpha : Int) (bm : Bitmap)
    (p : Iter) : (maskPixel plat dead livealpha bm p).ok = bm.ok := by
  unfold maskPixel
  dsimp only
  split_ifs <;> rfl

theorem maskSeg (plat : Platform) (dead : Color) (livealpha : Int) (n : Nat) (c : Cursor) :
    (forLoop n (fun _ c =>
      { c with bm := maskPixel plat dead livealpha c.bm c.p, p := c.p.next }) c).Is
      ⟨c.p.x + n, c.p.y⟩ c.byteptr c.bm.ok
      (fun X Y => if Y = c.p.y ∧ c.p.x ≤ X ∧ X < c.p.x + n then
          maskValue plat dead livealpha (c.bm.pix X Y)
        else c.bm.pix X Y) := by
  apply forLoop_inv (fun i (t : Cursor) => t.Is ⟨c.p.x + i, c.p.y⟩ c.byteptr c.bm.ok
      (fun X Y => if Y = c.p.y ∧ c.p.x ≤ X ∧ X < c.p.x + i then
          maskValue plat dead livealpha (c.bm.pix X Y)
        else c.bm.pix X Y))
  · refine ⟨by simp, rfl, rfl, ?_⟩
    intro X Y
    beta_reduce
    rw [if_neg]; push_cast; omega
  · rintro i t _ ⟨hp, hb, hok, hpix⟩
    refine ⟨?_, hb, ?_, ?_⟩
    · show t.p.next = _
      rw [hp]; simp only [Iter.next]; push_cast; congr 1; ring
    · show (maskPixel plat dead livealpha t.bm t.p).ok = _
      rw [maskPixel_ok, hok]
    · intro X Y
      show (maskPixel plat dead livealpha t.bm t.p).pix X Y = _
      rw [maskPixel_pix, hpix, hp]
      beta_reduce
      push_cast
      split_ifs <;> first | rfl | (exfalso; omega)

/-- The row loop of `MaskDeadPixels`. -/
theorem maskRows (plat : Platform) (dead : Color) (bitmap : Bitmap) (wd livealpha : Int)
    (n : Nat) :
    (forLoop n (fun _ c =>
      let rowstart := c.p
      let c := forLoop wd.toNat (fun _ c =>
        { c with bm := maskPixel plat dead livealpha c.bm c.p, p := c.p.next }) c
      { c with p := rowstart.offsetY 1 }) (Cursor.mk bitmap ⟨0, 0⟩ 0)).Is
      ⟨0, n⟩ 0 bitmap.ok (fun X Y =>
        if 0 ≤ X ∧ X < wd ∧ 0 ≤ Y ∧ Y < (n : Int) then
          maskValue plat dead livealpha (bitmap.pix X Y)
        else bitmap.pix X Y) := by
  apply forLoop_inv (fun n (t : Cursor) =>
      t.Is ⟨0, n⟩ 0 bitmap.ok (fun X Y =>
        if 0 ≤ X ∧ X < wd ∧ 0 ≤ Y ∧ Y < (n : Int) then
          maskValue plat dead livealpha (bitmap.pix X Y)
        else bitmap.pix X Y))
  · refine ⟨by simp, rfl, rfl, ?_⟩
    intro X Y
    beta_reduce
    rw [if_neg]; push_cast; omega
  · rintro i t _ ⟨hp, hb, hok', hpix⟩
    obtain ⟨hp1, hb1, hok1, hpix1⟩ := maskSeg plat dead livealpha wd.toNat t
    beta_reduce at hpix1
    rw [hp] at hpix1
    dsimp only at hpix1
    refine ⟨?_, hb1.trans hb, hok1.trans hok', ?_⟩
    · show t.p.offsetY 1 = _
      rw [hp]; simp only [Iter.offsetY]; push_cast; rfl
    · intro X Y
      show (forLoop wd.toNat _ t).bm.pix X Y = _
      rw [hpix1, hpix]
      beta_reduce
      push_cast
      split_ifs <;> first | rfl | (exfalso; omega)

theorem MaskDeadPixels_ok (plat : Platform) (dead : Color) (bitmap : Bitmap)
    (wd ht livealpha : Int) :
    (MaskDeadPixels plat dead bitmap wd ht livealpha).ok = bitmap.ok := by
  unfold MaskDeadPixels
  split_ifs
  · exact (maskRows plat dead bitmap wd livealpha ht.toNat).2.2.1
  · rfl

/-- Closed form of `MaskDeadPixels` on a bitmap with raw access. -/
theorem MaskDeadPixels_pix (plat : Platform) (dead : Color) (bitmap : Bitmap)
    (wd ht livealpha : Int) (hok : bitmap.ok = true) (X Y : Int) :
    (MaskDeadPixels plat dead bitmap wd ht livealpha).pix X Y =
      if 0 ≤ X ∧ X < wd ∧ 0 ≤ Y ∧ Y < ht then maskValue plat dead livealpha (bitmap.pix X Y)
      else bitmap.pix X Y := by
  unfold MaskDeadPixels
  rw [if_pos hok]
  rw [(maskRows plat dead bitmap wd livealpha ht.toNat).2.2.2 X Y]
  beta_reduce
  split_ifs <;> first | rfl | (exfalso; omega)

/-! ## What the render callbacks leave unchanged -/

theorem RenderFrame.refl (g : Globals) : RenderFrame g g := rfl

theorem RenderFrame.trans {a b c : Globals} (h1 : RenderFrame a b) (h2 : RenderFrame b c) :
    RenderFrame a c := by
  unfold RenderFrame at *
  rw [h2, h1]

theorem RenderFrame.emitOn (g : Globals) (d : DCId) (c : DrawCmd) :
    RenderFrame g (g.emitOn d c) := rfl

theorem killrect_frame (g : Globals) (x y w h : Int) : RenderFrame g (killrect g x y w h) := by
  unfold killrect
  split_ifs <;> first | exact RenderFrame.refl g | exact RenderFrame.emitOn g _ _

theorem DrawStretchedPixmap_frame (plat : Platform) (g : Globals) (byteptr : Nat → Nat)
    (x y w h pmscale : Int) : RenderFrame g (DrawStretchedPixmap plat g byteptr x y w h pmscale) := by
  unfold DrawStretchedPixmap
  split_ifs <;> rfl

theorem DrawIcons_frame (plat : Platform) (g : Globals) (byteptr : Nat → Nat)
    (x y w h pmscale : Int) : RenderFrame g (DrawIcons plat g byteptr x y w h pmscale) := by
  unfold DrawIcons
  split_ifs <;> rfl

theorem ensurePixmap_frame (ext : Ext) (g : Globals) (w h : Int) :
    RenderFrame g (ensurePixmap ext g w h) := by
  unfold ensurePixmap
  split_ifs <;> rfl

theorem pixblit_frame (plat : Platform) (ext : Ext) (g : Globals) (x y w h : Int)
    (pmdata : Nat → Nat) (pmscale : Int) :
    RenderFrame g (pixblit plat ext g x y w h pmdata pmscale) := by
  unfold pixblit
  by_cases h1 : x ≥ g.currwd ∨ y ≥ g.currht
  · rw [if_pos h1]; exact RenderFrame.refl g
  rw [if_neg h1]
  by_cases h2 : x + w ≤ 0 ∨ y + h ≤ 0
  · rw [if_pos h2]; exact RenderFrame.refl g
  rw [if_neg h2]
  refine RenderFrame.trans (ensurePixmap_frame ext g w h) ?_
  generalize ensurePixmap ext g w h = g1
  dsimp only
  split_ifs
  · rfl
  · rfl
  · exact DrawIcons_frame _ _ _ _ _ _ _ _
  · exact DrawStretchedPixmap_frame _ _ _ _ _ _ _ _

theorem runDraw_frame (plat : Platform) (ext : Ext) (calls : List RenderCall) (g : Globals) :
    RenderFrame g (runDraw plat ext g calls) := by
  induction calls generalizing g with
  | nil => exact RenderFrame.refl g
  | cons call rest ih =>
    unfold runDraw
    rw [List.foldl_cons]
    cases call with
    | killrect x y w h => exact RenderFrame.trans (killrect_frame g x y w h) (ih _)
    | pixblit x y w h pmdata pmscale =>
      exact RenderFrame.trans (pixblit_frame plat ext g x y w h pmdata pmscale) (ih _)

/-! ## CheckPasteImage: keys and image size -/

theorem setDeadCell_curview (g : Globals) : g.setDeadCell.curview = g.curview := by
  simp [Globals.setDeadCell, Globals.curview, Globals.cur]

/-- What `drawPastePattern` leaves unchanged. -/
theorem drawPastePattern_fields (plat : Platform) (ext : Ext) (g : Globals) (cellbox : Rect) :
    (drawPastePattern plat ext g cellbox).prectwd = g.prectwd ∧
    (drawPastePattern plat ext g cellbox).prectht = g.prectht ∧
    (drawPastePattern plat ext g cellbox).pastemag = g.pastemag ∧
    (drawPastePattern plat ext g cellbox).cvwd = g.cvwd ∧
    (drawPastePattern plat ext g cellbox).cvht = g.cvht ∧
    (drawPastePattern plat ext g cellbox).pasteloc = g.pasteloc ∧
    (drawPastePattern plat ext g cellbox).pasteicons = g.pasteicons ∧
    (drawPastePattern plat ext g cellbox).rebuilds = g.rebuilds ∧
    (drawPastePattern plat ext g cellbox).pview = g.pview ∧
    (drawPastePattern plat ext g cellbox).curview = g.curview ∧
    (drawPastePattern plat ext g cellbox).plocation = g.plocation ∧
    (drawPastePattern plat ext g cellbox).showicons = g.showicons ∧
    (drawPastePattern plat ext g cellbox).deadrgb = g.deadrgb ∧
    (drawPastePattern plat ext g cellbox).showgridlines = g.showgridlines ∧
    (drawPastePattern plat ext g cellbox).pimagewd = g.pimagewd ∧
    (drawPastePattern plat ext g cellbox).pimageht = g.pimageht ∧
    (drawPastePattern plat ext g cellbox).pastebitmap = g.pastebitmap := by
  unfold drawPastePattern
  dsimp only
  generalize hcalls : ext.algoDraw _ _ _ _ _ = calls
  have hf := runDraw_frame plat ext calls
    { g.setDeadCell with
      showgridlines := false
      dc := fun d => if d = DCId.pattdc then [] else g.setDeadCell.dc d
      currdc := DCId.pattdc
      currwd := (pasteTempview g cellbox).width
      currht := (pasteTempview g cellbox).height }
  generalize runDraw plat ext _ calls = g2 at hf ⊢
  unfold RenderFrame at hf
  have hcv : g2.curview = g.curview := by
    rw [hf]
    exact setDeadCell_curview g
  have e_prectwd : g2.prectwd = g.prectwd := (congrArg Globals.prectwd hf).trans rfl
  have e_prectht : g2.prectht = g.prectht := (congrArg Globals.prectht hf).trans rfl
  have e_pastemag : g2.pastemag = g.pastemag := (congrArg Globals.pastemag hf).trans rfl
  have e_cvwd : g2.cvwd = g.cvwd := (congrArg Globals.cvwd hf).trans rfl
  have e_cvht : g2.cvht = g.cvht := (congrArg Globals.cvht hf).trans rfl
  have e_pasteloc : g2.pasteloc = g.pasteloc := (congrArg Globals.pasteloc hf).trans rfl
  have e_pasteicons : g2.pasteicons = g.pasteicons := (congrArg Globals.pasteicons hf).trans rfl
  have e_rebuilds : g2.rebuilds = g.rebuilds := (congrArg Globals.rebuilds hf).trans rfl
  have e_pview : g2.pview = g.pview := (congrArg Globals.pview hf).trans rfl
  have e_plocation : g2.plocation = g.plocation := (congrArg Globals.plocation hf).trans rfl
  have e_showicons : g2.showicons = g.showicons := (congrArg Globals.showicons hf).trans rfl
  have e_deadrgb : g2.deadrgb = g.deadrgb := (congrArg Globals.deadrgb hf).trans rfl
  have e_pimagewd : g2.pimagewd = g.pimagewd := (congrArg Globals.pimagewd hf).trans rfl
  have e_pimageht : g2.pimageht = g.pimageht := (congrArg Globals.pimageht hf).trans rfl
  have e_pastebitmap : g2.pastebitmap = g.pastebitmap := (congrArg Globals.pastebitmap hf).trans rfl
  exact ⟨e_prectwd, e_prectht, e_pastemag, e_cvwd, e_cvht, e_pasteloc, e_pasteicons,
    e_rebuilds, e_pview, hcv, e_plocation, e_showicons, e_deadrgb, rfl, e_pimagewd,
    e_pimageht, e_pastebitmap⟩

theorem CheckPasteImage_same (plat : Platform) (ext : Ext) (g : Globals)
    (h : ¬ pasteKeysDiffer g) : CheckPasteImage plat ext g = g := by
  unfold CheckPasteImage
  rw [if_neg h]

/-- After a regeneration the cached keys equal the current values, the
regeneration counter went up by one, and the values the keys are compared with
are unchanged. -/
theorem CheckPasteImage_updates (plat : Platform) (ext : Ext) (g : Globals)
    (h : pasteKeysDiffer g) :
    (CheckPasteImage plat ext g).prectwd = g.pview.pasterect.width ∧
    (CheckPasteImage plat ext g).prectht = g.pview.pasterect.height ∧
    (CheckPasteImage plat ext g).pastemag = g.curview.mag ∧
    (CheckPasteImage plat ext g).cvwd = g.curview.width ∧
    (CheckPasteImage plat ext g).cvht = g.curview.height ∧
    (CheckPasteImage plat ext g).pasteloc = g.plocation ∧
    (CheckPasteImage plat ext g).pasteicons = g.showicons ∧
    (CheckPasteImage plat ext g).rebuilds = g.rebuilds + 1 ∧
    (CheckPasteImage plat ext g).pview = g.pview ∧
    (CheckPasteImage plat ext g).curview = g.curview ∧
    (CheckPasteImage plat ext g).plocation = g.plocation ∧
    (CheckPasteImage plat ext g).showicons = g.showicons ∧
    (CheckPasteImage plat ext g).deadrgb = g.deadrgb ∧
    (CheckPasteImage plat ext g).showgridlines = g.showgridlines := by
  unfold CheckPasteImage
  rw [if_pos h]
  dsimp only
  split_ifs
  · exact ⟨rfl, rfl, rfl, rfl, rfl, rfl, rfl, rfl, rfl, rfl, rfl, rfl, rfl, rfl⟩
  · exact ⟨rfl, rfl, rfl, rfl, rfl, rfl, rfl, rfl, rfl, rfl, rfl, rfl, rfl, rfl⟩
  · split
    · unfold renderPasteBitmap
      dsimp only
      obtain ⟨e1, e2, e3, e4, e5, e6, e7, e8, e9, e10, e11, e12, e13, e14, _, _, _⟩ :=
        drawPastePattern_fields plat ext (allocPasteBitmap ext (updatePasteKeys g))
          (pasteImageLayout (updatePasteKeys g)).2.2
      exact ⟨e1, e2, e3, e4, e5, e6, e7, e8, e9, e10, e11, e12, e13, e14⟩
    · exact ⟨rfl, rfl, rfl, rfl, rfl, rfl, rfl, rfl, rfl, rfl, rfl, rfl, rfl, rfl⟩

/-! ## MaskDeadPixels: masking twice, masking once -/

theorem toByte_of_byte (v : Int) (h : 0 ≤ v ∧ v ≤ 255) : ((toByte v : Nat) : Int) = v := by
  unfold toByte
  omega

/-- C3, counterexample: on a non-Windows build, with dead-cell colour
(48, 48, 48) and livealpha 255, masking a dead-coloured pixel once gives
(0, 0, 0) with alpha 0, and masking the result again gives alpha 255. -/
theorem MaskDeadPixels_twice_differs :
    (MaskDeadPixels Platform.other ⟨48, 48, 48⟩
        (MaskDeadPixels Platform.other ⟨48, 48, 48⟩ grayBitmap 1 1 255) 1 1 255).pix 0 0 ≠
      (MaskDeadPixels Platform.other ⟨48, 48, 48⟩ grayBitmap 1 1 255).pix 0 0 := by
  decide

theorem maskValue_twice_rgb (plat : Platform) (hplat : plat ≠ Platform.msw) (dead : Color)
    (livealpha : Int) (px : Pixel) :
    (maskValue plat dead livealpha (maskValue plat dead livealpha px)).rgb =
      (maskValue plat dead livealpha px).rgb := by
  simp only [maskValue, if_neg hplat]
  split_ifs <;> simp_all [Pixel.rgb]

theorem maskValue_twice (plat : Platform) (hplat : plat ≠ Platform.msw) (dead : Color)
    (livealpha : Int) (px : Pixel)
    (hcond : dead = ⟨0, 0, 0⟩ ∨ toByte livealpha = 0 ∨ px.rgb ≠ dead) :
    maskValue plat dead livealpha (maskValue plat dead livealpha px) =
      maskValue plat dead livealpha px := by
  simp only [maskValue, if_neg hplat]
  rcases hcond with hd | hz | hne
  · subst hd
    split_ifs <;> simp_all
  · rw [hz]
    split_ifs <;> simp_all
  · have hne' : ¬ (px.red = dead.red ∧ px.green = dead.green ∧ px.blue = dead.blue) := by
      intro hh
      apply hne
      cases dead
      simp_all [Pixel.rgb]
    simp only [if_neg hne']

/-- C3, amended: on a non-Windows build, applying `MaskDeadPixels` twice to the
same region gives at every pixel the same RGB as applying it once, and exactly
the same pixel (RGB and alpha) wherever the original RGB is not the dead-cell
colour, and everywhere when the dead-cell colour is black (0, 0, 0) or the
stored live alpha is 0. -/
theorem MaskDeadPixels_twice (plat : Platform) (hplat : plat ≠ Platform.msw) (dead : Color)
    (bitmap : Bitmap) (wd ht livealpha : Int) :
    (∀ X Y,
      ((MaskDeadPixels plat dead (MaskDeadPixels plat dead bitmap wd ht livealpha)
          wd ht livealpha).pix X Y).rgb =
        ((MaskDeadPixels plat dead bitmap wd ht livealpha).pix X Y).rgb) ∧
    (∀ X Y, (dead = ⟨0, 0, 0⟩ ∨ toByte livealpha = 0 ∨ (bitmap.pix X Y).rgb ≠ dead) →
      (MaskDeadPixels plat dead (MaskDeadPixels plat dead bitmap wd ht livealpha)
          wd ht livealpha).pix X Y =
        (MaskDeadPixels plat dead bitmap wd ht livealpha).pix X Y) := by
  cases hok : bitmap.ok with
  | false =>
    have h1 : MaskDeadPixels plat dead bitmap wd ht livealpha = bitmap := by
      unfold MaskDeadPixels; rw [hok]; rfl
    rw [h1, h1]
    exact ⟨fun _ _ => rfl, fun _ _ _ => rfl⟩
  | true =>
    have hok2 : (MaskDeadPixels plat dead bitmap wd ht livealpha).ok = true := by
      rw [MaskDeadPixels_ok, hok]
    have hout : ∀ X Y, ¬ (0 ≤ X ∧ X < wd ∧ 0 ≤ Y ∧ Y < ht) →
        (MaskDeadPixels plat dead (MaskDeadPixels plat dead bitmap wd ht livealpha)
          wd ht livealpha).pix X Y =
        (MaskDeadPixels plat dead bitmap wd ht livealpha).pix X Y := by
      intro X Y hin
      rw [MaskDeadPixels_pix _ _ _ _ _ _ hok2, if_neg hin]
    have h1 : ∀ X Y, (0 ≤ X ∧ X < wd ∧ 0 ≤ Y ∧ Y < ht) →
        (MaskDeadPixels plat dead bitmap wd ht livealpha).pix X Y =
          maskValue plat dead livealpha (bitmap.pix X Y) := by
      intro X Y hin
      rw [MaskDeadPixels_pix _ _ _ _ _ _ hok, if_pos hin]
    have h2 : ∀ X Y, (0 ≤ X ∧ X < wd ∧ 0 ≤ Y ∧ Y < ht) →
        (MaskDeadPixels plat dead (MaskDeadPixels plat dead bitmap wd ht livealpha)
          wd ht livealpha).pix X Y =
          maskValue plat dead livealpha (maskValue plat dead livealpha (bitmap.pix X Y)) := by
      intro X Y hin
      rw [MaskDeadPixels_pix _ _ _ _ _ _ hok2, if_pos hin, h1 X Y hin]
    constructor
    · intro X Y
      by_cases hin : 0 ≤ X ∧ X < wd ∧ 0 ≤ Y ∧ Y < ht
      · rw [h2 X Y hin, h1 X Y hin, maskValue_twice_rgb plat hplat]
      · rw [hout X Y hin]
    · intro X Y hcond
      by_cases hin : 0 ≤ X ∧ X < wd ∧ 0 ≤ Y ∧ Y < ht
      · rw [h2 X Y hin, h1 X Y hin, maskValue_twice plat hplat dead livealpha _ hcond]
      · rw [hout X Y hin]

/-- Image size after a regenerating call of `CheckPasteImage`. -/
theorem CheckPasteImage_size (plat : Platform) (ext : Ext) (g : Globals)
    (h : pasteKeysDiffer g) :
    ((g.pview.pasterect.width ≤ 2 ∨ g.pview.pasterect.height ≤ 2) →
      (CheckPasteImage plat ext g).pimagewd = 1 ∧ (CheckPasteImage plat ext g).pimageht = 1 ∧
      (CheckPasteImage plat ext g).pastebitmap = none) ∧
    (¬ (g.pview.pasterect.width ≤ 2 ∨ g.pview.pasterect.height ≤ 2) →
      (CheckPasteImage plat ext g).pimagewd = (pasteImageLayout (updatePasteKeys g)).1 ∧
      (CheckPasteImage plat ext g).pimageht = (pasteImageLayout (updatePasteKeys g)).2.1) := by
  constructor
  · intro hdeg
    have hdeg' : (updatePasteKeys g).prectwd ≤ 2 ∨ (updatePasteKeys g).prectht ≤ 2 := hdeg
    unfold CheckPasteImage
    rw [if_pos h]
    dsimp only
    rw [if_pos hdeg']
    by_cases h1 : (updatePasteKeys g).pimagewd ≠ 1 ∨ (updatePasteKeys g).pimageht ≠ 1
    · rw [if_pos h1]; exact ⟨rfl, rfl, rfl⟩
    · rw [if_neg h1]
      have h1' : g.pimagewd = 1 ∧ g.pimageht = 1 := by
        have : ¬ (g.pimagewd ≠ 1 ∨ g.pimageht ≠ 1) := h1
        omega
      exact ⟨h1'.1, h1'.2, rfl⟩
  · intro hdeg
    have hdeg' : ¬ ((updatePasteKeys g).prectwd ≤ 2 ∨ (updatePasteKeys g).prectht ≤ 2) := hdeg
    unfold CheckPasteImage
    rw [if_pos h]
    dsimp only
    rw [if_neg hdeg']
    split
    · unfold renderPasteBitmap
      dsimp only
      have hf := drawPastePattern_fields plat ext (allocPasteBitmap ext (updatePasteKeys g))
          (pasteImageLayout (updatePasteKeys g)).2.2
      exact ⟨hf.2.2.2.2.2.2.2.2.2.2.2.2.2.2.1, hf.2.2.2.2.2.2.2.2.2.2.2.2.2.2.2.1⟩
    · exact ⟨rfl, rfl⟩

/-- C4: on a non-Windows build (bitmap with accessible pixel data, livealpha a
byte value), `MaskDeadPixels` turns every pixel of the `wd x ht` region whose
RGB equals the dead-cell colour into (0, 0, 0) with alpha 0, keeps the RGB of
every other pixel of the region and sets its alpha to livealpha, and leaves
pixels outside the region unchanged; the paste preview built by
`CheckPasteImage` is the drawn bitmap masked with livealpha = 255. -/
theorem MaskDeadPixels_masks (plat : Platform) (hplat : plat ≠ Platform.msw) (dead : Color)
    (bitmap : Bitmap) (wd ht livealpha : Int) (hok : bitmap.ok = true)
    (hla : 0 ≤ livealpha ∧ livealpha ≤ 255) :
    (∀ X Y, (0 ≤ X ∧ X < wd ∧ 0 ≤ Y ∧ Y < ht) →
      ((bitmap.pix X Y).rgb = dead →
        (MaskDeadPixels plat dead bitmap wd ht livealpha).pix X Y = ⟨0, 0, 0, 0⟩) ∧
      ((bitmap.pix X Y).rgb ≠ dead →
        ((MaskDeadPixels plat dead bitmap wd ht livealpha).pix X Y).rgb = (bitmap.pix X Y).rgb ∧
        (((MaskDeadPixels plat dead bitmap wd ht livealpha).pix X Y).alpha : Int) = livealpha)) ∧
    (∀ X Y, ¬ (0 ≤ X ∧ X < wd ∧ 0 ≤ Y ∧ Y < ht) →
      (MaskDeadPixels plat dead bitmap wd ht livealpha).pix X Y = bitmap.pix X Y) ∧
    (∀ (ext : Ext) (g : Globals) (bm : Bitmap), pasteKeysDiffer g →
      2 < g.pview.pasterect.width → 2 < g.pview.pasterect.height →
      (allocPasteBitmap ext (updatePasteKeys g)).pastebitmap = some bm →
      (CheckPasteImage plat ext g).pastebitmap =
        some (MaskDeadPixels plat g.deadrgb
          (ext.raster bm ((CheckPasteImage plat ext g).dc DCId.pattdc))
          (CheckPasteImage plat ext g).pimagewd (CheckPasteImage plat ext g).pimageht 255)) := by
  refine ⟨?_, ?_, ?_⟩
  · intro X Y hin
    rw [MaskDeadPixels_pix _ _ _ _ _ _ hok, if_pos hin]
    simp only [maskValue, if_neg hplat]
    constructor
    · intro hd
      have hd' : (bitmap.pix X Y).red = dead.red ∧ (bitmap.pix X Y).green = dead.green ∧
          (bitmap.pix X Y).blue = dead.blue := by
        rw [← hd]; exact ⟨rfl, rfl, rfl⟩
      rw [if_pos hd']
    · intro hne
      have hne' : ¬ ((bitmap.pix X Y).red = dead.red ∧ (bitmap.pix X Y).green = dead.green ∧
          (bitmap.pix X Y).blue = dead.blue) := by
        intro hh
        apply hne
        cases dead
        simp_all [Pixel.rgb]
      rw [if_neg hne']
      exact ⟨rfl, toByte_of_byte livealpha hla⟩
  · intro X Y hin
    rw [MaskDeadPixels_pix _ _ _ _ _ _ hok, if_neg hin]
  · intro ext g bm hdiff hw hh hbm
    have hdeg' : ¬ ((updatePasteKeys g).prectwd ≤ 2 ∨ (updatePasteKeys g).prectht ≤ 2) := by
      show ¬ (g.pview.pasterect.width ≤ 2 ∨ g.pview.pasterect.height ≤ 2)
      omega
    have hf := drawPastePattern_fields plat ext (allocPasteBitmap ext (updatePasteKeys g))
      (pasteImageLayout (updatePasteKeys g)).2.2
    have hd : (drawPastePattern plat ext (allocPasteBitmap ext (updatePasteKeys g))
        (pasteImageLayout (updatePasteKeys g)).2.2).deadrgb = g.deadrgb :=
      hf.2.2.2.2.2.2.2.2.2.2.2.2.1
    have hcp : CheckPasteImage plat ext g =
        renderPasteBitmap plat ext (allocPasteBitmap ext (updatePasteKeys g))
          (pasteImageLayout (updatePasteKeys g)).2.2 bm := by
      unfold CheckPasteImage
      rw [if_pos hdiff]
      dsimp only
      rw [if_neg hdeg']
      simp only [hbm]
    rw [hcp]
    unfold renderPasteBitmap
    dsimp only
    rw [hd]

/-! ## Paste image cache and anchor -/

theorem CheckPasteImage_keys_match (plat : Platform) (ext : Ext) (g : Globals) :
    ¬ pasteKeysDiffer (CheckPasteImage plat ext g) := by
  by_cases h : pasteKeysDiffer g
  · obtain ⟨e1, e2, _, e4, e5, e6, e7, _, e9, e10, e11, e12, _, _⟩ :=
      CheckPasteImage_updates plat ext g h
    unfold pasteKeysDiffer
    rw [e1, e2, e4, e5, e6, e7, e9, e10, e11, e12]
    simp
  · rw [CheckPasteImage_same plat ext g h]
    exact h

/-- C5: if the cached paste-rect width/height, viewport width/height, anchor
corner and icon flag all equal the current values, `CheckPasteImage` leaves the
whole state (cached bitmap, image size, keys) unchanged; consequently a second
call with the same geometry changes nothing, and a rebuild counter that one
regenerating call took from 0 to 1 is still 1 after the second call. -/
theorem CheckPasteImage_same_keys_no_rebuild (plat : Platform) (ext : Ext) (g : Globals) :
    ((g.prectwd = g.pview.pasterect.width ∧ g.prectht = g.pview.pasterect.height ∧
        g.cvwd = g.curview.width ∧ g.cvht = g.curview.height ∧
        g.pasteloc = g.plocation ∧ g.pasteicons = g.showicons) →
      CheckPasteImage plat ext g = g) ∧
    CheckPasteImage plat ext (CheckPasteImage plat ext g) = CheckPasteImage plat ext g ∧
    (g.rebuilds = 0 → pasteKeysDiffer g →
      (CheckPasteImage plat ext g).rebuilds = 1 ∧
      (CheckPasteImage plat ext (CheckPasteImage plat ext g)).rebuilds = 1) := by
  refine ⟨?_, ?_, ?_⟩
  · intro hk
    apply CheckPasteImage_same
    unfold pasteKeysDiffer
    obtain ⟨h1, h2, h3, h4, h5, h6⟩ := hk
    simp [h1, h2, h3, h4, h5, h6]
  · exact CheckPasteImage_same plat ext _ (CheckPasteImage_keys_match plat ext g)
  · intro h0 hdiff
    rw [CheckPasteImage_same plat ext _ (CheckPasteImage_keys_match plat ext g)]
    have := (CheckPasteImage_updates plat ext g hdiff).2.2.2.2.2.2.2.1
    rw [h0] at this
    exact ⟨this, this⟩

/-- C6, counterexample: with a 1 x 1 paste rect pending, all six compared keys
matching and only the cached magnification (2) differing from the current one
(0), `DrawView` does call `CheckPasteImage`, which regenerates nothing and
leaves the stale magnification in place. -/
theorem paste_cache_ignores_magnification :
    magOnlyGlobals.pastemag ≠ magOnlyGlobals.curview.mag ∧
    (CheckPasteImage Platform.other sampleExt magOnlyGlobals).rebuilds =
      magOnlyGlobals.rebuilds ∧
    (CheckPasteImage Platform.other sampleExt magOnlyGlobals).pastemag ≠
      magOnlyGlobals.curview.mag ∧
    (DrawViewPaste Platform.other sampleExt magOnlyGlobals DCId.viewdc).rebuilds =
      magOnlyGlobals.rebuilds := by
  decide

/-- C6, amended: `CheckPasteImage` treats the cache as valid (and changes
nothing) exactly when the six keys paste-rect width and height, viewport width
and height, anchor corner and icon flag match; a mismatch in any of them makes
it regenerate and record the current keys and magnification.  Magnification is
not compared: when only it differs and the paste rect is unchanged and larger
than 1 x 1, the paste step of `DrawView` does nothing at all. -/
theorem CheckPasteImage_regenerates_iff (plat : Platform) (ext : Ext) (g : Globals) :
    ((CheckPasteImage plat ext g = g ∧ (CheckPasteImage plat ext g).rebuilds = g.rebuilds) ↔
      (g.prectwd = g.pview.pasterect.width ∧ g.prectht = g.pview.pasterect.height ∧
        g.cvwd = g.curview.width ∧ g.cvht = g.curview.height ∧
        g.pasteloc = g.plocation ∧ g.pasteicons = g.showicons)) ∧
    (¬ (g.prectwd = g.pview.pasterect.width ∧ g.prectht = g.pview.pasterect.height ∧
        g.cvwd = g.curview.width ∧ g.cvht = g.curview.height ∧
        g.pasteloc = g.plocation ∧ g.pasteicons = g.showicons) →
      (CheckPasteImage plat ext g).rebuilds = g.rebuilds + 1 ∧
      (CheckPasteImage plat ext g).prectwd = g.pview.pasterect.width ∧
      (CheckPasteImage plat ext g).prectht = g.pview.pasterect.height ∧
      (CheckPasteImage plat ext g).cvwd = g.curview.width ∧
      (CheckPasteImage plat ext g).cvht = g.curview.height ∧
      (CheckPasteImage plat ext g).pasteloc = g.plocation ∧
      (CheckPasteImage plat ext g).pasteicons = g.showicons ∧
      (CheckPasteImage plat ext g).pastemag = g.curview.mag) ∧
    (∀ dc, g.pview.waitingforclick = true → 0 < g.pview.pasterect.width →
      g.pastemag ≠ g.curview.mag →
      g.prectwd = g.pview.pasterect.width → 1 < g.prectwd →
      g.prectht = g.pview.pasterect.height → 1 < g.prectht →
      DrawViewPaste plat ext g dc = g) := by
  have hiff : pasteKeysDiffer g ↔
      ¬ (g.prectwd = g.pview.pasterect.width ∧ g.prectht = g.pview.pasterect.height ∧
        g.cvwd = g.curview.width ∧ g.cvht = g.curview.height ∧
        g.pasteloc = g.plocation ∧ g.pasteicons = g.showicons) := by
    unfold pasteKeysDiffer
    tauto
  refine ⟨?_, ?_, ?_⟩
  · constructor
    · rintro ⟨_, hr⟩
      by_contra hk
      have := (CheckPasteImage_updates plat ext g (hiff.mpr hk)).2.2.2.2.2.2.2.1
      omega
    · intro hk
      have hs := CheckPasteImage_same plat ext g (fun hd => hiff.mp hd hk)
      exact ⟨hs, by rw [hs]⟩
  · intro hk
    obtain ⟨e1, e2, e3, e4, e5, e6, e7, e8, _⟩ :=
      CheckPasteImage_updates plat ext g (hiff.mpr hk)
    exact ⟨e8, e1, e2, e4, e5, e6, e7, e3⟩
  · intro dc hw hpos hmag h1 h2 h3 h4
    unfold DrawViewPaste
    rw [if_pos ⟨hw, hpos⟩, if_pos ⟨hmag, h1, h2, h3, h4⟩]

/-! ## Middle anchor: parity of the size difference -/

theorem shl1_even (mag : Int) (hmag : 0 < mag) : ∃ k : Int, 0 < k ∧ shl1 mag = 2 * k := by
  unfold shl1
  obtain ⟨n, hn⟩ : ∃ n : Nat, mag.toNat = n + 1 := ⟨mag.toNat - 1, by omega⟩
  rw [hn, pow_succ]
  exact ⟨2 ^ n, by positivity, by ring⟩

theorem copySeg (plat : Platform) (pmdata : Nat → Nat) (n : Nat) (c : Cursor) :
    (forLoop n (fun _ c =>
      Cursor.mk (c.bm.putRGB plat c.p (pmdata c.byteptr) (pmdata (c.byteptr + 1))
          (pmdata (c.byteptr + 2))) c.p.next (c.byteptr + 3)) c).Is
      ⟨c.p.x + n, c.p.y⟩ (c.byteptr + 3 * n) c.bm.ok
      (fun X Y => if Y = c.p.y ∧ c.p.x ≤ X ∧ X < c.p.x + n then
          paintTriplet plat pmdata (c.byteptr + 3 * (X - c.p.x).toNat) (c.bm.pix X Y)
        else c.bm.pix X Y) := by
  apply forLoop_inv (fun i (t : Cursor) => t.Is ⟨c.p.x + i, c.p.y⟩ (c.byteptr + 3 * i) c.bm.ok
      (fun X Y => if Y = c.p.y ∧ c.p.x ≤ X ∧ X < c.p.x + i then
          paintTriplet plat pmdata (c.byteptr + 3 * (X - c.p.x).toNat) (c.bm.pix X Y)
        else c.bm.pix X Y))
  · refine ⟨by simp, rfl, rfl, ?_⟩
    intro X Y
    beta_reduce
    rw [if_neg]; push_cast; omega
  · rintro i t _ ⟨hp, hb, hok, hpix⟩
    refine ⟨?_, ?_, hok, ?_⟩
    · show t.p.next = _
      rw [hp]; simp only [Iter.next]; push_cast; congr 1; ring
    · show t.byteptr + 3 = _
      rw [hb]; ring
    · intro X Y
      show (t.bm.putRGB plat t.p (pmdata t.byteptr) (pmdata (t.byteptr + 1))
        (pmdata (t.byteptr + 2))).pix X Y = _
      rw [putRGB_pix, hpix, hp, hb]
      beta_reduce
      dsimp only
      push_cast
      by_cases hpos : X = c.p.x + i ∧ Y = c.p.y
      · have e : (X - c.p.x).toNat = i := by omega
        rw [if_pos hpos, if_neg (by omega), if_pos (by omega), e]
        rfl
      · rw [if_neg hpos]
        split_ifs <;> first | rfl | (exfalso; omega)

theorem copyRows (plat : Platform) (pmdata : Nat → Nat) (w : Int) (bm : Bitmap) (n : Nat) :
    (forLoop n (fun _ c =>
      let rowstart := c.p
      let c := forLoop w.toNat (fun _ c =>
        Cursor.mk (c.bm.putRGB plat c.p (pmdata c.byteptr) (pmdata (c.byteptr + 1))
            (pmdata (c.byteptr + 2))) c.p.next (c.byteptr + 3)) c
      { c with p := rowstart.offsetY 1 }) (Cursor.mk bm ⟨0, 0⟩ 0)).Is
      ⟨0, n⟩ (3 * (n * w.toNat)) bm.ok
      (fun X Y => if 0 ≤ X ∧ X < w ∧ 0 ≤ Y ∧ Y < (n : Int) then
          paintTriplet plat pmdata (3 * (Y.toNat * w.toNat + X.toNat)) (bm.pix X Y)
        else bm.pix X Y) := by
  apply forLoop_inv (fun i (t : Cursor) => t.Is ⟨0, i⟩ (3 * (i * w.toNat)) bm.ok
      (fun X Y => if 0 ≤ X ∧ X < w ∧ 0 ≤ Y ∧ Y < (i : Int) then
          paintTriplet plat pmdata (3 * (Y.toNat * w.toNat + X.toNat)) (bm.pix X Y)
        else bm.pix X Y))
  · refine ⟨by simp, by simp, rfl, ?_⟩
    intro X Y
    beta_reduce
    rw [if_neg]; push_cast; omega
  · rintro i t _ ⟨hp, hb, hok, hpix⟩
    obtain ⟨hp1, hb1, hok1, hpix1⟩ := copySeg plat pmdata w.toNat t
    beta_reduce at hpix1
    rw [hp, hb] at hpix1
    dsimp only at hpix1
    refine ⟨?_, ?_, hok1.trans hok, ?_⟩
    · show t.p.offsetY 1 = _
      rw [hp]; simp only [Iter.offsetY]; push_cast; rfl
    · show (forLoop w.toNat _ t).byteptr = _
      rw [hb1, hb]; ring
    · intro X Y
      show (forLoop w.toNat _ t).bm.pix X Y = _
      rw [hpix1, hpix]
      beta_reduce
      push_cast
      by_cases hrow : Y = i ∧ 0 ≤ X ∧ X < w
      · have e : 3 * (i * w.toNat) + 3 * (X - 0).toNat = 3 * (Y.toNat * w.toNat + X.toNat) := by
          have hy : Y.toNat = i := by omega
          rw [hy]
          simp only [sub_zero]
          ring
        rw [if_pos (by omega), if_neg (by omega), if_pos (by omega), e]
      · rw [if_neg (by omega)]
        split_ifs <;> first | rfl | (exfalso; omega)

theorem copyLoops_pix (plat : Platform) (pmdata : Nat → Nat) (w h : Int) (bm : Bitmap)
    (col row : Int) (hcol : 0 ≤ col ∧ col < w) (hrow : 0 ≤ row ∧ row < h) :
    ((copyLoops plat pmdata w h bm).bm.pix col row).rgb =
      ⟨pmdata (3 * (row * w + col)).toNat, pmdata ((3 * (row * w + col)).toNat + 1),
       pmdata ((3 * (row * w + col)).toNat + 2)⟩ := by
  unfold copyLoops
  rw [(copyRows plat pmdata w bm h.toNat).2.2.2 col row]
  beta_reduce
  rw [if_pos (by omega)]
  have e : 3 * (row.toNat * w.toNat + col.toNat) = (3 * (row * w + col)).toNat := by
    obtain ⟨cn, rfl⟩ := Int.eq_ofNat_of_zero_le hcol.1
    obtain ⟨rn, rfl⟩ := Int.eq_ofNat_of_zero_le hrow.1
    have hw : ((w.toNat : Nat) : Int) = w := Int.toNat_of_nonneg (by omega)
    have : (3 : Int) * ((rn : Int) * w + cn) = ((3 * (rn * w.toNat + cn) : Nat) : Int) := by
      push_cast; rw [hw]
    rw [this, Int.toNat_natCast, Int.toNat_natCast, Int.toNat_natCast]
  rw [e]
  rfl

set_option maxRecDepth 100000 in

/-- C10, counterexample: with icon mode enabled at scale 1:8 for a layer that
has no icon table (`DrawView` selects the null table), `pixblit` at scale 8
dispatches to `DrawStretchedPixmap`, and the pixmap it produces differs from
what `DrawIcons` produces; and with icons enabled and a table present,
`pixblit` at scale 32, which is neither 8 nor 16, dispatches to `DrawIcons` and
the pixmap differs from what `DrawStretchedPixmap` produces. -/
theorem pixblit_icons_without_table :
    ((DrawViewIcons noIconGlobals).showicons = true ∧
      (DrawViewIcons noIconGlobals).curview.mag = 3 ∧
      pixblit Platform.other sampleExt (DrawViewIcons noIconGlobals) 0 0 8 8 (fun _ => 1) 8 =
        DrawStretchedPixmap Platform.other
          (ensurePixmap sampleExt (DrawViewIcons noIconGlobals) 8 8) (fun _ => 1) 0 0 1 1 8 ∧
      (pixblit Platform.other sampleExt (DrawViewIcons noIconGlobals) 0 0 8 8
          (fun _ => 1) 8).pixmap.pix 0 0 ≠
        (DrawIcons Platform.other (ensurePixmap sampleExt (DrawViewIcons noIconGlobals) 8 8)
          (fun _ => 1) 0 0 1 1 8).pixmap.pix 0 0) ∧
    (iconGlobals.showicons = true ∧
      pixblit Platform.other sampleExt iconGlobals 0 0 32 32 (fun _ => 2) 32 =
        DrawIcons Platform.other (ensurePixmap sampleExt iconGlobals 32 32)
          (fun _ => 2) 0 0 1 1 32 ∧
      (pixblit Platform.other sampleExt iconGlobals 0 0 32 32 (fun _ => 2) 32).pixmap.pix 0 0 ≠
        (DrawStretchedPixmap Platform.other (ensurePixmap sampleExt iconGlobals 32 32)
          (fun _ => 2) 0 0 1 1 32).pixmap.pix 0 0) := by
  refine ⟨⟨rfl, rfl, rfl, ?_⟩, rfl, rfl, ?_⟩
  · decide
  · decide

/-- C10, amended: for every scale >= 1 and a block that intersects the
viewport, `pixblit` at scale 1 copies the RGB triplets directly (pixel
`(col, row)` = bytes `3*(row*w+col) .. +2`) and draws the pixmap at `(x, y)`; at
a scale > 1 it dispatches to `DrawIcons` exactly when icon mode is enabled, the
scale is greater than 4 and the icon table is not null (so at scale 8 or 16
with icons enabled and a table present), and to `DrawStretchedPixmap` with
`w/scale x h/scale` cells otherwise (in particular at scales 2 and 4). -/
theorem pixblit_dispatch (plat : Platform) (ext : Ext) (g : Globals) (x y w h : Int)
    (pmdata : Nat → Nat) (pmscale : Int) (hscale : 1 ≤ pmscale)
    (hmeets : Rect.Meets ⟨x, y, w, h⟩ ⟨0, 0, g.currwd, g.currht⟩) :
    (pmscale = 1 →
      (pixblit plat ext g x y w h pmdata pmscale).dc g.currdc =
        DrawCmd.drawBitmap (pixblit plat ext g x y w h pmdata pmscale).pixmap x y false ::
          g.dc g.currdc ∧
      ((ensurePixmap ext g w h).pixmap.ok = true →
        ∀ col row : Int, 0 ≤ col → col < w → 0 ≤ row → row < h →
          ((pixblit plat ext g x y w h pmdata pmscale).pixmap.pix col row).rgb =
            ⟨pmdata (3 * (row * w + col)).toNat, pmdata ((3 * (row * w + col)).toNat + 1),
             pmdata ((3 * (row * w + col)).toNat + 2)⟩)) ∧
    (1 < pmscale → g.showicons = true → 4 < pmscale → g.iconmaps ≠ none →
      pixblit plat ext g x y w h pmdata pmscale =
        DrawIcons plat (ensurePixmap ext g w h) pmdata x y (w.tdiv pmscale) (h.tdiv pmscale)
          pmscale) ∧
    (1 < pmscale → ¬ (g.showicons = true ∧ 4 < pmscale ∧ g.iconmaps ≠ none) →
      pixblit plat ext g x y w h pmdata pmscale =
        DrawStretchedPixmap plat (ensurePixmap ext g w h) pmdata x y (w.tdiv pmscale)
          (h.tdiv pmscale) pmscale) ∧
    (g.showicons = true → g.iconmaps ≠ none →
      (pmscale = 8 ∨ pmscale = 16) →
      pixblit plat ext g x y w h pmdata pmscale =
        DrawIcons plat (ensurePixmap ext g w h) pmdata x y (w.tdiv pmscale) (h.tdiv pmscale)
          pmscale) ∧
    ((pmscale = 2 ∨ pmscale = 4) →
      pixblit plat ext g x y w h pmdata pmscale =
        DrawStretchedPixmap plat (ensurePixmap ext g w h) pmdata x y (w.tdiv pmscale)
          (h.tdiv pmscale) pmscale) := by
  obtain ⟨px, py, h1, h2⟩ := hmeets
  simp only [Rect.Contains] at h1 h2
  have hv1 : ¬ (x ≥ g.currwd ∨ y ≥ g.currht) := by omega
  have hv2 : ¬ (x + w ≤ 0 ∨ y + h ≤ 0) := by omega
  have hfr := ensurePixmap_frame ext g w h
  have hsi : (ensurePixmap ext g w h).showicons = g.showicons :=
    (congrArg Globals.showicons hfr).trans rfl
  have him : (ensurePixmap ext g w h).iconmaps = g.iconmaps :=
    (congrArg Globals.iconmaps hfr).trans rfl
  have hcd : (ensurePixmap ext g w h).currdc = g.currdc :=
    (congrArg Globals.currdc hfr).trans rfl
  have hdc : (ensurePixmap ext g w h).dc = g.dc := by
    unfold ensurePixmap
    split_ifs <;> rfl
  have hsome : g.iconmaps ≠ none ↔ g.iconmaps.isSome = true := by
    cases g.iconmaps <;> simp
  have hicons : ∀ s : Int, 1 < s → g.showicons = true → 4 < s → g.iconmaps ≠ none →
      pixblit plat ext g x y w h pmdata s =
        DrawIcons plat (ensurePixmap ext g w h) pmdata x y (w.tdiv s) (h.tdiv s) s := by
    intro s hs1 hsh hs4 hne
    unfold pixblit
    rw [if_neg hv1, if_neg hv2]
    dsimp only
    rw [if_neg (by omega), if_pos ⟨by rw [hsi]; exact hsh, hs4, by rw [him]; exact hsome.mp hne⟩]
  have hstretch : ∀ s : Int, 1 < s → ¬ (g.showicons = true ∧ 4 < s ∧ g.iconmaps ≠ none) →
      pixblit plat ext g x y w h pmdata s =
        DrawStretchedPixmap plat (ensurePixmap ext g w h) pmdata x y (w.tdiv s) (h.tdiv s) s := by
    intro s hs1 hno
    unfold pixblit
    rw [if_neg hv1, if_neg hv2]
    dsimp only
    rw [if_neg (by omega), if_neg (by rw [hsi, him, ← hsome]; exact hno)]
  refine ⟨?_, hicons pmscale, hstretch pmscale, ?_, ?_⟩
  · intro h1s
    subst h1s
    unfold pixblit
    rw [if_neg hv1, if_neg hv2]
    dsimp only
    rw [if_pos rfl]
    constructor
    · by_cases hok : (ensurePixmap ext g w h).pixmap.ok = true
      · simp only [if_pos hok, Globals.emit, Globals.emitOn, hcd, hdc, if_true]
      · simp only [if_neg hok, Globals.emit, Globals.emitOn, hcd, hdc, if_true]
    · intro hok col row hc0 hc1 hr0 hr1
      simp only [if_pos hok, Globals.emit, Globals.emitOn]
      exact copyLoops_pix plat pmdata w h _ col row ⟨hc0, hc1⟩ ⟨hr0, hr1⟩
  · intro hsh hne hs
    exact hicons pmscale (by omega) hsh (by omega) hne
  · intro hs
    exact hstretch pmscale (by omega) (by omega)

/-! ## Instances of the remaining theorems -/

/-- C3, instance of the amended theorem: with a black dead-cell colour a second
masking changes nothing. -/
theorem MaskDeadPixels_twice_witness :
    Platform.other ≠ Platform.msw ∧
    (MaskDeadPixels Platform.other ⟨0, 0, 0⟩
        (MaskDeadPixels Platform.other ⟨0, 0, 0⟩ blackBitmap 2 2 255) 2 2 255).pix 0 0 =
      (MaskDeadPixels Platform.other ⟨0, 0, 0⟩ blackBitmap 2 2 255).pix 0 0 :=
  ⟨by decide,
    (MaskDeadPixels_twice Platform.other (by decide) ⟨0, 0, 0⟩ blackBitmap 2 2 255).2 0 0
      (Or.inl rfl)⟩

/-- C4, instance: a dead-coloured pixel of the region becomes transparent
black. -/
theorem MaskDeadPixels_masks_witness :
    Platform.other ≠ Platform.msw ∧ grayBitmap.ok = true ∧
    ((0 : Int) ≤ 255 ∧ (255 : Int) ≤ 255) ∧
    (MaskDeadPixels Platform.other ⟨48, 48, 48⟩ grayBitmap 2 2 255).pix 0 0 = ⟨0, 0, 0, 0⟩ :=
  ⟨by decide, rfl, by decide,
    ((MaskDeadPixels_masks Platform.other (by decide) ⟨48, 48, 48⟩ grayBitmap 2 2 255 rfl
      (by decide)).1 0 0 (by decide)).1 rfl⟩

/-- C5, instance: two calls right after `CreatePasteImage` leave the counter
at 1. -/
theorem CheckPasteImage_same_keys_no_rebuild_witness :
    parityGlobals.rebuilds = 0 ∧ pasteKeysDiffer parityGlobals ∧
    (CheckPasteImage Platform.other sampleExt parityGlobals).rebuilds = 1 ∧
    (CheckPasteImage Platform.other sampleExt
      (CheckPasteImage Platform.other sampleExt parityGlobals)).rebuilds = 1 :=
  ⟨rfl, by decide,
    (CheckPasteImage_same_keys_no_rebuild Platform.other sampleExt parityGlobals).2.2 rfl
      (by decide)⟩

/-- C6, instance of the amended theorem: with the six keys matching the call
changes nothing although the magnification differs. -/
theorem CheckPasteImage_regenerates_iff_witness :
    magOnlyGlobals.pastemag ≠ magOnlyGlobals.curview.mag ∧
    CheckPasteImage Platform.other sampleExt magOnlyGlobals = magOnlyGlobals ∧
    (CheckPasteImage Platform.other sampleExt magOnlyGlobals).rebuilds =
      magOnlyGlobals.rebuilds :=
  ⟨by decide,
    (CheckPasteImage_regenerates_iff Platform.other sampleExt magOnlyGlobals).1.mpr
      (by decide)⟩

/-- C10, instance of the amended theorem: with icons shown and an icon table
present a visible block at scale 8 goes to `DrawIcons`. -/
theorem pixblit_dispatch_witness :
    (1 : Int) ≤ 8 ∧ iconGlobals.showicons = true ∧
    pixblit Platform.other sampleExt iconGlobals 0 0 16 16 (fun _ => 1) 8 =
      DrawIcons Platform.other (ensurePixmap sampleExt iconGlobals 16 16) (fun _ => 1) 0 0
        (Int.tdiv 16 8) (Int.tdiv 16 8) 8 :=
  ⟨by decide, rfl,
    (pixblit_dispatch Platform.other sampleExt iconGlobals 0 0 16 16 (fun _ => 1) 8
      (by decide) ⟨0, 0, by decide, by decide⟩).2.1 (by decide) rfl (by decide)
      (Option.some_ne_none _)⟩

/-! ## Where the pixmap writers write -/

theorem Wrote.wrote_refl (bm : Bitmap) (S : Int → Int → Prop) : Wrote bm bm S :=
  ⟨⟨[], rfl, fun _ h => absurd h (List.not_mem_nil _)⟩, fun _ _ _ => rfl⟩

theorem Wrote.mono {bm bm' : Bitmap} {S T : Int → Int → Prop} (h : Wrote bm bm' S)
    (hST : ∀ X Y, S X Y → T X Y) : Wrote bm bm' T := by
  obtain ⟨⟨news, hw, hin⟩, hpix⟩ := h
  exact ⟨⟨news, hw, fun xy hxy => hST _ _ (hin xy hxy)⟩,
    fun X Y hT => hpix X Y (fun hS => hT (hST X Y hS))⟩

theorem Wrote.wrote_trans {a b c : Bitmap} {S : Int → Int → Prop} (h1 : Wrote a b S)
    (h2 : Wrote b c S) : Wrote a c S := by
  obtain ⟨⟨n1, hw1, hin1⟩, hpix1⟩ := h1
  obtain ⟨⟨n2, hw2, hin2⟩, hpix2⟩ := h2
  refine ⟨⟨n2 ++ n1, by rw [hw2, hw1, List.append_assoc], ?_⟩, ?_⟩
  · intro xy hxy
    rcases List.mem_append.mp hxy with h | h
    · exact hin2 xy h
    · exact hin1 xy h
  · intro X Y hS
    rw [hpix2 X Y hS, hpix1 X Y hS]

theorem putRGB_wrote (plat : Platform) (bm : Bitmap) (p : Iter) (r g b : Nat) :
    Wrote bm (bm.putRGB plat p r g b) (fun X Y => X = p.x ∧ Y = p.y) := by
  refine ⟨⟨[(p.x, p.y)], rfl, ?_⟩, ?_⟩
  · intro xy hxy
    rw [List.mem_singleton] at hxy
    subst hxy
    exact ⟨rfl, rfl⟩
  · intro X Y hS
    rw [putRGB_pix, if_neg hS]

/-- The inner `j` loop writes only on its row segment. -/
theorem paintSeg_wrote (plat : Platform) (r g b : Nat) (n : Nat) (c : Cursor) :
    Wrote c.bm (forLoop n (fun _ c =>
      { c with bm := c.bm.putRGB plat c.p r g b, p := c.p.next }) c).bm
      (fun X Y => Y = c.p.y ∧ c.p.x ≤ X ∧ X < c.p.x + n) := by
  have key := forLoop_inv (fun i (t : Cursor) =>
      t.p = ⟨c.p.x + i, c.p.y⟩ ∧
      Wrote c.bm t.bm (fun X Y => Y = c.p.y ∧ c.p.x ≤ X ∧ X < c.p.x + n))
    (fun _ c => { c with bm := c.bm.putRGB plat c.p r g b, p := c.p.next }) c n
    ⟨by simp, Wrote.wrote_refl _ _⟩
    (by
      rintro i t hi ⟨hp, hw⟩
      refine ⟨?_, ?_⟩
      · show t.p.next = _
        rw [hp]; simp only [Iter.next]; push_cast; congr 1; ring
      · refine Wrote.wrote_trans hw ((putRGB_wrote plat t.bm t.p r g b).mono ?_)
        intro X Y hXY
        rw [hp] at hXY
        dsimp only at hXY
        omega)
  exact key.2

/-- The `i` loop of `stretchCell` writes only in the cell region. -/
theorem stretchRows_wrote (plat : Platform) (drawgap : Bool) (cs : Nat) (r g b dr dg db : Nat)
    (n : Nat) (hn : n ≤ cs) (c : Cursor) :
    Wrote c.bm (forLoop n (fun _ c =>
      let colstart := c.p
      let c := forLoop cs (fun _ c =>
        { c with bm := c.bm.putRGB plat c.p r g b, p := c.p.next }) c
      let c := if drawgap then
          { c with bm := c.bm.putRGB plat c.p dr dg db }
        else c
      { c with p := colstart.offsetY 1 }) c).bm
      (CellRegion drawgap cs c.p.x c.p.y) := by
  have key := forLoop_inv (fun i (t : Cursor) => t.p = ⟨c.p.x, c.p.y + i⟩ ∧
      Wrote c.bm t.bm (CellRegion drawgap cs c.p.x c.p.y))
    (fun _ c =>
      let colstart := c.p
      let c := forLoop cs (fun _ c =>
        { c with bm := c.bm.putRGB plat c.p r g b, p := c.p.next }) c
      let c := if drawgap then
          { c with bm := c.bm.putRGB plat c.p dr dg db }
        else c
      { c with p := colstart.offsetY 1 }) c n
    ⟨by simp, Wrote.wrote_refl _ _⟩
    (by
      rintro i t hi ⟨hp, hw⟩
      obtain ⟨hp1, -, -, -⟩ := paintSeg plat r g b cs t
      have hw1 := paintSeg_wrote plat r g b cs t
      rw [hp] at hp1 hw1
      dsimp only at hp1 hw1
      have hw1' : Wrote t.bm (forLoop cs (fun _ c =>
          { c with bm := c.bm.putRGB plat c.p r g b, p := c.p.next }) t).bm
          (CellRegion drawgap cs c.p.x c.p.y) := by
        refine hw1.mono ?_
        intro X Y hXY
        left
        omega
      cases drawgap
      · refine ⟨?_, ?_⟩
        · show t.p.offsetY 1 = _
          rw [hp]; simp only [Iter.offsetY]; push_cast; congr 1; ring
        · exact hw.wrote_trans hw1'
      · refine ⟨?_, ?_⟩
        · show t.p.offsetY 1 = _
          rw [hp]; simp only [Iter.offsetY]; push_cast; congr 1; ring
        · refine (hw.wrote_trans hw1').wrote_trans ?_
          show Wrote _ ((forLoop cs _ t).bm.putRGB plat (forLoop cs _ t).p dr dg db) _
          refine (putRGB_wrote plat _ _ dr dg db).mono ?_
          intro X Y hXY
          rw [hp1] at hXY
          dsimp only at hXY
          right
          exact ⟨rfl, Or.inl (by omega)⟩)
  exact key.2

theorem stretchCell_wrote (plat : Platform) (drawgap : Bool) (cellsize : Int)
    (hcs : 0 ≤ cellsize) (r g b dr dg db : Nat) (c : Cursor) :
    Wrote c.bm (stretchCell plat drawgap cellsize r g b dr dg db c).bm
      (CellRegion drawgap cellsize c.p.x c.p.y) := by
  have hcast : ((cellsize.toNat : Nat) : Int) = cellsize := Int.toNat_of_nonneg hcs
  have hrows := stretchRows_wrote plat drawgap cellsize.toNat r g b dr dg db cellsize.toNat
    le_rfl c
  obtain ⟨hp, -, -, -⟩ :=
    stretchRows plat drawgap cellsize.toNat r g b dr dg db cellsize.toNat c
  rw [hcast] at hrows hp
  unfold stretchCell
  cases drawgap
  · exact hrows
  · have hcast2 : (((cellsize + 1).toNat : Nat) : Int) = cellsize + 1 :=
      Int.toNat_of_nonneg (by omega)
    have hw2 := paintSeg_wrote plat dr dg db (cellsize + 1).toNat
      (forLoop cellsize.toNat (fun _ c =>
        let colstart := c.p
        let c := forLoop cellsize.toNat (fun _ c =>
          { c with bm := c.bm.putRGB plat c.p r g b, p := c.p.next }) c
        let c := if true then
            { c with bm := c.bm.putRGB plat c.p dr dg db }
          else c
        { c with p := colstart.offsetY 1 }) c)
    rw [hp, hcast2] at hw2
    dsimp only at hw2
    refine hrows.wrote_trans ?_
    show Wrote _ (forLoop (cellsize + 1).toNat _ (forLoop cellsize.toNat _ c)).bm _
    refine hw2.mono ?_
    intro X Y hXY
    right
    exact ⟨rfl, Or.inr (by omega)⟩

/-- The column loop of the cell loops writes only in the regions of the cells
that pass the clipping test. -/
theorem gridRow_wrote (currwd currht x y w h pmscale : Int) (F : Cursor → Cursor)
    (Reg : Int → Int → Int → Int → Prop)
    (hp : ∀ c, (F c).p = c.p) (hW : ∀ c, Wrote c.bm (F c).bm (Reg c.p.x c.p.y))
    (R : Nat) (hR : R < h.toNat) (c0 : Cursor) (hp0 : c0.p = ⟨0, (R : Int) * pmscale⟩)
    (n : Nat) (hn : n ≤ w.toNat) :
    Wrote c0.bm (forLoop n (fun col c =>
      let newx := x + (col : Int) * pmscale
      let newy := y + (R : Int) * pmscale
      let c := if newx < 0 ∨ newy < 0 ∨ newx ≥ currwd ∨ newy ≥ currht then c else F c
      { c with p := c.p.offsetX pmscale, byteptr := c.byteptr + 1 }) c0).bm
      (GridRegion currwd currht x y w h pmscale Reg) := by
  have key := forLoop_inv (fun i (t : Cursor) =>
      t.p = ⟨(i : Int) * pmscale, (R : Int) * pmscale⟩ ∧
      Wrote c0.bm t.bm (GridRegion currwd currht x y w h pmscale Reg))
    (fun col c =>
      let newx := x + (col : Int) * pmscale
      let newy := y + (R : Int) * pmscale
      let c := if newx < 0 ∨ newy < 0 ∨ newx ≥ currwd ∨ newy ≥ currht then c else F c
      { c with p := c.p.offsetX pmscale, byteptr := c.byteptr + 1 }) c0 n
    ⟨by rw [hp0]; simp, Wrote.wrote_refl _ _⟩
    (by
      rintro i t hi ⟨hpt, hw⟩
      by_cases hclip : x + (i : Int) * pmscale < 0 ∨ y + (R : Int) * pmscale < 0 ∨
          x + (i : Int) * pmscale ≥ currwd ∨ y + (R : Int) * pmscale ≥ currht
      · simp only [if_pos hclip]
        refine ⟨?_, hw⟩
        rw [hpt]; simp only [Iter.offsetX]; push_cast; congr 1; ring
      · simp only [if_neg hclip]
        refine ⟨?_, ?_⟩
        · rw [hp, hpt]; simp only [Iter.offsetX]; push_cast; congr 1; ring
        · refine hw.wrote_trans ((hW t).mono ?_)
          intro X Y hXY
          rw [hpt] at hXY
          exact ⟨i, R, by omega, hR, hclip, hXY⟩)
  exact key.2

theorem gridLoops_wrote (currwd currht x y w h pmscale : Int) (F : Cursor → Cursor)
    (Reg : Int → Int → Int → Int → Prop)
    (hp : ∀ c, (F c).p = c.p) (hW : ∀ c, Wrote c.bm (F c).bm (Reg c.p.x c.p.y))
    (bm : Bitmap) :
    Wrote bm (gridLoops currwd currht x y w h pmscale F bm).bm
      (GridRegion currwd currht x y w h pmscale Reg) := by
  have key := forLoop_inv (fun n (t : Cursor) =>
    t.p = ⟨0, (n : Int) * pmscale⟩ ∧
    Wrote bm t.bm (GridRegion currwd currht x y w h pmscale Reg))
    (fun row c =>
      let rowstart := c.p
      let c := forLoop w.toNat (fun col c =>
        let newx := x + (col : Int) * pmscale
        let newy := y + (row : Int) * pmscale
        let c := if newx < 0 ∨ newy < 0 ∨ newx ≥ currwd ∨ newy ≥ currht then c else F c
        { c with p := c.p.offsetX pmscale, byteptr := c.byteptr + 1 }) c
      { c with p := rowstart.offsetY pmscale }) ⟨bm, ⟨0, 0⟩, 0⟩ h.toNat
    ⟨by simp, Wrote.wrote_refl _ _⟩
    (by
      rintro i t hi ⟨hpt, hw⟩
      refine ⟨?_, ?_⟩
      · show t.p.offsetY pmscale = _
        rw [hpt]; simp only [Iter.offsetY]; push_cast; congr 1; ring
      · exact hw.wrote_trans
          (gridRow_wrote currwd currht x y w h pmscale F Reg hp hW i hi t hpt w.toNat le_rfl))
  exact key.2

/-! ## DrawStretchedPixmap: gaps and write bounds -/

theorem slot_unique (s a b X : Int) (hs : 0 < s) (ha : a * s ≤ X ∧ X < a * s + s)
    (hb : b * s ≤ X ∧ X < b * s + s) : a = b := by
  rcases lt_trichotomy a b with h | h | h
  · exfalso
    have h1 : (a + 1) * s ≤ b * s := mul_le_mul_of_nonneg_right (by omega) (le_of_lt hs)
    have h2 : (a + 1) * s = a * s + s := by ring
    omega
  · exact h
  · exfalso
    have h1 : (b + 1) * s ≤ a * s := mul_le_mul_of_nonneg_right (by omega) (le_of_lt hs)
    have h2 : (b + 1) * s = b * s + s := by ring
    omega

theorem stretchLoops_wrote (plat : Platform) (g : Globals) (byteptr : Nat → Nat)
    (x y w h pmscale : Int) (hscale : 2 ≤ pmscale) (bm : Bitmap) :
    Wrote bm (stretchLoops plat g byteptr x y w h pmscale bm).bm
      (GridRegion g.currwd g.currht x y w h pmscale
        (CellRegion (stretchDrawgap plat g pmscale)
          (if pmscale > 2 then pmscale - 1 else pmscale))) := by
  have hcs0 : 0 ≤ (if pmscale > 2 then pmscale - 1 else pmscale) := by split_ifs <;> omega
  rw [stretchLoops_eq]
  exact gridLoops_wrote _ _ _ _ _ _ _ _ _
    (fun c => (stretchCell_is plat _ _ hcs0 _ _ _ _ _ _ c).1)
    (fun c => stretchCell_wrote plat _ _ hcs0 _ _ _ _ _ _ c) bm

theorem stretchCell_gap_ok (plat : Platform) (g : Globals) (byteptr : Nat → Nat)
    (pmscale : Int) (hscale : 2 < pmscale) :
    CellOK (fun c => stretchCell plat true (pmscale - 1)
          (g.cur.cellr (byteptr c.byteptr)) (g.cur.cellg (byteptr c.byteptr))
          (g.cur.cellb (byteptr c.byteptr)) (g.cur.cellr 0) (g.cur.cellg 0) (g.cur.cellb 0) c)
      pmscale (fun _ => GapGood g (pmscale - 1)) where
  keep_p := fun c => (stretchCell_is plat true _ (by omega) _ _ _ _ _ _ c).1
  keep_byteptr := fun c => (stretchCell_is plat true _ (by omega) _ _ _ _ _ _ c).2.1
  keep_ok := fun c => (stretchCell_is plat true _ (by omega) _ _ _ _ _ _ c).2.2.1
  frame := by
    intro c X Y hXY
    rw [(stretchCell_is plat true _ (by omega) _ _ _ _ _ _ c).2.2.2 X Y]
    simp only [cellPix]
    split_ifs <;> first | rfl | (exfalso; omega)
  good := by
    intro c
    constructor
    · intro i hi hi'
      rw [(stretchCell_is plat true _ (by omega) _ _ _ _ _ _ c).2.2.2]
      simp only [cellPix]
      rw [if_neg (by omega), if_pos (by simp; omega)]
      rfl
    · intro j hj hj'
      rw [(stretchCell_is plat true _ (by omega) _ _ _ _ _ _ c).2.2.2]
      simp only [cellPix]
      rw [if_neg (by omega), if_pos (by simp; omega)]
      rfl
  stable := by
    rintro bp X0 Y0 pix pix' hsame ⟨h1, h2⟩
    constructor
    · intro i hi hi'
      rw [hsame _ _ (by omega) (by omega) (by omega) (by omega)]
      exact h1 i hi hi'
    · intro j hj hj'
      rw [hsame _ _ (by omega) (by omega) (by omega) (by omega)]
      exact h2 j hj hj'

theorem DrawStretchedPixmap_pixmap (plat : Platform) (g : Globals) (byteptr : Nat → Nat)
    (x y w h pmscale : Int) :
    (DrawStretchedPixmap plat g byteptr x y w h pmscale).pixmap =
      if g.pixmap.ok then (stretchLoops plat g byteptr x y w h pmscale g.pixmap).bm
      else g.pixmap := by
  unfold DrawStretchedPixmap
  cases g.pixmap.ok <;> rfl

/-- C11, counterexample at scale 2, where `cs = 2` and the gap offset `cs` is
the first column of the next slot.  With the gap flag set (`mingridmag = 1`,
grid lines off) the gap column of cell (0, 0) of a 2 x 1 array of state-1
cells ends in the colour of state 1, not in the dead colour, because cell
(1, 0) paints over it; with the gap flag clear (`mingridmag = 2`) the same
pixel is written all the same, by cell (1, 0). -/
theorem DrawStretchedPixmap_gap_overwritten :
    (stretchDrawgap Platform.other gapGlobals 2 = true ∧
      ((DrawStretchedPixmap Platform.other gapGlobals (fun _ => 1) 0 0 2 1 2).pixmap.pix
          (0 * 2 + 2) (0 * 2 + 0)).rgb ≠
        ⟨gapGlobals.cur.cellr 0, gapGlobals.cur.cellg 0, gapGlobals.cur.cellb 0⟩) ∧
    (stretchDrawgap Platform.other sampleGlobals 2 = false ∧
      ((0 : Int) * 2 + 2, (0 : Int) * 2 + 0) ∈
        (DrawStretchedPixmap Platform.other sampleGlobals (fun _ => 1) 0 0 2 1 2).pixmap.written) := by
  decide

/-- C11 for scales above 2: the gap flag of a non-Mac build is the condition
`(s > 2 and s < 2^mingridmag) or (s >= 2^mingridmag and grid lines off)`; when
the flag is set, in the final pixmap every in-viewport cell has its gap column
(offset `s - 1`, rows `0..s-2` of its slot) and its gap row (offset `s - 1`,
columns `0..s-1`) in the dead-cell colour; when the flag is clear, no cell's
gap column or gap row pixel is written (none is in the new part of the write
log and each keeps its previous content). -/
theorem DrawStretchedPixmap_gaps (plat : Platform) (g : Globals) (byteptr : Nat → Nat)
    (x y w h pmscale : Int) (hscale : 2 < pmscale) (hok : g.pixmap.ok = true) :
    (plat ≠ Platform.mac →
      (stretchDrawgap plat g pmscale = true ↔
        ((pmscale > 2 ∧ pmscale < 2 ^ g.mingridmag.toNat) ∨
          (pmscale ≥ 2 ^ g.mingridmag.toNat ∧ g.showgridlines = false)))) ∧
    (stretchDrawgap plat g pmscale = true →
      ∀ col row : Int, 0 ≤ col ∧ col < w → 0 ≤ row ∧ row < h →
        (0 ≤ x + col * pmscale ∧ x + col * pmscale < g.currwd ∧
          0 ≤ y + row * pmscale ∧ y + row * pmscale < g.currht) →
        (∀ i : Int, 0 ≤ i → i < pmscale - 1 →
          ((DrawStretchedPixmap plat g byteptr x y w h pmscale).pixmap.pix
            (col * pmscale + (pmscale - 1)) (row * pmscale + i)).rgb =
              ⟨g.cur.cellr 0, g.cur.cellg 0, g.cur.cellb 0⟩) ∧
        (∀ j : Int, 0 ≤ j → j ≤ pmscale - 1 →
          ((DrawStretchedPixmap plat g byteptr x y w h pmscale).pixmap.pix
            (col * pmscale + j) (row * pmscale + (pmscale - 1))).rgb =
              ⟨g.cur.cellr 0, g.cur.cellg 0, g.cur.cellb 0⟩)) ∧
    (stretchDrawgap plat g pmscale = false →
      ∃ news : List (Int × Int),
        (DrawStretchedPixmap plat g byteptr x y w h pmscale).pixmap.written =
          news ++ g.pixmap.written ∧
        ∀ col row : Int, 0 ≤ col ∧ col < w → 0 ≤ row ∧ row < h →
          (∀ i : Int, 0 ≤ i → i < pmscale - 1 →
            (col * pmscale + (pmscale - 1), row * pmscale + i) ∉ news ∧
            (DrawStretchedPixmap plat g byteptr x y w h pmscale).pixmap.pix
              (col * pmscale + (pmscale - 1)) (row * pmscale + i) =
                g.pixmap.pix (col * pmscale + (pmscale - 1)) (row * pmscale + i)) ∧
          (∀ j : Int, 0 ≤ j → j ≤ pmscale - 1 →
            (col * pmscale + j, row * pmscale + (pmscale - 1)) ∉ news ∧
            (DrawStretchedPixmap plat g byteptr x y w h pmscale).pixmap.pix
              (col * pmscale + j) (row * pmscale + (pmscale - 1)) =
                g.pixmap.pix (col * pmscale + j) (row * pmscale + (pmscale - 1)))) := by
  have hpm : (DrawStretchedPixmap plat g byteptr x y w h pmscale).pixmap =
      (stretchLoops plat g byteptr x y w h pmscale g.pixmap).bm := by
    rw [DrawStretchedPixmap_pixmap, hok]; rfl
  have hcs : (if pmscale > 2 then pmscale - 1 else pmscale) = pmscale - 1 := if_pos hscale
  refine ⟨?_, ?_, ?_⟩
  · intro hplat
    simp only [stretchDrawgap, if_neg hplat, shl1, Bool.or_eq_true, Bool.and_eq_true,
      decide_eq_true_eq, Bool.not_eq_true']
  · intro hgap col row hcol hrow hin
    rw [hpm, stretchLoops_eq, hgap, hcs]
    obtain ⟨cn, rfl⟩ := Int.eq_ofNat_of_zero_le hcol.1
    obtain ⟨rn, rfl⟩ := Int.eq_ofNat_of_zero_le hrow.1
    have hgood := (gridLoops_good g.currwd g.currht x y w h pmscale _ _ _
      (stretchCell_gap_ok plat g byteptr pmscale hscale) (by omega) le_rfl
      g.pixmap).2 rn cn (by omega) (by omega) (by simp only [InView]; omega)
    exact hgood
  · intro hgap
    obtain ⟨⟨news, hw, hin⟩, hpix⟩ :=
      stretchLoops_wrote plat g byteptr x y w h pmscale (by omega) g.pixmap
    rw [hgap, hcs] at hin hpix
    have hnot : ∀ col row : Int, ∀ X Y : Int, InSlot pmscale col row X Y →
        (X = col * pmscale + (pmscale - 1) ∨ Y = row * pmscale + (pmscale - 1)) →
        ¬ GridRegion g.currwd g.currht x y w h pmscale (CellRegion false (pmscale - 1)) X Y := by
      rintro col row X Y ⟨hx1, hx2, hy1, hy2⟩ hXY ⟨c, r, -, -, -, hreg⟩
      simp only [CellRegion, Bool.false_eq_true, false_and, or_false] at hreg
      have e1 := slot_unique pmscale c col X (by omega) ⟨by omega, by omega⟩ ⟨hx1, hx2⟩
      have e2 := slot_unique pmscale r row Y (by omega) ⟨by omega, by omega⟩ ⟨hy1, hy2⟩
      rw [e1, e2] at hreg
      omega
    refine ⟨news, by rw [hpm, hw], ?_⟩
    intro col row _ _
    constructor
    · intro i hi hi'
      have hn := hnot col row (col * pmscale + (pmscale - 1)) (row * pmscale + i)
        ⟨by omega, by omega, by omega, by omega⟩ (Or.inl rfl)
      exact ⟨fun hmem => hn (hin _ hmem), by rw [hpm]; exact hpix _ _ hn⟩
    · intro j hj hj'
      have hn := hnot col row (col * pmscale + j) (row * pmscale + (pmscale - 1))
        ⟨by omega, by omega, by omega, by omega⟩ (Or.inr rfl)
      exact ⟨fun hmem => hn (hin _ hmem), by rw [hpm]; exact hpix _ _ hn⟩

/-- C11, instance: the first gap-column pixel of cell (1, 1) of a 2 x 2 array
at scale 4 with the gap flag set. -/
theorem DrawStretchedPixmap_gaps_witness :
    (2 : Int) < 4 ∧ sampleGlobals.pixmap.ok = true ∧
    ((DrawStretchedPixmap Platform.other sampleGlobals (fun _ => 1) 0 0 2 2 4).pixmap.pix
        (1 * 4 + (4 - 1)) (1 * 4 + 0)).rgb =
      ⟨sampleGlobals.cur.cellr 0, sampleGlobals.cur.cellg 0, sampleGlobals.cur.cellb 0⟩ :=
  ⟨by decide, rfl,
    ((DrawStretchedPixmap_gaps Platform.other sampleGlobals (fun _ => 1) 0 0 2 2 4
      (by decide) rfl).2.1 (by decide) 1 1 (by decide) (by decide) (by decide)).1 0
        (by decide) (by decide)⟩

/-- C12, failing input: at scale 2 with `mingridmag = 1` and grid lines off
the gap flag is set with `cs = 2`, and the single cell of a 1 x 1 array writes
its gap column at x = 2 and its gap row at y = 2, outside its 2 x 2 slot, which
is the whole pixmap. -/
theorem DrawStretchedPixmap_writes_outside_pixmap :
    ((1 : Int) * 2, (0 : Int)) ∈
      (DrawStretchedPixmap Platform.other gapGlobals (fun _ => 1) 0 0 1 1 2).pixmap.written ∧
    ((0 : Int), (1 : Int) * 2) ∈
      (DrawStretchedPixmap Platform.other gapGlobals (fun _ => 1) 0 0 1 1 2).pixmap.written ∧
    ¬ InSlot 2 0 0 (1 * 2) 0 := by
  decide

/-- C12 for scales above 2, and for scale 2 when `mingridmag >= 2` or the gap
flag is clear: every pixel write of `DrawStretchedPixmap` falls in the
`pmscale x pmscale` slot of a cell of the array whose screen position is inside
the viewport, hence inside the `(w*pmscale) x (h*pmscale)` pixmap, and no
write falls in the slot of a cell whose screen position is outside the
viewport. -/
theorem DrawStretchedPixmap_writes_in_slots (plat : Platform) (g : Globals)
    (byteptr : Nat → Nat) (x y w h pmscale : Int) (hscale : 2 ≤ pmscale)
    (hsafe : 2 < pmscale ∨ 2 ≤ g.mingridmag ∨ stretchDrawgap plat g pmscale = false) :
    ∃ news : List (Int × Int),
      (DrawStretchedPixmap plat g byteptr x y w h pmscale).pixmap.written =
        news ++ g.pixmap.written ∧
      ∀ xy ∈ news,
        (∃ col row : Int, (0 ≤ col ∧ col < w) ∧ (0 ≤ row ∧ row < h) ∧
          (0 ≤ x + col * pmscale ∧ x + col * pmscale < g.currwd ∧
            0 ≤ y + row * pmscale ∧ y + row * pmscale < g.currht) ∧
          InSlot pmscale col row xy.1 xy.2) ∧
        (0 ≤ xy.1 ∧ xy.1 < w * pmscale ∧ 0 ≤ xy.2 ∧ xy.2 < h * pmscale) ∧
        (∀ col row : Int, InSlot pmscale col row xy.1 xy.2 →
          (0 ≤ x + col * pmscale ∧ x + col * pmscale < g.currwd ∧
            0 ≤ y + row * pmscale ∧ y + row * pmscale < g.currht)) := by
  rw [DrawStretchedPixmap_pixmap]
  by_cases hok : g.pixmap.ok = true
  swap
  · rw [if_neg hok]
    exact ⟨[], rfl, fun _ h => absurd h (List.not_mem_nil _)⟩
  rw [if_pos hok]
  have hs : 0 < pmscale := by omega
  obtain ⟨⟨news, hw, hin⟩, -⟩ :=
    stretchLoops_wrote plat g byteptr x y w h pmscale hscale g.pixmap
  have hgap2 : pmscale = 2 → stretchDrawgap plat g pmscale = false := by
    intro h2
    rcases hsafe with h | h | h
    · omega
    · have h4 : (2 : Int) ^ 2 ≤ 2 ^ g.mingridmag.toNat :=
        pow_le_pow_right₀ (by norm_num) (by omega)
      have h5 : ¬ (pmscale ≥ shl1 g.mingridmag) := by
        simp only [shl1]; omega
      have h6 : ¬ (pmscale > 2) := by omega
      simp only [stretchDrawgap, h5, h6, decide_False, Bool.false_and, Bool.or_self,
        ite_self]
    · exact h
  have hslot : ∀ X0 Y0 X Y : Int,
      CellRegion (stretchDrawgap plat g pmscale)
        (if pmscale > 2 then pmscale - 1 else pmscale) X0 Y0 X Y →
      X0 ≤ X ∧ X < X0 + pmscale ∧ Y0 ≤ Y ∧ Y < Y0 + pmscale := by
    intro X0 Y0 X Y hreg
    by_cases h2 : pmscale > 2
    · rw [if_pos h2] at hreg
      simp only [CellRegion] at hreg
      omega
    · rw [if_neg h2, hgap2 (by omega)] at hreg
      simp only [CellRegion, Bool.false_eq_true, false_and, or_false] at hreg
      omega
  refine ⟨news, hw, ?_⟩
  intro xy hxy
  obtain ⟨c, r, hc, hr, hview, hreg⟩ := hin xy hxy
  have hsl := hslot _ _ _ _ hreg
  have hview' : 0 ≤ x + (c : Int) * pmscale ∧ x + (c : Int) * pmscale < g.currwd ∧
      0 ≤ y + (r : Int) * pmscale ∧ y + (r : Int) * pmscale < g.currht := by
    simp only [InView] at hview; omega
  have hcw : (c : Int) < w := by omega
  have hrh : (r : Int) < h := by omega
  refine ⟨⟨c, r, ⟨by omega, hcw⟩, ⟨by omega, hrh⟩, hview', hsl⟩, ?_, ?_⟩
  · have h1 : ((c : Int) + 1) * pmscale ≤ w * pmscale :=
      mul_le_mul_of_nonneg_right (by omega) (le_of_lt hs)
    have h2 : ((r : Int) + 1) * pmscale ≤ h * pmscale :=
      mul_le_mul_of_nonneg_right (by omega) (le_of_lt hs)
    have h3 : ((c : Int) + 1) * pmscale = c * pmscale + pmscale := by ring
    have h4 : ((r : Int) + 1) * pmscale = r * pmscale + pmscale := by ring
    have h5 : 0 ≤ (c : Int) * pmscale := mul_nonneg (by omega) (le_of_lt hs)
    have h6 : 0 ≤ (r : Int) * pmscale := mul_nonneg (by omega) (le_of_lt hs)
    omega
  · rintro col row ⟨hx1, hx2, hy1, hy2⟩
    have e1 := slot_unique pmscale c col xy.1 hs ⟨hsl.1, hsl.2.1⟩ ⟨hx1, hx2⟩
    have e2 := slot_unique pmscale r row xy.2 hs ⟨hsl.2.2.1, hsl.2.2.2⟩ ⟨hy1, hy2⟩
    rw [← e1, ← e2]
    exact hview'

/-- C12, instance: a 2 x 2 array at scale 2 with `mingridmag = 2`. -/
theorem DrawStretchedPixmap_writes_in_slots_witness :
    (2 : Int) ≤ 2 ∧
    ((2 : Int) < 2 ∨ 2 ≤ sampleGlobals.mingridmag ∨
      stretchDrawgap Platform.other sampleGlobals 2 = false) ∧
    ∃ news : List (Int × Int),
      (DrawStretchedPixmap Platform.other sampleGlobals (fun _ => 1) 0 0 2 2 2).pixmap.written =
        news ++ sampleGlobals.pixmap.written ∧
      ∀ xy ∈ news,
        (∃ col row : Int, (0 ≤ col ∧ col < 2) ∧ (0 ≤ row ∧ row < 2) ∧
          (0 ≤ 0 + col * 2 ∧ 0 + col * 2 < sampleGlobals.currwd ∧
            0 ≤ 0 + row * 2 ∧ 0 + row * 2 < sampleGlobals.currht) ∧
          InSlot 2 col row xy.1 xy.2) ∧
        (0 ≤ xy.1 ∧ xy.1 < 2 * 2 ∧ 0 ≤ xy.2 ∧ xy.2 < 2 * 2) ∧
        (∀ col row : Int, InSlot 2 col row xy.1 xy.2 →
          (0 ≤ 0 + col * 2 ∧ 0 + col * 2 < sampleGlobals.currwd ∧
            0 ≤ 0 + row * 2 ∧ 0 + row * 2 < sampleGlobals.currht)) :=
  ⟨by decide, Or.inr (Or.inl (by decide)),
    DrawStretchedPixmap_writes_in_slots Platform.other sampleGlobals (fun _ => 1) 0 0 2 2 2
      (by decide) (Or.inr (Or.inl (by decide)))⟩

/-! ## DrawStretchedPixmap: cell blocks -/

/-- When every store was made at a position inside the rows, the pixel read
through the storage is the pixel at that position. -/
theorem rawPix_eq_pix (rowlen : Int) (bm : Bitmap) (X Y : Int) (hX : 0 ≤ X ∧ X < rowlen)
    (hlog : ∀ xy ∈ bm.written, 0 ≤ xy.1 ∧ xy.1 < rowlen) :
    bm.rawPix rowlen X Y = bm.pix X Y := by
  unfold Bitmap.rawPix
  cases hf : bm.written.find?
      (fun xy => decide (rawOffset rowlen xy = rawOffset rowlen (X, Y))) with
  | none => rfl
  | some xy =>
    have hmem := List.mem_of_find?_eq_some hf
    have hp := List.find?_some hf
    simp only [decide_eq_true_eq, rawOffset] at hp
    obtain ⟨h1, h2⟩ := hlog xy hmem
    have hy : xy.2 = Y := by
      by_contra hne
      rcases lt_or_gt_of_ne hne with hlt | hgt
      · have : (xy.2 + 1) * rowlen ≤ Y * rowlen :=
          mul_le_mul_of_nonneg_right (by omega) (by omega)
        have e : (xy.2 + 1) * rowlen = xy.2 * rowlen + rowlen := by ring
        omega
      · have : (Y + 1) * rowlen ≤ xy.2 * rowlen :=
          mul_le_mul_of_nonneg_right (by omega) (by omega)
        have e : (Y + 1) * rowlen = Y * rowlen + rowlen := by ring
        omega
    have hx : xy.1 = X := by
      rw [hy] at hp
      omega
    show bm.pix xy.1 xy.2 = bm.pix X Y
    rw [hx, hy]

/-- At scale 2 the gap flag is clear unless `mingridmag < 2`. -/
theorem stretchDrawgap_scale2 (plat : Platform) (g : Globals) (pmscale : Int)
    (hsafe : 2 < pmscale ∨ 2 ≤ g.mingridmag ∨ stretchDrawgap plat g pmscale = false)
    (h2 : pmscale = 2) : stretchDrawgap plat g pmscale = false := by
  rcases hsafe with h | h | h
  · omega
  · have h4 : (2 : Int) ^ 2 ≤ 2 ^ g.mingridmag.toNat :=
      pow_le_pow_right₀ (by norm_num) (by omega)
    have h5 : ¬ (pmscale ≥ shl1 g.mingridmag) := by
      simp only [shl1]; omega
    have h6 : ¬ (pmscale > 2) := by omega
    simp only [stretchDrawgap, h5, h6, decide_False, Bool.false_and, Bool.or_self,
      ite_self]
  · exact h

/-- For scales above 2, and for scale 2 when the gap flag is clear, every store
of `DrawStretchedPixmap` is at a position inside the
`(w*pmscale) x (h*pmscale)` pixmap. -/
theorem DrawStretchedPixmap_inside (plat : Platform) (g : Globals)
    (byteptr : Nat → Nat) (x y w h pmscale : Int) (hscale : 2 ≤ pmscale)
    (hsafe : 2 < pmscale ∨ 2 ≤ g.mingridmag ∨ stretchDrawgap plat g pmscale = false) :
    ∃ news : List (Int × Int),
      (DrawStretchedPixmap plat g byteptr x y w h pmscale).pixmap.written =
        news ++ g.pixmap.written ∧
      ∀ xy ∈ news, 0 ≤ xy.1 ∧ xy.1 < w * pmscale ∧ 0 ≤ xy.2 ∧ xy.2 < h * pmscale := by
  rw [DrawStretchedPixmap_pixmap]
  by_cases hok : g.pixmap.ok = true
  swap
  · rw [if_neg hok]
    exact ⟨[], rfl, fun _ h => absurd h (List.not_mem_nil _)⟩
  rw [if_pos hok]
  have hs : 0 < pmscale := by omega
  obtain ⟨⟨news, hw, hin⟩, -⟩ :=
    stretchLoops_wrote plat g byteptr x y w h pmscale hscale g.pixmap
  have hgap2 := stretchDrawgap_scale2 plat g pmscale hsafe
  have hslot : ∀ X0 Y0 X Y : Int,
      CellRegion (stretchDrawgap plat g pmscale)
        (if pmscale > 2 then pmscale - 1 else pmscale) X0 Y0 X Y →
      X0 ≤ X ∧ X < X0 + pmscale ∧ Y0 ≤ Y ∧ Y < Y0 + pmscale := by
    intro X0 Y0 X Y hreg
    by_cases h2 : pmscale > 2
    · rw [if_pos h2] at hreg
      simp only [CellRegion] at hreg
      omega
    · rw [if_neg h2, hgap2 (by omega)] at hreg
      simp only [CellRegion, Bool.false_eq_true, false_and, or_false] at hreg
      omega
  refine ⟨news, hw, ?_⟩
  intro xy hxy
  obtain ⟨c, r, hc, hr, -, hreg⟩ := hin xy hxy
  have hsl := hslot _ _ _ _ hreg
  have hcw : (c : Int) < w := by omega
  have hrh : (r : Int) < h := by omega
  have h1 : ((c : Int) + 1) * pmscale ≤ w * pmscale :=
    mul_le_mul_of_nonneg_right (by omega) (le_of_lt hs)
  have h2 : ((r : Int) + 1) * pmscale ≤ h * pmscale :=
    mul_le_mul_of_nonneg_right (by omega) (le_of_lt hs)
  have h3 : ((c : Int) + 1) * pmscale = c * pmscale + pmscale := by ring
  have h4 : ((r : Int) + 1) * pmscale = r * pmscale + pmscale := by ring
  have h5 : 0 ≤ (c : Int) * pmscale := mul_nonneg (by omega) (le_of_lt hs)
  have h6 : 0 ≤ (r : Int) * pmscale := mul_nonneg (by omega) (le_of_lt hs)
  omega

/-- C1 for the calls whose stores stay inside the pixmap (scale above 2, or
`mingridmag >= 2`, or the gap flag clear): for a scale `pmscale >= 2`, every
`w x h` state array and every colour table, after `DrawStretchedPixmap` (on a
pixmap whose raw pixel data is accessible) each cell `(col, row)` whose screen
position `(x + col*pmscale, y + row*pmscale)` lies inside the viewport has all
pixels `(col*pmscale + j, row*pmscale + i)`, `0 <= i, j < cs`, equal to the RGB
the colour table gives for the cell's state, where `cs = pmscale` if
`pmscale <= 2` and `pmscale - 1` otherwise; every store of the call is at a
position inside the `(w*pmscale) x (h*pmscale)` pixmap; and so the same pixels
are found when the pixmap is read as rows of `w*pmscale` pixels stored one
after another (for a pixmap whose earlier stores were inside the rows too). -/
theorem DrawStretchedPixmap_cell_blocks (plat : Platform) (g : Globals) (byteptr : Nat → Nat)
    (x y w h pmscale : Int) (hscale : 2 ≤ pmscale)
    (hsafe : 2 < pmscale ∨ 2 ≤ g.mingridmag ∨ stretchDrawgap plat g pmscale = false)
    (hok : g.pixmap.ok = true) :
    (∀ col row : Int, 0 ≤ col ∧ col < w → 0 ≤ row ∧ row < h →
      (0 ≤ x + col * pmscale ∧ x + col * pmscale < g.currwd ∧
        0 ≤ y + row * pmscale ∧ y + row * pmscale < g.currht) →
      ∀ i j : Int, 0 ≤ i ∧ i < (if pmscale ≤ 2 then pmscale else pmscale - 1) →
        0 ≤ j ∧ j < (if pmscale ≤ 2 then pmscale else pmscale - 1) →
        ((DrawStretchedPixmap plat g byteptr x y w h pmscale).pixmap.pix
            (col * pmscale + j) (row * pmscale + i)).rgb =
          ⟨g.cur.cellr (byteptr (row * w + col).toNat),
           g.cur.cellg (byteptr (row * w + col).toNat),
           g.cur.cellb (byteptr (row * w + col).toNat)⟩) ∧
    (∃ news : List (Int × Int),
      (DrawStretchedPixmap plat g byteptr x y w h pmscale).pixmap.written =
        news ++ g.pixmap.written ∧
      ∀ xy ∈ news, 0 ≤ xy.1 ∧ xy.1 < w * pmscale ∧ 0 ≤ xy.2 ∧ xy.2 < h * pmscale) ∧
    ((∀ xy ∈ g.pixmap.written, 0 ≤ xy.1 ∧ xy.1 < w * pmscale) →
      (∀ col row : Int, 0 ≤ col ∧ col < w → 0 ≤ row ∧ row < h →
        (0 ≤ x + col * pmscale ∧ x + col * pmscale < g.currwd ∧
          0 ≤ y + row * pmscale ∧ y + row * pmscale < g.currht) →
        ∀ i j : Int, 0 ≤ i ∧ i < (if pmscale ≤ 2 then pmscale else pmscale - 1) →
          0 ≤ j ∧ j < (if pmscale ≤ 2 then pmscale else pmscale - 1) →
          ((DrawStretchedPixmap plat g byteptr x y w h pmscale).pixmap.rawPix (w * pmscale)
              (col * pmscale + j) (row * pmscale + i)).rgb =
            ⟨g.cur.cellr (byteptr (row * w + col).toNat),
             g.cur.cellg (byteptr (row * w + col).toNat),
             g.cur.cellb (byteptr (row * w + col).toNat)⟩)) := by
  have hinside := DrawStretchedPixmap_inside plat g byteptr x y w h pmscale hscale hsafe
  have hblocks : ∀ col row : Int, 0 ≤ col ∧ col < w → 0 ≤ row ∧ row < h →
      (0 ≤ x + col * pmscale ∧ x + col * pmscale < g.currwd ∧
        0 ≤ y + row * pmscale ∧ y + row * pmscale < g.currht) →
      ∀ i j : Int, 0 ≤ i ∧ i < (if pmscale ≤ 2 then pmscale else pmscale - 1) →
        0 ≤ j ∧ j < (if pmscale ≤ 2 then pmscale else pmscale - 1) →
        ((DrawStretchedPixmap plat g byteptr x y w h pmscale).pixmap.pix
            (col * pmscale + j) (row * pmscale + i)).rgb =
          ⟨g.cur.cellr (byteptr (row * w + col).toNat),
           g.cur.cellg (byteptr (row * w + col).toNat),
           g.cur.cellb (byteptr (row * w + col).toNat)⟩ := by
    intro col row hcol hrow hin i j hi hj
    have hcs : (if pmscale ≤ 2 then pmscale else pmscale - 1) =
        (if pmscale > 2 then pmscale - 1 else pmscale) := by split_ifs <;> omega
    rw [hcs] at hi hj
    have hcs0 : 0 ≤ (if pmscale > 2 then pmscale - 1 else pmscale) := by split_ifs <;> omega
    have hcsle : (if pmscale > 2 then pmscale - 1 else pmscale) ≤ pmscale := by split_ifs <;> omega
    have hpm : (DrawStretchedPixmap plat g byteptr x y w h pmscale).pixmap =
        (stretchLoops plat g byteptr x y w h pmscale g.pixmap).bm := by
      simp only [DrawStretchedPixmap, hok, if_true, Globals.emit, Globals.emitOn]
    rw [hpm, stretchLoops_eq]
    obtain ⟨cn, rfl⟩ := Int.eq_ofNat_of_zero_le hcol.1
    obtain ⟨rn, rfl⟩ := Int.eq_ofNat_of_zero_le hrow.1
    have hgood := (gridLoops_good g.currwd g.currht x y w h pmscale _ _ _
      (stretchCell_ok plat g byteptr (stretchDrawgap plat g pmscale) _ hcs0) hcs0 hcsle
      g.pixmap).2 rn cn (by omega) (by omega) (by simp only [InView]; omega)
    have hidx : ((rn : Int) * w + cn).toNat = rn * w.toNat + cn := by
      have hw : ((w.toNat : Nat) : Int) = w := Int.toNat_of_nonneg (by omega)
      have : (rn : Int) * w + cn = ((rn * w.toNat + cn : Nat) : Int) := by
        push_cast; rw [hw]
      rw [this, Int.toNat_natCast]
    rw [hidx]
    exact hgood i j hi.1 hi.2 hj.1 hj.2
  refine ⟨hblocks, hinside, ?_⟩
  intro hold col row hcol hrow hin i j hi hj
  rw [rawPix_eq_pix]
  · exact hblocks col row hcol hrow hin i j hi hj
  · have hs : 0 < pmscale := by omega
    have h1 : (col + 1) * pmscale ≤ w * pmscale :=
      mul_le_mul_of_nonneg_right (by omega) (le_of_lt hs)
    have h3 : (col + 1) * pmscale = col * pmscale + pmscale := by ring
    have h5 : 0 ≤ col * pmscale := mul_nonneg hcol.1 (le_of_lt hs)
    have hj' : j < pmscale := by
      have := hj.2
      split_ifs at this <;> omega
    omega
  · obtain ⟨news, hw, hnews⟩ := hinside
    intro xy hxy
    rw [hw] at hxy
    rcases List.mem_append.mp hxy with hm | hm
    · exact ⟨(hnews xy hm).1, (hnews xy hm).2.1⟩
    · exact hold xy hm

/-- C1, instance: cell (1, 1) of a 2 x 2 block of state-1 cells at scale 4. -/
theorem DrawStretchedPixmap_cell_blocks_witness :
    ((2 : Int) ≤ 4 ∧ (2 : Int) < 4 ∧ sampleGlobals.pixmap.ok = true) ∧
    ((DrawStretchedPixmap Platform.other sampleGlobals (fun _ => 1) 0 0 2 2 4).pixmap.pix
        (1 * 4 + 2) (1 * 4 + 2)).rgb =
      ⟨sampleGlobals.cur.cellr ((fun _ => 1) ((1 : Int) * 2 + 1).toNat),
       sampleGlobals.cur.cellg ((fun _ => 1) ((1 : Int) * 2 + 1).toNat),
       sampleGlobals.cur.cellb ((fun _ => 1) ((1 : Int) * 2 + 1).toNat)⟩ :=
  ⟨⟨by decide, by decide, rfl⟩,
    (DrawStretchedPixmap_cell_blocks Platform.other sampleGlobals (fun _ => 1) 0 0 2 2 4
      (by decide) (Or.inl (by decide)) rfl).1 1 1 (by decide) (by decide) (by decide) 2 2
      (by decide) (by decide)⟩

set_option maxRecDepth 100000 in
/-- C1, failing input: scale 2 with `mingridmag = 1` and grid lines off, a
2 x 1 array of state-1 cells, hence a 4 x 2 pixmap.  The gap flag is set with
`cs = 2`, so cell (1, 0) stores its gap pixel of row 0 at the position (4, 0),
one past the end of row 0, after cell (0, 0) painted its block.  With the rows
stored one after another that is the storage of pixel (0, 1) of the block of
cell (0, 0), which is left with the dead colour (0, 0, 0) where the colour of
state 1 is (255, 255, 255); the stores at y = 2 are past the last row. -/
theorem DrawStretchedPixmap_gap_past_row_end :
    stretchDrawgap Platform.other gapGlobals 2 = true ∧
    (DrawStretchedPixmap Platform.other gapGlobals (fun _ => 1) 0 0 2 1 2).pixmap.written =
      [(4, 2), (3, 2), (2, 2), (4, 1), (3, 1), (2, 1), (4, 0), (3, 0), (2, 0),
       (2, 2), (1, 2), (0, 2), (2, 1), (1, 1), (0, 1), (2, 0), (1, 0), (0, 0)] ∧
    ¬ ((4 : Int) < 2 * 2) ∧
    rawOffset (2 * 2) (4, 0) = rawOffset (2 * 2) (0 * 2 + 0, 0 * 2 + 1) ∧
    ((DrawStretchedPixmap Platform.other gapGlobals (fun _ => 1) 0 0 2 1 2).pixmap.pix 4 0).rgb =
      ⟨0, 0, 0⟩ ∧
    ((DrawStretchedPixmap Platform.other gapGlobals (fun _ => 1) 0 0 2 1 2).pixmap.rawPix
      (2 * 2) (0 * 2 + 0) (0 * 2 + 1)).rgb = ⟨0, 0, 0⟩ ∧
    (⟨gapGlobals.cur.cellr 1, gapGlobals.cur.cellg 1, gapGlobals.cur.cellb 1⟩ : Color) =
      ⟨255, 255, 255⟩ := by
  decide

theorem ensurePixmap_fields (ext : Ext) (g : Globals) (w h : Int) :
    (ensurePixmap ext g w h).cur = g.cur ∧ (ensurePixmap ext g w h).currwd = g.currwd ∧
    (ensurePixmap ext g w h).currht = g.currht ∧
    (ensurePixmap ext g w h).showicons = g.showicons ∧
    (ensurePixmap ext g w h).iconmaps = g.iconmaps ∧
    (∀ plat s, stretchDrawgap plat (ensurePixmap ext g w h) s = stretchDrawgap plat g s) := by
  unfold ensurePixmap
  split_ifs <;> exact ⟨rfl, rfl, rfl, rfl, rfl, fun _ _ => rfl⟩

theorem pixblit_stretch (plat : Platform) (ext : Ext) (g : Globals) (x y w h : Int)
    (pmdata : Nat → Nat) (pmscale : Int)
    (hclip : ¬ (x ≥ g.currwd ∨ y ≥ g.currht) ∧ ¬ (x + w ≤ 0 ∨ y + h ≤ 0))
    (hscale : pmscale ≠ 1) (hicons : g.showicons = false ∨ pmscale ≤ 4 ∨ g.iconmaps = none) :
    pixblit plat ext g x y w h pmdata pmscale =
      DrawStretchedPixmap plat (ensurePixmap ext g w h) pmdata x y (w.tdiv pmscale)
        (h.tdiv pmscale) pmscale := by
  obtain ⟨-, -, -, hsi, him, -⟩ := ensurePixmap_fields ext g w h
  unfold pixblit
  rw [if_neg hclip.1, if_neg hclip.2]
  simp only []
  rw [if_neg hscale, if_neg]
  rw [hsi, him]
  rintro ⟨h1, h2, h3⟩
  rcases hicons with h | h | h
  · rw [h] at h1; exact absurd h1 (by decide)
  · omega
  · rw [h] at h3; exact absurd h3 (by decide)

/-- C14, counterexample: with grid lines on (gap flag clear at scale 4),
icons off, dead colour black and state 1 white, `pixblit` of a 2 x 2 array of
state-1 cells at scale 4 leaves pixel (3, 0) of the freshly allocated pixmap
as allocated (here black): each cell paints 3 x 3 pixels only. -/
theorem pixblit_scale4_leaves_gaps :
    stretchDrawgap Platform.other gridGlobals 4 = false ∧
    gridGlobals.showicons = false ∧
    (gridGlobals.cur.cellr 0, gridGlobals.cur.cellg 0, gridGlobals.cur.cellb 0) = (0, 0, 0) ∧
    (gridGlobals.cur.cellr 1, gridGlobals.cur.cellg 1, gridGlobals.cur.cellb 1) =
      (255, 255, 255) ∧
    ((pixblit Platform.other sampleExt gridGlobals 0 0 8 8 (fun _ => 1) 4).pixmap.pix 3 0).red
      ≠ 255 := by
  decide

/-- C14 as the code has it: `pixblit` of a 2 x 2 array of state-1 cells
(an 8 x 8 pixel area) at scale 4, icons off, gap flag clear, state 1 white and
all four cells inside the viewport, on an accessible pixmap, paints the 3 x 3
block at the top left of each 4 x 4 slot white and leaves the fourth column
and fourth row of each slot as they were in the pixmap before the loops. -/
theorem pixblit_scale4_block (plat : Platform) (ext : Ext) (g : Globals) (x y : Int)
    (pmdata : Nat → Nat)
    (hicons : g.showicons = false) (hgap : stretchDrawgap plat g 4 = false)
    (hview : 0 ≤ x ∧ x + 4 < g.currwd ∧ 0 ≤ y ∧ y + 4 < g.currht)
    (hwhite : g.cur.cellr 1 = 255 ∧ g.cur.cellg 1 = 255 ∧ g.cur.cellb 1 = 255)
    (hdata : ∀ k, k < 4 → pmdata k = 1)
    (hok : (ensurePixmap ext g 8 8).pixmap.ok = true)
    (col row i j : Int) (hcol : 0 ≤ col ∧ col < 2) (hrow : 0 ≤ row ∧ row < 2)
    (hi : 0 ≤ i ∧ i < 4) (hj : 0 ≤ j ∧ j < 4) :
    ((i < 3 ∧ j < 3) →
      ((pixblit plat ext g x y 8 8 pmdata 4).pixmap.pix (col * 4 + j) (row * 4 + i)).rgb =
        ⟨255, 255, 255⟩) ∧
    ((i = 3 ∨ j = 3) →
      (pixblit plat ext g x y 8 8 pmdata 4).pixmap.pix (col * 4 + j) (row * 4 + i) =
        (ensurePixmap ext g 8 8).pixmap.pix (col * 4 + j) (row * 4 + i)) := by
  obtain ⟨hcur, hwd, hht, -, -, hdg⟩ := ensurePixmap_fields ext g 8 8
  rw [pixblit_stretch plat ext g x y 8 8 pmdata 4 ⟨by omega, by omega⟩ (by decide)
    (Or.inl hicons)]
  have h82 : (8 : Int).tdiv 4 = 2 := by decide
  rw [h82, DrawStretchedPixmap_pixmap, hok, if_pos rfl]
  constructor
  · intro hij
    rw [stretchLoops_eq]
    obtain ⟨cn, rfl⟩ := Int.eq_ofNat_of_zero_le hcol.1
    obtain ⟨rn, rfl⟩ := Int.eq_ofNat_of_zero_le hrow.1
    have hgood := (gridLoops_good (ensurePixmap ext g 8 8).currwd
      (ensurePixmap ext g 8 8).currht x y 2 2 4 _ _ _
      (stretchCell_ok plat (ensurePixmap ext g 8 8) pmdata
        (stretchDrawgap plat (ensurePixmap ext g 8 8) 4) (if (4 : Int) > 2 then 4 - 1 else 4)
        (by decide)) (by decide) (by decide)
      (ensurePixmap ext g 8 8).pixmap).2 rn cn (by omega) (by omega)
      (by simp only [InView]; rw [hwd, hht]; omega)
    have hpx := hgood i j hi.1 (by simp; omega) hj.1 (by simp; omega)
    rw [hpx, hcur, hdata _ (by
      have : (2 : Int).toNat = 2 := rfl
      rw [this]; omega)]
    rw [hwhite.1, hwhite.2.1, hwhite.2.2]
  · intro hij
    obtain ⟨-, hpix⟩ := stretchLoops_wrote plat (ensurePixmap ext g 8 8) pmdata x y 2 2 4
      (by decide) (ensurePixmap ext g 8 8).pixmap
    apply hpix
    rw [hdg, hgap]
    rintro ⟨c, r, -, -, -, hreg⟩
    simp only [CellRegion, Bool.false_eq_true, false_and, or_false] at hreg
    have e1 := slot_unique 4 c col (col * 4 + j) (by decide)
      ⟨by split_ifs at hreg <;> omega, by split_ifs at hreg <;> omega⟩ ⟨by omega, by omega⟩
    have e2 := slot_unique 4 r row (row * 4 + i) (by decide)
      ⟨by split_ifs at hreg <;> omega, by split_ifs at hreg <;> omega⟩ ⟨by omega, by omega⟩
    rw [e1, e2] at hreg
    split_ifs at hreg <;> omega

/-- C14, instance: pixel (2, 2) of the slot of cell (1, 1). -/
theorem pixblit_scale4_block_witness :
    ((pixblit Platform.other sampleExt gridGlobals 0 0 8 8 (fun _ => 1) 4).pixmap.pix
        (1 * 4 + 2) (1 * 4 + 2)).rgb = ⟨255, 255, 255⟩ :=
  (pixblit_scale4_block Platform.other sampleExt gridGlobals 0 0 (fun _ => 1) rfl
    (by decide) (by decide) (by decide) (fun _ _ => rfl) rfl 1 1 2 2 (by decide) (by decide)
    (by decide) (by decide)).1 (by decide)

/-! ## Paste preview: the 200 x 200 scenario and the degenerate case -/

/-- Alignment of an even size to a cell boundary less one pixel. -/
theorem align_even (p c k : Int) (hc : c = 2 * k) (hk : 0 < k) (hp : 0 ≤ p) (hpe : p % 2 = 0) :
    (p < (if (p + 1).tmod c > 0 then p + (c - (p + 1).tmod c) else p) ∧
      (if (p + 1).tmod c > 0 then p + (c - (p + 1).tmod c) else p) < p + c ∧
      ((if (p + 1).tmod c > 0 then p + (c - (p + 1).tmod c) else p) + 1) % c = 0) ∧
    (p < (if (p + 1).tmod c ≠ 0 then p + (c - (p + 1).tmod c) else p) ∧
      (if (p + 1).tmod c ≠ 0 then p + (c - (p + 1).tmod c) else p) < p + c ∧
      ((if (p + 1).tmod c ≠ 0 then p + (c - (p + 1).tmod c) else p) + 1) % c = 0) := by
  have hcpos : 0 < c := by omega
  have ht : (p + 1).tmod c = (p + 1) % c := Int.tmod_eq_emod (by omega) (by omega)
  have h2 : (p + 1) % c % 2 = (p + 1) % 2 := Int.emod_emod_of_dvd _ ⟨k, hc⟩
  have h0 : 0 ≤ (p + 1) % c := Int.emod_nonneg _ (by omega)
  have h1 : (p + 1) % c < c := Int.emod_lt_of_pos _ hcpos
  have hq : (p + 1) % c + c * ((p + 1) / c) = p + 1 := Int.emod_add_ediv _ _
  have hmul : (p + (c - (p + 1) % c) + 1) % c = 0 := by
    have : p + (c - (p + 1) % c) + 1 = c * ((p + 1) / c + 1) := by
      have := hq
      ring_nf
      ring_nf at this
      omega
    rw [this]
    exact Int.mul_emod_right _ _
  rw [ht]
  have hpos : (p + 1) % c > 0 := by omega
  have hne : (p + 1) % c ≠ 0 := by omega
  rw [if_pos hpos, if_pos hne]
  exact ⟨⟨by omega, by omega, hmul⟩, ⟨by omega, by omega, hmul⟩⟩

/-- Size of the paste image for a 200 x 200 rect over a 100 x 100 viewport with
the Middle anchor. -/
theorem middle_layout_200 (g : Globals) (hloc : g.plocation = PasteLocation.Middle)
    (hvw : g.curview.width = 100) (hvh : g.curview.height = 100)
    (hw : g.prectwd = 200) (hh : g.prectht = 200) :
    (g.pastemag ≤ 0 → (pasteImageLayout g).1 = 200 ∧ (pasteImageLayout g).2.1 = 200) ∧
    (0 < g.pastemag →
      (200 < (pasteImageLayout g).1 ∧ (pasteImageLayout g).1 < 200 + 2 ^ g.pastemag.toNat ∧
        ((pasteImageLayout g).1 + 1) % 2 ^ g.pastemag.toNat = 0) ∧
      (200 < (pasteImageLayout g).2.1 ∧ (pasteImageLayout g).2.1 < 200 + 2 ^ g.pastemag.toNat ∧
        ((pasteImageLayout g).2.1 + 1) % 2 ^ g.pastemag.toNat = 0)) := by
  have hex : g.prectwd > g.curview.width ∨ g.prectht > g.curview.height := by omega
  have hcw : ¬ (g.prectwd > 2 * g.curview.width) := by omega
  have hch : ¬ (g.prectht > 2 * g.curview.height) := by omega
  unfold pasteImageLayout
  dsimp only
  rw [if_pos hex, if_pos hloc]
  dsimp only
  rw [if_neg hcw, if_neg hch]
  constructor
  · intro hmag
    have hm : ¬ (g.pastemag > 0) := by omega
    simp only [hm, false_and, if_false, gt_iff_lt, lt_self_iff_false]
    exact ⟨hw, hh⟩
  · intro hmag
    obtain ⟨k, hk, hc⟩ := shl1_even g.pastemag hmag
    have aw := (align_even g.prectwd _ k hc hk (by omega) (by omega)).1
    have ah := (align_even g.prectht _ k hc hk (by omega) (by omega)).2
    simp only [hmag, true_and]
    have hsh : shl1 g.pastemag = 2 ^ g.pastemag.toNat := rfl
    rw [hsh] at aw ah ⊢
    generalize (if ((g.prectwd + 1).tmod (2 ^ g.pastemag.toNat) > 0) then _ else _ : Int) = qw
      at aw ⊢
    generalize (if ((g.prectht + 1).tmod (2 ^ g.pastemag.toNat) ≠ 0) then _ else _ : Int) = qh
      at ah ⊢
    have h1 : ¬ (g.prectwd > qw) := by omega
    have h2 : ¬ (g.prectht > qh) := by omega
    rw [if_neg h1, if_neg h2]
    rw [hw] at aw
    rw [hh] at ah
    exact ⟨aw, ah⟩

/-- C15, counterexample: for a 200 x 200 paste rect over a 100 x 100 viewport
with the Middle anchor at magnification 2 (scale 1:4, cells of 3 pixels and a
gap pixel), `CheckPasteImage` makes the preview 203 x 203, that is 51 cells
without the gap of the last one: larger than 200 x 200, with odd differences
`200 - 203 = -3` from the paste rect. -/
theorem paste_preview_exceeds_cap :
    previewGlobals.pview.pasterect = ⟨0, 0, 200, 200⟩ ∧
    (previewGlobals.curview.width, previewGlobals.curview.height) = (100, 100) ∧
    previewGlobals.plocation = PasteLocation.Middle ∧
    previewGlobals.curview.mag = 2 ∧
    (CheckPasteImage Platform.other sampleExt previewGlobals).pimagewd = 203 ∧
    (CheckPasteImage Platform.other sampleExt previewGlobals).pimageht = 203 ∧
    (200 - (CheckPasteImage Platform.other sampleExt previewGlobals).pimagewd) % 2 ≠ 0 := by
  decide

/-- C15 as the code has it, for the magnifications at which cells are drawn
with a gap pixel (`m >= 2`) and for those without cells (`m <= 0`): after a
regenerating `CheckPasteImage` for a 200 x 200 paste rect, a 100 x 100
viewport and the Middle anchor, the preview is exactly 200 x 200 at
magnifications `<= 0` (differences 0), and at every magnification `m >= 2` its
width and height lie strictly between 200 and `200 + 2^m` with `size + 1` a
multiple of the cell size `2^m` (whole cells, the last one without its gap),
so the preview is larger than the rect and the differences `200 - size` are
odd. -/
theorem CheckPasteImage_preview_200 (plat : Platform) (ext : Ext) (g : Globals)
    (hdiff : pasteKeysDiffer g) (hloc : g.plocation = PasteLocation.Middle)
    (hvw : g.curview.width = 100) (hvh : g.curview.height = 100)
    (hw : g.pview.pasterect.width = 200) (hh : g.pview.pasterect.height = 200) :
    (g.curview.mag ≤ 0 →
      (CheckPasteImage plat ext g).pimagewd = 200 ∧
      (CheckPasteImage plat ext g).pimageht = 200) ∧
    (2 ≤ g.curview.mag →
      (200 < (CheckPasteImage plat ext g).pimagewd ∧
        (CheckPasteImage plat ext g).pimagewd < 200 + 2 ^ g.curview.mag.toNat ∧
        ((CheckPasteImage plat ext g).pimagewd + 1) % 2 ^ g.curview.mag.toNat = 0 ∧
        (200 - (CheckPasteImage plat ext g).pimagewd) % 2 = 1) ∧
      (200 < (CheckPasteImage plat ext g).pimageht ∧
        (CheckPasteImage plat ext g).pimageht < 200 + 2 ^ g.curview.mag.toNat ∧
        ((CheckPasteImage plat ext g).pimageht + 1) % 2 ^ g.curview.mag.toNat = 0 ∧
        (200 - (CheckPasteImage plat ext g).pimageht) % 2 = 1)) := by
  have hdeg : ¬ (g.pview.pasterect.width ≤ 2 ∨ g.pview.pasterect.height ≤ 2) := by omega
  obtain ⟨s1, s2⟩ := (CheckPasteImage_size plat ext g hdiff).2 hdeg
  rw [s1, s2]
  obtain ⟨l1, l2⟩ := middle_layout_200 (updatePasteKeys g) hloc hvw hvh hw hh
  refine ⟨l1, ?_⟩
  intro hmag2
  have hmag : 0 < g.curview.mag := by omega
  obtain ⟨⟨a1, a2, a3⟩, ⟨b1, b2, b3⟩⟩ := l2 hmag
  have hmag' : 0 < (updatePasteKeys g).pastemag := hmag
  obtain ⟨k, hk, hc⟩ := shl1_even (updatePasteKeys g).pastemag hmag'
  have hc' : (2 : Int) ^ g.curview.mag.toNat = 2 * k := hc
  have hc'' : (2 : Int) ^ (updatePasteKeys g).pastemag.toNat = 2 * k := hc
  have hodd : ∀ v : Int, (v + 1) % (2 * k) = 0 → (200 - v) % 2 = 1 := by
    intro v hv
    have : (v + 1) % (2 * k) % 2 = (v + 1) % 2 := Int.emod_emod_of_dvd _ ⟨k, rfl⟩
    rw [hv] at this
    omega
  rw [hc''] at a3 b3
  exact ⟨⟨a1, a2, by rw [hc']; exact a3, hodd _ a3⟩, ⟨b1, b2, by rw [hc']; exact b3, hodd _ b3⟩⟩

/-- C15, instance: the preview at magnification 2 is 203 pixels wide. -/
theorem CheckPasteImage_preview_200_witness :
    (pasteKeysDiffer previewGlobals ∧ (2 : Int) ≤ previewGlobals.curview.mag) ∧
    (CheckPasteImage Platform.other sampleExt previewGlobals).pimagewd = 203 ∧
    (200 < (CheckPasteImage Platform.other sampleExt previewGlobals).pimagewd ∧
      (CheckPasteImage Platform.other sampleExt previewGlobals).pimagewd <
        200 + 2 ^ previewGlobals.curview.mag.toNat ∧
      ((CheckPasteImage Platform.other sampleExt previewGlobals).pimagewd + 1) %
        2 ^ previewGlobals.curview.mag.toNat = 0 ∧
      (200 - (CheckPasteImage Platform.other sampleExt previewGlobals).pimagewd) % 2 = 1) :=
  ⟨⟨by decide, by decide⟩, by decide,
    ((CheckPasteImage_preview_200 Platform.other sampleExt previewGlobals (by decide) rfl rfl rfl
      rfl rfl).2 (by decide)).1⟩

theorem drawPasteBorder_eq (ext : Ext) (g : Globals) (dc : DCId) :
    drawPasteBorder ext g dc =
      if (pasteBorderRect g).y > 0 then
        (g.emitOn dc (DrawCmd.drawRectangle (pasteBorderRect g))).emitOn dc
          (DrawCmd.drawText ((pasteBorderRect g).x + 2)
            ((pasteBorderRect g).y - 4 - ext.textAscent))
      else g.emitOn dc (DrawCmd.drawRectangle (pasteBorderRect g)) := rfl

/-! ## DrawPasteImage: anchor offsets -/

/-- C7: when the preview image is smaller than the paste rect by
`(dx, dy) = (rect.width - pimagewd, rect.height - pimageht)` with `dx, dy >= 0`
and not both zero, the call `DrawPasteImage` records on the DC for the image
(`DrawBitmap` on wxGTK, `Blit` of `pimagewd x pimageht` pixels elsewhere) has
as its position the rect's origin plus (0, 0) for TopLeft, (dx, 0) for
TopRight, (dx, dy) for BottomRight, (0, dy) for BottomLeft and (dx/2, dy/2)
for Middle, and it is followed by the border rectangle (and its label); when
the image is not smaller in either dimension the position is the rect's
origin. -/
theorem DrawPasteImage_anchor_math (plat : Platform) (ext : Ext) (g : Globals) (dc : DCId)
    (bm : Bitmap) (hbm : g.pastebitmap = some bm) :
    (0 ≤ g.pview.pasterect.width - g.pimagewd → 0 ≤ g.pview.pasterect.height - g.pimageht →
      ¬ (g.pview.pasterect.width - g.pimagewd = 0 ∧ g.pview.pasterect.height - g.pimageht = 0) →
      (DrawPasteImage plat ext g dc).dc dc =
        (if (pasteBorderRect g).y > 0 then
          [DrawCmd.drawText ((pasteBorderRect g).x + 2)
            ((pasteBorderRect g).y - 4 - ext.textAscent),
           DrawCmd.drawRectangle (pasteBorderRect g)]
         else [DrawCmd.drawRectangle (pasteBorderRect g)]) ++
        ((if plat = Platform.gtk then
            DrawCmd.drawBitmap bm
              (g.pview.pasterect.x +
                (match g.plocation with
                  | PasteLocation.TopLeft => 0
                  | PasteLocation.TopRight => g.pview.pasterect.width - g.pimagewd
                  | PasteLocation.BottomRight => g.pview.pasterect.width - g.pimagewd
                  | PasteLocation.BottomLeft => 0
                  | PasteLocation.Middle => (g.pview.pasterect.width - g.pimagewd) / 2))
              (g.pview.pasterect.y +
                (match g.plocation with
                  | PasteLocation.TopLeft => 0
                  | PasteLocation.TopRight => 0
                  | PasteLocation.BottomRight => g.pview.pasterect.height - g.pimageht
                  | PasteLocation.BottomLeft => g.pview.pasterect.height - g.pimageht
                  | PasteLocation.Middle => (g.pview.pasterect.height - g.pimageht) / 2))
              true
          else
            DrawCmd.blit
              (g.pview.pasterect.x +
                (match g.plocation with
                  | PasteLocation.TopLeft => 0
                  | PasteLocation.TopRight => g.pview.pasterect.width - g.pimagewd
                  | PasteLocation.BottomRight => g.pview.pasterect.width - g.pimagewd
                  | PasteLocation.BottomLeft => 0
                  | PasteLocation.Middle => (g.pview.pasterect.width - g.pimagewd) / 2))
              (g.pview.pasterect.y +
                (match g.plocation with
                  | PasteLocation.TopLeft => 0
                  | PasteLocation.TopRight => 0
                  | PasteLocation.BottomRight => g.pview.pasterect.height - g.pimageht
                  | PasteLocation.BottomLeft => g.pview.pasterect.height - g.pimageht
                  | PasteLocation.Middle => (g.pview.pasterect.height - g.pimageht) / 2))
              g.pimagewd g.pimageht bm) :: g.dc dc)) ∧
    (g.pview.pasterect.width ≤ g.pimagewd → g.pview.pasterect.height ≤ g.pimageht →
      (DrawPasteImage plat ext g dc).dc dc =
        (if (pasteBorderRect g).y > 0 then
          [DrawCmd.drawText ((pasteBorderRect g).x + 2)
            ((pasteBorderRect g).y - 4 - ext.textAscent),
           DrawCmd.drawRectangle (pasteBorderRect g)]
         else [DrawCmd.drawRectangle (pasteBorderRect g)]) ++
        ((if plat = Platform.gtk then
            DrawCmd.drawBitmap bm g.pview.pasterect.x g.pview.pasterect.y true
          else
            DrawCmd.blit g.pview.pasterect.x g.pview.pasterect.y g.pimagewd g.pimageht bm) ::
          g.dc dc)) := by
  have hlog : ∀ c : DrawCmd, (drawPasteBorder ext (g.emitOn dc c) dc).dc dc =
      (if (pasteBorderRect g).y > 0 then
          [DrawCmd.drawText ((pasteBorderRect g).x + 2)
            ((pasteBorderRect g).y - 4 - ext.textAscent),
           DrawCmd.drawRectangle (pasteBorderRect g)]
         else [DrawCmd.drawRectangle (pasteBorderRect g)]) ++ (c :: g.dc dc) := by
    intro c
    rw [drawPasteBorder_eq]
    have hr : pasteBorderRect (g.emitOn dc c) = pasteBorderRect g := rfl
    rw [hr]
    by_cases hy : (pasteBorderRect g).y > 0
    · rw [if_pos hy, if_pos hy]
      simp [Globals.emitOn]
    · rw [if_neg hy, if_neg hy]
      simp [Globals.emitOn]
  constructor
  · intro hdx hdy hnz
    have hsmall : g.pview.pasterect.width > g.pimagewd ∨ g.pview.pasterect.height > g.pimageht := by
      omega
    have hx : (g.pview.pasterect.width - g.pimagewd).tdiv 2 =
        (g.pview.pasterect.width - g.pimagewd) / 2 := Int.tdiv_eq_ediv hdx (by decide)
    have hy : (g.pview.pasterect.height - g.pimageht).tdiv 2 =
        (g.pview.pasterect.height - g.pimageht) / 2 := Int.tdiv_eq_ediv hdy (by decide)
    unfold DrawPasteImage
    rw [hbm]
    dsimp only
    rw [hlog]
    unfold pasteImageRect pasteImageCmd
    dsimp only
    rw [if_pos hsmall]
    cases hloc : g.plocation <;> simp only [add_zero, hx, hy]
  · intro hw hh
    have hsmall : ¬ (g.pview.pasterect.width > g.pimagewd ∨
        g.pview.pasterect.height > g.pimageht) := by omega
    unfold DrawPasteImage
    rw [hbm]
    dsimp only
    rw [hlog]
    unfold pasteImageRect pasteImageCmd
    dsimp only
    rw [if_neg hsmall]

/-- C7, instance: a 100 x 100 preview of a 200 x 200 paste rect at (0, 0) with
the Middle anchor is blitted at (50, 50), then the border is drawn. -/
theorem DrawPasteImage_anchor_math_witness :
    (pasteGlobals.pastebitmap = some blackBitmap ∧
      pasteGlobals.plocation = PasteLocation.Middle ∧
      pasteGlobals.pview.pasterect = ⟨0, 0, 200, 200⟩) ∧
    (DrawPasteImage Platform.other sampleExt pasteGlobals DCId.viewdc).dc DCId.viewdc =
      [DrawCmd.drawRectangle ⟨0, 0, 52, 52⟩, DrawCmd.blit 50 50 100 100 blackBitmap] :=
  ⟨⟨rfl, rfl, rfl⟩,
    (DrawPasteImage_anchor_math Platform.other sampleExt pasteGlobals DCId.viewdc blackBitmap
      rfl).1 (by decide) (by decide) (by decide)⟩

theorem Globals_pimage_eta (g : Globals) (h1 : g.pimagewd = 1) (h2 : g.pimageht = 1) :
    { g with pimagewd := 1, pimageht := 1 } = g := by
  cases g
  simp only at h1 h2
  subst h1 h2
  rfl

/-- C16: when a key has changed and the paste rect is at most 2 pixels wide or
at most 2 pixels high, `CheckPasteImage` only records the new keys, drops the
preview bitmap and sets the cached image size to 1 x 1 (nothing is rendered:
the DCs, the pixmap and the layers are as before); a following call on the
result changes nothing; and `DrawPasteImage` on the result issues, on top of
what the DC already had, only the border rectangle and, when the rectangle's
top is below the window's top edge, the label. -/
theorem CheckPasteImage_degenerate (plat : Platform) (ext : Ext) (g : Globals) (dc : DCId)
    (hdiff : pasteKeysDiffer g)
    (hdeg : g.pview.pasterect.width ≤ 2 ∨ g.pview.pasterect.height ≤ 2) :
    CheckPasteImage plat ext g =
      { updatePasteKeys g with pastebitmap := none, pimagewd := 1, pimageht := 1 } ∧
    (CheckPasteImage plat ext g).dc = g.dc ∧
    (CheckPasteImage plat ext g).pixmap = g.pixmap ∧
    (CheckPasteImage plat ext g).layers = g.layers ∧
    (CheckPasteImage plat ext g).pastebitmap = none ∧
    (CheckPasteImage plat ext g).pimagewd = 1 ∧ (CheckPasteImage plat ext g).pimageht = 1 ∧
    ¬ pasteKeysDiffer (CheckPasteImage plat ext g) ∧
    CheckPasteImage plat ext (CheckPasteImage plat ext g) = CheckPasteImage plat ext g ∧
    DrawPasteImage plat ext (CheckPasteImage plat ext g) dc =
      drawPasteBorder ext (CheckPasteImage plat ext g) dc ∧
    (DrawPasteImage plat ext (CheckPasteImage plat ext g) dc).dc dc =
      (if (pasteBorderRect g).y > 0 then
        [DrawCmd.drawText ((pasteBorderRect g).x + 2)
          ((pasteBorderRect g).y - 4 - ext.textAscent),
         DrawCmd.drawRectangle (pasteBorderRect g)]
       else [DrawCmd.drawRectangle (pasteBorderRect g)]) ++ g.dc dc := by
  have hdeg' : (updatePasteKeys g).prectwd ≤ 2 ∨ (updatePasteKeys g).prectht ≤ 2 := hdeg
  have heq : CheckPasteImage plat ext g =
      { updatePasteKeys g with pastebitmap := none, pimagewd := 1, pimageht := 1 } := by
    unfold CheckPasteImage
    rw [if_pos hdiff]
    dsimp only
    rw [if_pos hdeg']
    by_cases h1 : (updatePasteKeys g).pimagewd ≠ 1 ∨ (updatePasteKeys g).pimageht ≠ 1
    · rw [if_pos h1]
    · rw [if_neg h1]
      have h1' : g.pimagewd = 1 ∧ g.pimageht = 1 := by
        have : ¬ (g.pimagewd ≠ 1 ∨ g.pimageht ≠ 1) := h1
        omega
      exact (Globals_pimage_eta
        { updatePasteKeys g with pastebitmap := none } h1'.1 h1'.2).symm
  have hkeys : ¬ pasteKeysDiffer (CheckPasteImage plat ext g) := by
    rw [heq]
    unfold pasteKeysDiffer
    intro h
    rcases h with h | h | h | h | h | h <;> exact h rfl
  have hdraw : DrawPasteImage plat ext (CheckPasteImage plat ext g) dc =
      drawPasteBorder ext (CheckPasteImage plat ext g) dc := by
    rw [heq]; rfl
  refine ⟨heq, (congrArg Globals.dc heq).trans rfl, (congrArg Globals.pixmap heq).trans rfl,
    (congrArg Globals.layers heq).trans rfl, (congrArg Globals.pastebitmap heq).trans rfl,
    (congrArg Globals.pimagewd heq).trans rfl, (congrArg Globals.pimageht heq).trans rfl,
    hkeys, CheckPasteImage_same plat ext _ hkeys, hdraw, ?_⟩
  rw [hdraw, heq, drawPasteBorder_eq]
  have hr : pasteBorderRect
      { updatePasteKeys g with pastebitmap := none, pimagewd := 1, pimageht := 1 } =
      pasteBorderRect g := rfl
  rw [hr]
  by_cases hy : (pasteBorderRect g).y > 0
  · rw [if_pos hy, if_pos hy]
    simp [Globals.emitOn]
    rfl
  · rw [if_neg hy, if_neg hy]
    simp [Globals.emitOn]
    rfl

/-- C16, instance: a 2 x 5 paste rect. -/
theorem CheckPasteImage_degenerate_witness :
    pasteKeysDiffer thinPasteGlobals ∧
    (thinPasteGlobals.pview.pasterect.width ≤ 2 ∨ thinPasteGlobals.pview.pasterect.height ≤ 2) ∧
    (CheckPasteImage Platform.other sampleExt thinPasteGlobals).pastebitmap = none ∧
    (CheckPasteImage Platform.other sampleExt thinPasteGlobals).pimagewd = 1 ∧
    CheckPasteImage Platform.other sampleExt
        (CheckPasteImage Platform.other sampleExt thinPasteGlobals) =
      CheckPasteImage Platform.other sampleExt thinPasteGlobals :=
  ⟨by decide, Or.inl (by decide),
    (CheckPasteImage_degenerate Platform.other sampleExt thinPasteGlobals DCId.viewdc
      (by decide) (Or.inl (by decide))).2.2.2.2.1,
    (CheckPasteImage_degenerate Platform.other sampleExt thinPasteGlobals DCId.viewdc
      (by decide) (Or.inl (by decide))).2.2.2.2.2.1,
    (CheckPasteImage_degenerate Platform.other sampleExt thinPasteGlobals DCId.viewdc
      (by decide) (Or.inl (by decide))).2.2.2.2.2.2.2.2.1⟩

/-! ## Selection tint cache and tile borders -/

/-! ## Selection tint cache -/

theorem DrawSelection_sel (plat : Platform) (g : Globals) (dc : DCId) (r : Rect) :
    (DrawSelection plat g dc r).selwd = g.selwd ∧ (DrawSelection plat g dc r).selht = g.selht ∧
    (DrawSelection plat g dc r).selbitmap = g.selbitmap ∧
    (DrawSelection plat g dc r).graybitmap = g.graybitmap ∧
    (DrawSelection plat g dc r).selallocs = g.selallocs := by
  unfold DrawSelection
  dsimp only
  split
  · split_ifs <;> exact ⟨rfl, rfl, rfl, rfl, rfl⟩
  · exact ⟨rfl, rfl, rfl, rfl, rfl⟩

theorem putRGBA_pix (bm : Bitmap) (p : Iter) (r g b a : Nat) (X Y : Int) :
    (bm.putRGBA p r g b a).pix X Y =
      if X = p.x ∧ Y = p.y then ⟨r, g, b, a⟩ else bm.pix X Y := rfl

/-- The inner `x` loop of `SetSelectionPixels`. -/
theorem selSeg (r g b a : Nat) (n : Nat) (c : Cursor) :
    (forLoop n (fun _ c =>
      Cursor.mk (c.bm.putRGBA c.p r g b a) c.p.next c.byteptr) c).Is
      ⟨c.p.x + n, c.p.y⟩ c.byteptr c.bm.ok
      (fun X Y => if Y = c.p.y ∧ c.p.x ≤ X ∧ X < c.p.x + n then ⟨r, g, b, a⟩
        else c.bm.pix X Y) := by
  apply forLoop_inv (fun i (t : Cursor) => t.Is ⟨c.p.x + i, c.p.y⟩ c.byteptr c.bm.ok
      (fun X Y => if Y = c.p.y ∧ c.p.x ≤ X ∧ X < c.p.x + i then ⟨r, g, b, a⟩
        else c.bm.pix X Y))
  · refine ⟨by simp, rfl, rfl, ?_⟩
    intro X Y
    beta_reduce
    rw [if_neg]; push_cast; omega
  · rintro i t _ ⟨hp, hb, hok, hpix⟩
    refine ⟨?_, hb, hok, ?_⟩
    · show t.p.next = _
      rw [hp]; simp only [Iter.next]; push_cast; congr 1; ring
    · intro X Y
      show (t.bm.putRGBA t.p r g b a).pix X Y = _
      rw [putRGBA_pix, hpix, hp]
      beta_reduce
      dsimp only
      push_cast
      by_cases hpos : X = c.p.x + i ∧ Y = c.p.y
      · rw [if_pos hpos, if_pos (by omega)]
      · rw [if_neg hpos]
        split_ifs <;> first | rfl | (exfalso; omega)

/-- The loops of `SetSelectionPixels` after `n` rows. -/
theorem selRows (r g b a : Nat) (w : Int) (bm : Bitmap) (n : Nat) :
    (forLoop n (fun _ c =>
      let rowstart := c.p
      let c := forLoop w.toNat (fun _ c =>
        Cursor.mk (c.bm.putRGBA c.p r g b a) c.p.next c.byteptr) c
      { c with p := rowstart.offsetY 1 }) (Cursor.mk bm ⟨0, 0⟩ 0)).Is
      ⟨0, n⟩ 0 bm.ok
      (fun X Y => if 0 ≤ X ∧ X < w ∧ 0 ≤ Y ∧ Y < (n : Int) then ⟨r, g, b, a⟩
        else bm.pix X Y) := by
  apply forLoop_inv (fun i (t : Cursor) => t.Is ⟨0, i⟩ 0 bm.ok
      (fun X Y => if 0 ≤ X ∧ X < w ∧ 0 ≤ Y ∧ Y < (i : Int) then ⟨r, g, b, a⟩
        else bm.pix X Y))
  · refine ⟨by simp, rfl, rfl, ?_⟩
    intro X Y
    beta_reduce
    rw [if_neg]; push_cast; omega
  · rintro i t _ ⟨hp, hb, hok, hpix⟩
    obtain ⟨hp1, hb1, hok1, hpix1⟩ := selSeg r g b a w.toNat t
    beta_reduce at hpix1
    rw [hp] at hpix1
    dsimp only at hpix1
    refine ⟨?_, hb1.trans hb, hok1.trans hok, ?_⟩
    · show t.p.offsetY 1 = _
      rw [hp]; simp only [Iter.offsetY]; push_cast; rfl
    · intro X Y
      show (forLoop w.toNat _ t).bm.pix X Y = _
      rw [hpix1, hpix]
      beta_reduce
      push_cast
      by_cases hrow : Y = i ∧ 0 ≤ X ∧ X < w
      · rw [if_pos (by omega), if_pos (by omega)]
      · rw [if_neg (by omega)]
        split_ifs <;> first | rfl | (exfalso; omega)

/-- The pixels left by `SetSelectionPixels` in a bitmap with raw access: the
`selwd x selht` area holds the colour (premultiplied on Windows) with alpha
128, the rest is untouched; without raw access nothing is changed. -/
theorem SetSelectionPixels_pix (plat : Platform) (selwd selht : Int) (bm : Bitmap)
    (color : Color) :
    (bm.ok = true → ∀ X Y : Int,
      (SetSelectionPixels plat selwd selht bm color).pix X Y =
        if 0 ≤ X ∧ X < selwd ∧ 0 ≤ Y ∧ Y < selht then
          ⟨toByte (if plat = Platform.msw then ((color.red : Int) * 128).tdiv 255
              else color.red),
           toByte (if plat = Platform.msw then ((color.green : Int) * 128).tdiv 255
              else color.green),
           toByte (if plat = Platform.msw then ((color.blue : Int) * 128).tdiv 255
              else color.blue), 128⟩
        else bm.pix X Y) ∧
    (bm.ok = false → SetSelectionPixels plat selwd selht bm color = bm) := by
  constructor
  · intro hok X Y
    unfold SetSelectionPixels selectionLoops
    rw [if_pos hok]
    dsimp only
    rw [(selRows _ _ _ _ selwd bm selht.toNat).2.2.2 X Y]
    beta_reduce
    by_cases h : 0 ≤ X ∧ X < selwd ∧ 0 ≤ Y ∧ Y < selht
    · rw [if_pos h, if_pos (by omega)]
      rfl
    · rw [if_neg h, if_neg (by omega)]
  · intro hok
    unfold SetSelectionPixels
    rw [if_neg (by simp [hok])]

/-- C13: `CheckSelectionSize` replaces the two tint bitmaps (one reallocation,
each new bitmap painted by `SetSelectionPixels`) when the requested width or
height differs from the cached `selwd`, `selht`, and changes nothing
otherwise; afterwards the cached size is the requested one.  When the new
bitmaps have raw access, every pixel of the requested `viewwd x viewht` area
of the selection tint holds the selection colour and every pixel of the gray
tint holds light grey (the RGB values premultiplied by 128/255 on Windows),
both with alpha 128, and no other pixel is changed.  Hence after a selection
was drawn for a viewport size, a second `CheckSelectionSize` for the same size
changes nothing, and drawing the selection twice reallocates once if the size
was not cached before and not at all if it was. -/
theorem CheckSelectionSize_caches (plat : Platform) (ext : Ext) (g : Globals)
    (viewwd viewht : Int) (dc : DCId) (r : Rect) :
    ((viewwd ≠ g.selwd ∨ viewht ≠ g.selht) →
      (CheckSelectionSize plat ext g viewwd viewht).selallocs = g.selallocs + 1 ∧
      (CheckSelectionSize plat ext g viewwd viewht).selbitmap =
        (ext.newBitmap viewwd viewht).map
          (fun bm => SetSelectionPixels plat viewwd viewht bm g.selectrgb) ∧
      (CheckSelectionSize plat ext g viewwd viewht).graybitmap =
        (ext.newBitmap viewwd viewht).map
          (fun bm => SetSelectionPixels plat viewwd viewht bm wxLIGHT_GREY) ∧
      (∀ bm, ext.newBitmap viewwd viewht = some bm → bm.ok = true →
        ∃ sel gray,
          (CheckSelectionSize plat ext g viewwd viewht).selbitmap = some sel ∧
          (CheckSelectionSize plat ext g viewwd viewht).graybitmap = some gray ∧
          (∀ X Y : Int, 0 ≤ X → X < viewwd → 0 ≤ Y → Y < viewht →
            sel.pix X Y =
              ⟨toByte (if plat = Platform.msw then ((g.selectrgb.red : Int) * 128).tdiv 255
                  else g.selectrgb.red),
               toByte (if plat = Platform.msw then ((g.selectrgb.green : Int) * 128).tdiv 255
                  else g.selectrgb.green),
               toByte (if plat = Platform.msw then ((g.selectrgb.blue : Int) * 128).tdiv 255
                  else g.selectrgb.blue), 128⟩ ∧
            gray.pix X Y =
              ⟨toByte (if plat = Platform.msw then ((wxLIGHT_GREY.red : Int) * 128).tdiv 255
                  else wxLIGHT_GREY.red),
               toByte (if plat = Platform.msw then ((wxLIGHT_GREY.green : Int) * 128).tdiv 255
                  else wxLIGHT_GREY.green),
               toByte (if plat = Platform.msw then ((wxLIGHT_GREY.blue : Int) * 128).tdiv 255
                  else wxLIGHT_GREY.blue), 128⟩) ∧
          (∀ X Y : Int, ¬ (0 ≤ X ∧ X < viewwd ∧ 0 ≤ Y ∧ Y < viewht) →
            sel.pix X Y = bm.pix X Y ∧ gray.pix X Y = bm.pix X Y))) ∧
    (¬ (viewwd ≠ g.selwd ∨ viewht ≠ g.selht) →
      CheckSelectionSize plat ext g viewwd viewht = g) ∧
    ((CheckSelectionSize plat ext g viewwd viewht).selwd = viewwd ∧
      (CheckSelectionSize plat ext g viewwd viewht).selht = viewht) ∧
    (CheckSelectionSize plat ext
        (DrawSelection plat (CheckSelectionSize plat ext g viewwd viewht) dc r) viewwd viewht =
      DrawSelection plat (CheckSelectionSize plat ext g viewwd viewht) dc r) ∧
    (DrawSelection plat (CheckSelectionSize plat ext
        (DrawSelection plat (CheckSelectionSize plat ext g viewwd viewht) dc r) viewwd viewht)
        dc r).selallocs =
      g.selallocs + (if viewwd ≠ g.selwd ∨ viewht ≠ g.selht then 1 else 0) := by
  have hyes : (viewwd ≠ g.selwd ∨ viewht ≠ g.selht) →
      (CheckSelectionSize plat ext g viewwd viewht).selallocs = g.selallocs + 1 ∧
      (CheckSelectionSize plat ext g viewwd viewht).selbitmap =
        (ext.newBitmap viewwd viewht).map
          (fun bm => SetSelectionPixels plat viewwd viewht bm g.selectrgb) ∧
      (CheckSelectionSize plat ext g viewwd viewht).graybitmap =
        (ext.newBitmap viewwd viewht).map
          (fun bm => SetSelectionPixels plat viewwd viewht bm wxLIGHT_GREY) ∧
      (CheckSelectionSize plat ext g viewwd viewht).selwd = viewwd ∧
      (CheckSelectionSize plat ext g viewwd viewht).selht = viewht := by
    intro h
    unfold CheckSelectionSize
    rw [if_pos h]
    dsimp only
    cases ext.newBitmap viewwd viewht <;> exact ⟨rfl, rfl, rfl, rfl, rfl⟩
  have hno : ¬ (viewwd ≠ g.selwd ∨ viewht ≠ g.selht) →
      CheckSelectionSize plat ext g viewwd viewht = g := by
    intro h
    unfold CheckSelectionSize
    rw [if_neg h]
  have hsize : (CheckSelectionSize plat ext g viewwd viewht).selwd = viewwd ∧
      (CheckSelectionSize plat ext g viewwd viewht).selht = viewht := by
    by_cases h : viewwd ≠ g.selwd ∨ viewht ≠ g.selht
    · exact ⟨(hyes h).2.2.2.1, (hyes h).2.2.2.2⟩
    · rw [hno h]
      constructor <;> omega
  have hsame : ∀ g1 : Globals, g1.selwd = viewwd → g1.selht = viewht →
      CheckSelectionSize plat ext g1 viewwd viewht = g1 := by
    intro g1 h1 h2
    unfold CheckSelectionSize
    rw [if_neg (by omega)]
  have hpix : (viewwd ≠ g.selwd ∨ viewht ≠ g.selht) →
      ∀ bm, ext.newBitmap viewwd viewht = some bm → bm.ok = true →
        ∃ sel gray,
          (CheckSelectionSize plat ext g viewwd viewht).selbitmap = some sel ∧
          (CheckSelectionSize plat ext g viewwd viewht).graybitmap = some gray ∧
          (∀ X Y : Int, 0 ≤ X → X < viewwd → 0 ≤ Y → Y < viewht →
            sel.pix X Y =
              ⟨toByte (if plat = Platform.msw then ((g.selectrgb.red : Int) * 128).tdiv 255
                  else g.selectrgb.red),
               toByte (if plat = Platform.msw then ((g.selectrgb.green : Int) * 128).tdiv 255
                  else g.selectrgb.green),
               toByte (if plat = Platform.msw then ((g.selectrgb.blue : Int) * 128).tdiv 255
                  else g.selectrgb.blue), 128⟩ ∧
            gray.pix X Y =
              ⟨toByte (if plat = Platform.msw then ((wxLIGHT_GREY.red : Int) * 128).tdiv 255
                  else wxLIGHT_GREY.red),
               toByte (if plat = Platform.msw then ((wxLIGHT_GREY.green : Int) * 128).tdiv 255
                  else wxLIGHT_GREY.green),
               toByte (if plat = Platform.msw then ((wxLIGHT_GREY.blue : Int) * 128).tdiv 255
                  else wxLIGHT_GREY.blue), 128⟩) ∧
          (∀ X Y : Int, ¬ (0 ≤ X ∧ X < viewwd ∧ 0 ≤ Y ∧ Y < viewht) →
            sel.pix X Y = bm.pix X Y ∧ gray.pix X Y = bm.pix X Y) := by
    intro h bm hbm hok
    obtain ⟨-, e1, e2, -, -⟩ := hyes h
    rw [hbm] at e1 e2
    refine ⟨_, _, e1, e2, ?_, ?_⟩
    · intro X Y hX hX' hY hY'
      have hin : 0 ≤ X ∧ X < viewwd ∧ 0 ≤ Y ∧ Y < viewht := ⟨hX, hX', hY, hY'⟩
      constructor
      · rw [(SetSelectionPixels_pix plat viewwd viewht bm g.selectrgb).1 hok X Y, if_pos hin]
      · rw [(SetSelectionPixels_pix plat viewwd viewht bm wxLIGHT_GREY).1 hok X Y, if_pos hin]
    · intro X Y hout
      constructor
      · rw [(SetSelectionPixels_pix plat viewwd viewht bm g.selectrgb).1 hok X Y, if_neg hout]
      · rw [(SetSelectionPixels_pix plat viewwd viewht bm wxLIGHT_GREY).1 hok X Y, if_neg hout]
  obtain ⟨d1, d2, -, -, d5⟩ :=
    DrawSelection_sel plat (CheckSelectionSize plat ext g viewwd viewht) dc r
  have hsecond := hsame (DrawSelection plat (CheckSelectionSize plat ext g viewwd viewht) dc r)
    (d1.trans hsize.1) (d2.trans hsize.2)
  refine ⟨fun h => ⟨(hyes h).1, (hyes h).2.1, (hyes h).2.2.1, hpix h⟩, hno, hsize, hsecond, ?_⟩
  rw [hsecond, (DrawSelection_sel plat _ dc r).2.2.2.2, d5]
  by_cases h : viewwd ≠ g.selwd ∨ viewht ≠ g.selht
  · rw [if_pos h, (hyes h).1]
  · rw [if_neg h, hno h]; rfl

/-- C13, instance: a first selection drawn over a 50 x 50 viewport while a
100 x 100 tint is cached, then a second one for the same viewport: one
reallocation, and the pixel (10, 10) of the new tints holds the selection
colour (75, 175, 0) and light grey (192, 192, 192) with alpha 128. -/
theorem CheckSelectionSize_caches_witness :
    ((50 : Int) ≠ sampleGlobals.selwd ∧ sampleExt.newBitmap 50 50 = some blackBitmap ∧
      blackBitmap.ok = true) ∧
    (∃ sel gray,
      (CheckSelectionSize Platform.other sampleExt sampleGlobals 50 50).selbitmap = some sel ∧
      (CheckSelectionSize Platform.other sampleExt sampleGlobals 50 50).graybitmap = some gray ∧
      sel.pix 10 10 = ⟨75, 175, 0, 128⟩ ∧ gray.pix 10 10 = ⟨192, 192, 192, 128⟩) ∧
    (DrawSelection Platform.other (CheckSelectionSize Platform.other sampleExt
        (DrawSelection Platform.other (CheckSelectionSize Platform.other sampleExt sampleGlobals
          50 50) DCId.viewdc ⟨10, 10, 50, 50⟩) 50 50) DCId.viewdc ⟨10, 10, 50, 50⟩).selallocs =
      sampleGlobals.selallocs + 1 := by
  refine ⟨⟨by decide, rfl, rfl⟩, ?_, ?_⟩
  · obtain ⟨sel, gray, h1, h2, h3, -⟩ :=
      ((CheckSelectionSize_caches Platform.other sampleExt sampleGlobals 50 50 DCId.viewdc
        ⟨10, 10, 50, 50⟩).1 (Or.inl (by decide))).2.2.2 blackBitmap rfl rfl
    exact ⟨sel, gray, h1, h2, (h3 10 10 (by decide) (by decide) (by decide) (by decide)).1,
      (h3 10 10 (by decide) (by decide) (by decide) (by decide)).2⟩
  · exact (CheckSelectionSize_caches Platform.other sampleExt sampleGlobals 50 50 DCId.viewdc
      ⟨10, 10, 50, 50⟩).2.2.2.2

/-! ## Tile borders -/

theorem DrawTileFrame_eq (g : Globals) (dc : DCId) (trect : Rect) (brush : Color) (wd : Int) :
    DrawTileFrame g dc trect brush wd =
      { g with dc := fun e => if e = dc then tileFrameCmds trect brush wd ++ g.dc e
                              else g.dc e } := by
  unfold DrawTileFrame tileFrameCmds Rect.Inflate Globals.emitOn
  dsimp only
  congr 1
  funext e
  by_cases he : e = dc
  · simp [he]
  · simp [he]

theorem tileLoop_eq (g : Globals) (dc : DCId) (brush : Color) (n : Nat) :
    forLoop n (fun i g => DrawTileFrame g dc (g.layers i).tilerect brush g.tileborder) g =
      { g with dc := fun e => if e = dc then tileFrames g brush n ++ g.dc e else g.dc e } := by
  induction n with
  | zero =>
    show g = _
    simp [tileFrames]
  | succ n ih =>
    show DrawTileFrame (forLoop n _ g) dc _ brush _ = _
    rw [ih, DrawTileFrame_eq]
    dsimp only
    congr 1
    funext e
    by_cases he : e = dc
    · simp [he, tileFrames]
    · simp [he]

theorem fillColor_frame (trect : Rect) (brush : Color) (wd : Int) (rest : List DrawCmd)
    (X Y : Int) :
    fillColor (tileFrameCmds trect brush wd ++ rest) X Y =
      if InFrame trect wd X Y then some brush else fillColor rest X Y := by
  unfold tileFrameCmds InFrame
  simp only [List.cons_append, List.nil_append, fillColor]
  split_ifs <;> first | rfl | (exfalso; tauto)

theorem fillColor_frames (g : Globals) (brush : Color) (rest : List DrawCmd) (X Y : Int)
    (n : Nat) (h : ∃ i, i < n ∧ InFrame (g.layers i).tilerect g.tileborder X Y) :
    fillColor (tileFrames g brush n ++ rest) X Y = some brush := by
  induction n with
  | zero => obtain ⟨i, hi, _⟩ := h; omega
  | succ n ih =>
    simp only [tileFrames, List.append_assoc]
    rw [fillColor_frame]
    by_cases hn : InFrame (g.layers n).tilerect g.tileborder X Y
    · rw [if_pos hn]
    · rw [if_neg hn]
      obtain ⟨i, hi, hin⟩ := h
      rcases Nat.lt_succ_iff_lt_or_eq.mp hi with hi' | hi'
      · exact ih ⟨i, hi', hin⟩
      · subst hi'; exact absurd hin hn

/-- C20: `DrawTileBorders` changes nothing when `tileborder <= 0` or the
`bigview` window is smaller than 1 x 1.  Otherwise it only adds `FillRect`
calls to the DC: first a frame for the tile of every layer `0 .. numlayers-1`
in dark gray (96,96,96) if the integer part of (R+G+B)/3 of the dead-cell
colour exceeds 127 and in light gray (224,224,224) if not, then the frame of
the current layer's tile in bright green (0,255,0).  So the newest fill of
every pixel on the current tile's frame is green, and the newest fill of every
pixel on another layer's frame and off the current tile's frame is the gray. -/
theorem DrawTileBorders_frames (g : Globals) (dc : DCId) :
    ((g.tileborder ≤ 0 ∨ g.bigviewwd < 1 ∨ g.bigviewht < 1) → DrawTileBorders g dc = g) ∧
    (¬ (g.tileborder ≤ 0 ∨ g.bigviewwd < 1 ∨ g.bigviewht < 1) →
      DrawTileBorders g dc = { g with dc := (DrawTileBorders g dc).dc } ∧
      (∀ d, d ≠ dc → (DrawTileBorders g dc).dc d = g.dc d) ∧
      (DrawTileBorders g dc).dc dc =
        tileFrameCmds (g.layers g.currindex.toNat).tilerect ⟨0, 255, 0⟩ g.tileborder ++
          (tileFrames g
            (if 127 < (g.deadrgb.red + g.deadrgb.green + g.deadrgb.blue) / 3 then ⟨96, 96, 96⟩
             else ⟨224, 224, 224⟩) g.numlayers.toNat ++ g.dc dc) ∧
      (∀ X Y, InFrame (g.layers g.currindex.toNat).tilerect g.tileborder X Y →
        fillColor ((DrawTileBorders g dc).dc dc) X Y = some ⟨0, 255, 0⟩) ∧
      (∀ i : Nat, (i : Int) < g.numlayers → ∀ X Y,
        InFrame (g.layers i).tilerect g.tileborder X Y →
        ¬ InFrame (g.layers g.currindex.toNat).tilerect g.tileborder X Y →
        fillColor ((DrawTileBorders g dc).dc dc) X Y =
          some (if 127 < (g.deadrgb.red + g.deadrgb.green + g.deadrgb.blue) / 3
            then ⟨96, 96, 96⟩ else ⟨224, 224, 224⟩))) := by
  constructor
  · intro h
    unfold DrawTileBorders
    by_cases h1 : g.tileborder ≤ 0
    · rw [if_pos h1]
    · rw [if_neg h1, if_pos (by omega)]
  · intro h
    have h1 : ¬ g.tileborder ≤ 0 := by omega
    have h2 : ¬ (g.bigviewwd < 1 ∨ g.bigviewht < 1) := by omega
    have hbrush : (if ((g.deadrgb.red + g.deadrgb.green + g.deadrgb.blue : Nat) : Int) / 3 > 127
        then dkgray else ltgray) =
        (if 127 < (g.deadrgb.red + g.deadrgb.green + g.deadrgb.blue) / 3 then ⟨96, 96, 96⟩
             else ⟨224, 224, 224⟩) := by
      by_cases hg : 127 < (g.deadrgb.red + g.deadrgb.green + g.deadrgb.blue) / 3
      · rw [if_pos hg, if_pos (by omega)]; rfl
      · rw [if_neg hg, if_neg (by omega)]; rfl
    have heq : DrawTileBorders g dc =
        { g with dc := fun e => if e = dc then
            tileFrameCmds (g.layers g.currindex.toNat).tilerect ⟨0, 255, 0⟩ g.tileborder ++
              (tileFrames g
                (if 127 < (g.deadrgb.red + g.deadrgb.green + g.deadrgb.blue) / 3
                  then ⟨96, 96, 96⟩ else ⟨224, 224, 224⟩) g.numlayers.toNat ++ g.dc e)
            else g.dc e } := by
      unfold DrawTileBorders
      rw [if_neg h1, if_neg h2]
      dsimp only
      rw [hbrush, tileLoop_eq, DrawTileFrame_eq]
      dsimp only
      congr 1
      funext e
      by_cases he : e = dc
      · simp [he, brightgreen]
      · simp [he]
    have hdc : (DrawTileBorders g dc).dc dc =
        tileFrameCmds (g.layers g.currindex.toNat).tilerect ⟨0, 255, 0⟩ g.tileborder ++
          (tileFrames g
            (if 127 < (g.deadrgb.red + g.deadrgb.green + g.deadrgb.blue) / 3 then ⟨96, 96, 96⟩
             else ⟨224, 224, 224⟩) g.numlayers.toNat ++ g.dc dc) := by
      rw [heq]; simp
    refine ⟨?_, ?_, hdc, ?_, ?_⟩
    · rw [heq]
    · intro d hd
      rw [heq]
      simp [hd]
    · intro X Y hin
      rw [hdc, fillColor_frame, if_pos hin]
    · intro i hi X Y hin hnot
      rw [hdc, fillColor_frame, if_neg hnot]
      exact fillColor_frames g _ _ X Y _ ⟨i, by omega, hin⟩

/-- C20, instance: three tiles with a border of 3 pixels; pixel (40, 50) is on
the left edge of the frame of the current (second) tile. -/
theorem DrawTileBorders_frames_witness :
    ¬ (tileGlobals.tileborder ≤ 0 ∨ tileGlobals.bigviewwd < 1 ∨ tileGlobals.bigviewht < 1) ∧
    InFrame (tileGlobals.layers tileGlobals.currindex.toNat).tilerect tileGlobals.tileborder
      40 50 ∧
    fillColor ((DrawTileBorders tileGlobals DCId.viewdc).dc DCId.viewdc) 40 50 =
      some ⟨0, 255, 0⟩ :=
  ⟨by decide, by decide,
    ((DrawTileBorders_frames tileGlobals DCId.viewdc).2 (by decide)).2.2.2.1 40 50 (by decide)⟩

/-! ## What the drawing helpers leave unchanged -/

theorem DrawFrame.draw_refl (g : Globals) : DrawFrame g g := rfl

theorem DrawFrame.draw_trans {a b c : Globals} (h1 : DrawFrame a b) (h2 : DrawFrame b c) :
    DrawFrame a c := by
  unfold DrawFrame at *
  rw [h2, h1]

theorem DrawFrame.of_render {g g' : Globals} (h : RenderFrame g g') : DrawFrame g g' := by
  unfold RenderFrame at h
  unfold DrawFrame
  rw [h]

theorem DrawFrame.draw_emitOn (g : Globals) (d : DCId) (c : DrawCmd) :
    DrawFrame g (g.emitOn d c) := rfl

theorem DrawFrame.draw_ite {g a b : Globals} (c : Prop) [Decidable c] (ha : DrawFrame g a)
    (hb : DrawFrame g b) : DrawFrame g (if c then a else b) := by
  split_ifs <;> assumption

theorem DrawFrame.set_layerbitmap {g g' : Globals} (h : DrawFrame g g') (x : Option Bitmap) :
    DrawFrame g { g' with layerbitmap := x } := by
  unfold DrawFrame at *
  rw [h]

theorem CheckSelectionSize_frame (plat : Platform) (ext : Ext) (g : Globals)
    (viewwd viewht : Int) : DrawFrame g (CheckSelectionSize plat ext g viewwd viewht) := by
  unfold CheckSelectionSize
  by_cases h : viewwd ≠ g.selwd ∨ viewht ≠ g.selht
  · rw [if_pos h]
    dsimp only
    cases ext.newBitmap viewwd viewht <;> rfl
  · rw [if_neg h]; rfl

theorem DrawSelection_frame (plat : Platform) (g : Globals) (dc : DCId) (r : Rect) :
    DrawFrame g (DrawSelection plat g dc r) := by
  unfold DrawSelection
  dsimp only
  split
  · split_ifs <;> rfl
  · rfl

theorem DrawInactiveSelection_frame (plat : Platform) (g : Globals) (dc : DCId) (r : Rect) :
    DrawFrame g (DrawInactiveSelection plat g dc r) := by
  unfold DrawInactiveSelection
  dsimp only
  split
  · split_ifs <;> rfl
  · rfl

theorem gridLineLoop_frame (cellsize limit boldspacing : Int) (bump bold : Bool) (lo hi : Int)
    (line : Int → DrawCmd) (dc : DCId) (fuel : Nat) :
    ∀ (v i : Int) (g g' : Globals),
      gridLineLoop cellsize limit boldspacing bump bold lo hi line dc fuel v i g = some g' →
      DrawFrame g g' := by
  induction fuel with
  | zero => intro v i g g' h; simp [gridLineLoop] at h
  | succ n ih =>
    intro v i g g' h
    unfold gridLineLoop at h
    dsimp only at h
    by_cases hb : v + cellsize ≥ limit
    · rw [if_pos hb] at h
      cases h
      exact DrawFrame.draw_refl g
    · rw [if_neg hb] at h
      exact DrawFrame.draw_trans (DrawFrame.draw_ite _ (DrawFrame.draw_emitOn _ _ _) (DrawFrame.draw_refl g))
        (ih _ _ _ _ h)

theorem gridLineLoop_getD_frame (cellsize limit boldspacing : Int) (bump bold : Bool)
    (lo hi : Int) (line : Int → DrawCmd) (dc : DCId) (fuel : Nat) (v i : Int) (g : Globals) :
    DrawFrame g
      ((gridLineLoop cellsize limit boldspacing bump bold lo hi line dc fuel v i g).getD g) := by
  cases h : gridLineLoop cellsize limit boldspacing bump bold lo hi line dc fuel v i g with
  | none => exact DrawFrame.draw_refl g
  | some g' => exact gridLineLoop_frame _ _ _ _ _ _ _ _ _ _ _ _ _ _ h

theorem DrawGridLines_frame (ext : Ext) (g : Globals) (dc : DCId) (r : Rect) :
    DrawFrame g (DrawGridLines ext g dc r) := by
  unfold DrawGridLines
  dsimp only
  apply DrawFrame.draw_ite
  · refine DrawFrame.draw_trans ?_ (gridLineLoop_getD_frame _ _ _ _ _ _ _ _ _ _ _ _ _)
    refine DrawFrame.draw_trans ?_ (gridLineLoop_getD_frame _ _ _ _ _ _ _ _ _ _ _ _ _)
    refine DrawFrame.draw_trans ?_ (gridLineLoop_getD_frame _ _ _ _ _ _ _ _ _ _ _ _ _)
    exact gridLineLoop_getD_frame _ _ _ _ _ _ _ _ _ _ _ _ _
  · refine DrawFrame.draw_trans ?_ (gridLineLoop_getD_frame _ _ _ _ _ _ _ _ _ _ _ _ _)
    exact gridLineLoop_getD_frame _ _ _ _ _ _ _ _ _ _ _ _ _

/-- Every loop of `DrawGridLines` reaches its `break` within `gridFuel`
iterations, since the cell size is at least 1. -/
theorem gridLineLoop_some (cellsize limit boldspacing : Int) (bump bold : Bool) (lo hi : Int)
    (line : Int → DrawCmd) (dc : DCId) (hcs : 1 ≤ cellsize) (fuel : Nat) :
    ∀ (v i : Int) (g : Globals), limit - v < fuel + 1 → 
      ∃ g', gridLineLoop cellsize limit boldspacing bump bold lo hi line dc (fuel + 1) v i g =
        some g' := by
  induction fuel with
  | zero =>
    intro v i g h
    unfold gridLineLoop
    dsimp only
    rw [if_pos (by omega)]
    exact ⟨g, rfl⟩
  | succ n ih =>
    intro v i g h
    unfold gridLineLoop
    dsimp only
    by_cases hb : v + cellsize ≥ limit
    · rw [if_pos hb]; exact ⟨g, rfl⟩
    · rw [if_neg hb]
      exact ih _ _ _ (by push_cast at h ⊢; omega)

theorem DrawOneLayer_frame (plat : Platform) (ext : Ext) (g : Globals) (dc : DCId) :
    DrawFrame g (DrawOneLayer plat ext g dc) := by
  unfold DrawOneLayer
  dsimp only
  refine DrawFrame.draw_trans ?_ (DrawFrame.draw_emitOn _ _ _)
  apply DrawFrame.set_layerbitmap
  refine DrawFrame.draw_trans ?_ (DrawFrame.of_render (runDraw_frame _ _ _ _))
  rfl

theorem DrawPasteImage_frame (plat : Platform) (ext : Ext) (g : Globals) (dc : DCId) :
    DrawFrame g (DrawPasteImage plat ext g dc) := by
  unfold DrawPasteImage
  rw [drawPasteBorder_eq]
  cases g.pastebitmap with
  | none => dsimp only; split_ifs <;> rfl
  | some bm => dsimp only; split_ifs <;> rfl

/-! ## What compositing the stacked layers leaves unchanged -/

theorem StackFrame.stack_refl (g : Globals) : StackFrame g g := rfl

theorem StackFrame.stack_trans {a b c : Globals} (h1 : StackFrame a b) (h2 : StackFrame b c) :
    StackFrame a c := by
  unfold StackFrame at *
  rw [h2, h1]

theorem StackFrame.of_draw {g g' : Globals} (h : DrawFrame g g') : StackFrame g g' := by
  unfold DrawFrame at h
  unfold StackFrame
  rw [h]

theorem StackFrame.stack_ite {g a b : Globals} (c : Prop) [Decidable c] (ha : StackFrame g a)
    (hb : StackFrame g b) : StackFrame g (if c then a else b) := by
  split_ifs <;> assumption

theorem StackFrame.flags {g g' : Globals} (h : StackFrame g g') : SameFlags g g' := by
  unfold StackFrame at h
  exact ⟨(congrArg Globals.steps h).trans rfl, (congrArg Globals.numlayers h).trans rfl,
    (congrArg Globals.stacklayers h).trans rfl, (congrArg Globals.tilelayers h).trans rfl⟩

theorem SameFlags.flags_refl (g : Globals) : SameFlags g g := ⟨rfl, rfl, rfl, rfl⟩

theorem SameFlags.flags_trans {a b c : Globals} (h1 : SameFlags a b) (h2 : SameFlags b c) :
    SameFlags a c :=
  ⟨h2.1.trans h1.1, h2.2.1.trans h1.2.1, h2.2.2.1.trans h1.2.2.1, h2.2.2.2.trans h1.2.2.2⟩

theorem StackFrame.set_currlayer {g g' : Globals} (h : StackFrame g g') (c : Nat) :
    StackFrame g { g' with currlayer := c } := h.stack_trans rfl

theorem StackFrame.set_showgridlines {g g' : Globals} (h : StackFrame g g') (b : Bool) :
    StackFrame g { g' with showgridlines := b } := h.stack_trans rfl

theorem StackFrame.setView {g g' : Globals} (h : StackFrame g g') (i v : Nat) :
    StackFrame g (g'.setView i v) := h.stack_trans rfl

theorem StackFrame.setDeadCell {g g' : Globals} (h : StackFrame g g') :
    StackFrame g g'.setDeadCell := h.stack_trans rfl

theorem stackLayer_eq (plat : Platform) (ext : Ext) (dc : DCId) (i : Nat) (g : Globals) :
    stackLayer plat ext dc i g =
      { (stackLayerSelection plat ext dc i (stackLayerDraw plat ext dc i g)).setView
          (stackLayerSelection plat ext dc i (stackLayerDraw plat ext dc i g)).currlayer
          (({ g with currlayer := i } : Globals).setDeadCell).cur.view
        with currlayer := g.currlayer } := rfl

theorem stackLayerDraw_frame (plat : Platform) (ext : Ext) (dc : DCId) (i : Nat) (g : Globals) :
    StackFrame g (stackLayerDraw plat ext dc i g) := by
  unfold stackLayerDraw
  dsimp only
  have h : StackFrame g ((({ g with currlayer := i } : Globals).setDeadCell).setView
      (({ g with currlayer := i } : Globals).setDeadCell).currlayer
      ((({ g with currlayer := i } : Globals).setDeadCell).layers g.currlayer).view) :=
    (((StackFrame.stack_refl g).set_currlayer i).setDeadCell).setView _ _
  exact StackFrame.stack_ite _ h (h.stack_trans (StackFrame.of_draw (DrawOneLayer_frame _ _ _ _)))

theorem stackLayerSelection_frame (plat : Platform) (ext : Ext) (dc : DCId) (i : Nat)
    (g : Globals) : DrawFrame g (stackLayerSelection plat ext dc i g) := by
  unfold stackLayerSelection
  split
  · dsimp only
    exact DrawFrame.draw_ite _
      ((CheckSelectionSize_frame _ _ _ _ _).draw_trans (DrawSelection_frame _ _ _ _))
      ((CheckSelectionSize_frame _ _ _ _ _).draw_trans (DrawInactiveSelection_frame _ _ _ _))
  · exact DrawFrame.draw_refl g

theorem stackLayer_frame (plat : Platform) (ext : Ext) (dc : DCId) (i : Nat) (g : Globals) :
    StackFrame g (stackLayer plat ext dc i g) := by
  rw [stackLayer_eq]
  exact (((stackLayerDraw_frame plat ext dc i g).stack_trans
    (StackFrame.of_draw (stackLayerSelection_frame plat ext dc i _))).setView _ _).set_currlayer _

theorem stackLoop_frame (plat : Platform) (ext : Ext) (g : Globals) (dc : DCId) :
    StackFrame g (stackLoop plat ext g dc) := by
  unfold stackLoop
  dsimp only
  apply StackFrame.set_showgridlines
  have h0 : StackFrame g { g with showgridlines := false } := rfl
  refine h0.stack_trans ?_
  exact forLoop_inv (fun _ t => StackFrame { g with showgridlines := false } t) _ _ _
    (StackFrame.stack_refl _) (fun i t _ ht => ht.stack_trans (stackLayer_frame plat ext dc (i + 1) t))

theorem DrawStackedLayers_frame (plat : Platform) (ext : Ext) (g : Globals) (dc : DCId) :
    StackFrame g (DrawStackedLayers plat ext g dc) := by
  unfold DrawStackedLayers
  dsimp only
  have h0 : StackFrame g
      { g with layerwd := g.curview.width, layerht := g.curview.height,
               layerbitmap := ext.newBitmap g.curview.width g.curview.height } := rfl
  apply StackFrame.stack_ite
  · apply StackFrame.stack_ite
    · exact h0.stack_trans rfl
    · exact h0.stack_trans (stackLoop_frame _ _ _ _)
  · exact stackLoop_frame _ _ _ _

/-! ## DrawView: flags and steps -/

theorem drawPastePattern_flags (plat : Platform) (ext : Ext) (g : Globals) (cellbox : Rect) :
    SameFlags g (drawPastePattern plat ext g cellbox) := by
  unfold drawPastePattern
  dsimp only
  generalize hcalls : ext.algoDraw _ _ _ _ _ = calls
  have hf := runDraw_frame plat ext calls
    { g.setDeadCell with
      showgridlines := false
      dc := fun d => if d = DCId.pattdc then [] else g.setDeadCell.dc d
      currdc := DCId.pattdc
      currwd := (pasteTempview g cellbox).width
      currht := (pasteTempview g cellbox).height }
  generalize runDraw plat ext _ calls = g2 at hf ⊢
  unfold RenderFrame at hf
  exact ⟨(congrArg Globals.steps hf).trans rfl, (congrArg Globals.numlayers hf).trans rfl,
    (congrArg Globals.stacklayers hf).trans rfl, (congrArg Globals.tilelayers hf).trans rfl⟩

theorem CheckPasteImage_flags (plat : Platform) (ext : Ext) (g : Globals) :
    SameFlags g (CheckPasteImage plat ext g) := by
  unfold CheckPasteImage
  by_cases h : pasteKeysDiffer g
  · rw [if_pos h]
    dsimp only
    split_ifs
    · exact ⟨rfl, rfl, rfl, rfl⟩
    · exact ⟨rfl, rfl, rfl, rfl⟩
    · split
      · unfold renderPasteBitmap
        dsimp only
        exact drawPastePattern_flags plat ext (allocPasteBitmap ext (updatePasteKeys g))
          (pasteImageLayout (updatePasteKeys g)).2.2
      · exact ⟨rfl, rfl, rfl, rfl⟩
  · rw [if_neg h]; exact SameFlags.flags_refl g

/-! ## DrawView: the steps performed -/

theorem StepsAdd.of_flags {g g' : Globals} (h : SameFlags g g') : StepsAdd g g' [] :=
  ⟨by rw [h.1, List.append_nil], h.2.1, h.2.2.1, h.2.2.2⟩

theorem StepsAdd.steps_trans {a b c : Globals} {l1 l2 : List Step} (h1 : StepsAdd a b l1)
    (h2 : StepsAdd b c l2) : StepsAdd a c (l1 ++ l2) :=
  ⟨by rw [h2.1, h1.1, List.append_assoc], h2.2.1.trans h1.2.1, h2.2.2.1.trans h1.2.2.1,
    h2.2.2.2.trans h1.2.2.2⟩

theorem StepsAdd.log (g : Globals) (s : Step) : StepsAdd g (g.log s) [s] :=
  ⟨rfl, rfl, rfl, rfl⟩

theorem StepsAdd.steps_of_draw {g g' : Globals} (h : DrawFrame g g') : StepsAdd g g' [] :=
  StepsAdd.of_flags (StackFrame.of_draw h).flags

theorem StepsAdd.of_stack {g g' : Globals} (h : StackFrame g g') : StepsAdd g g' [] :=
  StepsAdd.of_flags h.flags

theorem DrawViewMode_steps (g : Globals) (tileindex : Int) :
    StepsAdd g (DrawViewMode g tileindex).1 [] := by
  unfold DrawViewMode
  dsimp only
  split_ifs <;> exact ⟨by simp [Globals.setPositionMag, Globals.setView], rfl, rfl, rfl⟩

theorem DrawViewPattern_steps (plat : Platform) (ext : Ext) (g : Globals) (dc : DCId) :
    StepsAdd g (DrawViewPattern plat ext g dc) [Step.pattern] := by
  unfold DrawViewPattern
  dsimp only
  have h1 : StepsAdd g (DrawViewIcons g.setDeadCell) [] := by
    unfold DrawViewIcons
    split_ifs <;> exact ⟨by simp [Globals.setDeadCell], rfl, rfl, rfl⟩
  have h2 : StepsAdd (DrawViewIcons g.setDeadCell)
      (({ DrawViewIcons g.setDeadCell with
          currdc := dc, currwd := (DrawViewIcons g.setDeadCell).curview.width,
          currht := (DrawViewIcons g.setDeadCell).curview.height } : Globals).log Step.pattern)
      [Step.pattern] := ⟨rfl, rfl, rfl, rfl⟩
  have h3 := (h1.steps_trans h2).steps_trans
    (StepsAdd.steps_of_draw (DrawFrame.of_render (runDraw_frame plat ext
      (ext.algoDraw (DrawViewIcons g.setDeadCell).cur.algo (DrawViewIcons g.setDeadCell).curview
        (DrawViewIcons g.setDeadCell).cur.cellr (DrawViewIcons g.setDeadCell).cur.cellg
        (DrawViewIcons g.setDeadCell).cur.cellb)
      (({ DrawViewIcons g.setDeadCell with
          currdc := dc, currwd := (DrawViewIcons g.setDeadCell).curview.width,
          currht := (DrawViewIcons g.setDeadCell).curview.height } : Globals).log
            Step.pattern))))
  exact h3

theorem DrawViewOverlays_steps (plat : Platform) (ext : Ext) (g : Globals) (dc : DCId)
    (colorindex : Int) :
    ∃ a b, (a = [] ∨ a = [Step.gridLines]) ∧ (b = [] ∨ b = [Step.selection]) ∧
      StepsAdd g (DrawViewOverlays plat ext g dc colorindex) (a ++ b) := by
  unfold DrawViewOverlays
  dsimp only
  have h1 : ∃ a, (a = [] ∨ a = [Step.gridLines]) ∧
      StepsAdd g (if g.pview.gridvisible = true then
        DrawGridLines ext (g.log Step.gridLines) dc ⟨0, 0, g.curview.width, g.curview.height⟩
        else g) a := by
    by_cases hg : g.pview.gridvisible = true
    · rw [if_pos hg]
      exact ⟨[Step.gridLines], Or.inr rfl,
        (StepsAdd.log g _).steps_trans (StepsAdd.steps_of_draw (DrawGridLines_frame _ _ _ _))⟩
    · rw [if_neg hg]
      exact ⟨[], Or.inl rfl, StepsAdd.of_flags (SameFlags.flags_refl g)⟩
  obtain ⟨a, ha, h1⟩ := h1
  generalize (if g.pview.gridvisible = true then
        DrawGridLines ext (g.log Step.gridLines) dc ⟨0, 0, g.curview.width, g.curview.height⟩
        else g) = g1 at h1 ⊢
  split
  · refine ⟨a, [Step.selection], ha, Or.inr rfl, h1.steps_trans ?_⟩
    have h2 := (StepsAdd.log g1 Step.selection).steps_trans
      (StepsAdd.steps_of_draw (CheckSelectionSize_frame plat ext (g1.log Step.selection)
        g1.curview.width g1.curview.height))
    split_ifs
    · exact h2.steps_trans (StepsAdd.steps_of_draw (DrawSelection_frame _ _ _ _))
    · exact h2.steps_trans (StepsAdd.steps_of_draw (DrawInactiveSelection_frame _ _ _ _))
  · exact ⟨a, [], ha, Or.inl rfl, by rw [List.append_nil]; exact h1⟩

theorem DrawViewStacked_steps (plat : Platform) (ext : Ext) (g : Globals) (dc : DCId)
    (loc : ViewLocals) :
    StepsAdd g (DrawViewStacked plat ext g dc loc)
      (if g.numlayers > 1 ∧ g.stacklayers = true then [Step.stackedLayers] else []) := by
  unfold DrawViewStacked
  by_cases h : g.numlayers > 1 ∧ g.stacklayers = true
  · rw [if_pos h, if_pos h]
    dsimp only
    have hlog : StepsAdd g
        ((match loc.saveview0 with
          | some v => ({ g with currlayer := loc.savelayer.getD g.currlayer } : Globals).setView 0 v
          | none => ({ g with currlayer := loc.savelayer.getD g.currlayer } : Globals)).log
            Step.stackedLayers)
        [Step.stackedLayers] := by
      cases loc.saveview0 <;> exact ⟨rfl, rfl, rfl, rfl⟩
    exact hlog.steps_trans (StepsAdd.of_stack (DrawStackedLayers_frame _ _ _ _))
  · rw [if_neg h, if_neg h]
    exact StepsAdd.of_flags (SameFlags.flags_refl g)

theorem DrawViewPasteStep_steps (plat : Platform) (ext : Ext) (g : Globals) (dc : DCId) :
    ∃ c, (c = [] ∨ c = [Step.pastePreview]) ∧ StepsAdd g (DrawViewPasteStep plat ext g dc) c := by
  unfold DrawViewPasteStep
  split_ifs
  · exact ⟨[], Or.inl rfl, StepsAdd.of_flags (SameFlags.flags_refl g)⟩
  · exact ⟨[Step.pastePreview], Or.inr rfl,
      ((StepsAdd.log g _).steps_trans (StepsAdd.of_flags (CheckPasteImage_flags _ _ _))).steps_trans
        (StepsAdd.steps_of_draw (DrawPasteImage_frame _ _ _ _))⟩
  · exact ⟨[], Or.inl rfl, StepsAdd.of_flags (SameFlags.flags_refl g)⟩

theorem DrawViewRestore_steps (g : Globals) (loc : ViewLocals) :
    StepsAdd g (DrawViewRestore g loc) [] := by
  unfold DrawViewRestore
  split_ifs
  · exact ⟨by simp, rfl, rfl, rfl⟩
  · exact StepsAdd.of_flags (SameFlags.flags_refl g)

theorem DrawTileBorders_frame (g : Globals) (dc : DCId) : DrawFrame g (DrawTileBorders g dc) := by
  unfold DrawTileBorders
  apply DrawFrame.draw_ite _ (DrawFrame.draw_refl g)
  apply DrawFrame.draw_ite _ (DrawFrame.draw_refl g)
  dsimp only
  rw [tileLoop_eq, DrawTileFrame_eq]
  rfl

/-- The steps of a `DrawView` call for a pattern that is ready. -/
theorem DrawView_steps (plat : Platform) (ext : Ext) (g : Globals) (dc : DCId)
    (tileindex : Int) (hready : g.pview.nopattupdate = false) :
    ((g.numlayers > 1 ∧ g.tilelayers = true ∧ tileindex < 0) →
      (DrawView plat ext g dc tileindex).steps = g.steps ++ [Step.tileBorders]) ∧
    (¬ (g.numlayers > 1 ∧ g.tilelayers = true ∧ tileindex < 0) →
      ∃ a b c, (a = [] ∨ a = [Step.gridLines]) ∧ (b = [] ∨ b = [Step.selection]) ∧
        (c = [] ∨ c = [Step.pastePreview]) ∧
        (DrawView plat ext g dc tileindex).steps =
          g.steps ++ ([Step.pattern] ++ (a ++ b) ++
            (if g.numlayers > 1 ∧ g.stacklayers = true then [Step.stackedLayers] else []) ++
            c)) := by
  have hr : ¬ (g.pview.nopattupdate = true) := by rw [hready]; decide
  constructor
  · intro h
    unfold DrawView
    rw [if_neg hr, if_pos h]
    exact ((StepsAdd.log g _).steps_trans (StepsAdd.steps_of_draw (DrawTileBorders_frame _ _))).1
  · intro h
    unfold DrawView
    rw [if_neg hr, if_neg h]
    dsimp only
    have h0 := DrawViewMode_steps g tileindex
    have h1 := DrawViewPattern_steps plat ext (DrawViewMode g tileindex).1 dc
    obtain ⟨a, b, ha, hb, h2⟩ := DrawViewOverlays_steps plat ext
      (DrawViewPattern plat ext (DrawViewMode g tileindex).1 dc) dc
      (DrawViewMode g tileindex).2.colorindex
    have h3 := DrawViewStacked_steps plat ext
      (DrawViewOverlays plat ext (DrawViewPattern plat ext (DrawViewMode g tileindex).1 dc) dc
        (DrawViewMode g tileindex).2.colorindex) dc (DrawViewMode g tileindex).2
    obtain ⟨c, hc, h4⟩ := DrawViewPasteStep_steps plat ext
      (DrawViewStacked plat ext
        (DrawViewOverlays plat ext (DrawViewPattern plat ext (DrawViewMode g tileindex).1 dc) dc
          (DrawViewMode g tileindex).2.colorindex) dc (DrawViewMode g tileindex).2) dc
    have h5 := DrawViewRestore_steps
      (DrawViewPasteStep plat ext
        (DrawViewStacked plat ext
          (DrawViewOverlays plat ext (DrawViewPattern plat ext (DrawViewMode g tileindex).1 dc) dc
            (DrawViewMode g tileindex).2.colorindex) dc (DrawViewMode g tileindex).2) dc)
      (DrawViewMode g tileindex).2
    have h012 := (h0.steps_trans h1).steps_trans h2
    have hn : (DrawViewOverlays plat ext (DrawViewPattern plat ext (DrawViewMode g tileindex).1 dc)
        dc (DrawViewMode g tileindex).2.colorindex).numlayers = g.numlayers := h012.2.1
    have hs : (DrawViewOverlays plat ext (DrawViewPattern plat ext (DrawViewMode g tileindex).1 dc)
        dc (DrawViewMode g tileindex).2.colorindex).stacklayers = g.stacklayers := h012.2.2.1
    rw [hn, hs] at h3
    have hall := (((h012.steps_trans h3).steps_trans h4).steps_trans h5).1
    refine ⟨a, b, c, ha, hb, hc, ?_⟩
    rw [hall]
    simp only [List.nil_append, List.append_nil, List.append_assoc]

/-- C17: in every `DrawView` call for a pattern that is ready (`nopattupdate`
is false), the steps `DrawView` performs form a sublist of
pattern (`algo->draw`), grid lines, selection, stacked layers, paste preview,
tile borders: they occur in this relative order, each at most once.  The call
either draws the tile borders only or starts with the pattern. -/
theorem DrawView_step_order (plat : Platform) (ext : Ext) (g : Globals) (dc : DCId)
    (tileindex : Int) (hready : g.pview.nopattupdate = false) :
    ∃ new : List Step,
      (DrawView plat ext g dc tileindex).steps = g.steps ++ new ∧
      List.Sublist new [Step.pattern, Step.gridLines, Step.selection, Step.stackedLayers,
        Step.pastePreview, Step.tileBorders] ∧
      (new = [Step.tileBorders] ∨ new.head? = some Step.pattern) := by
  obtain ⟨h1, h2⟩ := DrawView_steps plat ext g dc tileindex hready
  by_cases h : g.numlayers > 1 ∧ g.tilelayers = true ∧ tileindex < 0
  · exact ⟨[Step.tileBorders], h1 h, by decide, Or.inl rfl⟩
  · obtain ⟨a, b, c, ha, hb, hc, hsteps⟩ := h2 h
    refine ⟨_, hsteps, ?_, Or.inr rfl⟩
    rcases ha with rfl | rfl <;> rcases hb with rfl | rfl <;> rcases hc with rfl | rfl <;>
      split_ifs <;> decide

/-- C17, instance: three stacked layers with grid lines visible and a paste
pending. -/
theorem DrawView_step_order_witness :
    stackedGlobals.pview.nopattupdate = false ∧
    ∃ new : List Step,
      (DrawView Platform.other stackedExt stackedGlobals DCId.viewdc (-1)).steps =
        stackedGlobals.steps ++ new ∧
      List.Sublist new [Step.pattern, Step.gridLines, Step.selection, Step.stackedLayers,
        Step.pastePreview, Step.tileBorders] ∧
      (new = [Step.tileBorders] ∨ new.head? = some Step.pattern) :=
  ⟨rfl, DrawView_step_order Platform.other stackedExt stackedGlobals DCId.viewdc (-1) rfl⟩

/-- C18, failing input: with two layers and both `tilelayers` and
`stacklayers` set, `DrawView` for tile 0 takes the tiled branch of the mode
selection and later calls `DrawStackedLayers` as well: its second test
`numlayers > 1 && stacklayers` does not look at `tilelayers`. -/
theorem DrawView_tiled_and_stacked :
    bothModesGlobals.pview.nopattupdate = false ∧
    (bothModesGlobals.numlayers > 1 ∧ bothModesGlobals.tilelayers = true) ∧
    Step.stackedLayers ∈
      (DrawView Platform.other sampleExt bothModesGlobals DCId.viewdc 0).steps := by
  decide

/-- C18 for the settings in which `tilelayers` and `stacklayers` are not both
set: for a pattern that is ready, `DrawView` executes the steps of exactly one
mode.  It draws the tile borders, and nothing else, exactly when the layers
are tiled (`numlayers > 1` and `tilelayers`) and `tileindex < 0`; every other
call starts with the pattern step; and `DrawStackedLayers` is called exactly
when the stacked branch of the mode selection was taken (`numlayers > 1` and
`stacklayers`, the layers not being tiled). -/
theorem DrawView_mode_steps (plat : Platform) (ext : Ext) (g : Globals) (dc : DCId)
    (tileindex : Int) (hready : g.pview.nopattupdate = false)
    (hexcl : ¬ (g.tilelayers = true ∧ g.stacklayers = true)) :
    ∃ new : List Step,
      (DrawView plat ext g dc tileindex).steps = g.steps ++ new ∧
      ((g.numlayers > 1 ∧ g.tilelayers = true ∧ tileindex < 0) → new = [Step.tileBorders]) ∧
      (¬ (g.numlayers > 1 ∧ g.tilelayers = true ∧ tileindex < 0) →
        new.head? = some Step.pattern) ∧
      (Step.tileBorders ∈ new ↔ (g.numlayers > 1 ∧ g.tilelayers = true ∧ tileindex < 0)) ∧
      (Step.stackedLayers ∈ new ↔
        (¬ (g.numlayers > 1 ∧ g.tilelayers = true) ∧
          (g.numlayers > 1 ∧ g.stacklayers = true))) := by
  obtain ⟨h1, h2⟩ := DrawView_steps plat ext g dc tileindex hready
  by_cases h : g.numlayers > 1 ∧ g.tilelayers = true ∧ tileindex < 0
  · refine ⟨[Step.tileBorders], h1 h, fun _ => rfl, fun hn => absurd h hn, ?_, ?_⟩
    · exact ⟨fun _ => h, fun _ => List.mem_singleton.mpr rfl⟩
    · constructor
      · intro hm; exact absurd hm (by decide)
      · rintro ⟨hn, _⟩; exact absurd ⟨h.1, h.2.1⟩ hn
  · obtain ⟨a, b, c, ha, hb, hc, hsteps⟩ := h2 h
    refine ⟨_, hsteps, fun hh => absurd hh h, fun _ => rfl, ?_, ?_⟩
    · constructor
      · intro hm
        exfalso
        rcases ha with rfl | rfl <;> rcases hb with rfl | rfl <;> rcases hc with rfl | rfl <;>
          split_ifs at hm <;> revert hm <;> decide
      · intro hh; exact absurd hh h
    · by_cases hst : g.numlayers > 1 ∧ g.stacklayers = true
      · rw [if_pos hst]
        constructor
        · intro _
          refine ⟨fun ht => hexcl ⟨ht.2, hst.2⟩, hst⟩
        · intro _
          simp
      · rw [if_neg hst]
        constructor
        · intro hm
          exfalso
          rcases ha with rfl | rfl <;> rcases hb with rfl | rfl <;> rcases hc with rfl | rfl <;>
            revert hm <;> decide
        · rintro ⟨_, h2⟩; exact absurd h2 hst

/-- C18, instance: three stacked layers, not tiled: the pattern step comes
first and `DrawStackedLayers` is called. -/
theorem DrawView_mode_steps_witness :
    (stackedGlobals.pview.nopattupdate = false ∧
      ¬ (stackedGlobals.tilelayers = true ∧ stackedGlobals.stacklayers = true)) ∧
    ∃ new : List Step,
      (DrawView Platform.other stackedExt stackedGlobals DCId.viewdc (-1)).steps =
        stackedGlobals.steps ++ new ∧
      ((stackedGlobals.numlayers > 1 ∧ stackedGlobals.tilelayers = true ∧ (-1 : Int) < 0) →
        new = [Step.tileBorders]) ∧
      (¬ (stackedGlobals.numlayers > 1 ∧ stackedGlobals.tilelayers = true ∧ (-1 : Int) < 0) →
        new.head? = some Step.pattern) ∧
      (Step.tileBorders ∈ new ↔
        (stackedGlobals.numlayers > 1 ∧ stackedGlobals.tilelayers = true ∧ (-1 : Int) < 0)) ∧
      (Step.stackedLayers ∈ new ↔
        (¬ (stackedGlobals.numlayers > 1 ∧ stackedGlobals.tilelayers = true) ∧
          (stackedGlobals.numlayers > 1 ∧ stackedGlobals.stacklayers = true))) :=
  ⟨⟨rfl, by decide⟩,
    DrawView_mode_steps Platform.other stackedExt stackedGlobals DCId.viewdc (-1) rfl (by decide)⟩

/-! ## DrawStackedLayers: the layers composited -/

theorem DrawOneLayer_events (plat : Platform) (ext : Ext) (g : Globals) (dc : DCId) :
    (DrawOneLayer plat ext g dc).events = g.events ++
      [Event.draw g.currlayer g.cur.algo g.curview g.cur.cellr g.cur.cellg g.cur.cellb] := by
  unfold DrawOneLayer
  dsimp only
  have hf := runDraw_frame plat ext
    (ext.algoDraw g.cur.algo g.curview g.cur.cellr g.cur.cellg g.cur.cellb)
    { g with
      dc := fun d => if d = DCId.layerdc then [] else g.dc d
      currdc := DCId.layerdc
      events := g.events ++
        [Event.draw g.currlayer g.cur.algo g.curview g.cur.cellr g.cur.cellg g.cur.cellb] }
  unfold RenderFrame at hf
  exact (congrArg Globals.events hf).trans rfl

/-- What the first part of the loop body of `DrawStackedLayers` does. -/
theorem stackLayerDraw_spec (plat : Platform) (ext : Ext) (dc : DCId) (i : Nat) (g : Globals) :
    (stackLayerDraw plat ext dc i g).currlayer = i ∧
    (stackLayerDraw plat ext dc i g).layers =
      (fun j => if j = i then { deadLayer g i with view := (g.layers g.currlayer).view }
        else g.layers j) ∧
    (stackLayerDraw plat ext dc i g).views = g.views ∧
    (stackLayerDraw plat ext dc i g).currindex = g.currindex ∧
    (stackLayerDraw plat ext dc i g).events = g.events ++
      (if ext.isEmpty (g.layers i).algo then []
       else [Event.draw i (g.layers i).algo g.curview (deadLayer g i).cellr
         (deadLayer g i).cellg (deadLayer g i).cellb]) := by
  have hlayers : ((({ g with currlayer := i } : Globals).setDeadCell).setView
      (({ g with currlayer := i } : Globals).setDeadCell).currlayer
      ((({ g with currlayer := i } : Globals).setDeadCell).layers g.currlayer).view).layers =
      (fun j => if j = i then { deadLayer g i with view := (g.layers g.currlayer).view }
        else g.layers j) := by
    funext j
    simp only [Globals.setView, Globals.setDeadCell, deadLayer]
    by_cases hj : j = i
    · subst hj
      simp only [if_true]
      by_cases hc : g.currlayer = j
      · rw [if_pos hc, hc]
      · rw [if_neg hc]
    · simp only [if_neg hj]
  unfold stackLayerDraw
  dsimp only
  by_cases he : ext.isEmpty (g.layers i).algo = true
  · have he' : ext.isEmpty ((({ g with currlayer := i } : Globals).setDeadCell).setView
        (({ g with currlayer := i } : Globals).setDeadCell).currlayer
        ((({ g with currlayer := i } : Globals).setDeadCell).layers g.currlayer).view).cur.algo
        = true := by
      simp only [Globals.cur, hlayers]
      simpa [Globals.setView, Globals.setDeadCell, deadLayer] using he
    rw [if_pos he', if_pos he, List.append_nil]
    exact ⟨rfl, hlayers, rfl, rfl, rfl⟩
  · have he' : ¬ ext.isEmpty ((({ g with currlayer := i } : Globals).setDeadCell).setView
        (({ g with currlayer := i } : Globals).setDeadCell).currlayer
        ((({ g with currlayer := i } : Globals).setDeadCell).layers g.currlayer).view).cur.algo
        = true := by
      simp only [Globals.cur, hlayers]
      simpa [Globals.setView, Globals.setDeadCell, deadLayer] using he
    rw [if_neg he', if_neg he]
    have hf := DrawOneLayer_frame plat ext
      ((({ g with currlayer := i } : Globals).setDeadCell).setView
        (({ g with currlayer := i } : Globals).setDeadCell).currlayer
        ((({ g with currlayer := i } : Globals).setDeadCell).layers g.currlayer).view) dc
    unfold DrawFrame at hf
    refine ⟨(congrArg Globals.currlayer hf).trans rfl,
      ((congrArg Globals.layers hf).trans rfl).trans hlayers,
      (congrArg Globals.views hf).trans rfl, (congrArg Globals.currindex hf).trans rfl, ?_⟩
    rw [DrawOneLayer_events]
    have hcur : ((({ g with currlayer := i } : Globals).setDeadCell).setView
        (({ g with currlayer := i } : Globals).setDeadCell).currlayer
        ((({ g with currlayer := i } : Globals).setDeadCell).layers g.currlayer).view).cur =
        { deadLayer g i with view := (g.layers g.currlayer).view } := by
      simp only [Globals.cur, hlayers]
      simp [Globals.setView, Globals.setDeadCell]
    have hcv : ((({ g with currlayer := i } : Globals).setDeadCell).setView
        (({ g with currlayer := i } : Globals).setDeadCell).currlayer
        ((({ g with currlayer := i } : Globals).setDeadCell).layers g.currlayer).view).curview =
        g.curview := by
      unfold Globals.curview
      rw [hcur]
      rfl
    rw [hcur, hcv]
    rfl

theorem DrawSelection_events (plat : Platform) (g : Globals) (dc : DCId) (r : Rect) :
    (DrawSelection plat g dc r).events = g.events ++ [Event.selection g.currlayer true r] := by
  unfold DrawSelection
  dsimp only
  split
  · split_ifs <;> rfl
  · rfl

theorem DrawInactiveSelection_events (plat : Platform) (g : Globals) (dc : DCId) (r : Rect) :
    (DrawInactiveSelection plat g dc r).events =
      g.events ++ [Event.selection g.currlayer false r] := by
  unfold DrawInactiveSelection
  dsimp only
  split
  · split_ifs <;> rfl
  · rfl

theorem CheckSelectionSize_events (plat : Platform) (ext : Ext) (g : Globals)
    (viewwd viewht : Int) :
    (CheckSelectionSize plat ext g viewwd viewht).events = g.events ∧
    (CheckSelectionSize plat ext g viewwd viewht).currlayer = g.currlayer ∧
    (CheckSelectionSize plat ext g viewwd viewht).currindex = g.currindex := by
  unfold CheckSelectionSize
  by_cases h : viewwd ≠ g.selwd ∨ viewht ≠ g.selht
  · rw [if_pos h]
    dsimp only
    cases ext.newBitmap viewwd viewht <;> exact ⟨rfl, rfl, rfl⟩
  · rw [if_neg h]; exact ⟨rfl, rfl, rfl⟩

/-- What the second part of the loop body of `DrawStackedLayers` records. -/
theorem stackLayerSelection_events (plat : Platform) (ext : Ext) (dc : DCId) (i : Nat)
    (g : Globals) :
    (stackLayerSelection plat ext dc i g).events = g.events ++
      (match ext.selVisible g.cur.currsel g.curview with
       | some r => [Event.selection g.currlayer (decide ((i : Int) = g.currindex)) r]
       | none => []) := by
  unfold stackLayerSelection
  cases ext.selVisible g.cur.currsel g.curview with
  | none => simp
  | some r =>
    dsimp only
    obtain ⟨e1, e2, e3⟩ := CheckSelectionSize_events plat ext g g.layerwd g.layerht
    by_cases hi : (i : Int) = g.currindex
    · rw [e3, if_pos hi, DrawSelection_events, e1, e2]
      simp [hi]
    · rw [e3, if_neg hi, DrawInactiveSelection_events, e1, e2]
      simp [hi]

theorem deadLayer_eta (g : Globals) (i : Nat) (v : Nat) :
    ({ ({ deadLayer g i with view := v } : Layer) with view := (g.layers i).view } : Layer) =
      deadLayer g i := rfl

/-- What one pass of the loop of `DrawStackedLayers` does. -/
theorem stackLayer_spec (plat : Platform) (ext : Ext) (dc : DCId) (i : Nat) (g : Globals) :
    (stackLayer plat ext dc i g).currlayer = g.currlayer ∧
    (stackLayer plat ext dc i g).layers =
      (fun j => if j = i then deadLayer g i else g.layers j) ∧
    (stackLayer plat ext dc i g).events = g.events ++ layerEvents ext g i := by
  obtain ⟨d1, d2, d3, d4, d5⟩ := stackLayerDraw_spec plat ext dc i g
  have hf := stackLayerSelection_frame plat ext dc i (stackLayerDraw plat ext dc i g)
  have hev := stackLayerSelection_events plat ext dc i (stackLayerDraw plat ext dc i g)
  unfold DrawFrame at hf
  have s_cur : (stackLayerSelection plat ext dc i (stackLayerDraw plat ext dc i g)).currlayer = i :=
    ((congrArg Globals.currlayer hf).trans rfl).trans d1
  have s_lay : (stackLayerSelection plat ext dc i (stackLayerDraw plat ext dc i g)).layers =
      (fun j => if j = i then { deadLayer g i with view := (g.layers g.currlayer).view }
        else g.layers j) :=
    ((congrArg Globals.layers hf).trans rfl).trans d2
  have hcur1 : (stackLayerDraw plat ext dc i g).cur =
      { deadLayer g i with view := (g.layers g.currlayer).view } := by
    unfold Globals.cur
    rw [d1, d2]
    simp
  have hcv1 : (stackLayerDraw plat ext dc i g).curview = g.curview := by
    unfold Globals.curview
    rw [hcur1, d3]
    rfl
  rw [stackLayer_eq]
  refine ⟨rfl, ?_, ?_⟩
  · show (Globals.setView _ _ _).layers = _
    unfold Globals.setView
    dsimp only
    rw [s_cur, s_lay]
    have hsv : (({ g with currlayer := i } : Globals).setDeadCell).cur.view =
        (g.layers i).view := by
      simp [Globals.cur, Globals.setDeadCell]
    rw [hsv]
    funext j
    by_cases hj : j = i
    · simp only [if_pos hj]
      exact deadLayer_eta g i (g.layers g.currlayer).view
    · simp only [if_neg hj]
  · refine Eq.trans
      (b := (stackLayerSelection plat ext dc i (stackLayerDraw plat ext dc i g)).events) rfl ?_
    rw [hev, d5, hcur1, hcv1, d1, d4]
    unfold layerEvents
    rw [List.append_assoc]
    rfl

theorem layerEvents_congr (ext : Ext) (g g' : Globals) (i : Nat)
    (h1 : g'.layers i = g.layers i) (h2 : g'.curview = g.curview)
    (h3 : g'.currindex = g.currindex) (h4 : g'.deadrgb = g.deadrgb) :
    layerEvents ext g' i = layerEvents ext g i := by
  unfold layerEvents deadLayer
  rw [h1, h2, h3, h4]

/-- The loop of `DrawStackedLayers`, pass by pass. -/
theorem stackPasses (plat : Platform) (ext : Ext) (dc : DCId) (g : Globals) (n : Nat) :
    StackFrame g (forLoop n (fun k g => stackLayer plat ext dc (k + 1) g) g) ∧
    (forLoop n (fun k g => stackLayer plat ext dc (k + 1) g) g).currlayer = g.currlayer ∧
    (forLoop n (fun k g => stackLayer plat ext dc (k + 1) g) g).layers =
      (fun j => if 1 ≤ j ∧ j ≤ n then deadLayer g j else g.layers j) ∧
    (forLoop n (fun k g => stackLayer plat ext dc (k + 1) g) g).events =
      g.events ++ stackEvents ext g n := by
  apply forLoop_inv (fun k (t : Globals) => StackFrame g t ∧ t.currlayer = g.currlayer ∧
    t.layers = (fun j => if 1 ≤ j ∧ j ≤ k then deadLayer g j else g.layers j) ∧
    t.events = g.events ++ stackEvents ext g k)
  · refine ⟨StackFrame.stack_refl g, rfl, ?_, by simp [stackEvents]⟩
    funext j
    rw [if_neg (by omega)]
  · rintro k t _ ⟨hfr, hcur, hlay, hev⟩
    obtain ⟨e1, e2, e3⟩ := stackLayer_spec plat ext dc (k + 1) t
    have hfr' := hfr
    unfold StackFrame at hfr'
    have hviews : t.views = g.views := (congrArg Globals.views hfr').trans rfl
    have hci : t.currindex = g.currindex := (congrArg Globals.currindex hfr').trans rfl
    have hdead : t.deadrgb = g.deadrgb := (congrArg Globals.deadrgb hfr').trans rfl
    have hk1 : t.layers (k + 1) = g.layers (k + 1) := by
      rw [hlay]
      simp
    have hdl : deadLayer t (k + 1) = deadLayer g (k + 1) := by
      unfold deadLayer
      rw [hk1, hdead]
    have hcv : t.curview = g.curview := by
      unfold Globals.curview Globals.cur
      rw [hviews, hcur, hlay]
      dsimp only
      split_ifs <;> rfl
    refine ⟨hfr.stack_trans (stackLayer_frame plat ext dc (k + 1) t), e1.trans hcur, ?_, ?_⟩
    · rw [e2, hdl, hlay]
      funext j
      beta_reduce
      by_cases hj : j = k + 1
      · subst hj
        simp
      · rw [if_neg hj]
        by_cases hj2 : 1 ≤ j ∧ j ≤ k
        · rw [if_pos hj2, if_pos ⟨hj2.1, by omega⟩]
        · rw [if_neg hj2, if_neg (by omega)]
    · rw [e3, hev, layerEvents_congr ext g t (k + 1) hk1 hcv hci hdead, List.append_assoc]
      rfl

theorem stackEvents_congr (ext : Ext) (g g' : Globals) (h1 : g'.layers = g.layers)
    (h2 : g'.curview = g.curview) (h3 : g'.currindex = g.currindex)
    (h4 : g'.deadrgb = g.deadrgb) (n : Nat) : stackEvents ext g' n = stackEvents ext g n := by
  induction n with
  | zero => rfl
  | succ n ih =>
    simp only [stackEvents]
    rw [ih, layerEvents_congr ext g g' (n + 1) (by rw [h1]) h2 h3 h4]

theorem stackLoop_spec (plat : Platform) (ext : Ext) (g : Globals) (dc : DCId) :
    (stackLoop plat ext g dc).events =
      g.events ++ stackEvents ext g (g.numlayers - 1).toNat ∧
    (stackLoop plat ext g dc).currlayer = g.currlayer ∧
    (stackLoop plat ext g dc).showgridlines = g.showgridlines ∧
    (stackLoop plat ext g dc).layers =
      (fun j => if 1 ≤ j ∧ j ≤ (g.numlayers - 1).toNat then deadLayer g j else g.layers j) := by
  obtain ⟨-, p2, p3, p4⟩ := stackPasses plat ext dc { g with showgridlines := false }
    (g.numlayers - 1).toNat
  unfold stackLoop
  dsimp only
  refine ⟨?_, p2, rfl, p3⟩
  refine Eq.trans p4 ?_
  exact congrArg (fun l => g.events ++ l) (stackEvents_congr ext g
    { g with showgridlines := false } rfl rfl rfl rfl (g.numlayers - 1).toNat)

theorem shl1_pos (n : Int) : 1 ≤ shl1 n := by
  unfold shl1
  exact one_le_pow₀ (by norm_num)

/-- Each loop of `DrawGridLines` reaches its `break` before the iteration
bound `gridFuel` is used up. -/
theorem gridLineLoop_terminates (mag limit boldspacing : Int) (bump bold : Bool) (lo hi : Int)
    (line : Int → DrawCmd) (dc : DCId) (i : Int) (g : Globals) :
    ∃ g', gridLineLoop (shl1 mag) limit boldspacing bump bold lo hi line dc (gridFuel limit)
      (-1) i g = some g' := by
  unfold gridFuel
  exact gridLineLoop_some (shl1 mag) limit boldspacing bump bold lo hi line dc (shl1_pos mag)
    (limit + 1).toNat (-1) i g (by omega)

/-! ## The gap condition of the two pixmap writers -/

/-- C25: for every scale above 2 and every value of `mingridmag` and
`showgridlines`, on a non-Mac build the `drawgap` flag computed by `DrawIcons`
equals the one computed by `DrawStretchedPixmap`, and both equal the condition
"the scale is below `2^mingridmag` or grid lines are off". -/
theorem drawgap_icons_eq_stretch (plat : Platform) (hplat : plat ≠ Platform.mac) (g : Globals)
    (pmscale : Int) (hscale : 2 < pmscale) :
    iconDrawgap g pmscale = stretchDrawgap plat g pmscale ∧
    iconDrawgap g pmscale = specDrawgap g pmscale ∧
    stretchDrawgap plat g pmscale = specDrawgap g pmscale := by
  have h1 : iconDrawgap g pmscale = specDrawgap g pmscale := by
    unfold iconDrawgap specDrawgap shl1
    by_cases hlt : pmscale < 2 ^ g.mingridmag.toNat
    · simp [hlt]
    · have hge : pmscale ≥ 2 ^ g.mingridmag.toNat := by omega
      simp [hlt, hge]
  have h2 : stretchDrawgap plat g pmscale = specDrawgap g pmscale := by
    unfold stretchDrawgap specDrawgap shl1
    rw [if_neg hplat]
    by_cases hlt : pmscale < 2 ^ g.mingridmag.toNat
    · simp [hlt, hscale]
    · have hge : pmscale ≥ 2 ^ g.mingridmag.toNat := by omega
      simp [hlt, hge]
  exact ⟨h1.trans h2.symm, h1, h2⟩

/-- C25, instance: scale 8 with `mingridmag = 2` and grid lines off. -/
theorem drawgap_icons_eq_stretch_witness :
    Platform.other ≠ Platform.mac ∧ (2 : Int) < 8 ∧
    iconDrawgap sampleGlobals 8 = stretchDrawgap Platform.other sampleGlobals 8 ∧
    iconDrawgap sampleGlobals 8 = specDrawgap sampleGlobals 8 ∧
    stretchDrawgap Platform.other sampleGlobals 8 = specDrawgap sampleGlobals 8 :=
  ⟨by decide, by decide,
    drawgap_icons_eq_stretch Platform.other (by decide) sampleGlobals 8 (by decide)⟩

/-! ## PixelsToCells -/

theorem pow2_pos (k : Nat) : (0 : Int) < 2 ^ k := by positivity

theorem ceil_div_spec (p c : Int) (hp : 0 ≤ p) (hc : 0 < c) :
    p ≤ (p + c - 1).tdiv c * c ∧ ∀ n : Int, p ≤ n * c → (p + c - 1).tdiv c ≤ n := by
  have ht : (p + c - 1).tdiv c = (p + c - 1) / c := Int.tdiv_eq_ediv (by omega) (by omega)
  rw [ht]
  have h1 : (p + c - 1) % c + c * ((p + c - 1) / c) = p + c - 1 := Int.emod_add_ediv _ _
  have h2 : 0 ≤ (p + c - 1) % c := Int.emod_nonneg _ (by omega)
  have h3 : (p + c - 1) % c < c := Int.emod_lt_of_pos _ hc
  constructor
  · have : (p + c - 1) / c * c = c * ((p + c - 1) / c) := mul_comm _ _
    omega
  · intro n hn
    by_contra hlt
    have hlt' : n + 1 ≤ (p + c - 1) / c := by omega
    have h4 : c * (n + 1) ≤ c * ((p + c - 1) / c) :=
      mul_le_mul_of_nonneg_left hlt' (le_of_lt hc)
    have h5 : c * (n + 1) = n * c + c := by ring
    omega

/-- C29: for a pixel count `p >= 0`, `PixelsToCells` with `pastemag >= 0` is
the least number `n` of cells with `n * 2^pastemag >= p`, that is the ceiling
of `p / 2^pastemag`; with `pastemag < 0` it is `p * 2^(-pastemag)`; and it is
monotone non-decreasing in `p`. -/
theorem PixelsToCells_spec (g : Globals) (p : Int) (hp : 0 ≤ p) :
    (0 ≤ g.pastemag →
      p ≤ PixelsToCells g p * 2 ^ g.pastemag.toNat ∧
      (∀ n : Int, p ≤ n * 2 ^ g.pastemag.toNat → PixelsToCells g p ≤ n) ∧
      PixelsToCells g p = Int.ceil ((p : ℚ) / 2 ^ g.pastemag.toNat)) ∧
    (g.pastemag < 0 → PixelsToCells g p = p * 2 ^ (-g.pastemag).toNat) ∧
    (∀ q : Int, p ≤ q → PixelsToCells g p ≤ PixelsToCells g q) := by
  refine ⟨?_, ?_, ?_⟩
  · intro hm
    have hdef : PixelsToCells g p =
        (p + 2 ^ g.pastemag.toNat - 1).tdiv (2 ^ g.pastemag.toNat) := by
      unfold PixelsToCells shl1
      rw [if_pos hm]
    obtain ⟨c1, c2⟩ := ceil_div_spec p (2 ^ g.pastemag.toNat) hp (pow2_pos _)
    rw [hdef]
    refine ⟨c1, c2, ?_⟩
    have hcq : (0 : ℚ) < 2 ^ g.pastemag.toNat := by positivity
    apply le_antisymm
    · apply c2
      have h := Int.le_ceil ((p : ℚ) / 2 ^ g.pastemag.toNat)
      rw [div_le_iff₀ hcq] at h
      exact_mod_cast h
    · rw [Int.ceil_le, div_le_iff₀ hcq]
      exact_mod_cast c1
  · intro hm
    unfold PixelsToCells
    rw [if_neg (by omega)]
  · intro q hq
    unfold PixelsToCells shl1
    by_cases hm : g.pastemag ≥ 0
    · rw [if_pos hm, if_pos hm]
      dsimp only
      obtain ⟨c1, _⟩ := ceil_div_spec q (2 ^ g.pastemag.toNat) (by omega) (pow2_pos _)
      exact (ceil_div_spec p (2 ^ g.pastemag.toNat) hp (pow2_pos _)).2 _ (by omega)
    · rw [if_neg hm, if_neg hm]
      exact mul_le_mul_of_nonneg_right hq (le_of_lt (pow2_pos _))

/-- C29, instance: 10 pixels at scale 1:4 need 3 cells. -/
theorem PixelsToCells_spec_witness :
    (0 : Int) ≤ 10 ∧ (0 : Int) ≤ mag2Globals.pastemag ∧ PixelsToCells mag2Globals 10 = 3 ∧
    (10 : Int) ≤ PixelsToCells mag2Globals 10 * 2 ^ mag2Globals.pastemag.toNat ∧
    (∀ n : Int, 10 ≤ n * 2 ^ mag2Globals.pastemag.toNat → PixelsToCells mag2Globals 10 ≤ n) :=
  ⟨by decide, by decide, by decide,
    ((PixelsToCells_spec mag2Globals 10 (by decide)).1 (by decide)).1,
    ((PixelsToCells_spec mag2Globals 10 (by decide)).1 (by decide)).2.1⟩

/-! ## Tile frames: geometry -/

/-- C27: for a tile rectangle of non-negative width and height and a border
width `wd > 0`, `DrawTileFrame` adds four `FillRect` calls with the given brush
to the DC, and the pixels they cover are exactly those of the rectangle
inflated by `wd` on every side that are not in the tile rectangle itself; so
no pixel of the tile rectangle is painted.  `DrawTileBorders` leaves the
layers, and with them every stored tile rectangle, as they are. -/
theorem DrawTileFrame_geometry (g : Globals) (dc : DCId) (trect : Rect) (brush : Color)
    (wd : Int) (hw : 0 ≤ trect.width) (hh : 0 ≤ trect.height) (hwd : 0 < wd) :
    (∃ new : List DrawCmd,
      (DrawTileFrame g dc trect brush wd).dc dc = new ++ g.dc dc ∧
      new.length = 4 ∧
      (∀ c ∈ new, ∃ r, c = DrawCmd.fillRect r brush) ∧
      (∀ X Y, (∃ r, DrawCmd.fillRect r brush ∈ new ∧ r.Contains X Y) ↔
        ((trect.Inflate wd).Contains X Y ∧ ¬ trect.Contains X Y)) ∧
      (∀ X Y, trect.Contains X Y → ¬ ∃ r, DrawCmd.fillRect r brush ∈ new ∧ r.Contains X Y)) ∧
    (DrawTileBorders g dc).layers = g.layers ∧
    (∀ i, ((DrawTileBorders g dc).layers i).tilerect = (g.layers i).tilerect) := by
  have hgeo : ∀ X Y, (∃ r, DrawCmd.fillRect r brush ∈ tileFrameCmds trect brush wd ∧
      r.Contains X Y) ↔ ((trect.Inflate wd).Contains X Y ∧ ¬ trect.Contains X Y) := by
    intro X Y
    unfold tileFrameCmds Rect.Inflate
    constructor
    · rintro ⟨r, hmem, hin⟩
      simp only [List.mem_cons, List.mem_singleton, DrawCmd.fillRect.injEq, and_true,
        List.not_mem_nil, or_false] at hmem
      rcases hmem with rfl | rfl | rfl | rfl <;>
        simp only [Rect.Contains] at hin ⊢ <;> omega
    · rintro ⟨hin, hout⟩
      simp only [Rect.Contains] at hin hout
      by_cases h1 : Y < trect.y
      · exact ⟨⟨trect.x - wd, trect.y - wd, trect.width + 2 * wd, wd⟩, by simp,
          by simp only [Rect.Contains]; omega⟩
      by_cases h2 : trect.y + trect.height ≤ Y
      · exact ⟨⟨trect.x - wd, trect.y - wd + (trect.height + 2 * wd - wd),
          trect.width + 2 * wd, wd⟩, by simp, by simp only [Rect.Contains]; omega⟩
      by_cases h3 : X < trect.x
      · exact ⟨⟨trect.x - wd, trect.y - wd, wd, trect.height + 2 * wd⟩, by simp,
          by simp only [Rect.Contains]; omega⟩
      · exact ⟨⟨trect.x - wd + (trect.width + 2 * wd - wd), trect.y - wd, wd,
          trect.height + 2 * wd⟩, by simp, by simp only [Rect.Contains]; omega⟩
  have hf := DrawTileBorders_frame g dc
  unfold DrawFrame at hf
  have hlay : (DrawTileBorders g dc).layers = g.layers := (congrArg Globals.layers hf).trans rfl
  refine ⟨⟨tileFrameCmds trect brush wd, ?_, rfl, ?_, hgeo, ?_⟩, hlay, fun i => by rw [hlay]⟩
  · rw [DrawTileFrame_eq]
    simp
  · intro c hc
    unfold tileFrameCmds at hc
    simp only [List.mem_cons, List.mem_singleton, List.not_mem_nil, or_false] at hc
    rcases hc with rfl | rfl | rfl | rfl <;> exact ⟨_, rfl⟩
  · intro X Y hin hex
    exact ((hgeo X Y).mp hex).2 hin

/-- C27, instance: a 34 x 94 tile at (43, 3) with a border of 3 pixels. -/
theorem DrawTileFrame_geometry_witness :
    ((0 : Int) ≤ 34 ∧ (0 : Int) ≤ 94 ∧ (0 : Int) < 3) ∧
    ∀ i, ((DrawTileBorders tileGlobals DCId.viewdc).layers i).tilerect =
      (tileGlobals.layers i).tilerect :=
  ⟨by decide, (DrawTileFrame_geometry tileGlobals DCId.viewdc ⟨43, 3, 34, 94⟩ ⟨0, 255, 0⟩ 3
    (by decide) (by decide) (by decide)).2.2⟩

/-! ## Allocation failures -/

/-- C22, counterexample: when the layer bitmap cannot be allocated,
`DrawStackedLayers` calls `Fatal` (not `Warning`) and returns
without compositing any of the layers 1 and 2. -/
theorem DrawStackedLayers_allocation_fatal :
    (stackedGlobals.numlayers = 3 ∧
      failExt.isEmpty (stackedGlobals.layers 2).algo = false) ∧
    (DrawStackedLayers Platform.other failExt stackedGlobals DCId.viewdc).fatal = true ∧
    (DrawStackedLayers Platform.other failExt stackedGlobals DCId.viewdc).events.length = 0 ∧
    ((DrawStackedLayers Platform.other failExt stackedGlobals DCId.viewdc).dc
      DCId.viewdc).length = 0 := by
  decide

/-- C22 as the code has it: without a selection tint `DrawSelection` inverts
exactly the given rectangle; without a paste bitmap `DrawPasteImage` draws
the border rectangle (and its label) only; a failed allocation leaves the
selection tint or the paste bitmap missing and renders nothing; but a failed
allocation of the layer bitmap makes `DrawStackedLayers` call `Fatal` and
return before any layer is composited. -/
theorem allocation_failure_paths (plat : Platform) (ext : Ext) (g : Globals) (dc : DCId)
    (r : Rect) :
    (g.selbitmap = none →
      (DrawSelection plat g dc r).dc dc =
        DrawCmd.invert r.x r.y r.width r.height :: g.dc dc) ∧
    (g.pastebitmap = none →
      DrawPasteImage plat ext g dc = drawPasteBorder ext g dc ∧
      (DrawPasteImage plat ext g dc).dc dc =
        (if (pasteBorderRect g).y > 0 then
          [DrawCmd.drawText ((pasteBorderRect g).x + 2)
            ((pasteBorderRect g).y - 4 - ext.textAscent),
           DrawCmd.drawRectangle (pasteBorderRect g)]
         else [DrawCmd.drawRectangle (pasteBorderRect g)]) ++ g.dc dc) ∧
    (∀ viewwd viewht : Int, (viewwd ≠ g.selwd ∨ viewht ≠ g.selht) →
      ext.newBitmap viewwd viewht = none →
      (CheckSelectionSize plat ext g viewwd viewht).selbitmap = none ∧
      (CheckSelectionSize plat ext g viewwd viewht).graybitmap = none ∧
      (CheckSelectionSize plat ext g viewwd viewht).fatal = g.fatal) ∧
    (pasteKeysDiffer g →
      ¬ (g.pview.pasterect.width ≤ 2 ∨ g.pview.pasterect.height ≤ 2) →
      ext.newBitmap (pasteImageLayout (updatePasteKeys g)).1
        (pasteImageLayout (updatePasteKeys g)).2.1 = none →
      (CheckPasteImage plat ext g).pastebitmap = none ∧
      (CheckPasteImage plat ext g).dc = g.dc ∧
      (CheckPasteImage plat ext g).fatal = g.fatal) ∧
    ((g.layerwd ≠ g.curview.width ∨ g.layerht ≠ g.curview.height) →
      ext.newBitmap g.curview.width g.curview.height = none →
      DrawStackedLayers plat ext g dc =
        { g with layerwd := g.curview.width, layerht := g.curview.height,
                 layerbitmap := none, fatal := true } ∧
      (DrawStackedLayers plat ext g dc).fatal = true ∧
      (DrawStackedLayers plat ext g dc).events = g.events ∧
      (DrawStackedLayers plat ext g dc).dc = g.dc) := by
  refine ⟨?_, ?_, ?_, ?_, ?_⟩
  · intro h
    unfold DrawSelection
    dsimp only
    rw [h]
    simp [Globals.emitOn]
  · intro h
    have h1 : DrawPasteImage plat ext g dc = drawPasteBorder ext g dc := by
      unfold DrawPasteImage
      rw [h]
    refine ⟨h1, ?_⟩
    rw [h1, drawPasteBorder_eq]
    by_cases hy : (pasteBorderRect g).y > 0
    · rw [if_pos hy, if_pos hy]
      simp [Globals.emitOn]
    · rw [if_neg hy, if_neg hy]
      simp [Globals.emitOn]
  · intro viewwd viewht hsz hnone
    unfold CheckSelectionSize
    rw [if_pos hsz]
    dsimp only
    rw [hnone]
    exact ⟨rfl, rfl, rfl⟩
  · intro hdiff hdeg hnone
    have hdeg' : ¬ ((updatePasteKeys g).prectwd ≤ 2 ∨ (updatePasteKeys g).prectht ≤ 2) := hdeg
    have halloc : (allocPasteBitmap ext (updatePasteKeys g)).pastebitmap = none := by
      unfold allocPasteBitmap
      exact hnone
    unfold CheckPasteImage
    rw [if_pos hdiff]
    dsimp only
    rw [if_neg hdeg']
    split
    · rename_i bm hbm
      rw [halloc] at hbm
      exact absurd hbm (by simp)
    · exact ⟨halloc, rfl, rfl⟩
  · intro hsz hnone
    have heq : DrawStackedLayers plat ext g dc =
        { g with layerwd := g.curview.width, layerht := g.curview.height,
                 layerbitmap := none, fatal := true } := by
      unfold DrawStackedLayers
      rw [if_pos hsz]
      dsimp only
      rw [hnone]
      rfl
    refine ⟨heq, ?_, ?_, ?_⟩
    · exact (congrArg Globals.fatal heq).trans rfl
    · exact (congrArg Globals.events heq).trans rfl
    · exact (congrArg Globals.dc heq).trans rfl

/-- C22, instance: no selection tint in the sample state, and the failing
allocator for three stacked layers. -/
theorem allocation_failure_paths_witness :
    (sampleGlobals.selbitmap = none ∧
      (DrawSelection Platform.other sampleGlobals DCId.viewdc ⟨10, 10, 50, 50⟩).dc DCId.viewdc =
        DrawCmd.invert 10 10 50 50 :: sampleGlobals.dc DCId.viewdc) ∧
    ((stackedGlobals.layerwd ≠ stackedGlobals.curview.width ∨
        stackedGlobals.layerht ≠ stackedGlobals.curview.height) ∧
      failExt.newBitmap stackedGlobals.curview.width stackedGlobals.curview.height = none ∧
      (DrawStackedLayers Platform.other failExt stackedGlobals DCId.viewdc).fatal = true) :=
  ⟨⟨rfl, (allocation_failure_paths Platform.other sampleExt sampleGlobals DCId.viewdc
      ⟨10, 10, 50, 50⟩).1 rfl⟩,
    ⟨Or.inl (by decide), rfl,
      ((allocation_failure_paths Platform.other failExt stackedGlobals DCId.viewdc
        ⟨10, 10, 50, 50⟩).2.2.2.2 (Or.inl (by decide)) rfl).2.1⟩⟩

/-! ## Paste image: corner anchors and cell parity -/

/-- Rounding a size up so that size plus gap is a whole number of cells. -/
theorem align_gap (p c gap : Int) (hc : 0 < c) (hp : 0 ≤ p + gap) :
    (p ≤ (if (p + gap).tmod c > 0 then p + (c - (p + gap).tmod c) else p) ∧
      (if (p + gap).tmod c > 0 then p + (c - (p + gap).tmod c) else p) < p + c ∧
      ((if (p + gap).tmod c > 0 then p + (c - (p + gap).tmod c) else p) + gap) % c = 0) ∧
    (p ≤ (if (p + gap).tmod c ≠ 0 then p + (c - (p + gap).tmod c) else p) ∧
      (if (p + gap).tmod c ≠ 0 then p + (c - (p + gap).tmod c) else p) < p + c ∧
      ((if (p + gap).tmod c ≠ 0 then p + (c - (p + gap).tmod c) else p) + gap) % c = 0) := by
  have ht : (p + gap).tmod c = (p + gap) % c := Int.tmod_eq_emod hp (by omega)
  have h0 : 0 ≤ (p + gap) % c := Int.emod_nonneg _ (by omega)
  have h1 : (p + gap) % c < c := Int.emod_lt_of_pos _ hc
  have hq : (p + gap) % c + c * ((p + gap) / c) = p + gap := Int.emod_add_ediv _ _
  have hmul : (p + (c - (p + gap) % c) + gap) % c = 0 := by
    have : p + (c - (p + gap) % c) + gap = c * ((p + gap) / c + 1) := by
      have := hq
      ring_nf
      ring_nf at this
      omega
    rw [this]
    exact Int.mul_emod_right _ _
  rw [ht]
  by_cases hz : (p + gap) % c = 0
  · rw [if_neg (by omega), if_neg (by omega)]
    exact ⟨⟨le_rfl, by omega, hz⟩, ⟨le_rfl, by omega, hz⟩⟩
  · rw [if_pos (by omega), if_pos hz]
    exact ⟨⟨by omega, by omega, hmul⟩, ⟨by omega, by omega, hmul⟩⟩

/-- Size of the paste image for a corner anchor. -/
theorem corner_layout_size (g : Globals) (hloc : g.plocation ≠ PasteLocation.Middle)
    (hvw : 0 ≤ g.curview.width) (hvh : 0 ≤ g.curview.height)
    (hw : 2 < g.prectwd) (hh : 2 < g.prectht) :
    (min g.prectwd g.curview.width ≤ (pasteImageLayout g).1 ∧
      (pasteImageLayout g).1 <
        min g.prectwd g.curview.width + (if 0 < g.pastemag then 2 ^ g.pastemag.toNat else 1)) ∧
    (min g.prectht g.curview.height ≤ (pasteImageLayout g).2.1 ∧
      (pasteImageLayout g).2.1 <
        min g.prectht g.curview.height + (if 0 < g.pastemag then 2 ^ g.pastemag.toNat else 1)) ∧
    ((g.prectwd > g.curview.width ∨ g.prectht > g.curview.height) → 0 < g.pastemag →
      ((pasteImageLayout g).1 + (if g.pastemag = 1 then 0 else 1)) % 2 ^ g.pastemag.toNat = 0 ∧
      ((pasteImageLayout g).2.1 + (if g.pastemag = 1 then 0 else 1)) %
        2 ^ g.pastemag.toNat = 0) := by
  have hc : (0 : Int) < 2 ^ g.pastemag.toNat := pow2_pos _
  unfold pasteImageLayout
  dsimp only
  by_cases hex : g.prectwd > g.curview.width ∨ g.prectht > g.curview.height
  · rw [if_pos hex, if_neg hloc]
    dsimp only
    have hsh : shl1 g.pastemag = 2 ^ g.pastemag.toNat := rfl
    rw [hsh]
    have hpw : 0 ≤ (if g.prectwd > g.curview.width then g.curview.width else g.prectwd) := by
      split_ifs <;> omega
    have hph : 0 ≤ (if g.prectht > g.curview.height then g.curview.height else g.prectht) := by
      split_ifs <;> omega
    have hminw : (if g.prectwd > g.curview.width then g.curview.width else g.prectwd) =
        min g.prectwd g.curview.width := by
      split_ifs with h
      · rw [min_eq_right (by omega)]
      · rw [min_eq_left (by omega)]
    have hminh : (if g.prectht > g.curview.height then g.curview.height else g.prectht) =
        min g.prectht g.curview.height := by
      split_ifs with h
      · rw [min_eq_right (by omega)]
      · rw [min_eq_left (by omega)]
    rw [hminw, hminh] at *
    have hgap : (0 : Int) ≤ (if g.pastemag = 1 then 0 else 1) := by split_ifs <;> omega
    have aw := (align_gap (min g.prectwd g.curview.width) (2 ^ g.pastemag.toNat)
      (if g.pastemag = 1 then 0 else 1) hc (by omega)).1
    have ah := (align_gap (min g.prectht g.curview.height) (2 ^ g.pastemag.toNat)
      (if g.pastemag = 1 then 0 else 1) hc (by omega)).2
    by_cases hmag : g.pastemag > 0
    · have hmag' : 0 < g.pastemag := hmag
      have e1 : ∀ (P : Prop) [Decidable P] (a b : Int),
          (if g.pastemag > 0 ∧ P then a else b) = (if P then a else b) := by
        intro P _ a b
        by_cases hP : P
        · rw [if_pos ⟨hmag, hP⟩, if_pos hP]
        · rw [if_neg (fun h => hP h.2), if_neg hP]
      rw [e1, e1, if_pos hmag']
      cases g.plocation <;>
        exact ⟨⟨aw.1, aw.2.1⟩, ⟨ah.1, ah.2.1⟩, fun _ _ => ⟨aw.2.2, ah.2.2⟩⟩
    · have hmag' : ¬ (0 < g.pastemag) := hmag
      have e1 : ∀ (P : Prop) [Decidable P] (a b : Int),
          (if g.pastemag > 0 ∧ P then a else b) = b := by
        intro P _ a b
        rw [if_neg (fun h => hmag h.1)]
      rw [e1, e1, if_neg hmag']
      cases g.plocation <;>
        exact ⟨⟨le_rfl, by omega⟩, ⟨le_rfl, by omega⟩, fun _ h => absurd h hmag'⟩
  · rw [if_neg hex]
    dsimp only
    rw [min_eq_left (by omega), min_eq_left (by omega)]
    have hpos : (0 : Int) < (if 0 < g.pastemag then 2 ^ g.pastemag.toNat else 1) := by
      split_ifs <;> omega
    exact ⟨⟨le_rfl, by omega⟩, ⟨le_rfl, by omega⟩, fun h => absurd h hex⟩

/-- C23: for a corner anchor, a viewport of non-negative size and a paste rect
larger than 2 x 2, the image width set by a regenerating `CheckPasteImage`
is at least `min(prectwd, vw)` and less than that plus `c`, where `c` is
`2^mag` for `mag > 0` and 1 otherwise (the same for the height); and when the
paste rect exceeds the viewport in a dimension and `mag > 0`, `pimagewd + gap`
and `pimageht + gap` are multiples of `2^mag`, with `gap = 0` at `mag = 1` and
`gap = 1` at `mag > 1`. -/
theorem CheckPasteImage_corner_size (plat : Platform) (ext : Ext) (g : Globals)
    (hdiff : pasteKeysDiffer g) (hloc : g.plocation ≠ PasteLocation.Middle)
    (hvw : 0 ≤ g.curview.width) (hvh : 0 ≤ g.curview.height)
    (hw : 2 < g.pview.pasterect.width) (hh : 2 < g.pview.pasterect.height) :
    (min g.pview.pasterect.width g.curview.width ≤ (CheckPasteImage plat ext g).pimagewd ∧
      (CheckPasteImage plat ext g).pimagewd <
        min g.pview.pasterect.width g.curview.width +
          (if 0 < g.curview.mag then 2 ^ g.curview.mag.toNat else 1)) ∧
    (min g.pview.pasterect.height g.curview.height ≤ (CheckPasteImage plat ext g).pimageht ∧
      (CheckPasteImage plat ext g).pimageht <
        min g.pview.pasterect.height g.curview.height +
          (if 0 < g.curview.mag then 2 ^ g.curview.mag.toNat else 1)) ∧
    ((g.pview.pasterect.width > g.curview.width ∨
        g.pview.pasterect.height > g.curview.height) → 0 < g.curview.mag →
      ((CheckPasteImage plat ext g).pimagewd + (if g.curview.mag = 1 then 0 else 1)) %
        2 ^ g.curview.mag.toNat = 0 ∧
      ((CheckPasteImage plat ext g).pimageht + (if g.curview.mag = 1 then 0 else 1)) %
        2 ^ g.curview.mag.toNat = 0) := by
  have hdeg : ¬ (g.pview.pasterect.width ≤ 2 ∨ g.pview.pasterect.height ≤ 2) := by omega
  obtain ⟨s1, s2⟩ := (CheckPasteImage_size plat ext g hdiff).2 hdeg
  rw [s1, s2]
  exact corner_layout_size (updatePasteKeys g) hloc hvw hvh hw hh

/-- C23, instance: a 300 x 40 paste rect over a 100 x 100 viewport at scale
1:4 with the TopRight anchor gives a 103 x 43 image. -/
theorem CheckPasteImage_corner_size_witness :
    (pasteKeysDiffer cornerPasteGlobals ∧
      cornerPasteGlobals.plocation ≠ PasteLocation.Middle) ∧
    ((CheckPasteImage Platform.other sampleExt cornerPasteGlobals).pimagewd = 103 ∧
      (CheckPasteImage Platform.other sampleExt cornerPasteGlobals).pimageht = 43) ∧
    (min cornerPasteGlobals.pview.pasterect.width cornerPasteGlobals.curview.width ≤
        (CheckPasteImage Platform.other sampleExt cornerPasteGlobals).pimagewd ∧
      (CheckPasteImage Platform.other sampleExt cornerPasteGlobals).pimagewd <
        min cornerPasteGlobals.pview.pasterect.width cornerPasteGlobals.curview.width +
          (if 0 < cornerPasteGlobals.curview.mag then 2 ^ cornerPasteGlobals.curview.mag.toNat
           else 1)) :=
  ⟨⟨by decide, by decide⟩, ⟨by decide, by decide⟩,
    (CheckPasteImage_corner_size Platform.other sampleExt cornerPasteGlobals (by decide)
      (by decide) (by decide) (by decide) (by decide) (by decide)).1⟩

/-- Making a difference an even number of cells. -/
theorem even_cells (P q c : Int) (hc : 0 < c)
    (h : P ≥ (if P > q then (if ((P - q).tdiv c) % 2 ≠ 0 then q + c else q) else q)) :
    ((P - (if P > q then (if ((P - q).tdiv c) % 2 ≠ 0 then q + c else q) else q)) / c) % 2 = 0 := by
  by_cases hgt : P > q
  · rw [if_pos hgt] at h ⊢
    have ht : (P - q).tdiv c = (P - q) / c := Int.tdiv_eq_ediv (by omega) (by omega)
    rw [ht] at h ⊢
    by_cases hodd : ((P - q) / c) % 2 ≠ 0
    · rw [if_pos hodd] at h ⊢
      have e : P - (q + c) = (P - q) + (-1) * c := by ring
      rw [e, Int.add_mul_ediv_right _ _ (by omega)]
      omega
    · rw [if_neg hodd]
      omega
  · rw [if_neg hgt] at h ⊢
    have : P - q = 0 := by omega
    rw [this]
    simp

theorem even_pixels (P q : Int)
    (h : P ≥ (if P > q then (if (P - q) % 2 ≠ 0 then q + 1 else q) else q)) :
    (P - (if P > q then (if (P - q) % 2 ≠ 0 then q + 1 else q) else q)) % 2 = 0 := by
  split_ifs at h ⊢ <;> omega

/-- Size of the paste image in the Middle case: the differences from the paste
rect are an even number of cells (of pixels for `pastemag <= 0`). -/
theorem middle_layout_cells (g : Globals) (hloc : g.plocation = PasteLocation.Middle) :
    (0 < g.pastemag → g.prectwd ≥ (pasteImageLayout g).1 →
      ((g.prectwd - (pasteImageLayout g).1) / 2 ^ g.pastemag.toNat) % 2 = 0) ∧
    (g.pastemag ≤ 0 → g.prectwd ≥ (pasteImageLayout g).1 →
      (g.prectwd - (pasteImageLayout g).1) % 2 = 0) ∧
    (0 < g.pastemag → g.prectht ≥ (pasteImageLayout g).2.1 →
      ((g.prectht - (pasteImageLayout g).2.1) / 2 ^ g.pastemag.toNat) % 2 = 0) ∧
    (g.pastemag ≤ 0 → g.prectht ≥ (pasteImageLayout g).2.1 →
      (g.prectht - (pasteImageLayout g).2.1) % 2 = 0) := by
  have hc : (0 : Int) < 2 ^ g.pastemag.toNat := pow2_pos _
  unfold pasteImageLayout
  dsimp only
  by_cases hex : g.prectwd > g.curview.width ∨ g.prectht > g.curview.height
  · rw [if_pos hex, if_pos hloc]
    dsimp only
    have hsh : shl1 g.pastemag = 2 ^ g.pastemag.toNat := rfl
    rw [hsh]
    generalize (if g.pastemag > 0 ∧ ((if g.prectwd > 2 * g.curview.width then
        2 * g.curview.width else g.prectwd) + 1).tmod (2 ^ g.pastemag.toNat) > 0 then _
        else _ : Int) = qw
    generalize (if g.pastemag > 0 ∧ ((if g.prectht > 2 * g.curview.height then
        2 * g.curview.height else g.prectht) + 1).tmod (2 ^ g.pastemag.toNat) ≠ 0 then _
        else _ : Int) = qh
    refine ⟨?_, ?_, ?_, ?_⟩
    · intro hm
      rw [if_pos hm]
      exact even_cells g.prectwd qw _ hc
    · intro hm
      rw [if_neg (show ¬ g.pastemag > 0 by omega)]
      exact even_pixels g.prectwd qw
    · intro hm
      rw [if_pos hm]
      exact even_cells g.prectht qh _ hc
    · intro hm
      rw [if_neg (show ¬ g.pastemag > 0 by omega)]
      exact even_pixels g.prectht qh
  · rw [if_neg hex]
    simp

/-- C24, counterexample: a 300 x 2 paste rect exceeds a 100 x 100 viewport;
with the Middle anchor at magnification 0 `CheckPasteImage` takes the branch
for rects at most 2 pixels wide or high and sets the image size to 1 x 1, so
`prectwd - pimagewd = 299` is odd. -/
theorem middle_parity_fails_for_flat_rect :
    (flatPasteGlobals.plocation = PasteLocation.Middle ∧
      flatPasteGlobals.pview.pasterect.width > flatPasteGlobals.curview.width ∧
      flatPasteGlobals.curview.mag ≤ 0) ∧
    (CheckPasteImage Platform.other sampleExt flatPasteGlobals).prectwd ≥
      (CheckPasteImage Platform.other sampleExt flatPasteGlobals).pimagewd ∧
    ((CheckPasteImage Platform.other sampleExt flatPasteGlobals).prectwd -
      (CheckPasteImage Platform.other sampleExt flatPasteGlobals).pimagewd) % 2 ≠ 0 ∧
    ((CheckPasteImage Platform.other sampleExt flatPasteGlobals).prectwd = 300 ∧
      (CheckPasteImage Platform.other sampleExt flatPasteGlobals).pimagewd = 1) := by
  decide

/-- C24 for paste rects larger than 2 x 2: after a regenerating
`CheckPasteImage` with the Middle anchor, if the magnification is above 0 and
`prectwd >= pimagewd` then `(prectwd - pimagewd) div 2^mag` is even, and if
the magnification is at most 0 and `prectwd >= pimagewd` then
`prectwd - pimagewd` is even; the same holds for the heights. -/
theorem CheckPasteImage_middle_cell_parity (plat : Platform) (ext : Ext) (g : Globals)
    (hdiff : pasteKeysDiffer g) (hloc : g.plocation = PasteLocation.Middle)
    (hw : 2 < g.pview.pasterect.width) (hh : 2 < g.pview.pasterect.height) :
    (0 < g.curview.mag →
      (CheckPasteImage plat ext g).prectwd ≥ (CheckPasteImage plat ext g).pimagewd →
      (((CheckPasteImage plat ext g).prectwd - (CheckPasteImage plat ext g).pimagewd) /
        2 ^ g.curview.mag.toNat) % 2 = 0) ∧
    (g.curview.mag ≤ 0 →
      (CheckPasteImage plat ext g).prectwd ≥ (CheckPasteImage plat ext g).pimagewd →
      ((CheckPasteImage plat ext g).prectwd - (CheckPasteImage plat ext g).pimagewd) % 2 = 0) ∧
    (0 < g.curview.mag →
      (CheckPasteImage plat ext g).prectht ≥ (CheckPasteImage plat ext g).pimageht →
      (((CheckPasteImage plat ext g).prectht - (CheckPasteImage plat ext g).pimageht) /
        2 ^ g.curview.mag.toNat) % 2 = 0) ∧
    (g.curview.mag ≤ 0 →
      (CheckPasteImage plat ext g).prectht ≥ (CheckPasteImage plat ext g).pimageht →
      ((CheckPasteImage plat ext g).prectht - (CheckPasteImage plat ext g).pimageht) % 2 = 0) := by
  have hdeg : ¬ (g.pview.pasterect.width ≤ 2 ∨ g.pview.pasterect.height ≤ 2) := by omega
  obtain ⟨s1, s2⟩ := (CheckPasteImage_size plat ext g hdiff).2 hdeg
  obtain ⟨e1, e2, _⟩ := CheckPasteImage_updates plat ext g hdiff
  rw [s1, s2, e1, e2]
  exact middle_layout_cells (updatePasteKeys g) hloc

/-- C24, instance: a 200 x 200 paste rect over a 50 x 50 viewport at scale
1:4. -/
theorem CheckPasteImage_middle_cell_parity_witness :
    (pasteKeysDiffer parityGlobals ∧ parityGlobals.plocation = PasteLocation.Middle ∧
      (0 : Int) < parityGlobals.curview.mag) ∧
    ((CheckPasteImage Platform.other sampleExt parityGlobals).prectwd ≥
        (CheckPasteImage Platform.other sampleExt parityGlobals).pimagewd →
      (((CheckPasteImage Platform.other sampleExt parityGlobals).prectwd -
        (CheckPasteImage Platform.other sampleExt parityGlobals).pimagewd) /
          2 ^ parityGlobals.curview.mag.toNat) % 2 = 0) :=
  ⟨⟨by decide, rfl, by decide⟩,
    (CheckPasteImage_middle_cell_parity Platform.other sampleExt parityGlobals (by decide) rfl
      (by decide) (by decide)).1 (by decide)⟩

/-- The cell box for a corner anchor. -/
theorem corner_layout_cellbox (g : Globals) (hloc : g.plocation ≠ PasteLocation.Middle)
    (hex : g.prectwd > g.curview.width ∨ g.prectht > g.curview.height) :
    ((pasteImageLayout g).2.2.width = PixelsToCells g (pasteImageLayout g).1 ∧
      (pasteImageLayout g).2.2.height = PixelsToCells g (pasteImageLayout g).2.1) ∧
    (g.plocation = PasteLocation.TopLeft →
      (pasteImageLayout g).2.2.x = g.pastebbox.x ∧
      (pasteImageLayout g).2.2.y = g.pastebbox.y) ∧
    (g.plocation = PasteLocation.TopRight →
      (pasteImageLayout g).2.2.x + (pasteImageLayout g).2.2.width =
        g.pastebbox.x + g.pastebbox.width ∧
      (pasteImageLayout g).2.2.y = g.pastebbox.y) ∧
    (g.plocation = PasteLocation.BottomRight →
      (pasteImageLayout g).2.2.x + (pasteImageLayout g).2.2.width =
        g.pastebbox.x + g.pastebbox.width ∧
      (pasteImageLayout g).2.2.y + (pasteImageLayout g).2.2.height =
        g.pastebbox.y + g.pastebbox.height) ∧
    (g.plocation = PasteLocation.BottomLeft →
      (pasteImageLayout g).2.2.x = g.pastebbox.x ∧
      (pasteImageLayout g).2.2.y + (pasteImageLayout g).2.2.height =
        g.pastebbox.y + g.pastebbox.height) := by
  unfold pasteImageLayout
  dsimp only
  rw [if_pos hex, if_neg hloc]
  cases hp : g.plocation with
  | Middle => exact absurd hp hloc
  | TopLeft =>
    refine ⟨⟨rfl, rfl⟩, fun _ => ⟨rfl, rfl⟩, ?_, ?_, ?_⟩ <;> intro h <;> cases h
  | TopRight =>
    refine ⟨⟨rfl, rfl⟩, ?_, fun _ => ⟨by dsimp only; omega, rfl⟩, ?_, ?_⟩ <;>
      intro h <;> cases h
  | BottomRight =>
    refine ⟨⟨rfl, rfl⟩, ?_, ?_, fun _ => ⟨by dsimp only; omega, by dsimp only; omega⟩, ?_⟩ <;>
      intro h <;> cases h
  | BottomLeft =>
    refine ⟨⟨rfl, rfl⟩, ?_, ?_, ?_, fun _ => ⟨rfl, by dsimp only; omega⟩⟩ <;>
      intro h <;> cases h

theorem PixelsToCells_congr (g g' : Globals) (h : g'.pastemag = g.pastemag) (p : Int) :
    PixelsToCells g' p = PixelsToCells g p := by
  unfold PixelsToCells
  rw [h]

/-- C28: when a regenerating `CheckPasteImage` finds a paste rect (larger than
2 x 2) that exceeds the viewport and the anchor is a corner, the cell box it
draws the pattern from (the box handed to the rendering of the new bitmap)
is `PixelsToCells(pimagewd)` cells wide and `PixelsToCells(pimageht)` cells
high and shares the anchored corner with `pastebbox`: TopLeft keeps the left
and top edges, TopRight the right and top edges, BottomRight the right and
bottom edges, BottomLeft the left and bottom edges. -/
theorem CheckPasteImage_corner_cellbox (plat : Platform) (ext : Ext) (g : Globals)
    (hdiff : pasteKeysDiffer g) (hloc : g.plocation ≠ PasteLocation.Middle)
    (hw : 2 < g.pview.pasterect.width) (hh : 2 < g.pview.pasterect.height)
    (hex : g.pview.pasterect.width > g.curview.width ∨
      g.pview.pasterect.height > g.curview.height) :
    (∀ bm, ext.newBitmap (pasteImageLayout (updatePasteKeys g)).1
        (pasteImageLayout (updatePasteKeys g)).2.1 = some bm →
      CheckPasteImage plat ext g =
        renderPasteBitmap plat ext (allocPasteBitmap ext (updatePasteKeys g))
          (pasteImageLayout (updatePasteKeys g)).2.2 bm) ∧
    ((pasteImageLayout (updatePasteKeys g)).2.2.width =
        PixelsToCells (CheckPasteImage plat ext g) (CheckPasteImage plat ext g).pimagewd ∧
      (pasteImageLayout (updatePasteKeys g)).2.2.height =
        PixelsToCells (CheckPasteImage plat ext g) (CheckPasteImage plat ext g).pimageht) ∧
    (g.plocation = PasteLocation.TopLeft →
      (pasteImageLayout (updatePasteKeys g)).2.2.x = g.pastebbox.x ∧
      (pasteImageLayout (updatePasteKeys g)).2.2.y = g.pastebbox.y) ∧
    (g.plocation = PasteLocation.TopRight →
      (pasteImageLayout (updatePasteKeys g)).2.2.x +
          (pasteImageLayout (updatePasteKeys g)).2.2.width =
        g.pastebbox.x + g.pastebbox.width ∧
      (pasteImageLayout (updatePasteKeys g)).2.2.y = g.pastebbox.y) ∧
    (g.plocation = PasteLocation.BottomRight →
      (pasteImageLayout (updatePasteKeys g)).2.2.x +
          (pasteImageLayout (updatePasteKeys g)).2.2.width =
        g.pastebbox.x + g.pastebbox.width ∧
      (pasteImageLayout (updatePasteKeys g)).2.2.y +
          (pasteImageLayout (updatePasteKeys g)).2.2.height =
        g.pastebbox.y + g.pastebbox.height) ∧
    (g.plocation = PasteLocation.BottomLeft →
      (pasteImageLayout (updatePasteKeys g)).2.2.x = g.pastebbox.x ∧
      (pasteImageLayout (updatePasteKeys g)).2.2.y +
          (pasteImageLayout (updatePasteKeys g)).2.2.height =
        g.pastebbox.y + g.pastebbox.height) := by
  have hdeg : ¬ (g.pview.pasterect.width ≤ 2 ∨ g.pview.pasterect.height ≤ 2) := by omega
  have hdeg' : ¬ ((updatePasteKeys g).prectwd ≤ 2 ∨ (updatePasteKeys g).prectht ≤ 2) := hdeg
  obtain ⟨s1, s2⟩ := (CheckPasteImage_size plat ext g hdiff).2 hdeg
  obtain ⟨_, _, e3, _⟩ := CheckPasteImage_updates plat ext g hdiff
  have hmag : (CheckPasteImage plat ext g).pastemag = (updatePasteKeys g).pastemag := e3
  obtain ⟨c1, c2, c3, c4, c5⟩ := corner_layout_cellbox (updatePasteKeys g) hloc hex
  refine ⟨?_, ?_, c2, c3, c4, c5⟩
  · intro bm hbm
    unfold CheckPasteImage
    rw [if_pos hdiff]
    dsimp only
    rw [if_neg hdeg']
    have ha : (allocPasteBitmap ext (updatePasteKeys g)).pastebitmap = some bm := hbm
    rw [ha]
  · rw [PixelsToCells_congr _ _ hmag, PixelsToCells_congr _ _ hmag, s1, s2]
    exact c1

/-- C28, instance: a 300 x 40 paste rect over a 100 x 100 viewport at scale
1:4 with the TopRight anchor and bounding box (7, 9, 75, 10): the cell box is
26 x 11 cells at (56, 9), so its right edge 82 is the right edge of the
bounding box. -/
theorem CheckPasteImage_corner_cellbox_witness :
    (pasteKeysDiffer cornerPasteGlobals ∧
      cornerPasteGlobals.plocation = PasteLocation.TopRight) ∧
    (pasteImageLayout (updatePasteKeys cornerPasteGlobals)).2.2 = ⟨56, 9, 26, 11⟩ ∧
    ((pasteImageLayout (updatePasteKeys cornerPasteGlobals)).2.2.x +
        (pasteImageLayout (updatePasteKeys cornerPasteGlobals)).2.2.width =
      cornerPasteGlobals.pastebbox.x + cornerPasteGlobals.pastebbox.width ∧
     (pasteImageLayout (updatePasteKeys cornerPasteGlobals)).2.2.y =
      cornerPasteGlobals.pastebbox.y) :=
  ⟨⟨by decide, rfl⟩, by decide,
    (CheckPasteImage_corner_cellbox Platform.other sampleExt cornerPasteGlobals (by decide)
      (by decide) (by decide) (by decide) (by decide)).2.2.2.1 rfl⟩

/-! ## DrawGridLines: where the lines go -/

/-- The lines drawn by one loop of `DrawGridLines`: the loop adds to the log of
`dc` one call `line (v + k * cellsize)` for each `k >= 1` whose position is
below the limit and within the bounds and whose counter passes the test on
`i % boldspacing`; no call is added twice. -/
theorem gridLineLoop_lines (cellsize limit boldspacing : Int) (bump bold : Bool) (lo hi : Int)
    (line : Int → DrawCmd) (dc : DCId) (hcs : 1 ≤ cellsize)
    (hinj : ∀ a b, line a = line b → a = b) (fuel : Nat) :
    ∀ (v i : Int) (g g' : Globals),
      gridLineLoop cellsize limit boldspacing bump bold lo hi line dc fuel v i g = some g' →
      ∃ l : List DrawCmd, g'.dc dc = l ++ g.dc dc ∧ l.Nodup ∧
        ∀ c, c ∈ l ↔ ∃ k : Int, 1 ≤ k ∧ v + k * cellsize < limit ∧
          (if bold then decide ((if bump then i + k else i).tmod boldspacing = 0)
            else decide ((if bump then i + k else i).tmod boldspacing ≠ 0)) = true ∧
          lo ≤ v + k * cellsize ∧ v + k * cellsize < hi ∧ c = line (v + k * cellsize) := by
  induction fuel with
  | zero => intro v i g g' h; simp [gridLineLoop] at h
  | succ n ih =>
    intro v i g g' h
    unfold gridLineLoop at h
    dsimp only at h
    have hmul : ∀ k : Int, 1 ≤ k → cellsize ≤ k * cellsize := fun k hk => by nlinarith
    by_cases hb : v + cellsize ≥ limit
    · rw [if_pos hb] at h
      cases h
      refine ⟨[], rfl, List.nodup_nil, fun c => ⟨fun hc => absurd hc (List.not_mem_nil c), ?_⟩⟩
      rintro ⟨k, hk, hlt, _⟩
      have := hmul k hk
      omega
    · rw [if_neg hb] at h
      obtain ⟨l, hl, hnd, hmem⟩ := ih _ _ _ _ h
      have hj : ∀ k : Int, (if bump = true then (if bump = true then i + 1 else i) + k
          else (if bump = true then i + 1 else i)) = (if bump = true then i + (k + 1) else i) := by
        intro k
        cases bump
        · rfl
        · simp only [if_true]; ring
      have hv : ∀ k : Int, v + cellsize + k * cellsize = v + (k + 1) * cellsize := by
        intro k; ring
      have hfwd : ∀ c, c ∈ l → ∃ k : Int, 1 ≤ k ∧ v + k * cellsize < limit ∧
          (if bold then decide ((if bump then i + k else i).tmod boldspacing = 0)
            else decide ((if bump then i + k else i).tmod boldspacing ≠ 0)) = true ∧
          lo ≤ v + k * cellsize ∧ v + k * cellsize < hi ∧ c = line (v + k * cellsize) := by
        intro c hc
        obtain ⟨k, hk, h1, h2, h3, h4, h5⟩ := (hmem c).1 hc
        rw [hj k] at h2
        rw [hv k] at h1 h3 h4 h5
        exact ⟨k + 1, by omega, h1, h2, h3, h4, h5⟩
      have hbwd : ∀ c (k : Int), 2 ≤ k → v + k * cellsize < limit →
          (if bold then decide ((if bump then i + k else i).tmod boldspacing = 0)
            else decide ((if bump then i + k else i).tmod boldspacing ≠ 0)) = true →
          lo ≤ v + k * cellsize → v + k * cellsize < hi → c = line (v + k * cellsize) →
          c ∈ l := by
        intro c k hk h1 h2 h3 h4 h5
        refine (hmem c).2 ⟨k - 1, by omega, ?_, ?_, ?_, ?_, ?_⟩
        · rw [hv (k - 1)]; simpa using h1
        · rw [hj (k - 1)]; simpa using h2
        · rw [hv (k - 1)]; simpa using h3
        · rw [hv (k - 1)]; simpa using h4
        · rw [hv (k - 1)]; simpa using h5
      by_cases hc : (if bold then decide ((if bump then i + 1 else i).tmod boldspacing = 0)
          else decide ((if bump then i + 1 else i).tmod boldspacing ≠ 0)) = true ∧
          v + cellsize ≥ lo ∧ v + cellsize < hi
      · rw [if_pos hc] at hl
        refine ⟨l ++ [line (v + cellsize)], ?_, ?_, ?_⟩
        · rw [hl]
          simp [Globals.emitOn]
        · refine List.Nodup.append hnd (List.nodup_singleton _) ?_
          intro c hc1 hc2
          obtain ⟨k, hk, _, _, _, _, h5⟩ := hfwd c hc1
          rw [List.mem_singleton] at hc2
          have := hinj _ _ (h5.symm.trans hc2)
          have := hmul k hk
          have : k * cellsize = cellsize := by omega
          obtain ⟨k', hk', _, _, _, _, h5'⟩ := (hmem c).1 hc1
          have h6 := hinj _ _ (h5'.symm.trans hc2)
          have := hmul k' hk'
          omega
        · intro c
          rw [List.mem_append, List.mem_singleton]
          constructor
          · rintro (h1 | h1)
            · exact hfwd c h1
            · refine ⟨1, le_refl _, ?_, ?_, ?_, ?_, ?_⟩
              · rw [one_mul]; omega
              · exact hc.1
              · rw [one_mul]; exact hc.2.1
              · rw [one_mul]; exact hc.2.2
              · rw [one_mul]; exact h1
          · rintro ⟨k, hk, h1, h2, h3, h4, h5⟩
            by_cases hk1 : k = 1
            · right
              rw [hk1, one_mul] at h5
              exact h5
            · left
              exact hbwd c k (by omega) h1 h2 h3 h4 h5
      · rw [if_neg hc] at hl
        refine ⟨l, hl, hnd, fun c => ⟨hfwd c, ?_⟩⟩
        rintro ⟨k, hk, h1, h2, h3, h4, h5⟩
        by_cases hk1 : k = 1
        · exfalso
          rw [hk1] at h2 h3 h4
          rw [one_mul] at h3 h4
          exact hc ⟨h2, h3, h4⟩
        · exact hbwd c k (by omega) h1 h2 h3 h4 h5

/-- One loop of `DrawGridLines` over a rectangle with origin 0, run with the
iteration bound `gridFuel`. -/
theorem gridLoop_getD_lines (mag limit boldspacing : Int) (bump bold : Bool)
    (line : Int → DrawCmd) (dc : DCId) (hinj : ∀ a b, line a = line b → a = b)
    (i : Int) (g : Globals) :
    ∃ l : List DrawCmd,
      ((gridLineLoop (shl1 mag) limit boldspacing bump bold 0 limit line dc (gridFuel limit)
        (-1) i g).getD g).dc dc = l ++ g.dc dc ∧ l.Nodup ∧
      ∀ c, c ∈ l ↔ ∃ k : Int, 1 ≤ k ∧ k * 2 ^ mag.toNat - 1 < limit ∧
        (if bold then decide ((if bump then i + k else i).tmod boldspacing = 0)
          else decide ((if bump then i + k else i).tmod boldspacing ≠ 0)) = true ∧
        c = line (k * 2 ^ mag.toNat - 1) := by
  obtain ⟨g', h⟩ := gridLineLoop_terminates mag limit boldspacing bump bold 0 limit line dc i g
  rw [h]
  obtain ⟨l, h1, h2, h3⟩ := gridLineLoop_lines (shl1 mag) limit boldspacing bump bold 0 limit
    line dc (shl1_pos mag) hinj (gridFuel limit) (-1) i g g' h
  refine ⟨l, h1, h2, fun c => (h3 c).trans ?_⟩
  have hcs : (1 : Int) ≤ 2 ^ mag.toNat := shl1_pos mag
  have hmul : ∀ k : Int, 1 ≤ k → (2 : Int) ^ mag.toNat ≤ k * 2 ^ mag.toNat :=
    fun k hk => by nlinarith
  have e : ∀ k : Int, -1 + k * shl1 mag = k * 2 ^ mag.toNat - 1 := by
    intro k; unfold shl1; ring
  constructor
  · rintro ⟨k, hk, a, b, _, _, d⟩
    rw [e k] at a d
    exact ⟨k, hk, a, b, d⟩
  · rintro ⟨k, hk, a, b, d⟩
    have := hmul k hk
    refine ⟨k, hk, ?_, b, ?_, ?_, ?_⟩
    · rw [e k]; exact a
    · rw [e k]; omega
    · rw [e k]; exact a
    · rw [e k]; exact d

theorem hline_inj (w : Int) (b : Bool) (x y : Int)
    (h : DrawCmd.drawLine 0 x w x b = DrawCmd.drawLine 0 y w y b) : x = y := by
  injection h

theorem vline_inj (w : Int) (b : Bool) (x y : Int)
    (h : DrawCmd.drawLine x 0 x w b = DrawCmd.drawLine y 0 y w b) : x = y := by
  injection h

theorem one_tmod (b : Int) (hb : 2 ≤ b) : (1 : Int).tmod b = 1 :=
  Int.tmod_eq_of_lt (by omega) (by omega)

/-- C30: for a magnification `mag >= 0` (cell size `2^mag`), `boldspacing >= 2`
and a rectangle `r` with origin (0, 0), every loop of `DrawGridLines` reaches
its `break`, and the calls added to the log of `dc` are, each exactly once, a
horizontal line `(0, v) - (r.width, v)` for each row `v = k * cellsize - 1`
with `k >= 1` and `v < r.height`, and a vertical line `(h, 0) - (h, r.height)`
for each column `h = k * cellsize - 1` with `k >= 1` and `h < r.width`; the
`k`-th horizontal line is drawn with the bold pen if and only if bold lines are
shown and `boldspacing` divides `topbold + k` (`leftbold + k` for the vertical
lines), and with the plain pen otherwise. -/
theorem DrawGridLines_placement (ext : Ext) (g : Globals) (dc : DCId) (r : Rect)
    (hmag : 0 ≤ g.curview.mag) (hbs : 2 ≤ g.boldspacing) (hx : r.x = 0) (hy : r.y = 0) :
    (∀ (limit bs : Int) (bump bold : Bool) (lo hi : Int) (line : Int → DrawCmd) (i : Int)
        (s : Globals),
      (gridLineLoop (shl1 g.curview.mag) limit bs bump bold lo hi line dc (gridFuel limit)
        (-1) i s).isSome = true) ∧
    ∃ l : List DrawCmd, (DrawGridLines ext g dc r).dc dc = l ++ g.dc dc ∧ l.Nodup ∧
      ∀ c, c ∈ l ↔
        (∃ k : Int, 1 ≤ k ∧ k * 2 ^ g.curview.mag.toNat - 1 < r.height ∧
          c = DrawCmd.drawLine 0 (k * 2 ^ g.curview.mag.toNat - 1) r.width
            (k * 2 ^ g.curview.mag.toNat - 1)
            (decide (g.showboldlines = true ∧ g.boldspacing ∣ gridTopbold ext g + k))) ∨
        (∃ k : Int, 1 ≤ k ∧ k * 2 ^ g.curview.mag.toNat - 1 < r.width ∧
          c = DrawCmd.drawLine (k * 2 ^ g.curview.mag.toNat - 1) 0
            (k * 2 ^ g.curview.mag.toNat - 1) r.height
            (decide (g.showboldlines = true ∧ g.boldspacing ∣ gridLeftbold ext g + k))) := by
  refine ⟨?_, ?_⟩
  · intro limit bs bump bold lo hi line i s
    obtain ⟨g', h⟩ := gridLineLoop_terminates g.curview.mag limit bs bump bold lo hi line dc i s
    rw [h]
    rfl
  have PH : ∀ (bs : Int) (bump bold : Bool) (i : Int) (s : Globals), ∃ l : List DrawCmd,
      ((gridLineLoop (shl1 g.curview.mag) r.height bs bump bold 0 r.height
        (fun v => DrawCmd.drawLine 0 v r.width v bold) dc (gridFuel r.height)
        (-1) i s).getD s).dc dc = l ++ s.dc dc ∧ l.Nodup ∧
      ∀ c, c ∈ l ↔ ∃ k : Int, 1 ≤ k ∧ k * 2 ^ g.curview.mag.toNat - 1 < r.height ∧
        (if bold then decide ((if bump then i + k else i).tmod bs = 0)
          else decide ((if bump then i + k else i).tmod bs ≠ 0)) = true ∧
        c = DrawCmd.drawLine 0 (k * 2 ^ g.curview.mag.toNat - 1) r.width
          (k * 2 ^ g.curview.mag.toNat - 1) bold :=
    fun bs bump bold i s => gridLoop_getD_lines g.curview.mag r.height bs bump bold
      (fun v => DrawCmd.drawLine 0 v r.width v bold) dc (hline_inj r.width bold) i s
  have PV : ∀ (bs : Int) (bump bold : Bool) (i : Int) (s : Globals), ∃ l : List DrawCmd,
      ((gridLineLoop (shl1 g.curview.mag) r.width bs bump bold 0 r.width
        (fun h => DrawCmd.drawLine h 0 h r.height bold) dc (gridFuel r.width)
        (-1) i s).getD s).dc dc = l ++ s.dc dc ∧ l.Nodup ∧
      ∀ c, c ∈ l ↔ ∃ k : Int, 1 ≤ k ∧ k * 2 ^ g.curview.mag.toNat - 1 < r.width ∧
        (if bold then decide ((if bump then i + k else i).tmod bs = 0)
          else decide ((if bump then i + k else i).tmod bs ≠ 0)) = true ∧
        c = DrawCmd.drawLine (k * 2 ^ g.curview.mag.toNat - 1) 0
          (k * 2 ^ g.curview.mag.toNat - 1) r.height bold :=
    fun bs bump bold i s => gridLoop_getD_lines g.curview.mag r.width bs bump bold
      (fun h => DrawCmd.drawLine h 0 h r.height bold) dc (vline_inj r.height bold) i s
  have hcs : (1 : Int) ≤ 2 ^ g.curview.mag.toNat := shl1_pos g.curview.mag
  have hmul : ∀ k : Int, 1 ≤ k → (2 : Int) ^ g.curview.mag.toNat ≤ k * 2 ^ g.curview.mag.toNat :=
    fun k hk => by nlinarith
  obtain ⟨G1, hG1⟩ : ∃ G1 : Globals, G1 =
      (gridLineLoop (shl1 g.curview.mag) r.height g.boldspacing g.showboldlines false r.y
        (r.y + r.height) (fun v => DrawCmd.drawLine r.x v (r.x + r.width - 1 + 1) v false) dc
        (gridFuel r.height) (-1) (if g.showboldlines then gridTopbold ext g else 1) g).getD g :=
    ⟨_, rfl⟩
  obtain ⟨G2, hG2⟩ : ∃ G2 : Globals, G2 =
      (gridLineLoop (shl1 g.curview.mag) r.width G1.boldspacing G1.showboldlines false r.x
        (r.x + r.width) (fun h => DrawCmd.drawLine h r.y h (r.y + r.height - 1 + 1) false) dc
        (gridFuel r.width) (-1) (if G1.showboldlines then gridLeftbold ext g else 1) G1).getD G1 :=
    ⟨_, rfl⟩
  obtain ⟨G3, hG3⟩ : ∃ G3 : Globals, G3 =
      (gridLineLoop (shl1 g.curview.mag) r.height G2.boldspacing true true r.y
        (r.y + r.height) (fun v => DrawCmd.drawLine r.x v (r.x + r.width - 1 + 1) v true) dc
        (gridFuel r.height) (-1) (gridTopbold ext g) G2).getD G2 :=
    ⟨_, rfl⟩
  obtain ⟨G4, hG4⟩ : ∃ G4 : Globals, G4 =
      (gridLineLoop (shl1 g.curview.mag) r.width G3.boldspacing true true r.x
        (r.x + r.width) (fun h => DrawCmd.drawLine h r.y h (r.y + r.height - 1 + 1) true) dc
        (gridFuel r.width) (-1) (gridLeftbold ext g) G3).getD G3 :=
    ⟨_, rfl⟩
  have hT : DrawGridLines ext g dc r = if G2.showboldlines then G4 else G2 := by
    subst hG4; subst hG3; subst hG2; subst hG1; rfl
  have f1 : DrawFrame g G1 := by rw [hG1]; exact gridLineLoop_getD_frame _ _ _ _ _ _ _ _ _ _ _ _ _
  have f2 : DrawFrame G1 G2 := by rw [hG2]; exact gridLineLoop_getD_frame _ _ _ _ _ _ _ _ _ _ _ _ _
  have f3 : DrawFrame G2 G3 := by rw [hG3]; exact gridLineLoop_getD_frame _ _ _ _ _ _ _ _ _ _ _ _ _
  have sb1 : G1.showboldlines = g.showboldlines := (congrArg Globals.showboldlines f1).trans rfl
  have bs1 : G1.boldspacing = g.boldspacing := (congrArg Globals.boldspacing f1).trans rfl
  have sb2 : G2.showboldlines = g.showboldlines :=
    ((congrArg Globals.showboldlines f2).trans rfl).trans sb1
  have bs2 : G2.boldspacing = g.boldspacing :=
    ((congrArg Globals.boldspacing f2).trans rfl).trans bs1
  have bs3 : G3.boldspacing = g.boldspacing :=
    ((congrArg Globals.boldspacing f3).trans rfl).trans bs2
  rw [sb1, bs1] at hG2
  rw [bs2] at hG3
  rw [bs3] at hG4
  rw [hx, hy] at hG1 hG2 hG3 hG4
  simp only [zero_add, Int.sub_add_cancel] at hG1 hG2 hG3 hG4
  obtain ⟨l1, d1, n1, m1⟩ := PH g.boldspacing g.showboldlines false
    (if g.showboldlines then gridTopbold ext g else 1) g
  rw [← hG1] at d1
  obtain ⟨l2, d2, n2, m2⟩ := PV g.boldspacing g.showboldlines false
    (if g.showboldlines then gridLeftbold ext g else 1) G1
  rw [← hG2] at d2
  obtain ⟨l3, d3, n3, m3⟩ := PH g.boldspacing true true (gridTopbold ext g) G2
  rw [← hG3] at d3
  obtain ⟨l4, d4, n4, m4⟩ := PV g.boldspacing true true (gridLeftbold ext g) G3
  rw [← hG4] at d4
  rw [hT, sb2]
  clear hT hG1 hG2 hG3 hG4 PH PV f1 f2 f3 sb1 bs1 sb2 bs2 bs3
  have hdvdT : ∀ k : Int, (gridTopbold ext g + k).tmod g.boldspacing = 0 ↔
      g.boldspacing ∣ gridTopbold ext g + k := fun k => Int.dvd_iff_tmod_eq_zero.symm
  have hdvdL : ∀ k : Int, (gridLeftbold ext g + k).tmod g.boldspacing = 0 ↔
      g.boldspacing ∣ gridLeftbold ext g + k := fun k => Int.dvd_iff_tmod_eq_zero.symm
  have hone := one_tmod g.boldspacing hbs
  generalize gridTopbold ext g = tb at *
  generalize gridLeftbold ext g = lb at *
  cases hsb : g.showboldlines
  · rw [hsb] at m1 m2
    simp only [Bool.false_eq_true, if_false, hone, ne_eq, one_ne_zero, not_false_eq_true,
      decide_True, true_and, false_and, decide_False] at m1 m2 ⊢
    refine ⟨l2 ++ l1, ?_, ?_, ?_⟩
    · rw [d2, d1, List.append_assoc]
    · refine List.Nodup.append n2 n1 ?_
      intro c c2 c1
      obtain ⟨k, hk, hlt, e⟩ := (m2 c).1 c2
      obtain ⟨k', hk', hlt', e'⟩ := (m1 c).1 c1
      rw [e] at e'
      injection e' with a b c d
      omega
    · intro c
      rw [List.mem_append, m1 c, m2 c]
      exact or_comm
  · rw [hsb] at m1 m2
    simp only [if_true, Bool.false_eq_true, if_false, decide_eq_true_eq, ne_eq, true_and,
      hdvdT, hdvdL] at m1 m2 m3 m4 ⊢
    refine ⟨l4 ++ (l3 ++ (l2 ++ l1)), ?_, ?_, ?_⟩
    · rw [d4, d3, d2, d1]
      simp only [List.append_assoc]
    · refine List.Nodup.append n4 (List.Nodup.append n3 (List.Nodup.append n2 n1 ?_) ?_) ?_
      · intro c c2 c1
        obtain ⟨k, hk, hlt, _, e⟩ := (m2 c).1 c2
        obtain ⟨k', hk', hlt', _, e'⟩ := (m1 c).1 c1
        rw [e] at e'
        injection e' with a b c d
        omega
      · intro c c3 c12
        obtain ⟨k, hk, hlt, _, e⟩ := (m3 c).1 c3
        rcases List.mem_append.1 c12 with c2 | c1
        · obtain ⟨k', hk', hlt', _, e'⟩ := (m2 c).1 c2
          rw [e] at e'
          injection e' with _ _ _ _ x
          cases x
        · obtain ⟨k', hk', hlt', _, e'⟩ := (m1 c).1 c1
          rw [e] at e'
          injection e' with _ _ _ _ x
          cases x
      · intro c c4 c123
        obtain ⟨k, hk, hlt, _, e⟩ := (m4 c).1 c4
        rcases List.mem_append.1 c123 with c3 | c12
        · obtain ⟨k', hk', hlt', _, e'⟩ := (m3 c).1 c3
          rw [e] at e'
          injection e' with a b c d
          omega
        · rcases List.mem_append.1 c12 with c2 | c1
          · obtain ⟨k', hk', hlt', _, e'⟩ := (m2 c).1 c2
            rw [e] at e'
            injection e' with _ _ _ _ x
            cases x
          · obtain ⟨k', hk', hlt', _, e'⟩ := (m1 c).1 c1
            rw [e] at e'
            injection e' with _ _ _ _ x
            cases x
    · intro c
      simp only [List.mem_append, m1 c, m2 c, m3 c, m4 c]
      constructor
      · rintro (⟨k, hk, hlt, hd, e⟩ | ⟨k, hk, hlt, hd, e⟩ | ⟨k, hk, hlt, hd, e⟩ |
          ⟨k, hk, hlt, hd, e⟩)
        · exact Or.inr ⟨k, hk, hlt, by rw [e, decide_eq_true hd]⟩
        · exact Or.inl ⟨k, hk, hlt, by rw [e, decide_eq_true hd]⟩
        · exact Or.inr ⟨k, hk, hlt, by rw [e, decide_eq_false hd]⟩
        · exact Or.inl ⟨k, hk, hlt, by rw [e, decide_eq_false hd]⟩
      · rintro (⟨k, hk, hlt, e⟩ | ⟨k, hk, hlt, e⟩)
        · by_cases hd : g.boldspacing ∣ tb + k
          · exact Or.inr (Or.inl ⟨k, hk, hlt, hd, by rw [e, decide_eq_true hd]⟩)
          · exact Or.inr (Or.inr (Or.inr ⟨k, hk, hlt, hd, by rw [e, decide_eq_false hd]⟩))
        · by_cases hd : g.boldspacing ∣ lb + k
          · exact Or.inl ⟨k, hk, hlt, hd, by rw [e, decide_eq_true hd]⟩
          · exact Or.inr (Or.inr (Or.inl ⟨k, hk, hlt, hd, by rw [e, decide_eq_false hd]⟩))

/-- C30, instance: at scale 1:4 with every second line bold and the viewport
positioned on cell (0, 0), a 10 x 6 rectangle gets a plain horizontal line at
row 3, a plain vertical line at column 3 and a bold vertical line at column 7
(the log is newest first). -/
theorem DrawGridLines_placement_witness :
    ((0 : Int) ≤ boldGridGlobals.curview.mag ∧ (2 : Int) ≤ boldGridGlobals.boldspacing) ∧
    (DrawGridLines sampleExt boldGridGlobals DCId.viewdc ⟨0, 0, 10, 6⟩).dc DCId.viewdc =
      [DrawCmd.drawLine 7 0 7 6 true, DrawCmd.drawLine 3 0 3 6 false,
        DrawCmd.drawLine 0 3 10 3 false] ∧
    (∀ (limit bs : Int) (bump bold : Bool) (lo hi : Int) (line : Int → DrawCmd) (i : Int)
        (s : Globals),
      (gridLineLoop (shl1 boldGridGlobals.curview.mag) limit bs bump bold lo hi line DCId.viewdc
        (gridFuel limit) (-1) i s).isSome = true) :=
  ⟨⟨by decide, by decide⟩, by rfl,
    (DrawGridLines_placement sampleExt boldGridGlobals DCId.viewdc ⟨0, 0, 10, 6⟩ (by decide)
      (by decide) rfl rfl).1⟩

/-! ## DrawView: colour tables and restored state -/

theorem ColorsKept.colors_refl (dead : Color) (a : Layer) : ColorsKept dead a a :=
  Or.inl ⟨rfl, rfl, rfl⟩

theorem ColorsKept.colors_trans {dead : Color} {a b c : Layer} (h1 : ColorsKept dead a b)
    (h2 : ColorsKept dead b c) : ColorsKept dead a c := by
  rcases h1 with ⟨r1, g1, b1⟩ | ⟨r1, g1, b1⟩ <;> rcases h2 with ⟨r2, g2, b2⟩ | ⟨r2, g2, b2⟩
  · exact Or.inl ⟨r2.trans r1, g2.trans g1, b2.trans b1⟩
  · exact Or.inr ⟨by rw [r2, r1], by rw [g2, g1], by rw [b2, b1]⟩
  · exact Or.inr ⟨r2.trans r1, g2.trans g1, b2.trans b1⟩
  · refine Or.inr ⟨?_, ?_, ?_⟩
    · rw [r2, r1]; funext s; by_cases hs : s = 0 <;> simp [hs]
    · rw [g2, g1]; funext s; by_cases hs : s = 0 <;> simp [hs]
    · rw [b2, b1]; funext s; by_cases hs : s = 0 <;> simp [hs]

/-- What `ColorsKept` says about the entries. -/
theorem ColorsKept.entries {dead : Color} {a b : Layer} (h : ColorsKept dead a b) :
    (∀ s, s ≠ 0 → b.cellr s = a.cellr s ∧ b.cellg s = a.cellg s ∧ b.cellb s = a.cellb s) ∧
    ((b.cellr 0 = a.cellr 0 ∧ b.cellg 0 = a.cellg 0 ∧ b.cellb 0 = a.cellb 0) ∨
      (b.cellr 0 = dead.red ∧ b.cellg 0 = dead.green ∧ b.cellb 0 = dead.blue)) := by
  rcases h with ⟨r1, g1, b1⟩ | ⟨r1, g1, b1⟩
  · exact ⟨fun s _ => ⟨by rw [r1], by rw [g1], by rw [b1]⟩, Or.inl ⟨by rw [r1], by rw [g1], by rw [b1]⟩⟩
  · refine ⟨fun s hs => ⟨?_, ?_, ?_⟩, Or.inr ⟨?_, ?_, ?_⟩⟩
    · rw [r1]; exact if_neg hs
    · rw [g1]; exact if_neg hs
    · rw [b1]; exact if_neg hs
    · rw [r1]; rfl
    · rw [g1]; rfl
    · rw [b1]; rfl

theorem Kept.kept_refl (g : Globals) : Kept g g :=
  ⟨rfl, rfl, rfl, rfl, rfl, rfl, fun _ => ⟨rfl, ColorsKept.colors_refl _ _⟩⟩

theorem Kept.kept_trans {a b c : Globals} (h1 : Kept a b) (h2 : Kept b c) : Kept a c := by
  obtain ⟨a1, a2, a3, a4, a5, a6, a7⟩ := h1
  obtain ⟨b1, b2, b3, b4, b5, b6, b7⟩ := h2
  refine ⟨b1.trans a1, b2.trans a2, b3.trans a3, b4.trans a4, b5.trans a5, b6.trans a6,
    fun j => ⟨(b7 j).1.trans (a7 j).1, ?_⟩⟩
  have := (b7 j).2
  rw [a3] at this
  exact (a7 j).2.colors_trans this

/-- A state with the same layers, current layer, grid-line flag, dead-cell
colour and layer-mode settings. -/
theorem Kept.of_fields {g g' : Globals} (h1 : g'.currlayer = g.currlayer)
    (h2 : g'.showgridlines = g.showgridlines) (h3 : g'.deadrgb = g.deadrgb)
    (h4 : g'.numlayers = g.numlayers) (h5 : g'.stacklayers = g.stacklayers)
    (h6 : g'.tilelayers = g.tilelayers) (h7 : g'.layers = g.layers) : Kept g g' :=
  ⟨h1, h2, h3, h4, h5, h6, fun _ => by rw [h7]; exact ⟨rfl, ColorsKept.colors_refl _ _⟩⟩

theorem Kept.kept_of_draw {g g' : Globals} (h : DrawFrame g g') : Kept g g' := by
  unfold DrawFrame at h
  exact Kept.of_fields ((congrArg Globals.currlayer h).trans rfl)
    ((congrArg Globals.showgridlines h).trans rfl) ((congrArg Globals.deadrgb h).trans rfl)
    ((congrArg Globals.numlayers h).trans rfl) ((congrArg Globals.stacklayers h).trans rfl)
    ((congrArg Globals.tilelayers h).trans rfl) ((congrArg Globals.layers h).trans rfl)

theorem Kept.kept_of_render {g g' : Globals} (h : RenderFrame g g') : Kept g g' :=
  Kept.kept_of_draw (DrawFrame.of_render h)

theorem Kept.kept_ite {g a b : Globals} (c : Prop) [Decidable c] (ha : Kept g a)
    (hb : Kept g b) : Kept g (if c then a else b) := by
  split_ifs <;> assumption

theorem Kept.kept_log (g : Globals) (s : Step) : Kept g (g.log s) :=
  Kept.of_fields rfl rfl rfl rfl rfl rfl rfl

theorem Kept.kept_setDeadCell (g : Globals) : Kept g g.setDeadCell := by
  refine ⟨rfl, rfl, rfl, rfl, rfl, rfl, fun j => ?_⟩
  unfold Globals.setDeadCell
  dsimp only
  by_cases hj : j = g.currlayer
  · rw [if_pos hj]
    exact ⟨rfl, Or.inr ⟨rfl, rfl, rfl⟩⟩
  · rw [if_neg hj]
    exact ⟨rfl, ColorsKept.colors_refl _ _⟩

theorem DrawViewPattern_kept (plat : Platform) (ext : Ext) (g : Globals) (dc : DCId) :
    Kept g (DrawViewPattern plat ext g dc) := by
  unfold DrawViewPattern
  dsimp only
  refine Kept.kept_trans ?_ (Kept.kept_of_render (runDraw_frame _ _ _ _))
  refine Kept.kept_trans ?_ (Kept.kept_log _ _)
  refine Kept.kept_trans (Kept.kept_setDeadCell g) ?_
  refine Kept.kept_trans (b := DrawViewIcons g.setDeadCell) ?_
    (Kept.of_fields rfl rfl rfl rfl rfl rfl rfl)
  unfold DrawViewIcons
  split_ifs <;> exact Kept.of_fields rfl rfl rfl rfl rfl rfl rfl

theorem DrawViewOverlays_kept (plat : Platform) (ext : Ext) (g : Globals) (dc : DCId)
    (colorindex : Int) : Kept g (DrawViewOverlays plat ext g dc colorindex) := by
  unfold DrawViewOverlays
  dsimp only
  have h1 : Kept g (if g.pview.gridvisible = true then
      DrawGridLines ext (g.log Step.gridLines) dc ⟨0, 0, g.curview.width, g.curview.height⟩
      else g) :=
    Kept.kept_ite _ ((Kept.kept_log g _).kept_trans (Kept.kept_of_draw (DrawGridLines_frame _ _ _ _)))
      (Kept.kept_refl g)
  generalize (if g.pview.gridvisible = true then
      DrawGridLines ext (g.log Step.gridLines) dc ⟨0, 0, g.curview.width, g.curview.height⟩
      else g) = g1 at h1 ⊢
  refine h1.kept_trans ?_
  split
  · refine Kept.kept_ite _ ?_ ?_
    · refine Kept.kept_trans ?_ (Kept.kept_of_draw (DrawSelection_frame _ _ _ _))
      exact (Kept.kept_log g1 _).kept_trans (Kept.kept_of_draw (CheckSelectionSize_frame _ _ _ _ _))
    · refine Kept.kept_trans ?_ (Kept.kept_of_draw (DrawInactiveSelection_frame _ _ _ _))
      exact (Kept.kept_log g1 _).kept_trans (Kept.kept_of_draw (CheckSelectionSize_frame _ _ _ _ _))
  · exact Kept.kept_refl g1

theorem stackLoop_kept (plat : Platform) (ext : Ext) (g : Globals) (dc : DCId) :
    Kept g (stackLoop plat ext g dc) := by
  obtain ⟨-, p2, p3, p4⟩ := stackLoop_spec plat ext g dc
  have hf := stackLoop_frame plat ext g dc
  unfold StackFrame at hf
  refine ⟨p2, p3, (congrArg Globals.deadrgb hf).trans rfl, (congrArg Globals.numlayers hf).trans rfl,
    (congrArg Globals.stacklayers hf).trans rfl, (congrArg Globals.tilelayers hf).trans rfl,
    fun j => ?_⟩
  rw [p4]
  dsimp only
  split_ifs
  · exact ⟨rfl, Or.inr ⟨rfl, rfl, rfl⟩⟩
  · exact ⟨rfl, ColorsKept.colors_refl _ _⟩

theorem DrawStackedLayers_kept (plat : Platform) (ext : Ext) (g : Globals) (dc : DCId) :
    Kept g (DrawStackedLayers plat ext g dc) := by
  unfold DrawStackedLayers
  dsimp only
  have h0 : Kept g
      { g with layerwd := g.curview.width, layerht := g.curview.height,
               layerbitmap := ext.newBitmap g.curview.width g.curview.height } :=
    Kept.of_fields rfl rfl rfl rfl rfl rfl rfl
  apply Kept.kept_ite
  · apply Kept.kept_ite
    · exact h0.kept_trans (Kept.of_fields rfl rfl rfl rfl rfl rfl rfl)
    · exact h0.kept_trans (stackLoop_kept plat ext _ dc)
  · exact stackLoop_kept plat ext g dc

theorem drawPastePattern_kept (plat : Platform) (ext : Ext) (g : Globals) (cellbox : Rect) :
    Kept g (drawPastePattern plat ext g cellbox) := by
  refine (Kept.kept_setDeadCell g).kept_trans ?_
  unfold drawPastePattern
  dsimp only
  generalize hcalls : ext.algoDraw _ _ _ _ _ = calls
  have hf := runDraw_frame plat ext calls
    { g.setDeadCell with
      showgridlines := false
      dc := fun d => if d = DCId.pattdc then [] else g.setDeadCell.dc d
      currdc := DCId.pattdc
      currwd := (pasteTempview g cellbox).width
      currht := (pasteTempview g cellbox).height }
  generalize runDraw plat ext _ calls = g2 at hf ⊢
  unfold RenderFrame at hf
  exact Kept.of_fields ((congrArg Globals.currlayer hf).trans rfl) rfl
    ((congrArg Globals.deadrgb hf).trans rfl) ((congrArg Globals.numlayers hf).trans rfl)
    ((congrArg Globals.stacklayers hf).trans rfl) ((congrArg Globals.tilelayers hf).trans rfl)
    ((congrArg Globals.layers hf).trans rfl)

theorem CheckPasteImage_kept (plat : Platform) (ext : Ext) (g : Globals) :
    Kept g (CheckPasteImage plat ext g) := by
  unfold CheckPasteImage
  by_cases h : pasteKeysDiffer g
  · rw [if_pos h]
    dsimp only
    split_ifs
    · exact Kept.of_fields rfl rfl rfl rfl rfl rfl rfl
    · exact Kept.of_fields rfl rfl rfl rfl rfl rfl rfl
    · have h0 : Kept g (allocPasteBitmap ext (updatePasteKeys g)) :=
        Kept.of_fields rfl rfl rfl rfl rfl rfl rfl
      split
      · unfold renderPasteBitmap
        dsimp only
        refine Kept.kept_trans ?_ (Kept.of_fields rfl rfl rfl rfl rfl rfl rfl)
        exact h0.kept_trans (drawPastePattern_kept plat ext _ _)
      · exact h0
  · rw [if_neg h]; exact Kept.kept_refl g

theorem DrawViewPasteStep_kept (plat : Platform) (ext : Ext) (g : Globals) (dc : DCId) :
    Kept g (DrawViewPasteStep plat ext g dc) := by
  unfold DrawViewPasteStep
  split_ifs
  · exact Kept.kept_refl g
  · exact ((Kept.kept_log g _).kept_trans (CheckPasteImage_kept _ _ _)).kept_trans
      (Kept.kept_of_draw (DrawPasteImage_frame _ _ _ _))
  · exact Kept.kept_refl g

/-- Restoring `currlayer` (and `viewptr`) after a part of `DrawView` that ran
with another current layer. -/
theorem Kept.restore {g b : Globals} {c : Nat} (h : Kept { g with currlayer := c } b)
    (v : Nat) : Kept g { b with currlayer := g.currlayer, viewptr := v } :=
  ⟨rfl, h.2.1, h.2.2.1, h.2.2.2.1, h.2.2.2.2.1, h.2.2.2.2.2.1, h.2.2.2.2.2.2⟩

theorem Kept.restore_cur {g b : Globals} {c : Nat} (h : Kept { g with currlayer := c } b) :
    Kept g { b with currlayer := g.currlayer } :=
  ⟨rfl, h.2.1, h.2.2.1, h.2.2.2.1, h.2.2.2.2.1, h.2.2.2.2.2.1, h.2.2.2.2.2.2⟩

/-- Restoring `currlayer` and the view pointer of layer 0 after the part of
`DrawView` that drew layer 0 through the current layer's viewport. -/
theorem Kept.unswap {g b : Globals} {v : Nat}
    (h : Kept (({ g with currlayer := 0 } : Globals).setView 0 v) b) :
    Kept g (({ b with currlayer := g.currlayer } : Globals).setView 0 (g.layers 0).view) := by
  obtain ⟨-, h2, h3, h4, h5, h6, h7⟩ := h
  refine ⟨rfl, h2, h3, h4, h5, h6, fun j => ?_⟩
  have hj := h7 j
  unfold Globals.setView at hj ⊢
  dsimp only at hj ⊢
  by_cases h0 : j = 0
  · rw [if_pos h0] at hj ⊢
    exact ⟨by rw [h0], hj.2⟩
  · rw [if_neg h0] at hj ⊢
    exact hj

theorem DrawViewMode_tiled (g : Globals) (tileindex : Int)
    (h : g.numlayers > 1 ∧ g.tilelayers = true) :
    Kept { g with currlayer := tileindex.toNat } (DrawViewMode g tileindex).1 ∧
    (DrawViewMode g tileindex).2.savelayer = some g.currlayer ∧
    (DrawViewMode g tileindex).2.saveview0 = none := by
  unfold DrawViewMode
  rw [if_pos h]
  dsimp only
  refine ⟨?_, ?_, rfl⟩
  · split_ifs <;> exact Kept.of_fields rfl rfl rfl rfl rfl rfl rfl
  · split_ifs <;> rfl

theorem DrawViewMode_stacked (g : Globals) (tileindex : Int)
    (h1 : ¬ (g.numlayers > 1 ∧ g.tilelayers = true))
    (h2 : g.numlayers > 1 ∧ g.stacklayers = true) :
    (DrawViewMode g tileindex).2.savelayer = some g.currlayer ∧
    (g.currindex ≠ 0 →
      (DrawViewMode g tileindex).1 =
        ({ g with currlayer := 0 } : Globals).setView 0 (g.layers g.currlayer).view ∧
      (DrawViewMode g tileindex).2.saveview0 = some (g.layers 0).view) ∧
    (g.currindex = 0 →
      (DrawViewMode g tileindex).1 = g ∧ (DrawViewMode g tileindex).2.saveview0 = none) := by
  unfold DrawViewMode
  rw [if_neg h1, if_pos h2]
  dsimp only
  by_cases h0 : g.currindex ≠ 0
  · rw [if_pos h0]
    exact ⟨rfl, fun _ => ⟨rfl, rfl⟩, fun h => absurd h h0⟩
  · rw [if_neg h0]
    exact ⟨rfl, fun h => absurd h h0, fun _ => ⟨rfl, rfl⟩⟩

theorem DrawViewMode_single (g : Globals) (tileindex : Int)
    (h1 : ¬ (g.numlayers > 1 ∧ g.tilelayers = true))
    (h2 : ¬ (g.numlayers > 1 ∧ g.stacklayers = true)) :
    DrawViewMode g tileindex = (g, ⟨none, none, g.currindex⟩) := by
  unfold DrawViewMode
  rw [if_neg h1, if_neg h2]

/-- The part of `DrawView` between the mode selection and the stacked layers. -/
theorem DrawViewFirst_kept (plat : Platform) (ext : Ext) (s : Globals) (dc : DCId)
    (colorindex : Int) :
    Kept s (DrawViewOverlays plat ext (DrawViewPattern plat ext s dc) dc colorindex) :=
  (DrawViewPattern_kept plat ext s dc).kept_trans (DrawViewOverlays_kept plat ext _ dc _)

/-- After `DrawView` the current-layer pointer, the grid-line flag, the
dead-cell colour, the layer-mode settings and every layer's view pointer are
as before, and the colour arrays of every layer are kept up to entry 0. -/
theorem DrawView_kept (plat : Platform) (ext : Ext) (g : Globals) (dc : DCId)
    (tileindex : Int) : Kept g (DrawView plat ext g dc tileindex) := by
  unfold DrawView
  by_cases hnp : g.pview.nopattupdate = true
  · rw [if_pos hnp]
    dsimp only
    have h0 : Kept g ((g.log Step.fillBackground).emitOn dc
        (DrawCmd.fillRect ⟨0, 0, g.curview.width, g.curview.height⟩ g.deadbrush)) :=
      (Kept.kept_log g _).kept_trans (Kept.kept_of_draw (DrawFrame.draw_emitOn _ _ _))
    refine h0.kept_trans (Kept.kept_ite _ ?_ (Kept.kept_refl _))
    exact (Kept.kept_log _ _).kept_trans (Kept.kept_of_draw (DrawGridLines_frame _ _ _ _))
  rw [if_neg hnp]
  by_cases hb : g.numlayers > 1 ∧ g.tilelayers = true ∧ tileindex < 0
  · rw [if_pos hb]
    exact (Kept.kept_log g _).kept_trans (Kept.kept_of_draw (DrawTileBorders_frame _ _))
  rw [if_neg hb]
  dsimp only
  have K1 := DrawViewFirst_kept plat ext (DrawViewMode g tileindex).1 dc
    (DrawViewMode g tileindex).2.colorindex
  generalize DrawViewOverlays plat ext (DrawViewPattern plat ext (DrawViewMode g tileindex).1 dc)
    dc (DrawViewMode g tileindex).2.colorindex = mid at K1 ⊢
  by_cases hT : g.numlayers > 1 ∧ g.tilelayers = true
  · obtain ⟨K0, e1, e2⟩ := DrawViewMode_tiled g tileindex hT
    have K01 := K0.kept_trans K1
    have hTm : mid.numlayers > 1 ∧ mid.tilelayers = true := by
      rw [K01.2.2.2.1, K01.2.2.2.2.2.1]; exact hT
    have K2 : ∃ c, Kept { g with currlayer := c }
        (DrawViewStacked plat ext mid dc (DrawViewMode g tileindex).2) := by
      unfold DrawViewStacked
      rw [e1, e2]
      dsimp only
      split_ifs
      · refine ⟨g.currlayer, ?_⟩
        refine Kept.kept_trans ?_ (DrawStackedLayers_kept plat ext _ dc)
        refine Kept.kept_trans ?_ (Kept.kept_log _ _)
        exact K01.restore_cur
      · exact ⟨_, K01⟩
    obtain ⟨c, K2⟩ := K2
    generalize DrawViewStacked plat ext mid dc (DrawViewMode g tileindex).2 = st at K2 ⊢
    have K3 := K2.kept_trans (DrawViewPasteStep_kept plat ext st dc)
    generalize DrawViewPasteStep plat ext st dc = ps at K3 ⊢
    unfold DrawViewRestore
    have hTp : ps.numlayers > 1 ∧ ps.tilelayers = true := by
      rw [K3.2.2.2.1, K3.2.2.2.2.2.1]; exact hT
    rw [if_pos hTp, e1]
    exact K3.restore _
  · have hnT : ∀ s : Globals, Kept g s → ∀ loc, DrawViewRestore s loc = s := by
      intro s hs loc
      unfold DrawViewRestore
      rw [if_neg (by rw [hs.2.2.2.1, hs.2.2.2.2.2.1]; exact hT)]
    by_cases hS : g.numlayers > 1 ∧ g.stacklayers = true
    · obtain ⟨e1, e2, e3⟩ := DrawViewMode_stacked g tileindex hT hS
      have K2 : Kept g (DrawViewStacked plat ext mid dc (DrawViewMode g tileindex).2) := by
        by_cases h0 : g.currindex ≠ 0
        · obtain ⟨m1, m2⟩ := e2 h0
          rw [m1] at K1
          have hSm : mid.numlayers > 1 ∧ mid.stacklayers = true := by
            rw [K1.2.2.2.1, K1.2.2.2.2.1]; exact hS
          unfold DrawViewStacked
          rw [if_pos hSm, e1, m2]
          dsimp only
          refine Kept.kept_trans ?_ (DrawStackedLayers_kept plat ext _ dc)
          refine Kept.kept_trans ?_ (Kept.kept_log _ _)
          exact K1.unswap
        · obtain ⟨m1, m2⟩ := e3 (by simpa using h0)
          rw [m1] at K1
          have hSm : mid.numlayers > 1 ∧ mid.stacklayers = true := by
            rw [K1.2.2.2.1, K1.2.2.2.2.1]; exact hS
          unfold DrawViewStacked
          rw [if_pos hSm, e1, m2]
          dsimp only
          refine Kept.kept_trans ?_ (DrawStackedLayers_kept plat ext _ dc)
          refine Kept.kept_trans ?_ (Kept.kept_log _ _)
          exact Kept.restore_cur (c := g.currlayer) K1
      generalize DrawViewStacked plat ext mid dc (DrawViewMode g tileindex).2 = st at K2 ⊢
      have K3 := K2.kept_trans (DrawViewPasteStep_kept plat ext st dc)
      rw [hnT _ K3]
      exact K3
    · rw [DrawViewMode_single g tileindex hT hS] at K1 ⊢
      dsimp only at K1 ⊢
      have hSm : ¬ (mid.numlayers > 1 ∧ mid.stacklayers = true) := by
        rw [K1.2.2.2.1, K1.2.2.2.2.1]; exact hS
      have e : DrawViewStacked plat ext mid dc ⟨none, none, g.currindex⟩ = mid := by
        unfold DrawViewStacked
        rw [if_neg hSm]
      rw [e]
      have K3 := K1.kept_trans (DrawViewPasteStep_kept plat ext mid dc)
      rw [hnT _ K3]
      exact K3

/-- What a callback leaves unchanged: the layers (with their colour arrays),
the viewports and the viewport size `currwd` x `currht`. -/
theorem RenderFrame.tables {g g' : Globals} (h : RenderFrame g g') :
    g'.layers = g.layers ∧ g'.views = g.views ∧ g'.currwd = g.currwd ∧
    g'.currht = g.currht := by
  unfold RenderFrame at h
  exact ⟨(congrArg Globals.layers h).trans rfl, (congrArg Globals.views h).trans rfl,
    (congrArg Globals.currwd h).trans rfl, (congrArg Globals.currht h).trans rfl⟩

set_option maxRecDepth 100000 in
/-- C21, counterexample: with the dead-cell colour (48, 48, 48) and a single
layer whose colour arrays hold 0 for state 0, `DrawView` leaves 48 in entry 0
of the layer's red, green and blue arrays. -/
theorem DrawView_writes_dead_colour :
    ((grayDeadGlobals.layers 0).cellr 0 = 0 ∧ (grayDeadGlobals.layers 0).cellg 0 = 0 ∧
      (grayDeadGlobals.layers 0).cellb 0 = 0) ∧
    ((DrawView Platform.other sampleExt grayDeadGlobals DCId.viewdc 0).layers 0).cellr 0 = 48 ∧
    ((DrawView Platform.other sampleExt grayDeadGlobals DCId.viewdc 0).layers 0).cellg 0 = 48 ∧
    ((DrawView Platform.other sampleExt grayDeadGlobals DCId.viewdc 0).layers 0).cellb 0 = 48 := by
  decide

/-- C21 as the code has it: after `DrawView`, and after `DrawStackedLayers` or
`CheckPasteImage` on their own, the red, green and blue arrays of every layer
are either unchanged or equal to the old arrays with entry 0 (the colour of
state 0) replaced by the dead-cell colour `deadrgb`; so every entry of a state
other than 0 is unchanged.  The callbacks `killrect` and `pixblit` leave the
layers (hence every colour array), the viewports and the viewport size
`currwd` x `currht` unchanged, and `getcolors` only returns the arrays of the
current layer. -/
theorem DrawView_colour_tables (plat : Platform) (ext : Ext) (g : Globals) (dc : DCId)
    (tileindex : Int) :
    (∀ j, ColorsKept g.deadrgb (g.layers j) ((DrawView plat ext g dc tileindex).layers j)) ∧
    (∀ j, ColorsKept g.deadrgb (g.layers j) ((DrawStackedLayers plat ext g dc).layers j)) ∧
    (∀ j, ColorsKept g.deadrgb (g.layers j) ((CheckPasteImage plat ext g).layers j)) ∧
    (∀ j s, s ≠ 0 →
      ((DrawView plat ext g dc tileindex).layers j).cellr s = (g.layers j).cellr s ∧
      ((DrawView plat ext g dc tileindex).layers j).cellg s = (g.layers j).cellg s ∧
      ((DrawView plat ext g dc tileindex).layers j).cellb s = (g.layers j).cellb s) ∧
    (∀ x y w h : Int, (killrect g x y w h).layers = g.layers ∧
      (killrect g x y w h).views = g.views ∧ (killrect g x y w h).currwd = g.currwd ∧
      (killrect g x y w h).currht = g.currht) ∧
    (∀ (x y w h : Int) (pmdata : Nat → Nat) (pmscale : Int),
      (pixblit plat ext g x y w h pmdata pmscale).layers = g.layers ∧
      (pixblit plat ext g x y w h pmdata pmscale).views = g.views ∧
      (pixblit plat ext g x y w h pmdata pmscale).currwd = g.currwd ∧
      (pixblit plat ext g x y w h pmdata pmscale).currht = g.currht) ∧
    getcolors g = ((g.layers g.currlayer).cellr, (g.layers g.currlayer).cellg,
      (g.layers g.currlayer).cellb) :=
  ⟨fun j => ((DrawView_kept plat ext g dc tileindex).2.2.2.2.2.2 j).2,
    fun j => ((DrawStackedLayers_kept plat ext g dc).2.2.2.2.2.2 j).2,
    fun j => ((CheckPasteImage_kept plat ext g).2.2.2.2.2.2 j).2,
    fun j s hs => (((DrawView_kept plat ext g dc tileindex).2.2.2.2.2.2 j).2.entries).1 s hs,
    fun x y w h => (killrect_frame g x y w h).tables,
    fun x y w h pmdata pmscale => (pixblit_frame plat ext g x y w h pmdata pmscale).tables,
    rfl⟩

set_option maxRecDepth 100000 in
/-- C21, instance: with the dead-cell colour (48, 48, 48), `DrawView` leaves
entry 1 of the red array of layer 0 at 255 and sets entry 0 to 48. -/
theorem DrawView_colour_tables_witness :
    (1 ≠ 0 ∧ (grayDeadGlobals.layers 0).cellr 1 = 255) ∧
    ((DrawView Platform.other sampleExt grayDeadGlobals DCId.viewdc 0).layers 0).cellr 1 =
      (grayDeadGlobals.layers 0).cellr 1 ∧
    ColorsKept grayDeadGlobals.deadrgb (grayDeadGlobals.layers 0)
      ((DrawView Platform.other sampleExt grayDeadGlobals DCId.viewdc 0).layers 0) :=
  ⟨⟨by decide, by decide⟩,
    ((DrawView_colour_tables Platform.other sampleExt grayDeadGlobals DCId.viewdc 0).2.2.2.1
      0 1 (by decide)).1,
    (DrawView_colour_tables Platform.other sampleExt grayDeadGlobals DCId.viewdc 0).1 0⟩

/-- C26: after `DrawView` returns, whatever the mode (single, stacked or tiled
layers, with or without a pending paste) and whatever the layers, the
current-layer pointer, the `showgridlines` flag and the view pointer of every
layer are the same as before the call; the same holds for
`DrawStackedLayers` on its own. -/
theorem DrawView_restores_state (plat : Platform) (ext : Ext) (g : Globals) (dc : DCId)
    (tileindex : Int) :
    ((DrawView plat ext g dc tileindex).currlayer = g.currlayer ∧
      (DrawView plat ext g dc tileindex).showgridlines = g.showgridlines ∧
      ∀ j, ((DrawView plat ext g dc tileindex).layers j).view = (g.layers j).view) ∧
    ((DrawStackedLayers plat ext g dc).currlayer = g.currlayer ∧
      (DrawStackedLayers plat ext g dc).showgridlines = g.showgridlines ∧
      ∀ j, ((DrawStackedLayers plat ext g dc).layers j).view = (g.layers j).view) :=
  ⟨⟨(DrawView_kept plat ext g dc tileindex).1, (DrawView_kept plat ext g dc tileindex).2.1,
      fun j => ((DrawView_kept plat ext g dc tileindex).2.2.2.2.2.2 j).1⟩,
    ⟨(DrawStackedLayers_kept plat ext g dc).1, (DrawStackedLayers_kept plat ext g dc).2.1,
      fun j => ((DrawStackedLayers_kept plat ext g dc).2.2.2.2.2.2 j).1⟩⟩

end Golly
